import Mathlib

/-!
# CN105 heat-pump driver (`lib/HeatPump/src/HeatPump.cpp`)

A shallow embedding of the driver's packet codec, lookup tables and polling state machine.

Conventions of the embedding
* a `byte` is a `Nat` below 256; byte arithmetic is written with an explicit `% 256`;
  `int` arithmetic is done in `Int`; `x & 0xff` on an `int` is `x % 256` (two's complement);
* `unsigned long` clock values are `Nat`s below `2 ^ 32`, differences wrap modulo `2 ^ 32`;
* a C array is a `List`; every access goes through `rd` / `wr`, which report an access outside
  the array as `Fault.bounds` instead of reading or writing foreign memory;
* a `const char *` is `Option CStr`: `none` is the null pointer, a pointer into a lookup table is
  identified with the string it points to;
* a `float` temperature is a rational number;
* the constants and tables of `HeatPump.h` are not part of the embedded source file, they are
  the fields of `Consts`, and every function takes them as its first argument;
* the serial port, the clock and the registered callbacks form the `World`; loops that wait for
  the world take a `fuel` bound and report `Fault.fuel` when it is exhausted.
-/

namespace CN105

/-! ## Faults, arrays, machine arithmetic -/

/-- Ways in which a run of the embedded code can leave the defined behaviour of the model. -/
inductive Fault where
  | fuel
  | bounds
  | null
  deriving DecidableEq, Repr

/-- Result of a run: a value or a fault. -/
abbrev Res (α : Type) := Except Fault α

instance {ε α : Type} [DecidableEq ε] [DecidableEq α] : DecidableEq (Except ε α)
  | .ok a, .ok b => if h : a = b then isTrue (by rw [h]) else isFalse (by intro e; cases e; exact h rfl)
  | .error a, .error b =>
    if h : a = b then isTrue (by rw [h]) else isFalse (by intro e; cases e; exact h rfl)
  | .ok _, .error _ => isFalse (by intro e; cases e)
  | .error _, .ok _ => isFalse (by intro e; cases e)

/-- Array read `xs[i]` with a natural index. -/
def rd {α : Type} (xs : List α) (i : Nat) : Res α :=
  match xs[i]? with
  | some x => .ok x
  | none => .error .bounds

/-- Array read `xs[i]` with an `int` index. -/
def rdI {α : Type} (xs : List α) (i : Int) : Res α :=
  if 0 ≤ i then rd xs i.toNat else .error .bounds

/-- Array write `xs[i] = v`. -/
def wr {α : Type} (xs : List α) (i : Nat) (v : α) : Res (List α) :=
  if i < xs.length then .ok (xs.set i v) else .error .bounds

/-- Difference of two `unsigned long` values. -/
def usub (a b : Nat) : Nat := (a + 2 ^ 32 - b % 2 ^ 32) % 2 ^ 32

/-- A C string: its characters, without the terminating NUL. -/
abbrev CStr := List Char

/-- The function `tolower` of the C locale. -/
def tolower (ch : Char) : Nat :=
  if 65 ≤ ch.toNat ∧ ch.toNat ≤ 90 then ch.toNat + 32 else ch.toNat

/-- The function `strcasecmp`: the sign of the first difference after lowering. -/
def strcasecmp : CStr → CStr → Int
  | [], [] => 0
  | [], _ :: _ => -1
  | _ :: _, [] => 1
  | a :: as, b :: bs =>
    if tolower a = tolower b then strcasecmp as bs
    else if tolower a < tolower b then -1 else 1

/-! ## Checksum -/

/-- The loop `for (i = 0; i < len; i++) sum += bytes[i]` of `checkSum`, with a `byte`
accumulator: the value of `sum` after `len` iterations. -/
def checkSumLoop (bytes : List Nat) : Nat → Res Nat
  | 0 => pure 0
  | n + 1 => do
    let sum ← checkSumLoop bytes n
    let b ← rd bytes n
    pure ((sum + b) % 256)

/-- The function `HeatPump::checkSum`. -/
def checkSum (bytes : List Nat) (len : Nat) : Res Nat := do
  let sum ← checkSumLoop bytes len
  pure (((0xfc : Int) - (sum : Int)) % 256).toNat

/-- The loops `for (i = 0; i < n; i++) dataSum += xs[i]` of `readPacket`, with an `int`
accumulator that starts at `acc`. -/
def dataSumLoop (xs : List Nat) (acc : Int) : Nat → Res Int
  | 0 => pure acc
  | n + 1 => do
    let sum ← dataSumLoop xs acc n
    let b ← rd xs n
    pure (sum + (b : Int))

/-- The checksum that `readPacket` computes from the header and the data it captured:
`checksum = (0xfc - dataSum) & 0xff`. -/
def recvCheckSum (header data : List Nat) (headerLen dataLength : Nat) : Res Nat := do
  let s1 ← dataSumLoop header 0 headerLen
  let s2 ← dataSumLoop data s1 dataLength
  pure (((0xfc : Int) - s2) % 256).toNat

/-! ## Data model -/

/-- The struct `heatpumpSettings`. -/
structure heatpumpSettings where
  power : Option CStr
  mode : Option CStr
  temperature : ℚ
  fan : Option CStr
  vane : Option CStr
  wideVane : Option CStr
  iSee : Bool
  deriving DecidableEq

/-- The struct `heatpumpTimers`. -/
structure heatpumpTimers where
  mode : Option CStr
  onMinutesSet : Int
  onMinutesRemaining : Int
  offMinutesSet : Int
  offMinutesRemaining : Int
  deriving DecidableEq

/-- The struct `heatpumpStatus`. -/
structure heatpumpStatus where
  roomTemperature : ℚ
  operating : Bool
  timers : heatpumpTimers
  compressorFrequency : Int
  power : Int
  deriving DecidableEq

/-- The class `heatpumpFunctions`: 30 raw bytes and one validity flag per half. -/
structure heatpumpFunctions where
  raw : List Nat
  _isValid1 : Bool
  _isValid2 : Bool
  deriving DecidableEq

/-- The operator `operator==(const heatpumpSettings &, const heatpumpSettings &)`. -/
def heatpumpSettings.eq (lhs rhs : heatpumpSettings) : Bool :=
  lhs.power == rhs.power &&
  lhs.mode == rhs.mode &&
  lhs.temperature == rhs.temperature &&
  lhs.fan == rhs.fan &&
  lhs.vane == rhs.vane &&
  lhs.wideVane == rhs.wideVane &&
  lhs.iSee == rhs.iSee

/-- The operator `operator!=(const heatpumpSettings &, const heatpumpSettings &)`. -/
def heatpumpSettings.ne (lhs rhs : heatpumpSettings) : Bool :=
  lhs.power != rhs.power ||
  lhs.mode != rhs.mode ||
  lhs.temperature != rhs.temperature ||
  lhs.fan != rhs.fan ||
  lhs.vane != rhs.vane ||
  lhs.wideVane != rhs.wideVane ||
  lhs.iSee != rhs.iSee

/-- The operator `operator!=(const heatpumpTimers &, const heatpumpTimers &)`. -/
def heatpumpTimers.ne (lhs rhs : heatpumpTimers) : Bool :=
  lhs.mode != rhs.mode ||
  lhs.onMinutesSet != rhs.onMinutesSet ||
  lhs.onMinutesRemaining != rhs.onMinutesRemaining ||
  lhs.offMinutesSet != rhs.offMinutesSet ||
  lhs.offMinutesRemaining != rhs.offMinutesRemaining

/-- The settings of a value-initialised `heatpumpSettings`: null pointers, zero, false. -/
def heatpumpSettings.empty : heatpumpSettings :=
  { power := none, mode := none, temperature := 0, fan := none, vane := none,
    wideVane := none, iSee := false }

/-- The constants and lookup tables that `HeatPump.cpp` takes from `HeatPump.h`. The header is
not part of the embedded source, so its values are parameters. Lengths written as literals in
the `.cpp` file (`2`, `5`, `16`, `6`, `7`, `32`, `4`, `21`) stay literals in the embedding. -/
structure Consts where
  PACKET_LEN : Nat
  PACKET_SENT_INTERVAL_MS : Nat
  PACKET_INFO_INTERVAL_MS : Nat
  PACKET_RESPONSE_WAIT_TIME : Nat
  PACKET_TYPE_DEFAULT : Nat
  CONNECT_LEN : Nat
  CONNECT : List Nat
  HEADER_LEN : Nat
  HEADER : List Nat
  INFOHEADER_LEN : Nat
  INFOHEADER : List Nat
  INFOMODE_LEN : Nat
  INFOMODE : List Nat
  RQST_PKT_SETTINGS : Nat
  RCVD_PKT_FAIL : Int
  RCVD_PKT_CONNECT_SUCCESS : Int
  RCVD_PKT_SETTINGS : Int
  RCVD_PKT_ROOM_TEMP : Int
  RCVD_PKT_UPDATE_SUCCESS : Int
  RCVD_PKT_STATUS : Int
  RCVD_PKT_TIMER : Int
  RCVD_PKT_FUNCTIONS : Int
  CONTROL_PACKET_1 : List Nat
  CONTROL_PACKET_2 : List Nat
  POWER : List Nat
  POWER_MAP : List CStr
  MODE : List Nat
  MODE_MAP : List CStr
  TEMP : List Nat
  TEMP_MAP : List Int
  FAN : List Nat
  FAN_MAP : List CStr
  VANE : List Nat
  VANE_MAP : List CStr
  WIDEVANE : List Nat
  WIDEVANE_MAP : List CStr
  ROOM_TEMP : List Nat
  ROOM_TEMP_MAP : List Int
  TIMER_MODE : List Nat
  TIMER_MODE_MAP : List CStr
  TIMER_INCREMENT_MINUTES : Int
  FUNCTIONS_SET_PART1 : Nat
  FUNCTIONS_GET_PART1 : Nat
  FUNCTIONS_SET_PART2 : Nat
  FUNCTIONS_GET_PART2 : Nat
  MAX_FUNCTION_CODE_COUNT : Nat

/-- The data members of the class `HeatPump`. A callback member is represented by the flag
"a callback is registered" (the pointer is not null). -/
structure HeatPump where
  currentSettings : heatpumpSettings
  wantedSettings : heatpumpSettings
  currentStatus : heatpumpStatus
  functions : heatpumpFunctions
  lastSend : Nat
  lastSendUpdate : Nat
  lastRecv : Nat
  infoMode : Int
  packet_sent_delay_interval_ms : Nat
  powerSettingUpdate : Bool
  autoUpdate : Bool
  firstRun : Bool
  tempMode : Bool
  externalUpdate : Bool
  wideVaneAdj : Bool
  connected : Bool
  updating : Bool
  onConnectCallback : Bool
  settingsChangedCallback : Bool
  statusChangedCallback : Bool
  packetCallback : Bool
  roomTempChangedCallback : Bool

/-- What the driver does to its collaborators besides writing frames, in the order it happens.
A callback entry carries the arguments of the call; `settingsChanged`, which has none, carries
the value `currentSettings` has at the moment of the call. -/
inductive Event where
  | serialBegin (bitrate : Int) (pins : Option (Int × Int))
  | setTimeout (ms : Nat)
  | flush
  | delay (ms : Nat)
  | onConnect
  | settingsChanged (current : heatpumpSettings)
  | statusChanged (status : heatpumpStatus)
  | roomTempChanged (roomTemperature : ℚ)
  | packet (bytes : List Nat) (length : Nat) (tag : String)

/-- The collaborators of the driver: the clock (`clock n` is what the `n`-th call of `millis()`
returns, `ticks` counts the calls made so far), the bytes queued on the serial port (`rx`), the
frames written to it, one entry per `writePacket` (`tx`), and the log of other calls. -/
structure World where
  clock : Nat → Nat
  ticks : Nat
  rx : List Nat
  tx : List (List Nat)
  log : List Event

/-- The value the next `millis()` returns. -/
def World.now (w : World) : Nat := w.clock w.ticks % 2 ^ 32

/-- The world after one call of `millis()`. -/
def World.tick (w : World) : World := { w with ticks := w.ticks + 1 }

/-- The world after a call that is only logged. -/
def World.emit (w : World) (e : Event) : World := { w with log := w.log ++ [e] }

/-! ## Lookup tables -/

/-- The loop shared by the four lookup functions: the first index `i`, among `n` indices
starting at `i`, at which `test` holds. -/
def firstMatch (test : Nat → Res Bool) : Nat → Nat → Res (Option Nat)
  | 0, _ => pure none
  | n + 1, i => do
    if (← test i) then pure (some i) else firstMatch test n (i + 1)

/-- The function `HeatPump::lookupByteMapIndex(const int valuesMap[], int len, int lookupValue)`. -/
def lookupByteMapIndexInt (valuesMap : List Int) (len : Nat) (lookupValue : Int) : Res Int := do
  match ← firstMatch (fun i => do pure ((← rd valuesMap i) == lookupValue)) len 0 with
  | some i => pure (i : Int)
  | none => pure (-1)

/-- The function `HeatPump::lookupByteMapIndex(const char *valuesMap[], int len, const char *lookupValue)`.
Handing a null pointer to `strcasecmp` is a fault. -/
def lookupByteMapIndexStr (valuesMap : List CStr) (len : Nat) (lookupValue : Option CStr) :
    Res Int := do
  match ← firstMatch (fun i => do
      let v ← rd valuesMap i
      match lookupValue with
      | none => .error .null
      | some s => pure (strcasecmp v s == 0)) len 0 with
  | some i => pure (i : Int)
  | none => pure (-1)

/-- The function `HeatPump::lookupByteMapValue`, both overloads (`α` is `int` or `const char *`). -/
def lookupByteMapValue {α : Type} (valuesMap : List α) (byteMap : List Nat) (len : Nat)
    (byteValue : Nat) : Res α := do
  match ← firstMatch (fun i => do pure ((← rd byteMap i) == byteValue)) len 0 with
  | some i => rd valuesMap i
  | none => rd valuesMap 0

/-! ## Setters -/

/-- The function `HeatPump::setPowerSetting(const char *setting)`. -/
def setPowerSetting (c : Consts) (setting : CStr) (hp : HeatPump) : Res HeatPump := do
  let index ← lookupByteMapIndexStr c.POWER_MAP 2 (some setting)
  let index := if index < 0 then 0 else index
  let v ← rdI c.POWER_MAP index
  pure { hp with wantedSettings := { hp.wantedSettings with power := some v } }

/-- The function `HeatPump::setModeSetting`. -/
def setModeSetting (c : Consts) (setting : CStr) (hp : HeatPump) : Res HeatPump := do
  let index ← lookupByteMapIndexStr c.MODE_MAP 5 (some setting)
  if index > -1 then
    let v ← rdI c.MODE_MAP index
    pure { hp with wantedSettings := { hp.wantedSettings with mode := some v } }
  else
    let v ← rd c.MODE_MAP 0
    pure { hp with wantedSettings := { hp.wantedSettings with mode := some v } }

/-- The function `HeatPump::setFanSpeed`. -/
def setFanSpeed (c : Consts) (setting : CStr) (hp : HeatPump) : Res HeatPump := do
  let index ← lookupByteMapIndexStr c.FAN_MAP 6 (some setting)
  if index > -1 then
    let v ← rdI c.FAN_MAP index
    pure { hp with wantedSettings := { hp.wantedSettings with fan := some v } }
  else
    let v ← rd c.FAN_MAP 0
    pure { hp with wantedSettings := { hp.wantedSettings with fan := some v } }

/-- The function `HeatPump::setVaneSetting`. -/
def setVaneSetting (c : Consts) (setting : CStr) (hp : HeatPump) : Res HeatPump := do
  let index ← lookupByteMapIndexStr c.VANE_MAP 7 (some setting)
  if index > -1 then
    let v ← rdI c.VANE_MAP index
    pure { hp with wantedSettings := { hp.wantedSettings with vane := some v } }
  else
    let v ← rd c.VANE_MAP 0
    pure { hp with wantedSettings := { hp.wantedSettings with vane := some v } }

/-- The function `HeatPump::setWideVaneSetting`. -/
def setWideVaneSetting (c : Consts) (setting : CStr) (hp : HeatPump) : Res HeatPump := do
  let index ← lookupByteMapIndexStr c.WIDEVANE_MAP 7 (some setting)
  if index > -1 then
    let v ← rdI c.WIDEVANE_MAP index
    pure { hp with wantedSettings := { hp.wantedSettings with wideVane := some v } }
  else
    let v ← rd c.WIDEVANE_MAP 0
    pure { hp with wantedSettings := { hp.wantedSettings with wideVane := some v } }

/-- The conversion `(int) x` of a `float`: truncation towards zero. -/
def truncToInt (x : ℚ) : Int := Int.tdiv x.num x.den

/-- The function `round` of `math.h`: to the nearest integer, halves away from zero. -/
def roundHalfAway (x : ℚ) : ℚ :=
  if 0 ≤ x then (truncToInt (x + 1 / 2) : ℚ) else (truncToInt (x - 1 / 2) : ℚ)

/-- The function `HeatPump::setTemperature`. -/
def setTemperature (c : Consts) (setting : ℚ) (hp : HeatPump) : Res HeatPump := do
  if !hp.tempMode then
    let index ← lookupByteMapIndexInt c.TEMP_MAP 16 (truncToInt (setting + 1 / 2))
    let t ← if index > -1 then pure setting else do pure (((← rd c.TEMP_MAP 0) : Int) : ℚ)
    pure { hp with wantedSettings := { hp.wantedSettings with temperature := t } }
  else
    let setting := setting * 2
    let setting := roundHalfAway setting
    let setting := setting / 2
    let t := if setting < 10 then 10 else (if setting > 31 then 31 else setting)
    pure { hp with wantedSettings := { hp.wantedSettings with temperature := t } }

/-! ## Pacing -/

/-- The function `HeatPump::canSend`. Every `millis()` advances the clock index; the `&&` reads the clock a
second time only when its left operand holds. -/
def canSend (c : Consts) (isInfo : Bool) (hp : HeatPump) (w : World) : Bool × World :=
  if isInfo then
    if hp.powerSettingUpdate then
      if usub w.now hp.lastSendUpdate < c.PACKET_SENT_INTERVAL_MS + 10000 then
        (false, w.tick)
      else
        (decide (usub w.tick.now hp.lastSend > c.PACKET_INFO_INTERVAL_MS), w.tick.tick)
    else
      (decide (usub w.now hp.lastSend > c.PACKET_INFO_INTERVAL_MS), w.tick)
  else
    if usub w.now hp.lastSendUpdate > hp.packet_sent_delay_interval_ms then
      (decide (usub w.tick.now hp.lastSend > c.PACKET_INFO_INTERVAL_MS), w.tick.tick)
    else
      (false, w.tick)

/-- The function `HeatPump::canRead`. -/
def canRead (c : Consts) (hp : HeatPump) (w : World) : Bool × World :=
  (decide (usub w.now c.PACKET_RESPONSE_WAIT_TIME > hp.lastSend), w.tick)

/-- The function `HeatPump::sendPending`. -/
def sendPending (hp : HeatPump) : Bool :=
  hp.wantedSettings.ne hp.currentSettings

/-! ## Outbound frames -/

/-- The loop `for (i = 0; i < n; i++) dst[i] = src[i]`: the array `dst` after `n` iterations. -/
def copyLoop (src dst : List Nat) : Nat → Res (List Nat)
  | 0 => pure dst
  | n + 1 => do
    let d ← copyLoop src dst n
    let v ← rd src n
    wr d n v

/-- The call `memset(packet, 0, length)`. -/
def memsetZero (packet : List Nat) (length : Nat) : Res (List Nat) :=
  if length ≤ packet.length then pure (List.replicate length 0 ++ packet.drop length)
  else .error .bounds

/-- The function `HeatPump::prepareSetPacket`. -/
def prepareSetPacket (c : Consts) (packet : List Nat) (length : Nat) : Res (List Nat) := do
  let packet ← memsetZero packet length
  copyLoop c.HEADER packet (min c.HEADER_LEN length)

/-- The function `HeatPump::prepareInfoPacket`. -/
def prepareInfoPacket (c : Consts) (packet : List Nat) (length : Nat) : Res (List Nat) := do
  let packet ← memsetZero packet length
  copyLoop c.INFOHEADER packet (min c.INFOHEADER_LEN length)

/-- The statement `packet[i] += v` on a `byte` array. -/
def addAt (packet : List Nat) (i v : Nat) : Res (List Nat) := do
  let old ← rd packet i
  wr packet i ((old + v) % 256)

/-- In `createPacket`, the statement `if (settings.power != currentSettings.power)`. -/
def createPacket_power (c : Consts) (hp : HeatPump) (settings : heatpumpSettings)
    (packet : List Nat) : Res (List Nat) := do
  if settings.power != hp.currentSettings.power then
    let b ← rdI c.POWER (← lookupByteMapIndexStr c.POWER_MAP 2 settings.power)
    let packet ← wr packet 8 b
    addAt packet 6 (← rd c.CONTROL_PACKET_1 0)
  else pure packet

/-- In `createPacket`, the statement `if (settings.mode != currentSettings.mode)`. -/
def createPacket_mode (c : Consts) (hp : HeatPump) (settings : heatpumpSettings)
    (packet : List Nat) : Res (List Nat) := do
  if settings.mode != hp.currentSettings.mode then
    let b ← rdI c.MODE (← lookupByteMapIndexStr c.MODE_MAP 5 settings.mode)
    let packet ← wr packet 9 b
    addAt packet 6 (← rd c.CONTROL_PACKET_1 1)
  else pure packet

/-- In `createPacket`, the statement `if (!tempMode && ...) ... else if (tempMode && ...)`. A
`float` handed to an `int` parameter or stored into a `byte` is truncated. -/
def createPacket_temperature (c : Consts) (hp : HeatPump) (settings : heatpumpSettings)
    (packet : List Nat) : Res (List Nat) := do
  if !hp.tempMode && settings.temperature != hp.currentSettings.temperature then
    let b ← rdI c.TEMP (← lookupByteMapIndexInt c.TEMP_MAP 16 (truncToInt settings.temperature))
    let packet ← wr packet 10 b
    addAt packet 6 (← rd c.CONTROL_PACKET_1 2)
  else if hp.tempMode && settings.temperature != hp.currentSettings.temperature then
    let temp : ℚ := settings.temperature * 2 + 128
    let packet ← wr packet 19 ((truncToInt temp) % 256).toNat
    addAt packet 6 (← rd c.CONTROL_PACKET_1 2)
  else pure packet

/-- In `createPacket`, the statement `if (settings.fan != currentSettings.fan)`. -/
def createPacket_fan (c : Consts) (hp : HeatPump) (settings : heatpumpSettings)
    (packet : List Nat) : Res (List Nat) := do
  if settings.fan != hp.currentSettings.fan then
    let b ← rdI c.FAN (← lookupByteMapIndexStr c.FAN_MAP 6 settings.fan)
    let packet ← wr packet 11 b
    addAt packet 6 (← rd c.CONTROL_PACKET_1 3)
  else pure packet

/-- In `createPacket`, the statement `if (settings.vane != currentSettings.vane)`. -/
def createPacket_vane (c : Consts) (hp : HeatPump) (settings : heatpumpSettings)
    (packet : List Nat) : Res (List Nat) := do
  if settings.vane != hp.currentSettings.vane then
    let b ← rdI c.VANE (← lookupByteMapIndexStr c.VANE_MAP 7 settings.vane)
    let packet ← wr packet 12 b
    addAt packet 6 (← rd c.CONTROL_PACKET_1 4)
  else pure packet

/-- In `createPacket`, the statement `if (settings.wideVane != currentSettings.wideVane)`. -/
def createPacket_wideVane (c : Consts) (hp : HeatPump) (settings : heatpumpSettings)
    (packet : List Nat) : Res (List Nat) := do
  if settings.wideVane != hp.currentSettings.wideVane then
    let b ← rdI c.WIDEVANE (← lookupByteMapIndexStr c.WIDEVANE_MAP 7 settings.wideVane)
    let packet ← wr packet 18 (b ||| (if hp.wideVaneAdj then 0x80 else 0x00))
    addAt packet 7 (← rd c.CONTROL_PACKET_2 0)
  else pure packet

/-- The function `HeatPump::createPacket`: the array `packet` after the call; its six `if` statements are the
six functions above, in the order of the source. -/
def createPacket (c : Consts) (hp : HeatPump) (packet : List Nat) (settings : heatpumpSettings) :
    Res (List Nat) := do
  let packet ← prepareSetPacket c packet c.PACKET_LEN
  let packet ← createPacket_power c hp settings packet
  let packet ← createPacket_mode c hp settings packet
  let packet ← createPacket_temperature c hp settings packet
  let packet ← createPacket_fan c hp settings packet
  let packet ← createPacket_vane c hp settings packet
  let packet ← createPacket_wideVane c hp settings packet
  let chkSum ← checkSum packet 21
  wr packet 21 chkSum

/-- The loop `for (i = 0; i < n; i++) packet[i + 6] = 0x00` of `createInfoPacket`: the array
after `n` iterations. -/
def padLoop (packet : List Nat) : Nat → Res (List Nat)
  | 0 => pure packet
  | n + 1 => do
    let p ← padLoop packet n
    wr p (n + 6) 0

/-- The function `HeatPump::createInfoPacket`: the array `packet` and the driver after the call. -/
def createInfoPacket (c : Consts) (hp : HeatPump) (packet : List Nat) (packetType : Nat) :
    Res (List Nat × HeatPump) := do
  let packet ← copyLoop c.INFOHEADER packet c.INFOHEADER_LEN
  let (packet, hp) ← if packetType != c.PACKET_TYPE_DEFAULT then do
      let packet ← wr packet 5 (← rd c.INFOMODE packetType)
      pure (packet, hp)
    else do
      let packet ← wr packet 5 (← rdI c.INFOMODE hp.infoMode)
      if hp.infoMode == (c.INFOMODE_LEN : Int) - 1 then
        pure (packet, { hp with infoMode := 0 })
      else
        pure (packet, { hp with infoMode := hp.infoMode + 1 })
  let packet ← padLoop packet 15
  let chkSum ← checkSum packet 21
  pure (← wr packet 21 chkSum, hp)

/-- The loop `for (i = 0; i < length; i++) _HardSerial->write(packet[i])` of `writePacket`: the
bytes written by `n` iterations. -/
def writeLoop (packet : List Nat) : Nat → Res (List Nat)
  | 0 => pure []
  | n + 1 => do
    let out ← writeLoop packet n
    let b ← rd packet n
    pure (out ++ [b])

/-- The function `HeatPump::writePacket`. -/
def writePacket (hp : HeatPump) (w : World) (packet : List Nat) (length : Nat) :
    Res (HeatPump × World) := do
  let out ← writeLoop packet length
  let w := { w with tx := w.tx ++ [out] }
  let w := if hp.packetCallback then w.emit (.packet packet length "packetSent") else w
  pure ({ hp with lastSend := w.now }, w.tick)

/-- The function `HeatPump::update`. -/
def update (c : Consts) (hp : HeatPump) (w : World) : Res (Bool × HeatPump × World) := do
  let (ok, w) := canSend c false hp w
  if !ok then
    pure (false, hp, w)
  else
    let powerSettingUpdate := hp.wantedSettings.power != hp.currentSettings.power
    let hp := { hp with powerSettingUpdate := powerSettingUpdate }
    let hp := if powerSettingUpdate then
        { hp with packet_sent_delay_interval_ms := c.PACKET_SENT_INTERVAL_MS + 10000 }
      else
        { hp with packet_sent_delay_interval_ms := c.PACKET_SENT_INTERVAL_MS }
    let packet := List.replicate c.PACKET_LEN 0
    let packet ← createPacket c hp packet hp.wantedSettings
    let (hp, w) ← writePacket hp w packet c.PACKET_LEN
    let hp := { hp with currentSettings := hp.wantedSettings, updating := true,
                        lastSendUpdate := w.now }
    pure (true, hp, w.tick)

/-! ## Function settings -/

/-- The function `heatpumpFunctions::setData1`: `memcpy(raw, data, 15)`. -/
def heatpumpFunctions.setData1 (f : heatpumpFunctions) (data : List Nat) :
    Res heatpumpFunctions :=
  if 15 ≤ data.length ∧ 15 ≤ f.raw.length then
    pure { f with raw := data.take 15 ++ f.raw.drop 15, _isValid1 := true }
  else .error .bounds

/-- The function `heatpumpFunctions::setData2`: `memcpy(raw + 15, data, 15)`. -/
def heatpumpFunctions.setData2 (f : heatpumpFunctions) (data : List Nat) :
    Res heatpumpFunctions :=
  if 15 ≤ data.length ∧ 30 ≤ f.raw.length then
    pure { f with raw := f.raw.take 15 ++ data.take 15 ++ f.raw.drop 30, _isValid2 := true }
  else .error .bounds

/-- The function `heatpumpFunctions::clear`: `memset(raw, 0, sizeof(raw))` and both flags false. -/
def heatpumpFunctions.clear (f : heatpumpFunctions) : heatpumpFunctions :=
  { raw := List.replicate f.raw.length 0, _isValid1 := false, _isValid2 := false }

/-- The constructor `heatpumpFunctions::heatpumpFunctions()`, which calls `clear()`, for an array
`raw` of `size` bytes (the size is declared in `HeatPump.h`). -/
def heatpumpFunctions.new (size : Nat) : heatpumpFunctions :=
  heatpumpFunctions.clear { raw := List.replicate size 0, _isValid1 := false, _isValid2 := false }

/-- The function `heatpumpFunctions::getCode(byte b)`. -/
def heatpumpFunctions.getCode (b : Nat) : Int :=
  (((b >>> 2) &&& 0xff : Nat) : Int) + 100

/-- The function `heatpumpFunctions::getValue(byte b)`. -/
def heatpumpFunctions.getValue (b : Nat) : Int :=
  ((b &&& 3 : Nat) : Int)

/-- The loop `for (int i = 0; i < MAX_FUNCTION_CODE_COUNT; ++i) if (getCode(raw[i]) == code)` of
`getValue(int code)` and `setValue`: the first index below `n` at which it stops, starting at
`i`. -/
def heatpumpFunctions.findCode (raw : List Nat) (code : Int) : Nat → Nat → Res (Option Nat) :=
  firstMatch (fun i => do pure (decide (heatpumpFunctions.getCode (← rd raw i) = code)))

/-- The function `heatpumpFunctions::getValue(int code)`. -/
def heatpumpFunctions.getValueOf (c : Consts) (f : heatpumpFunctions) (code : Int) : Res Int := do
  if code > 128 ∨ code < 101 then
    pure 0
  else
    match ← heatpumpFunctions.findCode f.raw code c.MAX_FUNCTION_CODE_COUNT 0 with
    | some i => pure (heatpumpFunctions.getValue (← rd f.raw i))
    | none => pure 0

/-- The function `heatpumpFunctions::setValue`: the result and the object after the call. The
value `((code - 100) << 2) + value` is stored into a `byte`. -/
def heatpumpFunctions.setValue (c : Consts) (f : heatpumpFunctions) (code value : Int) :
    Res (Bool × heatpumpFunctions) := do
  if code > 128 ∨ code < 101 then
    pure (false, f)
  else if value < 1 ∨ value > 3 then
    pure (false, f)
  else
    match ← heatpumpFunctions.findCode f.raw code c.MAX_FUNCTION_CODE_COUNT 0 with
    | some i =>
      let raw ← wr f.raw i ((((code - 100) * 4 + value) % 256).toNat)
      pure (true, { f with raw := raw })
    | none => pure (false, f)

/-! ## Inbound frames -/

/-- The local variables of `readPacket` that its receive loop updates. -/
structure RecvBuf where
  header : List Nat
  data : List Nat
  dataLength : Nat
  len : Nat
  receiveSuccess : Bool

/-- The call `_HardSerial->flush()`. It waits for the bytes written so far to leave and does
not touch the receive queue. -/
def World.flush (w : World) : World := w.emit .flush

/-- The `while (millis() - startTime < PACKET_RESPONSE_WAIT_TIME)` loop of `readPacket`. Every
iteration reads the clock once; `available() > 0` holds when `rx` is not empty and `read()` takes
its first byte. `len` is a `uint8_t`. The first component of the result says that the loop was
left by `return RCVD_PKT_FAIL` (header mismatch). -/
def recvLoop (c : Consts) (startTime : Nat) : Nat → RecvBuf → World → Res (Bool × RecvBuf × World)
  | 0, _, _ => .error .fuel
  | fuel + 1, r, w =>
    if usub w.now startTime < c.PACKET_RESPONSE_WAIT_TIME then
      match w.tick.rx with
      | [] => recvLoop c startTime fuel r w.tick
      | ch :: rest => do
        let w1 : World := { w.tick with rx := rest }
        let mismatch ← if r.len < 4 ∧ r.len ≠ 1 then do
            pure (ch != (← rd c.HEADER r.len))
          else pure false
        if mismatch then
          pure (true, r, w1.flush)
        else
          let dataLength := if r.len = 4 then ch else r.dataLength
          let r1 ← if r.len ≤ 4 then do
              pure { r with header := ← wr r.header r.len ch, dataLength := dataLength }
            else do
              pure { r with data := ← wr r.data (r.len - 5) ch, dataLength := dataLength }
          if r1.len = dataLength + 5 then
            pure (false, { r1 with receiveSuccess := true, len := (r1.len + 1) % 256 }, w1)
          else
            recvLoop c startTime fuel { r1 with len := (r1.len + 1) % 256 } w1
    else
      pure (false, r, w.tick)

/-- The loop `for (i = 0; i < n; i++) packet[i + 5] = data[i]` of `readPacket`: the array after
`n` iterations. -/
def copyDataLoop (data packet : List Nat) : Nat → Res (List Nat)
  | 0 => pure packet
  | n + 1 => do
    let p ← copyDataLoop data packet n
    let v ← rd data n
    wr p (n + 5) v

/-- In `readPacket`, `case 0x02`: setting information. -/
def readPacket_settings (c : Consts) (hp : HeatPump) (w : World) (data : List Nat) :
    Res (Int × HeatPump × World) := do
  let power ← lookupByteMapValue c.POWER_MAP c.POWER 2 (← rd data 3)
  let d4 ← rd data 4
  let iSee := decide (d4 > 0x08)
  let mode ← lookupByteMapValue c.MODE_MAP c.MODE 5 (if iSee then d4 - 0x08 else d4)
  let (temperature, hp) ← if (← rd data 11) != 0x00 then do
      let temp : Int := ((← rd data 11) : Int)
      let temp := temp - 128
      pure ((temp : ℚ) / 2, { hp with tempMode := true })
    else do
      let t ← lookupByteMapValue c.TEMP_MAP c.TEMP 16 (← rd data 5)
      pure ((t : ℚ), hp)
  let fan ← lookupByteMapValue c.FAN_MAP c.FAN 6 (← rd data 6)
  let vane ← lookupByteMapValue c.VANE_MAP c.VANE 7 (← rd data 7)
  let wideVane ← lookupByteMapValue c.WIDEVANE_MAP c.WIDEVANE 7 ((← rd data 10) &&& 0x0F)
  let hp := { hp with wideVaneAdj := ((← rd data 10) &&& 0xF0) == 0x80 }
  let receivedSettings : heatpumpSettings :=
    { power := some power, mode := some mode, temperature := temperature, fan := some fan,
      vane := some vane, wideVane := some wideVane, iSee := iSee }
  let (hp, w) := if hp.settingsChangedCallback && receivedSettings.ne hp.currentSettings then
      ({ hp with currentSettings := receivedSettings }, w.emit (.settingsChanged receivedSettings))
    else
      ({ hp with currentSettings := receivedSettings }, w)
  let hp := { hp with wantedSettings := hp.currentSettings }
  pure (c.RCVD_PKT_SETTINGS, hp, w)

/-- In `readPacket`, `case 0x03`: room temperature reading. -/
def readPacket_roomTemp (c : Consts) (hp : HeatPump) (w : World) (data : List Nat) :
    Res (Int × HeatPump × World) := do
  let roomTemperature : ℚ ← if (← rd data 6) != 0x00 then do
      let temp : Int := ((← rd data 6) : Int)
      let temp := temp - 128
      pure ((temp : ℚ) / 2)
    else do
      let t ← lookupByteMapValue c.ROOM_TEMP_MAP c.ROOM_TEMP 32 (← rd data 3)
      pure (t : ℚ)
  if (hp.statusChangedCallback || hp.roomTempChangedCallback) &&
      hp.currentStatus.roomTemperature != roomTemperature then
    let hp := { hp with currentStatus := { hp.currentStatus with roomTemperature := roomTemperature } }
    let w := if hp.statusChangedCallback then w.emit (.statusChanged hp.currentStatus) else w
    let w := if hp.roomTempChangedCallback then
        w.emit (.roomTempChanged hp.currentStatus.roomTemperature) else w
    pure (c.RCVD_PKT_ROOM_TEMP, hp, w)
  else
    let hp := { hp with currentStatus := { hp.currentStatus with roomTemperature := roomTemperature } }
    pure (c.RCVD_PKT_ROOM_TEMP, hp, w)

/-- In `readPacket`, `case 0x05`: timer packet. -/
def readPacket_timer (c : Consts) (hp : HeatPump) (w : World) (data : List Nat) :
    Res (Int × HeatPump × World) := do
  let receivedTimers : heatpumpTimers :=
    { mode := some (← lookupByteMapValue c.TIMER_MODE_MAP c.TIMER_MODE 4 (← rd data 3)),
      onMinutesSet := ((← rd data 4) : Int) * c.TIMER_INCREMENT_MINUTES,
      onMinutesRemaining := ((← rd data 6) : Int) * c.TIMER_INCREMENT_MINUTES,
      offMinutesSet := ((← rd data 5) : Int) * c.TIMER_INCREMENT_MINUTES,
      offMinutesRemaining := ((← rd data 7) : Int) * c.TIMER_INCREMENT_MINUTES }
  if hp.statusChangedCallback && hp.currentStatus.timers.ne receivedTimers then
    let hp := { hp with currentStatus := { hp.currentStatus with timers := receivedTimers } }
    pure (c.RCVD_PKT_TIMER, hp, w.emit (.statusChanged hp.currentStatus))
  else
    let hp := { hp with currentStatus := { hp.currentStatus with timers := receivedTimers } }
    pure (c.RCVD_PKT_TIMER, hp, w)

/-- In `readPacket`, `case 0x06`: status. -/
def readPacket_status (c : Consts) (hp : HeatPump) (w : World) (data : List Nat) :
    Res (Int × HeatPump × World) := do
  let operating : Bool := (← rd data 4) != 0
  let compressorFrequency : Int := ((← rd data 3) : Int)
  let power : Nat := ((← rd data 5) * 256) % 65536
  let power := (power + (← rd data 6)) % 65536
  if hp.statusChangedCallback && hp.currentStatus.operating != operating then
    let hp := { hp with currentStatus := { hp.currentStatus with
      operating := operating, compressorFrequency := compressorFrequency } }
    pure (c.RCVD_PKT_STATUS, hp, w.emit (.statusChanged hp.currentStatus))
  else
    let hp := { hp with currentStatus := { hp.currentStatus with
      operating := operating, compressorFrequency := compressorFrequency, power := (power : Int) } }
    pure (c.RCVD_PKT_STATUS, hp, w)

/-- In `readPacket`, `case 0x20` and `case 0x22`: function settings; `none` is `break`. -/
def readPacket_functions (c : Consts) (hp : HeatPump) (w : World) (data : List Nat)
    (dataLength : Nat) : Res (Option (Int × HeatPump × World)) := do
  if dataLength = 0x10 then
    if (← rd data 0) = 0x20 then
      let f ← hp.functions.setData1 (data.drop 1)
      pure (some (c.RCVD_PKT_FUNCTIONS, { hp with functions := f }, w))
    else
      let f ← hp.functions.setData2 (data.drop 1)
      pure (some (c.RCVD_PKT_FUNCTIONS, { hp with functions := f }, w))
  else
    pure none

/-- In `readPacket`, the `switch (data[0])` under `header[1] == 0x62`; `none` means that the
switch was left without a `return`. -/
def readPacket_switch (c : Consts) (hp : HeatPump) (w : World) (data : List Nat)
    (dataLength : Nat) : Res (Option (Int × HeatPump × World)) := do
  let d0 ← rd data 0
  if d0 = 0x02 then some <$> readPacket_settings c hp w data
  else if d0 = 0x03 then some <$> readPacket_roomTemp c hp w data
  else if d0 = 0x04 then pure none
  else if d0 = 0x05 then some <$> readPacket_timer c hp w data
  else if d0 = 0x06 then some <$> readPacket_status c hp w data
  else if d0 = 0x09 then pure none
  else if d0 = 0x20 ∨ d0 = 0x22 then readPacket_functions c hp w data dataLength
  else pure none

/-- In `readPacket`, the part under `if (data[dataLength] == checksum)`. The 37-byte array handed
to the packet callback is not initialised by the code; the embedding starts it at zero. -/
def readPacket_accept (c : Consts) (hp : HeatPump) (w : World) (header data : List Nat)
    (dataLength : Nat) : Res (Int × HeatPump × World) := do
  let hp := { hp with lastRecv := w.now }
  let w := w.tick
  let w ← if hp.packetCallback then do
      let packet ← copyLoop header (List.replicate 37 0) c.INFOHEADER_LEN
      let packet ← copyDataLoop data packet (dataLength + 1)
      pure (w.emit (.packet packet c.PACKET_LEN "packetRecv"))
    else pure w
  let h1 ← rd header 1
  let r ← if h1 = 0x62 then readPacket_switch c hp w data dataLength else pure none
  match r with
  | some res => pure res
  | none =>
    if h1 = 0x61 then
      pure (c.RCVD_PKT_UPDATE_SUCCESS, { hp with updating := false }, w)
    else if h1 = 0x7a then
      pure (1, { hp with connected := true }, w)
    else
      pure (c.RCVD_PKT_FAIL, hp, w)

/-- The function `HeatPump::readPacket`. -/
def readPacket (c : Consts) (fuel : Nat) (waitForPacket : Bool) (hp : HeatPump) (w : World) :
    Res (Int × HeatPump × World) := do
  let r0 : RecvBuf :=
    { header := List.replicate c.INFOHEADER_LEN 0, data := List.replicate c.PACKET_LEN 0,
      dataLength := 0, len := 0, receiveSuccess := false }
  let startTime := w.now
  let w := w.tick
  if 0 < w.rx.length ∨ waitForPacket then
    let (failed, r, w) ← recvLoop c startTime fuel r0 w
    if failed then
      pure (c.RCVD_PKT_FAIL, hp, w)
    else
      let w := w.flush
      if !r.receiveSuccess then
        pure (c.RCVD_PKT_FAIL, hp, w)
      else
        let checksum ← recvCheckSum r.header r.data c.INFOHEADER_LEN r.dataLength
        if (← rd r.data r.dataLength) = checksum then
          readPacket_accept c hp w r.header r.data r.dataLength
        else
          pure (c.RCVD_PKT_FAIL, hp, w)
  else
    pure (c.RCVD_PKT_FAIL, hp, w)

/-! ## Connection and synchronisation -/

/-- The function `HeatPump::connect(HardwareSerial *serial, int bitrate, int rx, int tx)` (the variant
compiled when `__WIFIKITSAMD__` is not defined). The retry `connect(serial, 9600)` is the
two-argument overload, which calls this function with `rx = tx = -1`. -/
def connect (c : Consts) :
    Nat → Int → Int → Int → HeatPump → World → Res (Bool × HeatPump × World)
  | 0, _, _, _, _, _ => .error .fuel
  | fuel + 1, bitrate, rx, tx, hp, w => do
    let bitrate := if bitrate = 0 then 2400 else bitrate
    let hp := { hp with connected := false }
    let w := w.emit (.serialBegin bitrate (if rx ≥ 0 ∧ tx ≥ 0 then some (rx, tx) else none))
    let w := w.emit (.setTimeout c.PACKET_RESPONSE_WAIT_TIME)
    let w := if hp.onConnectCallback then w.emit .onConnect else w
    let w := w.emit (.delay 2000)
    let packet ← copyLoop c.CONNECT (List.replicate c.CONNECT_LEN 0) c.CONNECT_LEN
    let (hp, w) ← writePacket hp w packet c.CONNECT_LEN
    let (packetType, hp, w) ← readPacket c fuel true hp w
    if packetType ≠ c.RCVD_PKT_CONNECT_SUCCESS ∧ bitrate = 2400 then
      connect c fuel 9600 (-1) (-1) hp w
    else
      pure (decide (packetType = c.RCVD_PKT_CONNECT_SUCCESS), hp, w)

/-- The loop `while (!canSend(isInfo)) delay(10);`. -/
def waitCanSend (c : Consts) (isInfo : Bool) (hp : HeatPump) : Nat → World → Res World
  | 0, _ => .error .fuel
  | fuel + 1, w =>
    if (canSend c isInfo hp w).1 then pure (canSend c isInfo hp w).2
    else waitCanSend c isInfo hp fuel ((canSend c isInfo hp w).2.emit (.delay 10))

/-- The last statement of `sync`: `if (canSend(true))` build and write an info request. -/
def sync_poll (c : Consts) (packetType : Nat) (hp : HeatPump) (w : World) :
    Res (HeatPump × World) := do
  let (ok, w) := canSend c true hp w
  if ok then
    let packet := List.replicate c.PACKET_LEN 0
    let (packet, hp) ← createInfoPacket c hp packet packetType
    writePacket hp w packet c.PACKET_LEN
  else
    pure (hp, w)

/-- The function `HeatPump::sync(byte packetType)`. `connect(NULL)` reaches the four-argument `connect`
with `bitrate = 0` and `rx = tx = -1`. -/
def sync (c : Consts) : Nat → Nat → HeatPump → World → Res (HeatPump × World)
  | 0, _, _, _ => .error .fuel
  | fuel + 1, packetType, hp, w => do
    if !hp.connected then
      let hp := { hp with connected := false }
      let (_, hp, w) ← connect c fuel 0 (-1) (-1) hp w
      sync_poll c packetType hp w
    else if usub w.now hp.lastRecv > c.PACKET_SENT_INTERVAL_MS * 12 then
      let w := w.tick
      let hp := { hp with connected := false }
      let (_, hp, w) ← connect c fuel 0 (-1) (-1) hp w
      sync_poll c packetType hp w
    else
      let w := w.tick
      if sendPending hp then
        let (_, hp, w) ← update c hp w
        sync_poll c packetType hp w
      else if hp.updating then
        let (packetType, hp, w) ← readPacket c fuel false hp w
        if packetType = c.RCVD_PKT_UPDATE_SUCCESS then
          if hp.autoUpdate then
            let w ← waitCanSend c true hp fuel w
            sync c fuel c.RQST_PKT_SETTINGS hp w
          else
            pure (hp, w)
        else
          pure (hp, w)
      else
        let (cr, w) := canRead c hp w
        if cr then
          let (_, hp, w) ← readPacket c fuel false hp w
          sync_poll c packetType hp w
        else if hp.autoUpdate && !hp.firstRun && hp.wantedSettings.ne hp.currentSettings &&
            packetType == c.PACKET_TYPE_DEFAULT then
          let (_, hp, w) ← update c hp w
          sync_poll c packetType hp w
        else
          sync_poll c packetType hp w

/-! ## Writing the function settings -/

/-- The function `heatpumpFunctions::isValid`. -/
def heatpumpFunctions.isValid (f : heatpumpFunctions) : Bool :=
  f._isValid1 && f._isValid2

/-- The call `memcpy(dst + off, src, n)`. -/
def memcpyAt (dst : List Nat) (off : Nat) (src : List Nat) (n : Nat) : Res (List Nat) :=
  if n ≤ src.length ∧ off + n ≤ dst.length then
    pure (dst.take off ++ src.take n ++ dst.drop (off + n))
  else .error .bounds

/-- The function `heatpumpFunctions::getData1`, called as `getData1(&packet[off])`:
`memcpy(data, raw, 15)`. -/
def heatpumpFunctions.getData1 (f : heatpumpFunctions) (packet : List Nat) (off : Nat) :
    Res (List Nat) :=
  memcpyAt packet off f.raw 15

/-- The function `heatpumpFunctions::getData2`, called as `getData2(&packet[off])`:
`memcpy(data, raw + 15, 15)`. -/
def heatpumpFunctions.getData2 (f : heatpumpFunctions) (packet : List Nat) (off : Nat) :
    Res (List Nat) :=
  memcpyAt packet off (f.raw.drop 15) 15

/-- The loop `for (int i = 6; i < 20; ++i) if (packet1[i] == 0 || packet2[i] == 0) return false;`
of `setFunctions`: whether one of its first `n` iterations returns. -/
def setFunctions_anyZero (packet1 packet2 : List Nat) : Nat → Res Bool
  | 0 => pure false
  | n + 1 => do
    if ← setFunctions_anyZero packet1 packet2 n then pure true
    else
      if (← rd packet1 (n + 6)) = 0 then pure true
      else pure ((← rd packet2 (n + 6)) == 0)

/-- The function `HeatPump::setFunctions`. The calls `readPacket()` use the default argument of the
declaration in `HeatPump.h`, taken to be `false` (non-blocking), as in `sync`. The two waiting
loops and the reads take `fuel`. -/
def setFunctions (c : Consts) (fuel : Nat) (functions : heatpumpFunctions) (hp : HeatPump)
    (w : World) : Res (Bool × HeatPump × World) := do
  if !functions.isValid then
    pure (false, hp, w)
  else
    let packet1 ← prepareSetPacket c (List.replicate c.PACKET_LEN 0) c.PACKET_LEN
    let packet1 ← wr packet1 5 c.FUNCTIONS_SET_PART1
    let packet2 ← prepareSetPacket c (List.replicate c.PACKET_LEN 0) c.PACKET_LEN
    let packet2 ← wr packet2 5 c.FUNCTIONS_SET_PART2
    let packet1 ← functions.getData1 packet1 6
    let packet2 ← functions.getData2 packet2 6
    if (← rd packet1 20) ≠ 0 then
      pure (false, hp, w)
    else if (← rd packet2 20) ≠ 0 then
      pure (false, hp, w)
    else if ← setFunctions_anyZero packet1 packet2 14 then
      pure (false, hp, w)
    else
      let packet1 ← wr packet1 21 (← checkSum packet1 21)
      let packet2 ← wr packet2 21 (← checkSum packet2 21)
      let w ← waitCanSend c false hp fuel w
      let (hp, w) ← writePacket hp w packet1 c.PACKET_LEN
      let (_, hp, w) ← readPacket c fuel false hp w
      let w ← waitCanSend c false hp fuel w
      let (hp, w) ← writePacket hp w packet2 c.PACKET_LEN
      let (_, hp, w) ← readPacket c fuel false hp w
      pure (true, hp, w)

/-! ## Raw frames -/

/-- The loop `for (int i = 0; i < packetLength; i++) packet[(i + 1)] = data[i];` of
`sendCustomPacket`: the array `packet` after `n` iterations. -/
def sendCustomPacket_copy (data packet : List Nat) : Nat → Res (List Nat)
  | 0 => pure packet
  | n + 1 => do
    let p ← sendCustomPacket_copy data packet n
    let v ← rd data n
    wr p (n + 1) v

/-- The function `HeatPump::sendCustomPacket`. The list `data` holds the bytes of the caller's array.
The local array `byte packet[packetLength]` is not initialised by the code; the embedding starts
it at zero. -/
def sendCustomPacket (c : Consts) (fuel : Nat) (data : List Nat) (packetLength : Int)
    (hp : HeatPump) (w : World) : Res (HeatPump × World) := do
  let w ← waitCanSend c false hp fuel w
  let packetLength := packetLength + 2
  let packetLength := if packetLength > (c.PACKET_LEN : Int) then (c.PACKET_LEN : Int)
    else packetLength
  let packet := List.replicate packetLength.toNat 0
  let packet ← wr packet 0 (← rd c.HEADER 0)
  let packet ← sendCustomPacket_copy data packet packetLength.toNat
  let chkSum ← checkSum packet (packetLength - 1).toNat
  let packet ← wr packet (packetLength - 1).toNat chkSum
  writePacket hp w packet packetLength.toNat

/-! ## A concrete set of constants -/

/-- Values for the parameters of `Consts`: the frame headers, result codes and lookup tables
of the CN105 protocol as the driver's header file publishes them. The theorems quantify over
all constants; this set instantiates them. -/
def cn105 : Consts :=
  { PACKET_LEN := 22
    PACKET_SENT_INTERVAL_MS := 1000
    PACKET_INFO_INTERVAL_MS := 2000
    PACKET_RESPONSE_WAIT_TIME := 1000
    PACKET_TYPE_DEFAULT := 99
    CONNECT_LEN := 8
    CONNECT := [0xfc, 0x5a, 0x01, 0x30, 0x02, 0xca, 0x01, 0xa8]
    HEADER_LEN := 8
    HEADER := [0xfc, 0x41, 0x01, 0x30, 0x10, 0x01, 0x00, 0x00]
    INFOHEADER_LEN := 5
    INFOHEADER := [0xfc, 0x42, 0x01, 0x30, 0x10]
    INFOMODE_LEN := 6
    INFOMODE := [0x02, 0x03, 0x04, 0x05, 0x06, 0x09]
    RQST_PKT_SETTINGS := 0
    RCVD_PKT_FAIL := 0
    RCVD_PKT_CONNECT_SUCCESS := 1
    RCVD_PKT_SETTINGS := 2
    RCVD_PKT_ROOM_TEMP := 3
    RCVD_PKT_UPDATE_SUCCESS := 4
    RCVD_PKT_STATUS := 5
    RCVD_PKT_TIMER := 6
    RCVD_PKT_FUNCTIONS := 7
    CONTROL_PACKET_1 := [0x01, 0x02, 0x04, 0x08, 0x10]
    CONTROL_PACKET_2 := [0x01]
    POWER := [0x00, 0x01]
    POWER_MAP := ["OFF".toList, "ON".toList]
    MODE := [0x01, 0x02, 0x03, 0x07, 0x08]
    MODE_MAP := ["HEAT".toList, "DRY".toList, "COOL".toList, "FAN".toList, "AUTO".toList]
    TEMP := [0x00, 0x01, 0x02, 0x03, 0x04, 0x05, 0x06, 0x07, 0x08, 0x09, 0x0a, 0x0b, 0x0c, 0x0d,
      0x0e, 0x0f]
    TEMP_MAP := [31, 30, 29, 28, 27, 26, 25, 24, 23, 22, 21, 20, 19, 18, 17, 16]
    FAN := [0x00, 0x01, 0x02, 0x03, 0x05, 0x06]
    FAN_MAP := ["AUTO".toList, "QUIET".toList, "1".toList, "2".toList, "3".toList, "4".toList]
    VANE := [0x00, 0x01, 0x02, 0x03, 0x04, 0x05, 0x07]
    VANE_MAP := ["AUTO".toList, "1".toList, "2".toList, "3".toList, "4".toList, "5".toList,
      "SWING".toList]
    WIDEVANE := [0x01, 0x02, 0x03, 0x04, 0x05, 0x08, 0x0c]
    WIDEVANE_MAP := ["<<".toList, "<".toList, "|".toList, ">".toList, ">>".toList, "<>".toList,
      "SWING".toList]
    ROOM_TEMP := List.range 32
    ROOM_TEMP_MAP := (List.range 32).map (fun i => (i : Int) + 10)
    TIMER_MODE := [0x00, 0x01, 0x02, 0x03]
    TIMER_MODE_MAP := ["NONE".toList, "OFF".toList, "ON".toList, "BOTH".toList]
    TIMER_INCREMENT_MINUTES := 10
    FUNCTIONS_SET_PART1 := 0x1f
    FUNCTIONS_GET_PART1 := 0x20
    FUNCTIONS_SET_PART2 := 0x21
    FUNCTIONS_GET_PART2 := 0x22
    MAX_FUNCTION_CODE_COUNT := 30 }

/-- A driver right after construction, at clock value `now`: empty settings, no callback
registered, `lastRecv = millis() - PACKET_SENT_INTERVAL_MS * 60`. Members that the constructor
leaves to their default initialisation are zero or false. -/
def HeatPump.fresh (c : Consts) (now : Nat) : HeatPump :=
  { currentSettings := heatpumpSettings.empty
    wantedSettings := heatpumpSettings.empty
    currentStatus :=
      { roomTemperature := 0, operating := false,
        timers := { mode := none, onMinutesSet := 0, onMinutesRemaining := 0, offMinutesSet := 0,
                    offMinutesRemaining := 0 },
        compressorFrequency := 0, power := 0 }
    functions := { raw := List.replicate 30 0, _isValid1 := false, _isValid2 := false }
    lastSend := 0
    lastSendUpdate := 0
    lastRecv := usub now (c.PACKET_SENT_INTERVAL_MS * 60)
    infoMode := 0
    packet_sent_delay_interval_ms := 0
    powerSettingUpdate := false
    autoUpdate := false
    firstRun := true
    tempMode := false
    externalUpdate := false
    wideVaneAdj := false
    connected := false
    updating := false
    onConnectCallback := false
    settingsChangedCallback := false
    statusChangedCallback := false
    packetCallback := false
    roomTempChangedCallback := false }

/-- A world whose clock stands at `now`, with `rx` queued and nothing written yet. -/
def World.still (now : Nat) (rx : List Nat) : World :=
  { clock := fun _ => now, ticks := 0, rx := rx, tx := [], log := [] }

/-! ## Vocabulary of the statements -/

/-- The strings `a` and `b` are equal ignoring letter case. -/
def EqIgnoreCase (a b : CStr) : Prop := a.map tolower = b.map tolower

instance (a b : CStr) : Decidable (EqIgnoreCase a b) := by
  unfold EqIgnoreCase; infer_instance

/-- The value `v` is what a table of `len` entries decodes the wire byte `b` to: the value
paired with the first code equal to `b`, and entry 0 when no code equals `b`. -/
def Decodes {α : Type} (valuesMap : List α) (byteMap : List Nat) (len b : Nat) (v : α) : Prop :=
  (∃ i, i < len ∧ byteMap[i]? = some b ∧ (∀ j, j < i → byteMap[j]? ≠ some b) ∧
      valuesMap[i]? = some v) ∨
    ((∀ i, i < len → byteMap[i]? ≠ some b) ∧ valuesMap[0]? = some v)

/-- Entry `i` of a textual table equals `s` ignoring letter case. -/
def MatchesAt (valuesMap : List CStr) (s : CStr) (i : Nat) : Prop :=
  ∃ u, valuesMap[i]? = some u ∧ EqIgnoreCase u s

/-- The value `v` is what a textual setter stages for the input `s` from a table of `len`
entries: the first entry equal to `s` ignoring letter case, and entry 0 when there is none. -/
def Staged (valuesMap : List CStr) (len : Nat) (s v : CStr) : Prop :=
  (∃ i, i < len ∧ valuesMap[i]? = some v ∧ EqIgnoreCase v s ∧
      ∀ j, j < i → ¬ MatchesAt valuesMap s j) ∨
    ((∀ j, j < len → ¬ MatchesAt valuesMap s j) ∧ valuesMap[0]? = some v)

/-- Decoding the encoding of `v` with a numeric table:
`lookupByteMapValue(valuesMap, byteMap, len, byteMap[lookupByteMapIndex(valuesMap, len, v)])`. -/
def decodeEncodedInt (valuesMap : List Int) (byteMap : List Nat) (len : Nat) (v : Int) :
    Res Int := do
  let b ← rdI byteMap (← lookupByteMapIndexInt valuesMap len v)
  lookupByteMapValue valuesMap byteMap len b

/-- Decoding the encoding of `v` with a textual table:
`lookupByteMapValue(valuesMap, byteMap, len, byteMap[lookupByteMapIndex(valuesMap, len, v)])`. -/
def decodeEncodedStr (valuesMap : List CStr) (byteMap : List Nat) (len : Nat) (v : CStr) :
    Res CStr := do
  let b ← rdI byteMap (← lookupByteMapIndexStr valuesMap len (some v))
  lookupByteMapValue valuesMap byteMap len b

instance (valuesMap : List CStr) (s : CStr) (i : Nat) : Decidable (MatchesAt valuesMap s i) :=
  match h : valuesMap[i]? with
  | some u =>
    if hu : EqIgnoreCase u s then isTrue ⟨u, h, hu⟩
    else isFalse (by rintro ⟨v, hv, hvs⟩; rw [h] at hv; cases hv; exact hu hvs)
  | none => isFalse (by rintro ⟨v, hv, _⟩; rw [h] at hv; cases hv)

/-- The value `v` is one of the first `len` entries of a table. -/
def InTable {α : Type} (valuesMap : List α) (len : Nat) (v : α) : Prop :=
  ∃ i, i < len ∧ valuesMap[i]? = some v

/-- The byte `b` is the wire code a textual table of `len` entries encodes `v` with: the code
paired with the first entry equal to `v` ignoring letter case. -/
def EncodesStr (valuesMap : List CStr) (byteMap : List Nat) (len : Nat) (v : CStr) (b : Nat) :
    Prop :=
  ∃ i, i < len ∧ MatchesAt valuesMap v i ∧ (∀ j, j < i → ¬ MatchesAt valuesMap v j) ∧
    byteMap[i]? = some b

/-- The byte `b` is the wire code a numeric table of `len` entries encodes `v` with: the code
paired with the first entry equal to `v`. -/
def EncodesInt (valuesMap : List Int) (byteMap : List Nat) (len : Nat) (v : Int) (b : Nat) :
    Prop :=
  ∃ i, i < len ∧ valuesMap[i]? = some v ∧ (∀ j, j < i → valuesMap[j]? ≠ some v) ∧
    byteMap[i]? = some b

/-- How `createPacket` reports one settings field: the field's bit is set in the control byte
exactly when the field differs, and the field's byte is its encoding when it differs and zero
when it does not. -/
def FieldEncoded (differs : Prop) (bit control byte : Nat) (encoding : Nat → Prop) : Prop :=
  (control &&& bit ≠ 0 ↔ differs) ∧ (differs → encoding byte) ∧ (¬ differs → byte = 0)

/-- The assumptions on the constants of `HeatPump.h` under which the set frame is read:
frames of 22 bytes, an 8-byte set header whose two control bytes start at zero, one bit per
field in `CONTROL_PACKET_1` and `CONTROL_PACKET_2`. -/
def SetFrameLayout (c : Consts) : Prop :=
  c.PACKET_LEN = 22 ∧ c.HEADER_LEN = 8 ∧ c.HEADER.length = 8 ∧
    c.HEADER[6]? = some 0 ∧ c.HEADER[7]? = some 0 ∧
    c.CONTROL_PACKET_1 = [0x01, 0x02, 0x04, 0x08, 0x10] ∧ c.CONTROL_PACKET_2 = [0x01]

/-- Every lookup table has at least the number of entries the code passes as `len`. -/
def TableSizes (c : Consts) : Prop :=
  2 ≤ c.POWER.length ∧ 2 ≤ c.POWER_MAP.length ∧ 5 ≤ c.MODE.length ∧ 5 ≤ c.MODE_MAP.length ∧
    16 ≤ c.TEMP.length ∧ 16 ≤ c.TEMP_MAP.length ∧ 6 ≤ c.FAN.length ∧ 6 ≤ c.FAN_MAP.length ∧
    7 ≤ c.VANE.length ∧ 7 ≤ c.VANE_MAP.length ∧ 7 ≤ c.WIDEVANE.length ∧
    7 ≤ c.WIDEVANE_MAP.length ∧ 32 ≤ c.ROOM_TEMP.length ∧ 32 ≤ c.ROOM_TEMP_MAP.length ∧
    4 ≤ c.TIMER_MODE.length ∧ 4 ≤ c.TIMER_MODE_MAP.length

instance (c : Consts) : Decidable (SetFrameLayout c) := by
  unfold SetFrameLayout; infer_instance

instance (c : Consts) : Decidable (TableSizes c) := by
  unfold TableSizes; infer_instance

/-- The settings staged in the scenario "power on, heat, 21 degrees" on a fresh driver. -/
def wantedOnHeat21 : heatpumpSettings :=
  { heatpumpSettings.empty with
    power := some "ON".toList, mode := some "HEAT".toList, temperature := 21 }

/-- The clock stands at `now`: every `millis()` from the state `w` on returns `now`. -/
def ClockAt (w : World) (now : Nat) : Prop := ∀ i, w.clock (w.ticks + i) % 2 ^ 32 = now

/-- The pacing condition of `canSend(false)` at clock value `now`. -/
def UpdateDue (c : Consts) (hp : HeatPump) (now : Nat) : Prop :=
  usub now hp.lastSendUpdate > hp.packet_sent_delay_interval_ms ∧
    usub now hp.lastSend > c.PACKET_INFO_INTERVAL_MS

instance (c : Consts) (hp : HeatPump) (now : Nat) : Decidable (UpdateDue c hp now) := by
  unfold UpdateDue; infer_instance

/-- The assumptions on the constants of `HeatPump.h` under which an inbound frame is read:
buffers of 22 data bytes and 5 header bytes, a magic of at least 4 bytes. -/
def RecvLayout (c : Consts) : Prop :=
  c.PACKET_LEN = 22 ∧ c.INFOHEADER_LEN = 5 ∧ 4 ≤ c.HEADER.length

instance (c : Consts) : Decidable (RecvLayout c) := by
  unfold RecvLayout; infer_instance

/-- What is known about a run of the receive loop over a frame: it ends without a fault; if
it ends with `receiveSuccess` it has captured `final` and left the world `wfinal`; and under
the condition `good` (no deadline, no header mismatch) it does end with `receiveSuccess`. -/
def FrameOutcome (res : Res (Bool × RecvBuf × World)) (final : RecvBuf) (wfinal : World)
    (good : Prop) : Prop :=
  ∃ failed r w1, res = .ok (failed, r, w1) ∧
    (failed = false → r.receiveSuccess = true → r = final ∧ w1 = wfinal) ∧
    (good → failed = false ∧ r.receiveSuccess = true)

/-- The payload of a sample settings frame after its sub-code `0x02`: power on, mode code
`0x03 + 0x08` (cool, with the i-See flag), temperature code `0x0a`, fan code `0x00`, vane code
`0x07`, wide-vane code `0x03`. -/
def sampleSettingsPayload : List Nat :=
  [0, 0, 0x01, 0x0b, 0x0a, 0x00, 0x07, 0, 0, 0x03, 0, 0, 0, 0, 0]

/-- The assumptions on the constants of `HeatPump.h` under which an info request is built:
frames of 22 bytes, a 5-byte info header, an `INFOMODE` table of `INFOMODE_LEN` entries. -/
def InfoLayout (c : Consts) : Prop :=
  c.PACKET_LEN = 22 ∧ c.INFOHEADER_LEN = 5 ∧ 5 ≤ c.INFOHEADER.length ∧
    c.INFOMODE_LEN ≤ c.INFOMODE.length

instance (c : Consts) : Decidable (InfoLayout c) := by
  unfold InfoLayout; infer_instance

/-! ## Vocabulary of the later statements -/

/-- The function `HeatPump::setInfoModeIndex`. -/
def setInfoModeIndex (c : Consts) (index : Int) (hp : HeatPump) : HeatPump :=
  if index < (c.INFOMODE_LEN : Int) then { hp with infoMode := index } else hp

/-- The sub-commands (byte 5) of the frames that `n` consecutive calls
`createInfoPacket(packet, PACKET_TYPE_DEFAULT)` build, in the order of the calls, and the
driver after the last call. -/
def defaultInfoCalls (c : Consts) (packet : List Nat) : Nat → HeatPump → Res (List Nat × HeatPump)
  | 0, hp => pure ([], hp)
  | n + 1, hp => do
    let (pkt, hp) ← createInfoPacket c hp packet c.PACKET_TYPE_DEFAULT
    let sub ← rd pkt 5
    let (rest, hp) ← defaultInfoCalls c packet n hp
    pure (sub :: rest, hp)

/-- An info request with sub-command `sub`: 22 bytes, the first five are `INFOHEADER`, byte 5 is
`sub`, bytes 6..20 are zero and byte 21 is the checksum of the 21 bytes before it. -/
def InfoFrame (c : Consts) (pkt : List Nat) (sub : Nat) : Prop :=
  pkt.length = 22 ∧ pkt.take 5 = c.INFOHEADER.take 5 ∧ pkt.getD 5 0 = sub ∧
    (pkt.drop 6).take 15 = List.replicate 15 0 ∧ checkSum pkt 21 = .ok (pkt.getD 21 0)

instance (c : Consts) (pkt : List Nat) (sub : Nat) : Decidable (InfoFrame c pkt sub) := by
  unfold InfoFrame; infer_instance

/-- Whether an entry of the log is a call of a change callback (settings changed, status
changed, room temperature changed). -/
def Event.isChange : Event → Bool
  | .settingsChanged _ => true
  | .statusChanged _ => true
  | .roomTempChanged _ => true
  | _ => false

/-- The arguments of the calls of the status-changed callback in a log, in the order of the
calls. -/
def statusCalls (log : List Event) : List heatpumpStatus :=
  log.filterMap (fun e => match e with
    | .statusChanged s => some s
    | _ => none)

/-- A set of function settings that `setFunctions` sends: both halves received, the data bytes
`raw[0..13]` and `raw[15..28]` all non-zero, `raw[14]` and `raw[29]` zero. -/
def FunctionsComplete (f : heatpumpFunctions) : Prop :=
  f.isValid = true ∧ (∀ i, i < 14 → f.raw.getD i 0 ≠ 0 ∧ f.raw.getD (15 + i) 0 ≠ 0) ∧
    f.raw.getD 14 0 = 0 ∧ f.raw.getD 29 0 = 0

instance (f : heatpumpFunctions) : Decidable (FunctionsComplete f) := by
  unfold FunctionsComplete; infer_instance

/-- A set frame with sub-command `sub` that carries the 15 bytes `half`: 22 bytes, the first
five are those of `HEADER`, byte 5 is `sub`, bytes 6..20 are `half` and byte 21 is the checksum
of the 21 bytes before it. -/
def FunctionsFrame (c : Consts) (pkt : List Nat) (sub : Nat) (half : List Nat) : Prop :=
  pkt.length = 22 ∧ pkt.take 5 = c.HEADER.take 5 ∧ pkt.getD 5 0 = sub ∧
    (pkt.drop 6).take 15 = half ∧ checkSum pkt 21 = .ok (pkt.getD 21 0)

instance (c : Consts) (pkt : List Nat) (sub : Nat) (half : List Nat) :
    Decidable (FunctionsFrame c pkt sub half) := by
  unfold FunctionsFrame; infer_instance

/-- From the `N`-th reading on, the clock is past both pacing thresholds of `canSend(false)`
for the driver `hp`. -/
def DueFrom (c : Consts) (hp : HeatPump) (clock : Nat → Nat) (N : Nat) : Prop :=
  ∀ i, N ≤ i →
    usub (clock i % 2 ^ 32) hp.lastSendUpdate > hp.packet_sent_delay_interval_ms ∧
      usub (clock i % 2 ^ 32) hp.lastSend > c.PACKET_INFO_INTERVAL_MS

/-- A complete set of function settings: codes 101..128 with value 1 each, `raw[14]` and
`raw[29]` zero, both halves received. -/
def sampleFunctions : heatpumpFunctions :=
  { raw := [5, 9, 13, 17, 21, 25, 29, 33, 37, 41, 45, 49, 53, 57, 0,
      61, 65, 69, 73, 77, 81, 85, 89, 93, 97, 101, 105, 109, 113, 0],
    _isValid1 := true, _isValid2 := true }

/-- A world with nothing queued whose clock reads 10000 on its first four readings and 20000
from then on. -/
def World.stepping : World :=
  { clock := fun n => if n < 4 then 10000 else 20000, ticks := 0, rx := [], tx := [], log := [] }

/-- One operation on a `heatpumpFunctions` object. -/
inductive FunctionsOp where
  | clear
  | setData1 (data : List Nat)
  | setData2 (data : List Nat)
  deriving DecidableEq

/-- Runs one operation. -/
def FunctionsOp.apply (f : heatpumpFunctions) : FunctionsOp → Res heatpumpFunctions
  | .clear => pure f.clear
  | .setData1 data => f.setData1 data
  | .setData2 data => f.setData2 data

/-- Runs a sequence of operations, first to last. -/
def runOps (f : heatpumpFunctions) : List FunctionsOp → Res heatpumpFunctions
  | [] => pure f
  | op :: ops => do
    let f ← op.apply f
    runOps f ops

/-- The operation is a call of `setData1`. -/
def FunctionsOp.isSet1 : FunctionsOp → Bool
  | .setData1 _ => true
  | _ => false

/-- The operation is a call of `setData2`. -/
def FunctionsOp.isSet2 : FunctionsOp → Bool
  | .setData2 _ => true
  | _ => false

/-- The bytes an operation stores in the first half of `raw`, if it stores there. -/
def FunctionsOp.stores1 : FunctionsOp → Option (List Nat)
  | .clear => some (List.replicate 15 0)
  | .setData1 data => some (data.take 15)
  | .setData2 _ => none

/-- The bytes an operation stores in the second half of `raw`, if it stores there. -/
def FunctionsOp.stores2 : FunctionsOp → Option (List Nat)
  | .clear => some (List.replicate 15 0)
  | .setData1 _ => none
  | .setData2 data => some (data.take 15)

/-- An operation satisfying `p` occurs in the sequence with no `clear` after it. -/
def CalledSinceClear (p : FunctionsOp → Bool) (ops : List FunctionsOp) : Prop :=
  ∃ pre op post, ops = pre ++ op :: post ∧ p op = true ∧ FunctionsOp.clear ∉ post

/-- The bytes last stored by the sequence in a half of `raw` (`stores` says what an operation
stores there): those of the last operation that stores there, and the zeros of the constructor
when there is none. -/
def LastStored (stores : FunctionsOp → Option (List Nat)) (ops : List FunctionsOp)
    (bytes : List Nat) : Prop :=
  (∃ pre op post, ops = pre ++ op :: post ∧ stores op = some bytes ∧
      ∀ o, o ∈ post → stores o = none) ∨
    ((∀ o, o ∈ ops → stores o = none) ∧ bytes = List.replicate 15 0)

/-- The operation hands `setData1` or `setData2` at least the 15 bytes they copy. -/
def FunctionsOp.readable : FunctionsOp → Bool
  | .clear => true
  | .setData1 data => decide (15 ≤ data.length)
  | .setData2 data => decide (15 ≤ data.length)

/-- Every `setData1` and `setData2` of the sequence is handed at least 15 bytes. -/
def OpsReadable (ops : List FunctionsOp) : Prop :=
  ∀ op, op ∈ ops → op.readable = true

instance (ops : List FunctionsOp) : Decidable (OpsReadable ops) := by
  unfold OpsReadable; infer_instance

/-- The settings `s` are what `case 0x02` of `readPacket` decodes from the payload `data`:
every textual field is the table entry of its wire byte, the temperature is
`(data[11] - 128) / 2` when `data[11]` is not zero and the table entry of `data[5]` otherwise,
and `iSee` tells whether `data[4]` is above `0x08`. -/
def DecodedSettings (c : Consts) (data : List Nat) (s : heatpumpSettings) : Prop :=
  ∃ vp vm vt vf vv vw,
    Decodes c.POWER_MAP c.POWER 2 (data.getD 3 0) vp ∧
    Decodes c.MODE_MAP c.MODE 5
      (if data.getD 4 0 > 0x08 then data.getD 4 0 - 0x08 else data.getD 4 0) vm ∧
    Decodes c.TEMP_MAP c.TEMP 16 (data.getD 5 0) vt ∧
    Decodes c.FAN_MAP c.FAN 6 (data.getD 6 0) vf ∧
    Decodes c.VANE_MAP c.VANE 7 (data.getD 7 0) vv ∧
    Decodes c.WIDEVANE_MAP c.WIDEVANE 7 (data.getD 10 0 &&& 0x0F) vw ∧
    s = { power := some vp, mode := some vm,
          temperature := if data.getD 11 0 ≠ 0 then ((((data.getD 11 0 : Nat) : Int) - 128 : Int) : ℚ) / 2
            else (vt : ℚ),
          fan := some vf, vane := some vv, wideVane := some vw,
          iSee := decide (data.getD 4 0 > 0x08) }

/-- One handshake attempt of `connect` at the bit rate `bitrate`: the statements of `connect`
from `connected = false` to `readPacket(true)`, whose result is the type of the packet read. -/
def connectAttempt (c : Consts) (fuel : Nat) (bitrate rx tx : Int) (hp : HeatPump) (w : World) :
    Res (Int × HeatPump × World) := do
  let hp := { hp with connected := false }
  let w := w.emit (.serialBegin bitrate (if rx ≥ 0 ∧ tx ≥ 0 then some (rx, tx) else none))
  let w := w.emit (.setTimeout c.PACKET_RESPONSE_WAIT_TIME)
  let w := if hp.onConnectCallback then w.emit .onConnect else w
  let w := w.emit (.delay 2000)
  let packet ← copyLoop c.CONNECT (List.replicate c.CONNECT_LEN 0) c.CONNECT_LEN
  let (hp, w) ← writePacket hp w packet c.CONNECT_LEN
  readPacket c fuel true hp w

/-- The bit rates of the `begin` calls recorded in a log, in order. -/
def beginCalls (log : List Event) : List Int :=
  log.filterMap fun e => match e with
    | .serialBegin b _ => some b
    | _ => none

/-- The step from the world `w` to the world `w1` has written no frame, has not reopened the
serial port, and has left the clock stream as it was, only read further. -/
def Quiet (w w1 : World) : Prop :=
  w1.tx = w.tx ∧ w1.clock = w.clock ∧ w.ticks ≤ w1.ticks ∧
    beginCalls w1.log = beginCalls w.log

/-- The assumptions on the result codes of `HeatPump.h` under which the `1` that `readPacket`
returns for a connect acknowledgement is told apart: `RCVD_PKT_CONNECT_SUCCESS` is 1 and no
other result code is. -/
def AckCode (c : Consts) : Prop :=
  c.RCVD_PKT_CONNECT_SUCCESS = 1 ∧ c.RCVD_PKT_FAIL ≠ 1 ∧ c.RCVD_PKT_SETTINGS ≠ 1 ∧
    c.RCVD_PKT_ROOM_TEMP ≠ 1 ∧ c.RCVD_PKT_UPDATE_SUCCESS ≠ 1 ∧ c.RCVD_PKT_STATUS ≠ 1 ∧
    c.RCVD_PKT_TIMER ≠ 1 ∧ c.RCVD_PKT_FUNCTIONS ≠ 1

instance (c : Consts) : Decidable (AckCode c) := by
  unfold AckCode; infer_instance

/-- The result `res` of `readPacket` is one of the codes it returns by name. -/
def NamedCode (c : Consts) (res : Int) : Prop :=
  res = c.RCVD_PKT_FAIL ∨ res = c.RCVD_PKT_SETTINGS ∨ res = c.RCVD_PKT_ROOM_TEMP ∨
    res = c.RCVD_PKT_UPDATE_SUCCESS ∨ res = c.RCVD_PKT_STATUS ∨ res = c.RCVD_PKT_TIMER ∨
    res = c.RCVD_PKT_FUNCTIONS

/-- The clock keeps running: after every reading of `millis()`, one of the next `N` readings
is at least `PACKET_RESPONSE_WAIT_TIME` later. -/
def WaitEnds (c : Consts) (clock : Nat → Nat) (N : Nat) : Prop :=
  ∀ t, ∃ k, k < N ∧
    ¬ usub (clock (t + 1 + k) % 2 ^ 32) (clock t % 2 ^ 32) < c.PACKET_RESPONSE_WAIT_TIME

/-- A world in which nothing arrives and nothing has been written, with a clock that advances
by one second per reading. -/
def World.silent : World :=
  { clock := fun n => n * 1000, ticks := 0, rx := [], tx := [], log := [] }

/-! ## Basic facts about arrays -/

theorem rd_of_lt {α : Type} (xs : List α) (i : Nat) (h : i < xs.length) :
    rd xs i = .ok (xs.get ⟨i, h⟩) := by
  simp [rd, List.getElem?_eq_getElem h]

theorem rd_of_le {α : Type} (xs : List α) (i : Nat) (h : xs.length ≤ i) :
    rd xs i = .error .bounds := by
  simp [rd, List.getElem?_eq_none h]

theorem rd_getD (xs : List Nat) (i : Nat) (h : i < xs.length) :
    rd xs i = .ok (xs.getD i 0) := by
  rw [rd_of_lt xs i h]; simp [List.getD, List.getElem?_eq_getElem h]

theorem checkSumLoop_eq (bytes : List Nat) (n : Nat) (h : n ≤ bytes.length) :
    checkSumLoop bytes n = .ok ((bytes.take n).sum % 256) := by
  induction n with
  | zero => rfl
  | succ k ih =>
    have hk : k < bytes.length := h
    rw [checkSumLoop, ih (Nat.le_of_lt hk), rd_of_lt bytes k hk]
    simp only [bind, Except.bind, pure, Except.pure]
    rw [List.sum_take_succ bytes k hk]
    simp [Nat.add_mod]

theorem dataSumLoop_eq (xs : List Nat) (acc : Int) (n : Nat) (h : n ≤ xs.length) :
    dataSumLoop xs acc n = .ok (acc + ((xs.take n).sum : Nat)) := by
  induction n with
  | zero => simp [dataSumLoop, pure, Except.pure]
  | succ k ih =>
    have hk : k < xs.length := h
    rw [dataSumLoop, ih (Nat.le_of_lt hk), rd_of_lt xs k hk]
    simp only [bind, Except.bind, pure, Except.pure]
    rw [List.sum_take_succ xs k hk]
    simp [add_assoc]

/-- C1: the checksum byte that the frame builders append, `checkSum(h ++ p)`, is the value
the receiver computes from the five header bytes and the `h[4]` payload bytes it captured, and
the sum of all bytes of the frame, checksum included, is congruent to `0xFC` modulo 256. -/
theorem checkSum_accepted_by_receiver (h p tail : List Nat) (hh : h.length = 5)
    (hp : p.length = h.getD 4 0) :
    ∃ cs, checkSum (h ++ p) (h ++ p).length = .ok cs ∧ cs < 256 ∧
      recvCheckSum h (p ++ cs :: tail) 5 (h.getD 4 0) = .ok cs ∧
      ((h ++ p).sum + cs) % 256 = 0xFC := by
  refine ⟨(((0xfc : Int) - (((h ++ p).sum % 256 : Nat) : Int)) % 256).toNat, ?_, ?_, ?_, ?_⟩
  · rw [checkSum, checkSumLoop_eq _ _ le_rfl, List.take_length]
    rfl
  · omega
  · rw [recvCheckSum, dataSumLoop_eq h 0 5 (by omega), ← hp]
    simp only [bind, Except.bind]
    rw [dataSumLoop_eq _ _ _ (by simp)]
    simp only [pure, Except.pure, List.take_left', ← hh, List.take_length, List.sum_append]
    congr 2
    push_cast
    omega
  · simp only [List.sum_append]
    omega

theorem checkSum_accepted_by_receiver_witness :
    ∃ cs, checkSum ([0xfc, 0x62, 0x01, 0x30, 0x02] ++ [0x06, 0x07])
        ([0xfc, 0x62, 0x01, 0x30, 0x02] ++ [0x06, 0x07]).length = .ok cs ∧ cs < 256 ∧
      recvCheckSum [0xfc, 0x62, 0x01, 0x30, 0x02] ([0x06, 0x07] ++ cs :: [])
        5 ([0xfc, 0x62, 0x01, 0x30, 0x02].getD 4 0) = .ok cs ∧
      (([0xfc, 0x62, 0x01, 0x30, 0x02] ++ [0x06, 0x07]).sum + cs) % 256 = 0xFC :=
  checkSum_accepted_by_receiver [0xfc, 0x62, 0x01, 0x30, 0x02] [0x06, 0x07] [] (by decide)
    (by decide)


/-! ## Lookup tables -/

theorem firstMatch_spec (test : Nat → Res Bool) (p : Nat → Bool) (n s : Nat)
    (h : ∀ i, s ≤ i → i < s + n → test i = .ok (p i)) :
    (∃ i, s ≤ i ∧ i < s + n ∧ p i = true ∧ (∀ j, s ≤ j → j < i → p j = false) ∧
        firstMatch test n s = .ok (some i)) ∨
      ((∀ i, s ≤ i → i < s + n → p i = false) ∧ firstMatch test n s = .ok none) := by
  induction n generalizing s with
  | zero =>
    right
    exact ⟨fun i h1 h2 => absurd h2 (by omega), rfl⟩
  | succ k ih =>
    have hs := h s le_rfl (by omega)
    cases hp : p s with
    | true =>
      left
      refine ⟨s, le_rfl, by omega, hp, fun j h1 h2 => absurd h2 (by omega), ?_⟩
      simp [firstMatch, hs, hp, bind, Except.bind, pure, Except.pure]
    | false =>
      have hstep : firstMatch test (k + 1) s = firstMatch test k (s + 1) := by
        simp [firstMatch, hs, hp, bind, Except.bind]
      rcases ih (s + 1) (fun i h1 h2 => h i (by omega) (by omega)) with
        ⟨i, h1, h2, h3, h4, h5⟩ | ⟨h1, h2⟩
      · left
        refine ⟨i, by omega, by omega, h3, ?_, by rw [hstep, h5]⟩
        intro j hj1 hj2
        by_cases hjs : j = s
        · rw [hjs]; exact hp
        · exact h4 j (by omega) hj2
      · right
        refine ⟨?_, by rw [hstep, h2]⟩
        intro i hi1 hi2
        by_cases his : i = s
        · rw [his]; exact hp
        · exact h1 i (by omega) (by omega)

theorem getElem?_lt_some {α : Type} (xs : List α) (i : Nat) (h : i < xs.length) :
    ∃ v, xs[i]? = some v := ⟨xs[i], List.getElem?_eq_getElem h⟩

theorem rd_eq_ok {α : Type} (xs : List α) (i : Nat) (v : α) (h : xs[i]? = some v) :
    rd xs i = .ok v := by
  simp [rd, h]

theorem lookupByteMapValue_decodes {α : Type} (valuesMap : List α) (byteMap : List Nat)
    (len b : Nat) (hv : len ≤ valuesMap.length) (hb : len ≤ byteMap.length) (hlen : 1 ≤ len) :
    ∃ v, lookupByteMapValue valuesMap byteMap len b = .ok v ∧ Decodes valuesMap byteMap len b v := by
  have htest : ∀ i, 0 ≤ i → i < 0 + len →
      (fun i => (do pure ((← rd byteMap i) == b) : Res Bool)) i
        = .ok (decide (byteMap[i]? = some b)) := by
    intro i _ hi
    obtain ⟨x, hx⟩ := getElem?_lt_some byteMap i (by omega)
    by_cases hxb : x = b <;> simp [rd, hx, hxb, bind, Except.bind, pure, Except.pure]
  rcases firstMatch_spec _ _ len 0 htest with ⟨i, _, h2, h3, h4, h5⟩ | ⟨h1, h2⟩
  · obtain ⟨v, hv'⟩ := getElem?_lt_some valuesMap i (by omega)
    refine ⟨v, ?_, Or.inl ⟨i, by omega, by simpa using h3, ?_, hv'⟩⟩
    · rw [lookupByteMapValue, h5]
      exact rd_eq_ok _ _ _ hv'
    · intro j hj
      simpa using h4 j (Nat.zero_le _) hj
  · obtain ⟨v, hv'⟩ := getElem?_lt_some valuesMap 0 (by omega)
    refine ⟨v, ?_, Or.inr ⟨?_, hv'⟩⟩
    · rw [lookupByteMapValue, h2]
      exact rd_eq_ok _ _ _ hv'
    · intro i hi
      simpa using h1 i (Nat.zero_le _) (by omega)

/-- C6: for a table of `len ≥ 1` entries and every byte value, `lookupByteMapValue` returns a
value (it does not fault): the value paired with the first code equal to the byte, and
`valuesMap[0]` when no code equals it. -/
theorem lookupByteMapValue_total {α : Type} (valuesMap : List α) (byteMap : List Nat)
    (len b : Nat) (hv : valuesMap.length = len) (hb : byteMap.length = len) (hlen : 1 ≤ len) :
    ∃ v, lookupByteMapValue valuesMap byteMap len b = .ok v ∧
      ((∃ i, i < len ∧ byteMap[i]? = some b ∧ (∀ j, j < i → byteMap[j]? ≠ some b) ∧
          valuesMap[i]? = some v) ∨
        ((∀ i, i < len → byteMap[i]? ≠ some b) ∧ valuesMap[0]? = some v)) :=
  lookupByteMapValue_decodes valuesMap byteMap len b (by omega) (by omega) hlen

theorem lookupByteMapValue_total_witness :
    ∃ v, lookupByteMapValue cn105.MODE_MAP cn105.MODE 5 0x55 = .ok v ∧
      ((∃ i, i < 5 ∧ cn105.MODE[i]? = some 0x55 ∧ (∀ j, j < i → cn105.MODE[j]? ≠ some 0x55) ∧
          cn105.MODE_MAP[i]? = some v) ∨
        ((∀ i, i < 5 → cn105.MODE[i]? ≠ some 0x55) ∧ cn105.MODE_MAP[0]? = some v)) :=
  lookupByteMapValue_total cn105.MODE_MAP cn105.MODE 5 0x55 (by decide) (by decide) (by decide)


theorem strcasecmp_eq_zero_iff (a b : CStr) : strcasecmp a b = 0 ↔ EqIgnoreCase a b := by
  unfold EqIgnoreCase
  induction a generalizing b with
  | nil => cases b <;> simp [strcasecmp]
  | cons x xs ih =>
    cases b with
    | nil => simp [strcasecmp]
    | cons y ys =>
      by_cases hxy : tolower x = tolower y
      · simp [strcasecmp, hxy, ih]
      · by_cases hlt : tolower x < tolower y <;> simp [strcasecmp, hxy, hlt]

theorem lookupByteMapIndexStr_spec (valuesMap : List CStr) (len : Nat) (s : CStr)
    (h : len ≤ valuesMap.length) :
    (∃ i, i < len ∧ MatchesAt valuesMap s i ∧ (∀ j, j < i → ¬ MatchesAt valuesMap s j) ∧
        lookupByteMapIndexStr valuesMap len (some s) = .ok (i : Int)) ∨
      ((∀ j, j < len → ¬ MatchesAt valuesMap s j) ∧
        lookupByteMapIndexStr valuesMap len (some s) = .ok (-1)) := by
  have htest : ∀ i, 0 ≤ i → i < 0 + len →
      (fun i => (do
          let v ← rd valuesMap i
          match (some s : Option CStr) with
          | none => .error .null
          | some s => pure (strcasecmp v s == 0) : Res Bool)) i
        = .ok (decide (MatchesAt valuesMap s i)) := by
    intro i _ hi
    obtain ⟨x, hx⟩ := getElem?_lt_some valuesMap i (by omega)
    have : MatchesAt valuesMap s i ↔ strcasecmp x s = 0 := by
      simp [MatchesAt, hx, strcasecmp_eq_zero_iff]
    by_cases hxs : strcasecmp x s = 0 <;>
      simp [rd, hx, hxs, this, bind, Except.bind, pure, Except.pure]
  rcases firstMatch_spec _ _ len 0 htest with ⟨i, _, h2, h3, h4, h5⟩ | ⟨h1, h2⟩
  · left
    refine ⟨i, by omega, by simpa using h3, ?_, ?_⟩
    · intro j hj
      simpa using h4 j (Nat.zero_le _) hj
    · rw [lookupByteMapIndexStr, h5]; rfl
  · right
    refine ⟨?_, ?_⟩
    · intro j hj
      simpa using h1 j (Nat.zero_le _) (by omega)
    · rw [lookupByteMapIndexStr, h2]; rfl

theorem lookupByteMapIndexInt_spec (valuesMap : List Int) (len : Nat) (v : Int)
    (h : len ≤ valuesMap.length) :
    (∃ i, i < len ∧ valuesMap[i]? = some v ∧ (∀ j, j < i → valuesMap[j]? ≠ some v) ∧
        lookupByteMapIndexInt valuesMap len v = .ok (i : Int)) ∨
      ((∀ j, j < len → valuesMap[j]? ≠ some v) ∧
        lookupByteMapIndexInt valuesMap len v = .ok (-1)) := by
  have htest : ∀ i, 0 ≤ i → i < 0 + len →
      (fun i => (do pure ((← rd valuesMap i) == v) : Res Bool)) i
        = .ok (decide (valuesMap[i]? = some v)) := by
    intro i _ hi
    obtain ⟨x, hx⟩ := getElem?_lt_some valuesMap i (by omega)
    by_cases hxb : x = v <;> simp [rd, hx, hxb, bind, Except.bind, pure, Except.pure]
  rcases firstMatch_spec _ _ len 0 htest with ⟨i, _, h2, h3, h4, h5⟩ | ⟨h1, h2⟩
  · left
    refine ⟨i, by omega, by simpa using h3, ?_, ?_⟩
    · intro j hj
      simpa using h4 j (Nat.zero_le _) hj
    · rw [lookupByteMapIndexInt, h5]; rfl
  · right
    refine ⟨?_, ?_⟩
    · intro j hj
      simpa using h1 j (Nat.zero_le _) (by omega)
    · rw [lookupByteMapIndexInt, h2]; rfl

theorem rdI_natCast {α : Type} (xs : List α) (i : Nat) : rdI xs (i : Int) = rd xs i := by
  simp [rdI]

theorem lookupByteMapValue_at {α : Type} (valuesMap : List α) (byteMap : List Nat)
    (len i b : Nat) (v : α) (hv : len ≤ valuesMap.length) (hb : len ≤ byteMap.length)
    (hi : i < len) (hbi : byteMap[i]? = some b) (hvi : valuesMap[i]? = some v)
    (hd : ∀ a, a < len → byteMap[a]? = some b → a = i) :
    lookupByteMapValue valuesMap byteMap len b = .ok v := by
  obtain ⟨u, hu, hdec⟩ := lookupByteMapValue_decodes valuesMap byteMap len b hv hb (by omega)
  rcases hdec with ⟨k, hk, hkb, _, hkv⟩ | ⟨hnone, _⟩
  · have := hd k hk hkb
    subst this
    rw [hu]; rw [hvi] at hkv; injection hkv with e; rw [e]
  · exact absurd hbi (hnone i hi)

/-- C7 (as stated, for a textual table): with the wire codes `0, 1` (pairwise distinct) and the
entries `"on", "ON"`, decoding the encoding of entry 1 gives entry 0, not entry 1. -/
theorem decodeEncodedStr_case_variants :
    (["on".toList, "ON".toList] : List CStr)[1]? = some "ON".toList ∧
      ([0, 1] : List Nat).Nodup ∧
      decodeEncodedStr ["on".toList, "ON".toList] [0, 1] 2 "ON".toList = .ok "on".toList ∧
      decodeEncodedStr ["on".toList, "ON".toList] [0, 1] 2 "ON".toList ≠ .ok "ON".toList := by
  decide

/-- C7 (amended): for a numeric table of length `lenI` whose wire codes are pairwise distinct,
and for a textual table of length `lenS` whose wire codes are pairwise distinct and whose
entries are pairwise distinct ignoring letter case, decoding the encoding of an entry gives
that entry back. -/
theorem decode_of_encode (valuesMapI : List Int) (byteMapI : List Nat) (lenI i : Nat)
    (valuesMapS : List CStr) (byteMapS : List Nat) (lenS k : Nat)
    (hvI : valuesMapI.length = lenI) (hbI : byteMapI.length = lenI) (hi : i < lenI)
    (hdI : ∀ a, a < lenI → ∀ b, b < lenI → byteMapI[a]? = byteMapI[b]? → a = b)
    (hvS : valuesMapS.length = lenS) (hbS : byteMapS.length = lenS) (hk : k < lenS)
    (hdS : ∀ a, a < lenS → ∀ b, b < lenS → byteMapS[a]? = byteMapS[b]? → a = b)
    (hcase : ∀ a, a < lenS → ∀ b, b < lenS →
      EqIgnoreCase (valuesMapS.getD a []) (valuesMapS.getD b []) → a = b) :
    (∃ v, valuesMapI[i]? = some v ∧ decodeEncodedInt valuesMapI byteMapI lenI v = .ok v) ∧
      (∃ v, valuesMapS[k]? = some v ∧ decodeEncodedStr valuesMapS byteMapS lenS v = .ok v) := by
  constructor
  · obtain ⟨v, hv⟩ := getElem?_lt_some valuesMapI i (by omega)
    refine ⟨v, hv, ?_⟩
    rcases lookupByteMapIndexInt_spec valuesMapI lenI v (by omega) with
      ⟨i0, h0, h1, _, h3⟩ | ⟨h1, _⟩
    · obtain ⟨b, hb⟩ := getElem?_lt_some byteMapI i0 (by omega)
      rw [decodeEncodedInt, h3]
      simp only [bind, Except.bind, rdI_natCast, rd_eq_ok _ _ _ hb]
      exact lookupByteMapValue_at valuesMapI byteMapI lenI i0 b v (by omega) (by omega) h0 hb h1
        (fun a ha hab => hdI a ha i0 h0 (by rw [hab, hb]))
    · exact absurd hv (h1 i hi)
  · obtain ⟨v, hv⟩ := getElem?_lt_some valuesMapS k (by omega)
    refine ⟨v, hv, ?_⟩
    rcases lookupByteMapIndexStr_spec valuesMapS lenS v (by omega) with
      ⟨i0, h0, ⟨u, hu, huv⟩, _, h3⟩ | ⟨h1, _⟩
    · have hik : i0 = k := hcase i0 h0 k hk (by simpa [List.getD, hu, hv] using huv)
      subst hik
      obtain ⟨b, hb⟩ := getElem?_lt_some byteMapS i0 (by omega)
      rw [decodeEncodedStr, h3]
      simp only [bind, Except.bind, rdI_natCast, rd_eq_ok _ _ _ hb]
      exact lookupByteMapValue_at valuesMapS byteMapS lenS i0 b v (by omega) (by omega) h0 hb hv
        (fun a ha hab => hdS a ha i0 h0 (by rw [hab, hb]))
    · exact absurd ⟨v, hv, rfl⟩ (h1 k hk)

theorem decode_of_encode_witness :
    (∃ v, cn105.TEMP_MAP[10]? = some v ∧
        decodeEncodedInt cn105.TEMP_MAP cn105.TEMP 16 v = .ok v) ∧
      (∃ v, cn105.MODE_MAP[3]? = some v ∧
        decodeEncodedStr cn105.MODE_MAP cn105.MODE 5 v = .ok v) :=
  decode_of_encode cn105.TEMP_MAP cn105.TEMP 16 10 cn105.MODE_MAP cn105.MODE 5 3
    (by decide) (by decide) (by decide) (by decide) (by decide) (by decide) (by decide)
    (by decide) (by decide)


theorem lookupByteMapIndexStr_congr (valuesMap : List CStr) (len : Nat) (s t : CStr)
    (h : EqIgnoreCase s t) :
    lookupByteMapIndexStr valuesMap len (some s) = lookupByteMapIndexStr valuesMap len (some t) := by
  have hcmp : ∀ v : CStr, (strcasecmp v s == 0) = (strcasecmp v t == 0) := by
    intro v
    have h1 := strcasecmp_eq_zero_iff v s
    have h2 := strcasecmp_eq_zero_iff v t
    have h3 : EqIgnoreCase v s ↔ EqIgnoreCase v t := by
      unfold EqIgnoreCase at *
      rw [h]
    by_cases hs : strcasecmp v s = 0
    · have := h2.mpr (h3.mp (h1.mp hs))
      simp [hs, this]
    · have : ¬ strcasecmp v t = 0 := fun ht => hs (h1.mpr (h3.mpr (h2.mp ht)))
      simp [hs, this]
  unfold lookupByteMapIndexStr
  simp only [hcmp]

theorem staged_of_index (valuesMap : List CStr) (len : Nat) (s : CStr)
    (h : len ≤ valuesMap.length) (hlen : 1 ≤ len) :
    ∃ v, Staged valuesMap len s v ∧
      ((∃ i : Nat, lookupByteMapIndexStr valuesMap len (some s) = .ok (i : Int) ∧
          rd valuesMap i = .ok v) ∨
        (lookupByteMapIndexStr valuesMap len (some s) = .ok (-1) ∧ rd valuesMap 0 = .ok v)) := by
  rcases lookupByteMapIndexStr_spec valuesMap len s h with ⟨i, h0, ⟨u, hu, hus⟩, h2, h3⟩ | ⟨h1, h2⟩
  · exact ⟨u, Or.inl ⟨i, h0, hu, hus, h2⟩, Or.inl ⟨i, h3, rd_eq_ok _ _ _ hu⟩⟩
  · obtain ⟨v, hv⟩ := getElem?_lt_some valuesMap 0 (by omega)
    exact ⟨v, Or.inr ⟨h1, hv⟩, Or.inr ⟨h2, rd_eq_ok _ _ _ hv⟩⟩

/-- C8: every textual setter stages, in its own field of `wantedSettings`, the first table
entry that equals the input ignoring letter case, or entry 0 of the table when no entry
matches; no other field of the driver changes; inputs that differ only in letter case stage
the same value. -/
theorem textual_setters_stage_table_entry (c : Consts) (hp : HeatPump) (s : CStr)
    (hpower : 2 ≤ c.POWER_MAP.length) (hmode : 5 ≤ c.MODE_MAP.length)
    (hfan : 6 ≤ c.FAN_MAP.length) (hvane : 7 ≤ c.VANE_MAP.length)
    (hwide : 7 ≤ c.WIDEVANE_MAP.length) :
    (∃ v, Staged c.POWER_MAP 2 s v ∧ setPowerSetting c s hp =
        .ok { hp with wantedSettings := { hp.wantedSettings with power := some v } }) ∧
    (∃ v, Staged c.MODE_MAP 5 s v ∧ setModeSetting c s hp =
        .ok { hp with wantedSettings := { hp.wantedSettings with mode := some v } }) ∧
    (∃ v, Staged c.FAN_MAP 6 s v ∧ setFanSpeed c s hp =
        .ok { hp with wantedSettings := { hp.wantedSettings with fan := some v } }) ∧
    (∃ v, Staged c.VANE_MAP 7 s v ∧ setVaneSetting c s hp =
        .ok { hp with wantedSettings := { hp.wantedSettings with vane := some v } }) ∧
    (∃ v, Staged c.WIDEVANE_MAP 7 s v ∧ setWideVaneSetting c s hp =
        .ok { hp with wantedSettings := { hp.wantedSettings with wideVane := some v } }) ∧
    (∀ t, EqIgnoreCase t s →
      setPowerSetting c t hp = setPowerSetting c s hp ∧
      setModeSetting c t hp = setModeSetting c s hp ∧
      setFanSpeed c t hp = setFanSpeed c s hp ∧
      setVaneSetting c t hp = setVaneSetting c s hp ∧
      setWideVaneSetting c t hp = setWideVaneSetting c s hp) := by
  refine ⟨?_, ?_, ?_, ?_, ?_, ?_⟩
  · obtain ⟨v, hst, hidx⟩ := staged_of_index c.POWER_MAP 2 s hpower (by omega)
    refine ⟨v, hst, ?_⟩
    rcases hidx with ⟨i, h1, h2⟩ | ⟨h1, h2⟩
    · have hnn : ¬ ((i : Int) < 0) := by omega
      simp [setPowerSetting, h1, hnn, rdI_natCast, h2, bind, Except.bind, pure, Except.pure]
    · have : rdI c.POWER_MAP 0 = .ok v := by simpa [rdI] using h2
      simp [setPowerSetting, h1, this, bind, Except.bind, pure, Except.pure]
  · obtain ⟨v, hst, hidx⟩ := staged_of_index c.MODE_MAP 5 s hmode (by omega)
    refine ⟨v, hst, ?_⟩
    rcases hidx with ⟨i, h1, h2⟩ | ⟨h1, h2⟩
    · have hnn : (i : Int) > -1 := by omega
      simp [setModeSetting, h1, hnn, rdI_natCast, h2, bind, Except.bind, pure, Except.pure]
    · simp [setModeSetting, h1, h2, bind, Except.bind, pure, Except.pure]
  · obtain ⟨v, hst, hidx⟩ := staged_of_index c.FAN_MAP 6 s hfan (by omega)
    refine ⟨v, hst, ?_⟩
    rcases hidx with ⟨i, h1, h2⟩ | ⟨h1, h2⟩
    · have hnn : (i : Int) > -1 := by omega
      simp [setFanSpeed, h1, hnn, rdI_natCast, h2, bind, Except.bind, pure, Except.pure]
    · simp [setFanSpeed, h1, h2, bind, Except.bind, pure, Except.pure]
  · obtain ⟨v, hst, hidx⟩ := staged_of_index c.VANE_MAP 7 s hvane (by omega)
    refine ⟨v, hst, ?_⟩
    rcases hidx with ⟨i, h1, h2⟩ | ⟨h1, h2⟩
    · have hnn : (i : Int) > -1 := by omega
      simp [setVaneSetting, h1, hnn, rdI_natCast, h2, bind, Except.bind, pure, Except.pure]
    · simp [setVaneSetting, h1, h2, bind, Except.bind, pure, Except.pure]
  · obtain ⟨v, hst, hidx⟩ := staged_of_index c.WIDEVANE_MAP 7 s hwide (by omega)
    refine ⟨v, hst, ?_⟩
    rcases hidx with ⟨i, h1, h2⟩ | ⟨h1, h2⟩
    · have hnn : (i : Int) > -1 := by omega
      simp [setWideVaneSetting, h1, hnn, rdI_natCast, h2, bind, Except.bind, pure, Except.pure]
    · simp [setWideVaneSetting, h1, h2, bind, Except.bind, pure, Except.pure]
  · intro t ht
    simp [setPowerSetting, setModeSetting, setFanSpeed, setVaneSetting, setWideVaneSetting,
      lookupByteMapIndexStr_congr _ _ t s ht]

theorem textual_setters_stage_table_entry_witness :
    (∃ v, Staged cn105.POWER_MAP 2 "on".toList v ∧
        setPowerSetting cn105 "on".toList (HeatPump.fresh cn105 0) =
        .ok { HeatPump.fresh cn105 0 with
              wantedSettings := { (HeatPump.fresh cn105 0).wantedSettings with power := some v } }) :=
  (textual_setters_stage_table_entry cn105 (HeatPump.fresh cn105 0) "on".toList
    (by decide) (by decide) (by decide) (by decide) (by decide)).1


/-! ## The set frame -/

theorem prepareSetPacket_eq (c : Consts) (packet : List Nat) (hc : SetFrameLayout c)
    (hlen : packet.length = 22) :
    ∃ h0 h1 h2 h3 h4 h5, c.HEADER = [h0, h1, h2, h3, h4, h5, 0, 0] ∧
      prepareSetPacket c packet 22 =
        .ok [h0, h1, h2, h3, h4, h5, 0, 0, 0, 0, 0, 0, 0, 0, 0, 0, 0, 0, 0, 0, 0, 0] := by
  obtain ⟨_, hHL, hH, h6, h7, _, _⟩ := hc
  match hm : c.HEADER, hH with
  | [h0, h1, h2, h3, h4, h5, h6', h7'], _ =>
    rw [hm] at h6 h7
    simp at h6 h7
    subst h6 h7
    refine ⟨h0, h1, h2, h3, h4, h5, rfl, ?_⟩
    simp [prepareSetPacket, memsetZero, hlen, hHL, copyLoop, rd, wr, bind, Except.bind, pure,
      Except.pure, List.replicate, hm]

example : SetFrameLayout cn105 ∧ TableSizes cn105 := by decide

theorem stage_eq (d : Bool) (look : Res Int) (table cp : List Nat) (k : Nat) (packet : List Nat)
    (pos cpos i b bit : Nat) (f : Nat → Nat) (hpos : pos < packet.length)
    (hcpos : cpos < packet.length)
    (henc : d = true → look = .ok (i : Int) ∧ rd table i = .ok b) (hcp : rd cp k = .ok bit) :
    (if d = true then
        (look >>= fun j => rdI table j >>= fun x => wr packet pos (f x) >>= fun p =>
          rd cp k >>= fun y => addAt p cpos y)
      else pure packet) =
      .ok (if d = true then
        (packet.set pos (f b)).set cpos (((packet.set pos (f b)).getD cpos 0 + bit) % 256)
        else packet) := by
  cases d with
  | false => simp [pure, Except.pure]
  | true =>
    obtain ⟨h1, h2⟩ := henc rfl
    have h3 : rd (packet.set pos (f b)) cpos = .ok ((packet.set pos (f b)).getD cpos 0) :=
      rd_getD _ _ (by simpa using hcpos)
    simp [h1, h2, hcp, rdI_natCast, wr, hpos, hcpos, addAt, h3, bind, Except.bind]

theorem encodeStr_ok (valuesMap : List CStr) (byteMap : List Nat) (len : Nat) (v : CStr)
    (hv : len ≤ valuesMap.length) (hb : len ≤ byteMap.length) (hin : InTable valuesMap len v) :
    ∃ (i b : Nat), lookupByteMapIndexStr valuesMap len (some v) = .ok (i : Int) ∧
      rd byteMap i = .ok b ∧ EncodesStr valuesMap byteMap len v b := by
  rcases lookupByteMapIndexStr_spec valuesMap len v hv with ⟨i, h0, h1, h2, h3⟩ | ⟨h1, _⟩
  · obtain ⟨b, hbi⟩ := getElem?_lt_some byteMap i (by omega)
    exact ⟨i, b, h3, rd_eq_ok _ _ _ hbi, i, h0, h1, h2, hbi⟩
  · obtain ⟨k, hk, hkv⟩ := hin
    exact absurd ⟨v, hkv, rfl⟩ (h1 k hk)

theorem encodeInt_ok (valuesMap : List Int) (byteMap : List Nat) (len : Nat) (v : Int)
    (hv : len ≤ valuesMap.length) (hb : len ≤ byteMap.length) (hin : InTable valuesMap len v) :
    ∃ (i b : Nat), lookupByteMapIndexInt valuesMap len v = .ok (i : Int) ∧
      rd byteMap i = .ok b ∧ EncodesInt valuesMap byteMap len v b := by
  rcases lookupByteMapIndexInt_spec valuesMap len v hv with ⟨i, h0, h1, h2, h3⟩ | ⟨h1, _⟩
  · obtain ⟨b, hbi⟩ := getElem?_lt_some byteMap i (by omega)
    exact ⟨i, b, h3, rd_eq_ok _ _ _ hbi, i, h0, h1, h2, hbi⟩
  · obtain ⟨k, hk, hkv⟩ := hin
    exact absurd hkv (h1 k hk)

theorem truncToInt_intCast (k : Int) : truncToInt (k : ℚ) = k := by
  simp [truncToInt]

theorem strField_encoding (valuesMap : List CStr) (byteMap : List Nat) (len : Nat)
    (w cur : Option CStr) (hv : len ≤ valuesMap.length) (hb : len ≤ byteMap.length)
    (h : w ≠ cur → ∃ v, w = some v ∧ InTable valuesMap len v) :
    ∃ (i b : Nat), ((w != cur) = true →
        lookupByteMapIndexStr valuesMap len w = .ok (i : Int) ∧ rd byteMap i = .ok b) ∧
      (w ≠ cur → ∃ v, w = some v ∧ EncodesStr valuesMap byteMap len v b) := by
  by_cases hd : w = cur
  · exact ⟨0, 0, by simp [hd], fun hne => absurd hd hne⟩
  · obtain ⟨v, hwv, hin⟩ := h hd
    obtain ⟨i, b, h1, h2, h3⟩ := encodeStr_ok valuesMap byteMap len v hv hb hin
    exact ⟨i, b, fun _ => ⟨by rw [hwv]; exact h1, h2⟩, fun _ => ⟨v, hwv, h3⟩⟩


theorem set_getD_self (xs : List Nat) (i : Nat) : xs.set i (xs.getD i 0) = xs := by
  apply List.ext_getElem?
  intro j
  by_cases hij : i = j
  · subst hij
    by_cases hi : i < xs.length
    · simp [List.getElem?_set, hi, List.getD, List.getElem?_eq_getElem hi]
    · simp [List.getElem?_set, hi, List.getElem?_eq_none (Nat.le_of_not_lt hi)]
  · simp [List.getElem?_set, hij]

theorem stage_eq_sets (d : Bool) (look : Res Int) (table cp : List Nat) (k : Nat)
    (packet : List Nat) (pos cpos i b bit : Nat) (f : Nat → Nat) (hpos : pos < packet.length)
    (hcpos : cpos < packet.length) (hne : pos ≠ cpos)
    (henc : d = true → look = .ok (i : Int) ∧ rd table i = .ok b) (hcp : rd cp k = .ok bit) :
    (if d = true then
        (look >>= fun j => rdI table j >>= fun x => wr packet pos (f x) >>= fun p =>
          rd cp k >>= fun y => addAt p cpos y)
      else pure packet) =
      .ok ((packet.set pos (if d = true then f b else packet.getD pos 0)).set cpos
        (if d = true then (packet.getD cpos 0 + bit) % 256 else packet.getD cpos 0)) := by
  rw [stage_eq d look table cp k packet pos cpos i b bit f hpos hcpos henc hcp]
  cases d with
  | false =>
    simp only [Bool.false_eq_true, if_false]
    rw [set_getD_self, set_getD_self]
  | true =>
    have : (packet.set pos (f b)).getD cpos 0 = packet.getD cpos 0 := by
      simp [List.getD, List.getElem?_set, hne]
    simp only [if_true, this]


theorem control_bits (d0 d1 d2 d3 d4 : Bool) :
    ∀ x0 x1 x2 x3 x4 : Nat,
      x0 = (if d0 = true then (0 + 1) % 256 else 0) →
      x1 = (if d1 = true then (x0 + 2) % 256 else x0) →
      x2 = (if d2 = true then (x1 + 4) % 256 else x1) →
      x3 = (if d3 = true then (x2 + 8) % 256 else x2) →
      x4 = (if d4 = true then (x3 + 16) % 256 else x3) →
      ((x4 &&& 1 ≠ 0 ↔ d0 = true) ∧ (x4 &&& 2 ≠ 0 ↔ d1 = true) ∧ (x4 &&& 4 ≠ 0 ↔ d2 = true) ∧
        (x4 &&& 8 ≠ 0 ↔ d3 = true) ∧ (x4 &&& 16 ≠ 0 ↔ d4 = true)) := by
  intro x0 x1 x2 x3 x4 h0 h1 h2 h3 h4
  subst h0 h1 h2 h3 h4
  cases d0 <;> cases d1 <;> cases d2 <;> cases d3 <;> cases d4 <;> decide

theorem checkSum_ok (xs : List Nat) (n : Nat) (h : n ≤ xs.length) :
    checkSum xs n = .ok (((0xfc : Int) - (((xs.take n).sum % 256 : Nat) : Int)) % 256).toNat := by
  rw [checkSum, checkSumLoop_eq xs n h]
  rfl

theorem fieldEncoded_intro (d : Bool) (differs : Prop) (bit control byte b : Nat)
    (enc : Nat → Prop) (hd : d = true ↔ differs) (hbit : control &&& bit ≠ 0 ↔ d = true)
    (hbyte : (if d = true then b else 0) = byte) (henc : differs → enc b) :
    FieldEncoded differs bit control byte enc := by
  refine ⟨hbit.trans hd, fun h => ?_, fun h => ?_⟩
  · rw [← hbyte, if_pos (hd.mpr h)]; exact henc h
  · rw [← hbyte, if_neg (fun h' => h (hd.mp h'))]

theorem createPacket_temperature_coarse (c : Consts) (hp : HeatPump) (wanted : heatpumpSettings)
    (p : List Nat) (i b : Nat) (htm : hp.tempMode = false) (hc : c.CONTROL_PACKET_1.length = 5)
    (h10 : 10 < p.length) (h6 : 6 < p.length)
    (henc : (wanted.temperature != hp.currentSettings.temperature) = true →
      lookupByteMapIndexInt c.TEMP_MAP 16 (truncToInt wanted.temperature) = .ok (i : Int) ∧
        rd c.TEMP i = .ok b) :
    createPacket_temperature c hp wanted p =
      .ok ((p.set 10 (if (wanted.temperature != hp.currentSettings.temperature) = true then b
          else p.getD 10 0)).set 6
        (if (wanted.temperature != hp.currentSettings.temperature) = true then
          (p.getD 6 0 + c.CONTROL_PACKET_1.getD 2 0) % 256 else p.getD 6 0)) := by
  rw [createPacket_temperature]
  simp only [htm, Bool.not_false, Bool.true_and, Bool.false_and, Bool.false_eq_true, if_false]
  exact stage_eq_sets (wanted.temperature != hp.currentSettings.temperature)
    (lookupByteMapIndexInt c.TEMP_MAP 16 (truncToInt wanted.temperature)) c.TEMP
    c.CONTROL_PACKET_1 2 p 10 6 i b _ (fun x => x) h10 h6 (by decide) henc
    (rd_getD _ _ (by omega))

/-- C3: in coarse temperature mode, when every field of `wanted` that differs from `current`
holds a table entry, `createPacket` produces a 22-byte frame in which the bit of each of
power, mode, temperature, fan, vane is set in `packet[6]` exactly when the field differs,
`packet[8 + k]` is the table code of the wanted value when the field differs and zero when it
does not, the wide-vane bit of `packet[7]` and the code in `packet[18]` (OR `0x80` when
`wideVaneAdj`) follow the same rule, and `packet[21]` is the checksum of bytes 0..20. -/
theorem createPacket_encodes_changed_fields (c : Consts) (hp : HeatPump)
    (wanted : heatpumpSettings) (packet : List Nat)
    (hc : SetFrameLayout c) (ht : TableSizes c) (hlen : packet.length = 22)
    (htm : hp.tempMode = false)
    (hpower : wanted.power ≠ hp.currentSettings.power →
      ∃ v, wanted.power = some v ∧ InTable c.POWER_MAP 2 v)
    (hmode : wanted.mode ≠ hp.currentSettings.mode →
      ∃ v, wanted.mode = some v ∧ InTable c.MODE_MAP 5 v)
    (htemp : wanted.temperature ≠ hp.currentSettings.temperature →
      ∃ k : Int, wanted.temperature = (k : ℚ) ∧ InTable c.TEMP_MAP 16 k)
    (hfan : wanted.fan ≠ hp.currentSettings.fan →
      ∃ v, wanted.fan = some v ∧ InTable c.FAN_MAP 6 v)
    (hvane : wanted.vane ≠ hp.currentSettings.vane →
      ∃ v, wanted.vane = some v ∧ InTable c.VANE_MAP 7 v)
    (hwide : wanted.wideVane ≠ hp.currentSettings.wideVane →
      ∃ v, wanted.wideVane = some v ∧ InTable c.WIDEVANE_MAP 7 v) :
    ∃ p, createPacket c hp packet wanted = .ok p ∧ p.length = 22 ∧
      FieldEncoded (wanted.power ≠ hp.currentSettings.power) 0x01 (p.getD 6 0) (p.getD 8 0)
        (fun b => ∃ v, wanted.power = some v ∧ EncodesStr c.POWER_MAP c.POWER 2 v b) ∧
      FieldEncoded (wanted.mode ≠ hp.currentSettings.mode) 0x02 (p.getD 6 0) (p.getD 9 0)
        (fun b => ∃ v, wanted.mode = some v ∧ EncodesStr c.MODE_MAP c.MODE 5 v b) ∧
      FieldEncoded (wanted.temperature ≠ hp.currentSettings.temperature) 0x04 (p.getD 6 0)
        (p.getD 10 0)
        (fun b => ∃ k : Int, wanted.temperature = (k : ℚ) ∧ EncodesInt c.TEMP_MAP c.TEMP 16 k b) ∧
      FieldEncoded (wanted.fan ≠ hp.currentSettings.fan) 0x08 (p.getD 6 0) (p.getD 11 0)
        (fun b => ∃ v, wanted.fan = some v ∧ EncodesStr c.FAN_MAP c.FAN 6 v b) ∧
      FieldEncoded (wanted.vane ≠ hp.currentSettings.vane) 0x10 (p.getD 6 0) (p.getD 12 0)
        (fun b => ∃ v, wanted.vane = some v ∧ EncodesStr c.VANE_MAP c.VANE 7 v b) ∧
      FieldEncoded (wanted.wideVane ≠ hp.currentSettings.wideVane) 0x01 (p.getD 7 0)
        (p.getD 18 0)
        (fun b => ∃ v code, wanted.wideVane = some v ∧
          EncodesStr c.WIDEVANE_MAP c.WIDEVANE 7 v code ∧
          b = code ||| (if hp.wideVaneAdj then 0x80 else 0x00)) ∧
      checkSum p 21 = .ok (p.getD 21 0) := by
  obtain ⟨h0, h1, h2, h3, h4, h5, hH, hprep⟩ := prepareSetPacket_eq c packet hc hlen
  obtain ⟨hPL, _, _, _, _, hcp1, hcp2⟩ := hc
  obtain ⟨t0, t1, t2, t3, t4, t5, t6, t7, t8, t9, t10, t11, _⟩ := ht
  obtain ⟨i0, b0, e0, s0⟩ := strField_encoding c.POWER_MAP c.POWER 2 wanted.power
    hp.currentSettings.power t1 t0 hpower
  obtain ⟨i1, b1, e1, s1⟩ := strField_encoding c.MODE_MAP c.MODE 5 wanted.mode
    hp.currentSettings.mode t3 t2 hmode
  obtain ⟨i3, b3, e3, s3⟩ := strField_encoding c.FAN_MAP c.FAN 6 wanted.fan
    hp.currentSettings.fan t7 t6 hfan
  obtain ⟨i4, b4, e4, s4⟩ := strField_encoding c.VANE_MAP c.VANE 7 wanted.vane
    hp.currentSettings.vane t9 t8 hvane
  obtain ⟨i5, b5, e5, s5⟩ := strField_encoding c.WIDEVANE_MAP c.WIDEVANE 7 wanted.wideVane
    hp.currentSettings.wideVane t11 t10 hwide
  have ⟨i2, b2, e2, s2⟩ : ∃ (i b : Nat),
      ((wanted.temperature != hp.currentSettings.temperature) = true →
        lookupByteMapIndexInt c.TEMP_MAP 16 (truncToInt wanted.temperature) = .ok (i : Int) ∧
          rd c.TEMP i = .ok b) ∧
      (wanted.temperature ≠ hp.currentSettings.temperature →
        ∃ k : Int, wanted.temperature = (k : ℚ) ∧ EncodesInt c.TEMP_MAP c.TEMP 16 k b) := by
    by_cases hd : wanted.temperature = hp.currentSettings.temperature
    · exact ⟨0, 0, by simp [hd], fun hne => absurd hd hne⟩
    · obtain ⟨k, hk, hin⟩ := htemp hd
      obtain ⟨i, b, q1, q2, q3⟩ := encodeInt_ok c.TEMP_MAP c.TEMP 16 k t5 t4 hin
      exact ⟨i, b, fun _ => ⟨by rw [hk, truncToInt_intCast]; exact q1, q2⟩, fun _ => ⟨k, hk, q3⟩⟩
  have st0 := fun (p : List Nat) (hp8 : 8 < p.length) (hp6 : 6 < p.length) =>
    stage_eq_sets (wanted.power != hp.currentSettings.power)
      (lookupByteMapIndexStr c.POWER_MAP 2 wanted.power) c.POWER c.CONTROL_PACKET_1 0
      p 8 6 i0 b0 1 (fun x => x) hp8 hp6 (by decide) e0 (by rw [hcp1]; rfl)
  have st1 := fun (p : List Nat) (hp8 : 9 < p.length) (hp6 : 6 < p.length) =>
    stage_eq_sets (wanted.mode != hp.currentSettings.mode)
      (lookupByteMapIndexStr c.MODE_MAP 5 wanted.mode) c.MODE c.CONTROL_PACKET_1 1
      p 9 6 i1 b1 2 (fun x => x) hp8 hp6 (by decide) e1 (by rw [hcp1]; rfl)
  have st2 := fun (p : List Nat) (hp8 : 10 < p.length) (hp6 : 6 < p.length) =>
    createPacket_temperature_coarse c hp wanted p i2 b2 htm (by rw [hcp1]; rfl) hp8 hp6 e2
  have st3 := fun (p : List Nat) (hp8 : 11 < p.length) (hp6 : 6 < p.length) =>
    stage_eq_sets (wanted.fan != hp.currentSettings.fan)
      (lookupByteMapIndexStr c.FAN_MAP 6 wanted.fan) c.FAN c.CONTROL_PACKET_1 3
      p 11 6 i3 b3 8 (fun x => x) hp8 hp6 (by decide) e3 (by rw [hcp1]; rfl)
  have st4 := fun (p : List Nat) (hp8 : 12 < p.length) (hp6 : 6 < p.length) =>
    stage_eq_sets (wanted.vane != hp.currentSettings.vane)
      (lookupByteMapIndexStr c.VANE_MAP 7 wanted.vane) c.VANE c.CONTROL_PACKET_1 4
      p 12 6 i4 b4 16 (fun x => x) hp8 hp6 (by decide) e4 (by rw [hcp1]; rfl)
  have st5 := fun (p : List Nat) (hp8 : 18 < p.length) (hp6 : 7 < p.length) =>
    stage_eq_sets (wanted.wideVane != hp.currentSettings.wideVane)
      (lookupByteMapIndexStr c.WIDEVANE_MAP 7 wanted.wideVane) c.WIDEVANE c.CONTROL_PACKET_2 0
      p 18 7 i5 b5 1 (fun x => x ||| (if hp.wideVaneAdj then 0x80 else 0x00)) hp8 hp6 (by decide)
      e5 (by rw [hcp2]; rfl)
  rw [createPacket, hPL, hprep]
  simp only [bind, Except.bind]
  rw [createPacket_power, st0 _ (by simp) (by simp)]
  simp only [List.set_cons_succ, List.set_cons_zero, List.getD_cons_succ, List.getD_cons_zero]
  generalize hx0 : (if (wanted.power != hp.currentSettings.power) = true then (0 + 1) % 256
    else 0) = x0
  generalize hv8 : (if (wanted.power != hp.currentSettings.power) = true then b0 else 0) = v8
  rw [createPacket_mode, st1 _ (by simp) (by simp)]
  simp only [List.set_cons_succ, List.set_cons_zero, List.getD_cons_succ, List.getD_cons_zero]
  generalize hx1 : (if (wanted.mode != hp.currentSettings.mode) = true then (x0 + 2) % 256
    else x0) = x1
  generalize hv9 : (if (wanted.mode != hp.currentSettings.mode) = true then b1 else 0) = v9
  rw [st2 _ (by simp) (by simp)]
  simp only [List.set_cons_succ, List.set_cons_zero, List.getD_cons_succ, List.getD_cons_zero,
    hcp1]
  generalize hx2 : (if (wanted.temperature != hp.currentSettings.temperature) = true then
    (x1 + 4) % 256 else x1) = x2
  generalize hv10 : (if (wanted.temperature != hp.currentSettings.temperature) = true then b2
    else 0) = v10
  rw [createPacket_fan, st3 _ (by simp) (by simp)]
  simp only [List.set_cons_succ, List.set_cons_zero, List.getD_cons_succ, List.getD_cons_zero]
  generalize hx3 : (if (wanted.fan != hp.currentSettings.fan) = true then (x2 + 8) % 256
    else x2) = x3
  generalize hv11 : (if (wanted.fan != hp.currentSettings.fan) = true then b3 else 0) = v11
  rw [createPacket_vane, st4 _ (by simp) (by simp)]
  simp only [List.set_cons_succ, List.set_cons_zero, List.getD_cons_succ, List.getD_cons_zero]
  generalize hx4 : (if (wanted.vane != hp.currentSettings.vane) = true then (x3 + 16) % 256
    else x3) = x4
  generalize hv12 : (if (wanted.vane != hp.currentSettings.vane) = true then b4 else 0) = v12
  rw [createPacket_wideVane, st5 _ (by simp) (by simp)]
  simp only [List.set_cons_succ, List.set_cons_zero, List.getD_cons_succ, List.getD_cons_zero]
  generalize hy : (if (wanted.wideVane != hp.currentSettings.wideVane) = true then (0 + 1) % 256
    else 0) = y
  generalize hv18 : (if (wanted.wideVane != hp.currentSettings.wideVane) = true then
    b5 ||| (if hp.wideVaneAdj then 0x80 else 0x00) else 0) = v18
  obtain ⟨q0, q1, q2, q3, q4⟩ := control_bits _ _ _ _ _ x0 x1 x2 x3 x4 hx0.symm hx1.symm hx2.symm
    hx3.symm hx4.symm
  have q5 : y &&& 1 ≠ 0 ↔ (wanted.wideVane != hp.currentSettings.wideVane) = true := by
    rw [← hy]
    cases (wanted.wideVane != hp.currentSettings.wideVane) <;> decide
  rw [checkSum_ok _ 21 (by simp)]
  generalize hcs : Int.toNat _ = cs
  have hwr : wr [h0, h1, h2, h3, h4, h5, x4, y, v8, v9, v10, v11, v12, 0, 0, 0, 0, 0, v18, 0, 0, 0]
      21 cs = .ok [h0, h1, h2, h3, h4, h5, x4, y, v8, v9, v10, v11, v12, 0, 0, 0, 0, 0, v18, 0, 0,
        cs] := by
    simp [wr]
  simp only [hwr]
  refine ⟨_, rfl, by simp, ?_, ?_, ?_, ?_, ?_, ?_, ?_⟩
  · exact fieldEncoded_intro _ _ _ _ _ b0 _ (by simp) q0 hv8 s0
  · exact fieldEncoded_intro _ _ _ _ _ b1 _ (by simp) q1 hv9 s1
  · exact fieldEncoded_intro _ _ _ _ _ b2 _ (by simp) q2 hv10 s2
  · exact fieldEncoded_intro _ _ _ _ _ b3 _ (by simp) q3 hv11 s3
  · exact fieldEncoded_intro _ _ _ _ _ b4 _ (by simp) q4 hv12 s4
  · refine fieldEncoded_intro _ _ _ _ _ (b5 ||| (if hp.wideVaneAdj then 0x80 else 0x00)) _
      (by simp) q5 hv18 (fun h => ?_)
    obtain ⟨v, hv, henc⟩ := s5 h
    exact ⟨v, b5, hv, henc, rfl⟩
  · rw [checkSum_ok _ 21 (by simp), ← hcs]
    simp


theorem createPacket_encodes_changed_fields_witness :
    (∃ p, createPacket cn105 (HeatPump.fresh cn105 0) (List.replicate 22 0) wantedOnHeat21 = .ok p ∧
      p.length = 22 ∧
      FieldEncoded (wantedOnHeat21.power ≠ (HeatPump.fresh cn105 0).currentSettings.power) 0x01
        (p.getD 6 0) (p.getD 8 0)
        (fun b => ∃ v, wantedOnHeat21.power = some v ∧ EncodesStr cn105.POWER_MAP cn105.POWER 2 v b) ∧
      FieldEncoded (wantedOnHeat21.mode ≠ (HeatPump.fresh cn105 0).currentSettings.mode) 0x02
        (p.getD 6 0) (p.getD 9 0)
        (fun b => ∃ v, wantedOnHeat21.mode = some v ∧ EncodesStr cn105.MODE_MAP cn105.MODE 5 v b) ∧
      FieldEncoded
        (wantedOnHeat21.temperature ≠ (HeatPump.fresh cn105 0).currentSettings.temperature) 0x04
        (p.getD 6 0) (p.getD 10 0)
        (fun b => ∃ k : Int, wantedOnHeat21.temperature = (k : ℚ) ∧
          EncodesInt cn105.TEMP_MAP cn105.TEMP 16 k b) ∧
      FieldEncoded (wantedOnHeat21.fan ≠ (HeatPump.fresh cn105 0).currentSettings.fan) 0x08
        (p.getD 6 0) (p.getD 11 0)
        (fun b => ∃ v, wantedOnHeat21.fan = some v ∧ EncodesStr cn105.FAN_MAP cn105.FAN 6 v b) ∧
      FieldEncoded (wantedOnHeat21.vane ≠ (HeatPump.fresh cn105 0).currentSettings.vane) 0x10
        (p.getD 6 0) (p.getD 12 0)
        (fun b => ∃ v, wantedOnHeat21.vane = some v ∧ EncodesStr cn105.VANE_MAP cn105.VANE 7 v b) ∧
      FieldEncoded (wantedOnHeat21.wideVane ≠ (HeatPump.fresh cn105 0).currentSettings.wideVane)
        0x01 (p.getD 7 0) (p.getD 18 0)
        (fun b => ∃ v code, wantedOnHeat21.wideVane = some v ∧
          EncodesStr cn105.WIDEVANE_MAP cn105.WIDEVANE 7 v code ∧
          b = code ||| (if (HeatPump.fresh cn105 0).wideVaneAdj then 0x80 else 0x00)) ∧
      checkSum p 21 = .ok (p.getD 21 0)) ∧
    createPacket cn105 (HeatPump.fresh cn105 0) (List.replicate 22 0) wantedOnHeat21 =
      .ok [0xfc, 0x41, 0x01, 0x30, 0x10, 0x01, 0x07, 0x00, 0x01, 0x01, 0x0a, 0, 0, 0, 0, 0, 0, 0,
        0, 0, 0, 0x6a] :=
  ⟨createPacket_encodes_changed_fields cn105 (HeatPump.fresh cn105 0) wantedOnHeat21
    (List.replicate 22 0) (by decide) (by decide) (by decide) rfl
    (fun _ => ⟨"ON".toList, rfl, 1, by decide, by decide⟩)
    (fun _ => ⟨"HEAT".toList, rfl, 0, by decide, by decide⟩)
    (fun _ => ⟨21, by simp [wantedOnHeat21], 10, by decide, by decide⟩)
    (fun h => absurd rfl h) (fun h => absurd rfl h) (fun h => absurd rfl h), by decide⟩


/-! ## Staging a temperature -/

theorem sub_half_num_den (m : Int) :
    ((m : ℚ) - 1 / 2).num = 2 * m - 1 ∧ ((m : ℚ) - 1 / 2).den = 2 := by
  have h : ((m : ℚ) - 1 / 2) = ((2 * m - 1 : Int) : ℚ) / ((2 : Int) : ℚ) := by
    push_cast; ring
  have hco : Nat.Coprime (2 * m - 1).natAbs (2 : Int).natAbs := by
    have : (2 : Int).natAbs = 2 := rfl
    rw [this, Nat.coprime_comm, Nat.Prime.coprime_iff_not_dvd Nat.prime_two]
    omega
  rw [h]
  exact ⟨Rat.num_div_eq_of_coprime (by decide) hco, by
    have := Rat.den_div_eq_of_coprime (a := 2 * m - 1) (b := 2) (by decide) hco
    exact_mod_cast this⟩

theorem truncToInt_sub_half_pos (m : Int) (h : 1 ≤ m) : truncToInt ((m : ℚ) - 1 / 2) = m - 1 := by
  obtain ⟨hn, hd⟩ := sub_half_num_den m
  rw [truncToInt, hn, hd, Int.tdiv_eq_ediv (by omega) (by decide)]
  omega

theorem truncToInt_sub_half_nonpos (m : Int) (h : m ≤ 0) : truncToInt ((m : ℚ) - 1 / 2) = m := by
  obtain ⟨hn, hd⟩ := sub_half_num_den m
  rw [truncToInt, hn, hd]
  have : (2 * m - 1 : Int) = -(1 - 2 * m) := by ring
  rw [this, Int.neg_tdiv, Int.tdiv_eq_ediv (by omega) (by decide)]
  omega

theorem setTemperature_coarse_accepts (c : Consts) (hp : HeatPump) (v : ℚ) (i : Nat)
    (htm : hp.tempMode = false)
    (hi : lookupByteMapIndexInt c.TEMP_MAP 16 (truncToInt (v + 1 / 2)) = .ok (i : Int)) :
    setTemperature c v hp =
      .ok { hp with wantedSettings := { hp.wantedSettings with temperature := v } } := by
  have hpos : (i : Int) > -1 := by omega
  unfold setTemperature
  simp only [htm, Bool.not_false, if_true]
  rw [hi]
  simp [hpos, bind, Except.bind, pure, Except.pure]

/-- C4 (the code departs from the claim): whatever the 16 entries of `TEMP_MAP` are, with `m`
the least of them, `setTemperature` in coarse mode accepts the value `m - 1/2` (or `m - 1` when
`m ≤ 0`) because it validates the rounded value `(int)(setting + 0.5)`, stages the value
itself, and `createPacket`'s lookup of the truncated staged value returns `-1`: the access
`TEMP[-1]` is outside the table. -/
theorem setTemperature_stages_value_outside_table (c : Consts) (hp : HeatPump) (m : Int)
    (packet : List Nat) (hlen : 16 ≤ c.TEMP_MAP.length) (htm : hp.tempMode = false)
    (hm : InTable c.TEMP_MAP 16 m)
    (hmin : ∀ i, i < 16 → ∀ x, c.TEMP_MAP[i]? = some x → m ≤ x)
    (hcur : hp.currentSettings.temperature = (m : ℚ)) :
    ∃ v : ℚ, v = (if m ≤ 0 then (m : ℚ) - 1 else (m : ℚ) - 1 / 2) ∧
      setTemperature c v hp =
        .ok { hp with wantedSettings := { hp.wantedSettings with temperature := v } } ∧
      lookupByteMapIndexInt c.TEMP_MAP 16 (truncToInt v) = .ok (-1) ∧
      createPacket_temperature c hp { hp.wantedSettings with temperature := v } packet =
        .error .bounds := by
  refine ⟨_, rfl, ?_⟩
  have hfound : ∃ i : Nat, lookupByteMapIndexInt c.TEMP_MAP 16 m = .ok (i : Int) := by
    rcases lookupByteMapIndexInt_spec c.TEMP_MAP 16 m hlen with ⟨i, _, _, _, h⟩ | ⟨h, _⟩
    · exact ⟨i, h⟩
    · obtain ⟨k, hk, hkm⟩ := hm
      exact absurd hkm (h k hk)
  have hmissing : lookupByteMapIndexInt c.TEMP_MAP 16 (m - 1) = .ok (-1) := by
    rcases lookupByteMapIndexInt_spec c.TEMP_MAP 16 (m - 1) hlen with ⟨i, hi, h, _, _⟩ | ⟨_, h⟩
    · have := hmin i hi (m - 1) h
      omega
    · exact h
  obtain ⟨i, hi⟩ := hfound
  have hpos : (i : Int) > -1 := by omega
  by_cases h0 : m ≤ 0
  · have e1 : ((m : ℚ) - 1 + 1 / 2) = (m : ℚ) - 1 / 2 := by ring
    have e2 : truncToInt ((m : ℚ) - 1) = m - 1 := by
      have : ((m : ℚ) - 1) = ((m - 1 : Int) : ℚ) := by push_cast; ring
      rw [this, truncToInt_intCast]
    have hne : ((m : ℚ) - 1 != (m : ℚ)) = true := by simp
    simp only [h0, if_true]
    refine ⟨?_, by rw [e2]; exact hmissing, ?_⟩
    · exact setTemperature_coarse_accepts c hp _ i htm
        (by rw [e1, truncToInt_sub_half_nonpos m h0]; exact hi)
    · simp only [createPacket_temperature, htm, hcur, hne, e2, hmissing, Bool.not_false,
        Bool.true_and, if_true, bind, Except.bind]
      rfl
  · have e1 : ((m : ℚ) - 1 / 2 + 1 / 2) = (m : ℚ) := by ring
    have e2 := truncToInt_sub_half_pos m (by omega)
    have hne : ((m : ℚ) - 1 / 2 != (m : ℚ)) = true := by simp
    simp only [h0, if_false]
    refine ⟨?_, by rw [e2]; exact hmissing, ?_⟩
    · exact setTemperature_coarse_accepts c hp _ i htm
        (by rw [e1, truncToInt_intCast]; exact hi)
    · simp only [createPacket_temperature, htm, hcur, hne, e2, hmissing, Bool.not_false,
        Bool.true_and, if_true, bind, Except.bind]
      rfl

theorem setTemperature_stages_value_outside_table_witness :
    ∃ v : ℚ, v = (if (16 : Int) ≤ 0 then ((16 : Int) : ℚ) - 1 else ((16 : Int) : ℚ) - 1 / 2) ∧
      setTemperature cn105 v
          { HeatPump.fresh cn105 0 with currentSettings :=
              { heatpumpSettings.empty with temperature := ((16 : Int) : ℚ) } } =
        .ok { HeatPump.fresh cn105 0 with
              currentSettings := { heatpumpSettings.empty with temperature := ((16 : Int) : ℚ) },
              wantedSettings := { heatpumpSettings.empty with temperature := v } } ∧
      lookupByteMapIndexInt cn105.TEMP_MAP 16 (truncToInt v) = .ok (-1) ∧
      createPacket_temperature cn105
          { HeatPump.fresh cn105 0 with currentSettings :=
              { heatpumpSettings.empty with temperature := ((16 : Int) : ℚ) } }
          { heatpumpSettings.empty with temperature := v } (List.replicate 22 0) =
        .error .bounds :=
  setTemperature_stages_value_outside_table cn105
    { HeatPump.fresh cn105 0 with currentSettings :=
        { heatpumpSettings.empty with temperature := ((16 : Int) : ℚ) } }
    16 (List.replicate 22 0) (by decide) rfl ⟨15, by decide, by decide⟩ (by decide) rfl


/-! ## Sending an update -/

theorem bind_eq_ok {α β : Type} (x : Res α) (f : α → Res β) (b : β) (h : (x >>= f) = .ok b) :
    ∃ a, x = .ok a ∧ f a = .ok b := by
  cases x with
  | error e => simp [bind, Except.bind] at h
  | ok a => exact ⟨a, rfl, h⟩

theorem wr_length {α : Type} (xs ys : List α) (i : Nat) (v : α) (h : wr xs i v = .ok ys) :
    ys.length = xs.length := by
  unfold wr at h
  split at h
  · cases h; simp
  · cases h

theorem addAt_length (xs ys : List Nat) (i v : Nat) (h : addAt xs i v = .ok ys) :
    ys.length = xs.length := by
  obtain ⟨_, _, h⟩ := bind_eq_ok _ _ _ h
  exact wr_length _ _ _ _ h

theorem copyLoop_length (src dst out : List Nat) (n : Nat) (h : copyLoop src dst n = .ok out) :
    out.length = dst.length := by
  induction n generalizing out with
  | zero => cases h; rfl
  | succ k ih =>
    obtain ⟨d, hd, h⟩ := bind_eq_ok _ _ _ h
    obtain ⟨_, _, h⟩ := bind_eq_ok _ _ _ h
    rw [wr_length _ _ _ _ h, ih d hd]

theorem prepareSetPacket_length (c : Consts) (packet out : List Nat) (n : Nat)
    (h : prepareSetPacket c packet n = .ok out) : out.length = packet.length := by
  obtain ⟨p, hp, h⟩ := bind_eq_ok _ _ _ h
  rw [copyLoop_length _ _ _ _ h]
  unfold memsetZero at hp
  split at hp
  · cases hp
    simp; omega
  · cases hp

theorem stage_length (d : Bool) (look : Res Int) (table cp : List Nat) (k : Nat)
    (packet out : List Nat) (pos cpos : Nat) (f : Nat → Nat)
    (h : (if d = true then
        (look >>= fun j => rdI table j >>= fun x => wr packet pos (f x) >>= fun p =>
          rd cp k >>= fun y => addAt p cpos y)
      else pure packet) = .ok out) :
    out.length = packet.length := by
  cases d with
  | false => cases h; rfl
  | true =>
    simp only [if_true] at h
    obtain ⟨_, _, h⟩ := bind_eq_ok _ _ _ h
    obtain ⟨_, _, h⟩ := bind_eq_ok _ _ _ h
    obtain ⟨p, hp, h⟩ := bind_eq_ok _ _ _ h
    obtain ⟨_, _, h⟩ := bind_eq_ok _ _ _ h
    rw [addAt_length _ _ _ _ h, wr_length _ _ _ _ hp]

theorem createPacket_temperature_length (c : Consts) (hp : HeatPump) (s : heatpumpSettings)
    (packet out : List Nat) (h : createPacket_temperature c hp s packet = .ok out) :
    out.length = packet.length := by
  unfold createPacket_temperature at h
  split at h
  · obtain ⟨_, _, h⟩ := bind_eq_ok _ _ _ h
    obtain ⟨_, _, h⟩ := bind_eq_ok _ _ _ h
    obtain ⟨p, hp, h⟩ := bind_eq_ok _ _ _ h
    obtain ⟨_, _, h⟩ := bind_eq_ok _ _ _ h
    rw [addAt_length _ _ _ _ h, wr_length _ _ _ _ hp]
  · split at h
    · obtain ⟨p, hp, h⟩ := bind_eq_ok _ _ _ h
      obtain ⟨_, _, h⟩ := bind_eq_ok _ _ _ h
      rw [addAt_length _ _ _ _ h, wr_length _ _ _ _ hp]
    · cases h; rfl

theorem createPacket_length (c : Consts) (hp : HeatPump) (s : heatpumpSettings)
    (packet out : List Nat) (h : createPacket c hp packet s = .ok out) :
    out.length = packet.length := by
  obtain ⟨p0, h0, h⟩ := bind_eq_ok _ _ _ h
  obtain ⟨p1, h1, h⟩ := bind_eq_ok _ _ _ h
  obtain ⟨p2, h2, h⟩ := bind_eq_ok _ _ _ h
  obtain ⟨p3, h3, h⟩ := bind_eq_ok _ _ _ h
  obtain ⟨p4, h4, h⟩ := bind_eq_ok _ _ _ h
  obtain ⟨p5, h5, h⟩ := bind_eq_ok _ _ _ h
  obtain ⟨p6, h6, h⟩ := bind_eq_ok _ _ _ h
  obtain ⟨_, _, h⟩ := bind_eq_ok _ _ _ h
  rw [wr_length _ _ _ _ h, stage_length _ _ _ _ _ _ _ _ _ _ h6, stage_length _ _ _ _ _ _ _ _ _ _ h5,
    stage_length _ _ _ _ _ _ _ _ _ _ h4, createPacket_temperature_length _ _ _ _ _ h3,
    stage_length _ _ _ _ _ _ _ _ _ _ h2, stage_length _ _ _ _ _ _ _ _ _ _ h1,
    prepareSetPacket_length _ _ _ _ h0]

theorem writeLoop_eq (packet : List Nat) (n : Nat) (h : n ≤ packet.length) :
    writeLoop packet n = .ok (packet.take n) := by
  induction n with
  | zero => rfl
  | succ k ih =>
    have hk : k < packet.length := h
    rw [writeLoop, ih (Nat.le_of_lt hk), rd_of_lt packet k hk]
    simp only [bind, Except.bind, pure, Except.pure]
    rw [List.take_succ, List.getElem?_eq_getElem hk]
    rfl

theorem createPacket_congr (c : Consts) (hp1 hp2 : HeatPump) (packet : List Nat)
    (s : heatpumpSettings) (h1 : hp1.currentSettings = hp2.currentSettings)
    (h2 : hp1.tempMode = hp2.tempMode) (h3 : hp1.wideVaneAdj = hp2.wideVaneAdj) :
    createPacket c hp1 packet s = createPacket c hp2 packet s := by
  simp only [createPacket, createPacket_power, createPacket_mode, createPacket_temperature,
    createPacket_fan, createPacket_vane, createPacket_wideVane, h1, h2, h3]


theorem ClockAt.now_eq {w : World} {now : Nat} (h : ClockAt w now) : w.now = now := by
  simpa [World.now] using h 0

theorem ClockAt.tick {w : World} {now : Nat} (h : ClockAt w now) : ClockAt w.tick now := by
  intro i
  have := h (1 + i)
  simpa [World.tick, Nat.add_assoc] using this

theorem ClockAt.emit {w : World} {now : Nat} (h : ClockAt w now) (e : Event) :
    ClockAt (w.emit e) now := h

theorem ClockAt.of_eq {w w1 : World} {now : Nat} (h : ClockAt w now) (hc : w1.clock = w.clock)
    (ht : w1.ticks = w.ticks) : ClockAt w1 now := by
  intro i
  rw [hc, ht]
  exact h i

theorem canSend_false_eq (c : Consts) (hp : HeatPump) (w : World) (now : Nat)
    (h : ClockAt w now) :
    (canSend c false hp w).1 = decide (UpdateDue c hp now) ∧
      ((canSend c false hp w).2 = w.tick ∨ (canSend c false hp w).2 = w.tick.tick) := by
  have h0 := h.now_eq
  have h1 := h.tick.now_eq
  unfold canSend UpdateDue
  simp only [h0, h1, Bool.false_eq_true, if_false]
  by_cases hA : usub now hp.lastSendUpdate > hp.packet_sent_delay_interval_ms
  · simp [hA]
  · simp [hA]

theorem update_due (c : Consts) (hp : HeatPump) (w : World) (now : Nat)
    (hPL : c.PACKET_LEN = 22) (hclock : ClockAt w now) (hdue : UpdateDue c hp now)
    (pkt : List Nat)
    (hpkt : createPacket c hp (List.replicate 22 0) hp.wantedSettings = .ok pkt) :
    ∃ hp1 w1, update c hp w = .ok (true, hp1, w1) ∧ w1.tx = w.tx ++ [pkt] ∧
      pkt.length = 22 ∧ hp1.currentSettings = hp.wantedSettings ∧
      hp1.wantedSettings = hp.wantedSettings ∧ hp1.updating = true ∧
      hp1.lastSendUpdate = now ∧ hp1.lastSend = now ∧ ClockAt w1 now ∧ w1.rx = w.rx ∧
      hp1.powerSettingUpdate = (hp.wantedSettings.power != hp.currentSettings.power) := by
  obtain ⟨hcs, hw⟩ := canSend_false_eq c hp w now hclock
  have hlen : pkt.length = 22 := by
    rw [createPacket_length _ _ _ _ _ hpkt]; simp
  have hwl : writeLoop pkt 22 = .ok pkt := by
    rw [writeLoop_eq pkt 22 (by omega), ← hlen, List.take_length]
  have hck : ClockAt (canSend c false hp w).2 now := by
    rcases hw with h | h <;> rw [h]
    · exact hclock.tick
    · exact hclock.tick.tick
  have hrx0 : (canSend c false hp w).2.rx = w.rx := by
    rcases hw with h | h <;> rw [h] <;> rfl
  generalize hcw : (canSend c false hp w).2 = w0 at hck hw hrx0
  have hcs' : (canSend c false hp w).1 = true := by rw [hcs]; simpa using hdue
  have hpk : ∀ ws cst fn ls lsu lr im psd psu au fr eu cn up oc sc stc pc rc,
      createPacket c (HeatPump.mk hp.currentSettings ws cst fn ls lsu lr im psd psu au fr
        hp.tempMode eu hp.wideVaneAdj cn up oc sc stc pc rc) (List.replicate 22 0)
        hp.wantedSettings = .ok pkt := by
    intros
    exact (createPacket_congr c _ hp _ _ rfl rfl rfl).trans hpkt
  have htx : w0.tx = w.tx := by
    rcases hw with h | h <;> rw [h] <;> rfl
  unfold update
  simp only [hcs', hcw, hPL, Bool.not_true, Bool.false_eq_true, if_false]
  by_cases hpw : (hp.wantedSettings.power != hp.currentSettings.power) = true
  · simp only [hpw, if_true, bind, Except.bind]
    rw [hpk]
    simp only [writePacket, hwl, bind, Except.bind, pure, Except.pure]
    by_cases hcb : hp.packetCallback = true
    · simp only [hcb, if_true]
      exact ⟨_, _, rfl, by simp [World.tick, World.emit, htx], hlen, rfl, rfl, rfl,
        ClockAt.now_eq (ClockAt.of_eq hck.tick rfl rfl),
        ClockAt.now_eq (ClockAt.of_eq hck rfl rfl), ClockAt.of_eq hck.tick.tick rfl rfl,
        by simp [World.tick, World.emit, hrx0], rfl⟩
    · simp only [hcb, if_false]
      exact ⟨_, _, rfl, by simp [World.tick, htx], hlen, rfl, rfl, rfl,
        ClockAt.now_eq (ClockAt.of_eq hck.tick rfl rfl),
        ClockAt.now_eq (ClockAt.of_eq hck rfl rfl), ClockAt.of_eq hck.tick.tick rfl rfl,
        by simp [World.tick, hrx0], rfl⟩
  · simp only [hpw, Bool.false_eq_true, if_false, bind, Except.bind]
    rw [hpk]
    simp only [writePacket, hwl, bind, Except.bind, pure, Except.pure]
    by_cases hcb : hp.packetCallback = true
    · simp only [hcb, if_true]
      exact ⟨_, _, rfl, by simp [World.tick, World.emit, htx], hlen, rfl, rfl, rfl,
        ClockAt.now_eq (ClockAt.of_eq hck.tick rfl rfl),
        ClockAt.now_eq (ClockAt.of_eq hck rfl rfl), ClockAt.of_eq hck.tick.tick rfl rfl,
        by simp [World.tick, World.emit, hrx0], rfl⟩
    · simp only [hcb, if_false]
      exact ⟨_, _, rfl, by simp [World.tick, htx], hlen, rfl, rfl, rfl,
        ClockAt.now_eq (ClockAt.of_eq hck.tick rfl rfl),
        ClockAt.now_eq (ClockAt.of_eq hck rfl rfl), ClockAt.of_eq hck.tick.tick rfl rfl,
        by simp [World.tick, hrx0], rfl⟩

theorem update_not_due (c : Consts) (hp : HeatPump) (w : World) (now : Nat)
    (hclock : ClockAt w now) (hdue : ¬ UpdateDue c hp now) :
    ∃ w1, update c hp w = .ok (false, hp, w1) ∧ w1.tx = w.tx ∧ w1.rx = w.rx ∧
      w1.log = w.log ∧ ClockAt w1 now := by
  obtain ⟨hcs, hw⟩ := canSend_false_eq c hp w now hclock
  have hcs' : (canSend c false hp w).1 = false := by rw [hcs]; simpa using hdue
  refine ⟨(canSend c false hp w).2, ?_, ?_⟩
  · unfold update
    simp [hcs', pure, Except.pure]
  · rcases hw with h | h <;> rw [h]
    · exact ⟨rfl, rfl, rfl, hclock.tick⟩
    · exact ⟨rfl, rfl, rfl, hclock.tick.tick⟩

/-- C9: at clock value `now`, `update()` sends exactly when both pacing conditions of
`canSend(false)` hold. Then it returns true, writes exactly one frame, the 22 bytes that
`createPacket(wantedSettings)` builds, and leaves `currentSettings = wantedSettings`,
`updating = true`, `lastSendUpdate = now`. Otherwise it returns false, writes nothing and leaves
the driver as it was. -/
theorem update_sends_when_due (c : Consts) (hp : HeatPump) (w : World) (now : Nat)
    (hPL : c.PACKET_LEN = 22) (hclock : ClockAt w now) :
    (UpdateDue c hp now →
      ∀ pkt, createPacket c hp (List.replicate 22 0) hp.wantedSettings = .ok pkt →
        ∃ hp1 w1, update c hp w = .ok (true, hp1, w1) ∧ w1.tx = w.tx ++ [pkt] ∧
          pkt.length = 22 ∧ hp1.currentSettings = hp.wantedSettings ∧
          hp1.wantedSettings = hp.wantedSettings ∧ hp1.updating = true ∧
          hp1.lastSendUpdate = now) ∧
    (¬ UpdateDue c hp now →
      ∃ w1, update c hp w = .ok (false, hp, w1) ∧ w1.tx = w.tx ∧ w1.rx = w.rx ∧
        w1.log = w.log) := by
  constructor
  · intro hdue pkt hpkt
    obtain ⟨hp1, w1, h1, h2, h3, h4, h5, h6, h7, _⟩ := update_due c hp w now hPL hclock hdue pkt hpkt
    exact ⟨hp1, w1, h1, h2, h3, h4, h5, h6, h7⟩
  · intro hdue
    obtain ⟨w1, h1, h2, h3, h4, _⟩ := update_not_due c hp w now hclock hdue
    exact ⟨w1, h1, h2, h3, h4⟩

theorem update_sends_when_due_witness :
    ∃ hp1 w1,
      update cn105 { HeatPump.fresh cn105 0 with wantedSettings := wantedOnHeat21 }
          (World.still 5000 []) = .ok (true, hp1, w1) ∧
        w1.tx = (World.still 5000 []).tx ++
          [[0xfc, 0x41, 0x01, 0x30, 0x10, 0x01, 0x07, 0x00, 0x01, 0x01, 0x0a, 0, 0, 0, 0, 0, 0,
            0, 0, 0, 0, 0x6a]] ∧
        ([0xfc, 0x41, 0x01, 0x30, 0x10, 0x01, 0x07, 0x00, 0x01, 0x01, 0x0a, 0, 0, 0, 0, 0, 0,
            0, 0, 0, 0, 0x6a] : List Nat).length = 22 ∧
        hp1.currentSettings = wantedOnHeat21 ∧ hp1.wantedSettings = wantedOnHeat21 ∧
        hp1.updating = true ∧ hp1.lastSendUpdate = 5000 :=
  (update_sends_when_due cn105 { HeatPump.fresh cn105 0 with wantedSettings := wantedOnHeat21 }
    (World.still 5000 []) 5000 rfl (fun _ => rfl)).1 (by decide) _ (by decide)


/-! ## Receiving a frame -/

theorem wr_append_zero (pre : List Nat) (n ch : Nat) (hn : 1 ≤ n) :
    wr (pre ++ List.replicate n 0) pre.length ch =
      .ok ((pre ++ [ch]) ++ List.replicate (n - 1) 0) := by
  obtain ⟨k, rfl⟩ : ∃ k, n = k + 1 := ⟨n - 1, by omega⟩
  simp [wr, List.replicate_succ]

theorem recvLoop_data (c : Consts) (st L : Nat) (H : List Nat) (hL : L ≤ 21) :
    ∀ (todo pre : List Nat) (n fuel : Nat) (w : World) (rest : List Nat),
      todo ≠ [] → pre.length + todo.length = L + 1 → todo.length ≤ n → todo.length ≤ fuel →
      w.rx = todo ++ rest →
      FrameOutcome
        (recvLoop c st fuel ⟨H, pre ++ List.replicate n 0, L, 5 + pre.length, false⟩ w)
        ⟨H, pre ++ todo ++ List.replicate (n - todo.length) 0, L, (L + 6) % 256, true⟩
        { w with ticks := w.ticks + todo.length, rx := rest }
        (∀ i, i < todo.length →
          usub (w.clock (w.ticks + i) % 2 ^ 32) st < c.PACKET_RESPONSE_WAIT_TIME) := by
  intro todo
  induction todo with
  | nil => intro pre n fuel w rest h; exact absurd rfl h
  | cons ch todo ih =>
    intro pre n fuel w rest _ hlen hn hfuel hrx
    obtain ⟨fuel, rfl⟩ : ∃ k, fuel = k + 1 := ⟨fuel - 1, by simp at hfuel; omega⟩
    simp only [List.length_cons] at hlen hn hfuel
    by_cases hdl : usub w.now st < c.PACKET_RESPONSE_WAIT_TIME
    · have hrx1 : w.tick.rx = ch :: (todo ++ rest) := by simpa [World.tick] using hrx
      have hwr := wr_append_zero pre n ch (by omega)
      have hlen4 : ¬ (5 + pre.length < 4 ∧ 5 + pre.length ≠ 1) := by omega
      have hne4 : ¬ (5 + pre.length = 4) := by omega
      have hle4 : ¬ (5 + pre.length ≤ 4) := by omega
      by_cases hlast : todo = []
      · subst hlast
        have hend0 : 5 + pre.length = L + 5 := by simp at hlen; omega
        have hend : (5 + pre.length = L + 5) = True := by simp; omega
        refine ⟨false, ⟨H, (pre ++ [ch]) ++ List.replicate (n - 1) 0, L,
          (5 + pre.length + 1) % 256, true⟩, { w.tick with rx := [] ++ rest }, ?_, ?_, ?_⟩
        · rw [recvLoop]
          simp only [hdl, if_true, hrx1, hlen4, hne4, hle4, if_false, pure, Except.pure, bind,
            Except.bind, Bool.false_eq_true, Nat.add_sub_cancel_left, hwr, hend]
        · intro _ _
          constructor
          · simp; omega
          · simp [World.tick]
        · intro _; exact ⟨rfl, rfl⟩
      · have hend : ¬ (5 + pre.length = L + 5) := by
          have : todo.length ≠ 0 := fun h => hlast (List.length_eq_zero.mp h)
          omega
        have hmod : (5 + pre.length + 1) % 256 = 5 + (pre ++ [ch]).length := by
          simp; omega
        have hstep : recvLoop c st (fuel + 1)
            ⟨H, pre ++ List.replicate n 0, L, 5 + pre.length, false⟩ w =
            recvLoop c st fuel
              ⟨H, (pre ++ [ch]) ++ List.replicate (n - 1) 0, L, 5 + (pre ++ [ch]).length, false⟩
              { w.tick with rx := todo ++ rest } := by
          rw [recvLoop]
          simp only [hdl, if_true, hrx1, hlen4, hne4, hle4, if_false, pure, Except.pure, bind,
            Except.bind, Bool.false_eq_true, Nat.add_sub_cancel_left, hwr, hend, hmod]
        obtain ⟨failed, r, w1, h1, h2, h3⟩ := ih (pre ++ [ch]) (n - 1) fuel
          { w.tick with rx := todo ++ rest } rest hlast (by simp; omega) (by omega) (by omega) rfl
        refine ⟨failed, r, w1, by rw [hstep]; exact h1, ?_, ?_⟩
        · intro hf hs
          obtain ⟨e1, e2⟩ := h2 hf hs
          refine ⟨?_, ?_⟩
          · rw [e1]
            have : n - 1 - todo.length = n - (todo.length + 1) := by omega
            simp [this]
          · rw [e2]
            simp [World.tick, Nat.add_assoc, Nat.add_comm 1]
        · intro hgood
          apply h3
          intro i hi
          have := hgood (i + 1) (by simp; omega)
          simpa [World.tick, Nat.add_assoc, Nat.add_comm 1] using this
    · refine ⟨false, ⟨H, pre ++ List.replicate n 0, L, 5 + pre.length, false⟩, w.tick, ?_, ?_, ?_⟩
      · rw [recvLoop]
        simp only [hdl, if_false, pure, Except.pure]
      · intro _ h; cases h
      · intro hgood
        exact absurd (by simpa [World.now] using hgood 0 (by simp)) hdl


theorem FrameOutcome.mono {res : Res (Bool × RecvBuf × World)} {final : RecvBuf}
    {wfinal : World} {good good1 : Prop} (h : FrameOutcome res final wfinal good)
    (himp : good1 → good) : FrameOutcome res final wfinal good1 := by
  obtain ⟨failed, r, w1, h1, h2, h3⟩ := h
  exact ⟨failed, r, w1, h1, h2, fun g => h3 (himp g)⟩

theorem recvLoop_header_step (c : Consts) (st fuel : Nat) (r : RecvBuf) (w : World) (ch : Nat)
    (rx1 : List Nat) (final : RecvBuf) (wfinal : World) (good : Prop) (k : Nat) (H1 : List Nat)
    (hk : r.len = k) (hk4 : k < 4) (hdl0 : r.dataLength = 0) (hrs : r.receiveSuccess = false)
    (hrx : w.rx = ch :: rx1) (hhd : ∃ v, rd c.HEADER k = .ok v) (hwr : wr r.header k ch = .ok H1)
    (hnext : FrameOutcome (recvLoop c st fuel ⟨H1, r.data, 0, k + 1, false⟩
      { w.tick with rx := rx1 }) final wfinal good) :
    FrameOutcome (recvLoop c st (fuel + 1) r w) final wfinal
      (usub w.now st < c.PACKET_RESPONSE_WAIT_TIME ∧ (k ≠ 1 → rd c.HEADER k = .ok ch) ∧ good) := by
  obtain ⟨r_header, r_data, r_dl, r_len, r_rs⟩ := r
  simp only at hk hdl0 hrs hwr hnext
  subst hk hdl0 hrs
  have hrx1 : w.tick.rx = ch :: rx1 := by simpa [World.tick] using hrx
  have hmod : (r_len + 1) % 256 = r_len + 1 := by omega
  have hle : r_len ≤ 4 := by omega
  have hne4 : ¬ r_len = 4 := by omega
  have hend : ¬ r_len = 0 + 5 := by omega
  by_cases hdl : usub w.now st < c.PACKET_RESPONSE_WAIT_TIME
  · by_cases h1 : r_len = 1
    · have hc : ¬ (r_len < 4 ∧ r_len ≠ 1) := by omega
      have hstep : recvLoop c st (fuel + 1) ⟨r_header, r_data, 0, r_len, false⟩ w =
          recvLoop c st fuel ⟨H1, r_data, 0, r_len + 1, false⟩ { w.tick with rx := rx1 } := by
        rw [recvLoop]
        simp only [hdl, if_true, hrx1, hc, hne4, hle, hend, if_false, pure, Except.pure, bind,
          Except.bind, Bool.false_eq_true, hwr, hmod]
      rw [hstep]
      exact hnext.mono (fun g => g.2.2)
    · obtain ⟨v, hv⟩ := hhd
      have hc : (r_len < 4 ∧ r_len ≠ 1) := ⟨hk4, h1⟩
      by_cases hm : ch = v
      · subst hm
        have hstep : recvLoop c st (fuel + 1) ⟨r_header, r_data, 0, r_len, false⟩ w =
            recvLoop c st fuel ⟨H1, r_data, 0, r_len + 1, false⟩ { w.tick with rx := rx1 } := by
          rw [recvLoop]
          have hne5 : ¬ r_len = 5 := by omega
          simp [hdl, hrx1, hk4, h1, hne4, hne5, hle, pure, Except.pure, bind, Except.bind, hwr,
            hmod, hv]
        rw [hstep]
        exact hnext.mono (fun g => g.2.2)
      · refine ⟨true, ⟨r_header, r_data, 0, r_len, false⟩,
          World.flush { w.tick with rx := rx1 }, ?_, ?_, ?_⟩
        · have hb : (ch != v) = true := by simpa using hm
          rw [recvLoop]
          simp [hdl, hrx1, hk4, h1, pure, Except.pure, bind, Except.bind, hv, hb, hm]
        · intro h; cases h
        · intro g
          have := g.2.1 h1
          rw [hv] at this
          cases this
          exact absurd rfl hm
  · refine ⟨false, ⟨r_header, r_data, 0, r_len, false⟩, w.tick, ?_, ?_, ?_⟩
    · rw [recvLoop]
      simp only [hdl, if_false, pure, Except.pure]
    · intro _ h; cases h
    · intro g; exact absurd g.1 hdl

theorem recvLoop_length_step (c : Consts) (st fuel : Nat) (r : RecvBuf) (w : World) (L : Nat)
    (rx1 : List Nat) (final : RecvBuf) (wfinal : World) (good : Prop) (H1 : List Nat)
    (hk : r.len = 4) (hrs : r.receiveSuccess = false)
    (hrx : w.rx = L :: rx1) (hwr : wr r.header 4 L = .ok H1)
    (hnext : FrameOutcome (recvLoop c st fuel ⟨H1, r.data, L, 5, false⟩
      { w.tick with rx := rx1 }) final wfinal good) :
    FrameOutcome (recvLoop c st (fuel + 1) r w) final wfinal
      (usub w.now st < c.PACKET_RESPONSE_WAIT_TIME ∧ good) := by
  obtain ⟨r_header, r_data, r_dl, r_len, r_rs⟩ := r
  simp only at hk hrs hwr hnext
  subst hk hrs
  have hrx1 : w.tick.rx = L :: rx1 := by simpa [World.tick] using hrx
  have hend : ¬ 4 = L + 5 := by omega
  by_cases hdl : usub w.now st < c.PACKET_RESPONSE_WAIT_TIME
  · have hstep : recvLoop c st (fuel + 1) ⟨r_header, r_data, r_dl, 4, false⟩ w =
        recvLoop c st fuel ⟨H1, r_data, L, 5, false⟩ { w.tick with rx := rx1 } := by
      rw [recvLoop]
      simp [hdl, hrx1, hend, pure, Except.pure, bind, Except.bind, hwr]
    rw [hstep]
    exact hnext.mono (fun g => g.2)
  · refine ⟨false, ⟨r_header, r_data, r_dl, 4, false⟩, w.tick, ?_, ?_, ?_⟩
    · rw [recvLoop]
      simp only [hdl, if_false, pure, Except.pure]
    · intro _ h; cases h
    · intro g; exact absurd g.1 hdl


theorem recvLoop_frame (c : Consts) (hc : RecvLayout c) (st a0 a1 a2 a3 L : Nat)
    (body rest : List Nat) (hbody : body.length = L + 1) (hL : L ≤ 21) (fuel : Nat)
    (hfuel : L + 6 ≤ fuel) (w : World)
    (hrx : w.rx = a0 :: a1 :: a2 :: a3 :: L :: (body ++ rest)) :
    FrameOutcome
      (recvLoop c st fuel ⟨List.replicate 5 0, List.replicate 22 0, 0, 0, false⟩ w)
      ⟨[a0, a1, a2, a3, L], body ++ List.replicate (22 - (L + 1)) 0, L, (L + 6) % 256, true⟩
      { w with ticks := w.ticks + (L + 6), rx := rest }
      ((∀ i, i < L + 6 →
          usub (w.clock (w.ticks + i) % 2 ^ 32) st < c.PACKET_RESPONSE_WAIT_TIME) ∧
        rd c.HEADER 0 = .ok a0 ∧ rd c.HEADER 2 = .ok a2 ∧ rd c.HEADER 3 = .ok a3) := by
  obtain ⟨f, rfl⟩ : ∃ f, fuel = f + 5 := ⟨fuel - 5, by omega⟩
  obtain ⟨_, _, hH⟩ := hc
  have hhd : ∀ k, k < 4 → ∃ v, rd c.HEADER k = .ok v := fun k hk =>
    ⟨_, rd_of_lt c.HEADER k (by omega)⟩
  have hne : body ≠ [] := by
    intro h; rw [h] at hbody; simp at hbody
  let w1 : World := { w.tick with rx := a1 :: a2 :: a3 :: L :: (body ++ rest) }
  let w2 : World := { w1.tick with rx := a2 :: a3 :: L :: (body ++ rest) }
  let w3 : World := { w2.tick with rx := a3 :: L :: (body ++ rest) }
  let w4 : World := { w3.tick with rx := L :: (body ++ rest) }
  let w5 : World := { w4.tick with rx := body ++ rest }
  have hD := recvLoop_data c st L [a0, a1, a2, a3, L] hL body [] 22 f w5 rest hne
    (by simp [hbody]) (by omega) (by omega) rfl
  have e : ({ w5 with ticks := w5.ticks + body.length, rx := rest } : World) =
      { w with ticks := w.ticks + (L + 6), rx := rest } := by
    simp only [w5, w4, w3, w2, w1, World.tick, hbody, World.mk.injEq, and_true, true_and]
    omega
  rw [e, hbody] at hD
  simp only [List.nil_append, List.length_nil, Nat.add_zero] at hD
  have h4 := recvLoop_length_step c st f ⟨[a0, a1, a2, a3, 0], List.replicate 22 0, 0, 4, false⟩
    w4 L (body ++ rest) _ _ _ [a0, a1, a2, a3, L] rfl rfl rfl (by simp [wr]) hD
  have h3 := recvLoop_header_step c st (f + 1)
    ⟨[a0, a1, a2, 0, 0], List.replicate 22 0, 0, 3, false⟩ w3 a3 (L :: (body ++ rest)) _ _ _ 3
    [a0, a1, a2, a3, 0] rfl (by omega) rfl rfl rfl (hhd 3 (by omega)) (by simp [wr]) h4
  have h2 := recvLoop_header_step c st (f + 2)
    ⟨[a0, a1, 0, 0, 0], List.replicate 22 0, 0, 2, false⟩ w2 a2 (a3 :: L :: (body ++ rest)) _ _ _
    2 [a0, a1, a2, 0, 0] rfl (by omega) rfl rfl rfl (hhd 2 (by omega)) (by simp [wr]) h3
  have h1 := recvLoop_header_step c st (f + 3)
    ⟨[a0, 0, 0, 0, 0], List.replicate 22 0, 0, 1, false⟩ w1 a1
    (a2 :: a3 :: L :: (body ++ rest)) _ _ _
    1 [a0, a1, 0, 0, 0] rfl (by omega) rfl rfl rfl (hhd 1 (by omega)) (by simp [wr]) h2
  have h0 := recvLoop_header_step c st (f + 4)
    ⟨List.replicate 5 0, List.replicate 22 0, 0, 0, false⟩ w a0
    (a1 :: a2 :: a3 :: L :: (body ++ rest)) _ _ _
    0 [a0, 0, 0, 0, 0] rfl (by omega) rfl rfl hrx (hhd 0 (by omega)) (by simp [wr]) h1
  refine h0.mono ?_
  rintro ⟨hclk, g0, g2, g3⟩
  have hc0 := hclk 0 (by omega)
  have hc1 := hclk 1 (by omega)
  have hc2 := hclk 2 (by omega)
  have hc3 := hclk 3 (by omega)
  have hc4 := hclk 4 (by omega)
  refine ⟨by simpa [World.now] using hc0, fun _ => g0, by simpa [World.now, w1, World.tick] using hc1,
    fun h => absurd rfl h, by simpa [World.now, w1, w2, World.tick] using hc2, fun _ => g2,
    by simpa [World.now, w1, w2, w3, World.tick] using hc3, fun _ => g3,
    by simpa [World.now, w1, w2, w3, w4, World.tick] using hc4, ?_⟩
  intro i hi
  have := hclk (i + 5) (by omega)
  simpa [w1, w2, w3, w4, w5, World.tick, Nat.add_assoc, Nat.add_comm 5] using this


theorem recvCheckSum_eq (h payload tail : List Nat) (hh : h.length = 5) :
    recvCheckSum h (payload ++ tail) 5 payload.length =
      .ok (((0xfc : Int) - ((h.sum + payload.sum : Nat) : Int)) % 256).toNat := by
  rw [recvCheckSum, dataSumLoop_eq h 0 5 (by omega)]
  simp only [bind, Except.bind]
  rw [dataSumLoop_eq _ _ _ (by simp)]
  simp only [pure, Except.pure, List.take_left', ← hh, List.take_length]
  congr 2
  push_cast
  omega

theorem readPacket_frame (c : Consts) (hc : RecvLayout c) (hp : HeatPump) (wait : Bool)
    (fuel : Nat) (w : World) (a0 a1 a2 a3 L : Nat) (payload : List Nat) (cs : Nat)
    (rest : List Nat) (hpl : payload.length = L) (hL : L ≤ 21) (hfuel : L + 6 ≤ fuel)
    (hrx : w.rx = a0 :: a1 :: a2 :: a3 :: L :: (payload ++ [cs] ++ rest)) :
    ((∃ w1, readPacket c fuel wait hp w = .ok (c.RCVD_PKT_FAIL, hp, w1)) ∨
      (recvCheckSum [a0, a1, a2, a3, L] (payload ++ [cs]) 5 L = .ok cs ∧
        readPacket c fuel wait hp w =
          readPacket_accept c hp
            (World.flush { w with ticks := w.ticks + 1 + (L + 6), rx := rest })
            [a0, a1, a2, a3, L] (payload ++ [cs] ++ List.replicate (22 - (L + 1)) 0) L)) ∧
    (((∀ i, i < L + 6 →
          usub (w.clock (w.ticks + 1 + i) % 2 ^ 32) w.now < c.PACKET_RESPONSE_WAIT_TIME) ∧
        rd c.HEADER 0 = .ok a0 ∧ rd c.HEADER 2 = .ok a2 ∧ rd c.HEADER 3 = .ok a3) →
      recvCheckSum [a0, a1, a2, a3, L] (payload ++ [cs]) 5 L = .ok cs →
      readPacket c fuel wait hp w =
        readPacket_accept c hp
          (World.flush { w with ticks := w.ticks + 1 + (L + 6), rx := rest })
          [a0, a1, a2, a3, L] (payload ++ [cs] ++ List.replicate (22 - (L + 1)) 0) L) := by
  subst hpl
  have hc' := hc
  obtain ⟨hPL, hIH, _⟩ := hc'
  obtain ⟨failed, r, w1, h1, h2, h3⟩ := recvLoop_frame c hc w.now a0 a1 a2 a3 payload.length (payload ++ [cs])
    rest (by simp) hL fuel hfuel w.tick (by simpa [World.tick] using hrx)
  have hav : 0 < w.tick.rx.length ∨ wait = true := Or.inl (by simp [World.tick, hrx])
  have hrd : rd (payload ++ [cs] ++ List.replicate (22 - (payload.length + 1)) 0) payload.length = .ok cs := by
    rw [rd_eq_ok]
    rw [List.append_assoc, List.getElem?_append_right (by omega)]
    simp
  have hsum : ∀ tail, recvCheckSum [a0, a1, a2, a3, payload.length] (payload ++ tail) 5 payload.length =
      recvCheckSum [a0, a1, a2, a3, payload.length] (payload ++ [cs]) 5 payload.length := by
    intro tail
    rw [recvCheckSum_eq [a0, a1, a2, a3, payload.length] _ _ rfl, recvCheckSum_eq [a0, a1, a2, a3, payload.length] _ _ rfl]
  have hrun : readPacket c fuel wait hp w =
      (if failed = true then pure (c.RCVD_PKT_FAIL, hp, w1)
       else if (!r.receiveSuccess) = true then pure (c.RCVD_PKT_FAIL, hp, w1.flush)
       else do
        let checksum ← recvCheckSum r.header r.data c.INFOHEADER_LEN r.dataLength
        if (← rd r.data r.dataLength) = checksum then
          readPacket_accept c hp w1.flush r.header r.data r.dataLength
        else pure (c.RCVD_PKT_FAIL, hp, w1.flush)) := by
    unfold readPacket
    simp only [hav, if_true, hPL, hIH, h1, bind, Except.bind]
  have hfinal : failed = false → r.receiveSuccess = true →
      readPacket c fuel wait hp w =
        (if cs = (((0xfc : Int) - ((([a0, a1, a2, a3, payload.length] : List Nat).sum + payload.sum : Nat)
            : Int)) % 256).toNat then
          readPacket_accept c hp
            (World.flush { w with ticks := w.ticks + 1 + (payload.length + 6), rx := rest })
            [a0, a1, a2, a3, payload.length] (payload ++ [cs] ++ List.replicate (22 - (payload.length + 1)) 0) payload.length
        else pure (c.RCVD_PKT_FAIL, hp,
          World.flush { w with ticks := w.ticks + 1 + (payload.length + 6), rx := rest })) := by
    intro hf hs
    obtain ⟨e1, e2⟩ := h2 hf hs
    rw [hrun, e1, e2]
    simp only [hf, Bool.false_eq_true, if_false, Bool.not_true, hIH]
    rw [List.append_assoc, hsum, ← List.append_assoc, hrd, recvCheckSum_eq [a0, a1, a2, a3, payload.length] _ _ rfl]
    simp only [bind, Except.bind, World.tick]
  have hcs : recvCheckSum [a0, a1, a2, a3, payload.length] (payload ++ [cs]) 5 payload.length = .ok cs ↔
      cs = (((0xfc : Int) - ((([a0, a1, a2, a3, payload.length] : List Nat).sum + payload.sum : Nat)
            : Int)) % 256).toNat := by
    rw [recvCheckSum_eq [a0, a1, a2, a3, payload.length] _ _ rfl]
    constructor
    · intro h; injection h with h; exact h.symm
    · intro h; rw [← h]
  constructor
  · by_cases hf : failed = true
    · left; exact ⟨w1, by rw [hrun]; simp [hf, pure, Except.pure]⟩
    · by_cases hs : r.receiveSuccess = true
      · have hf' : failed = false := by simpa using hf
        by_cases hm : cs = (((0xfc : Int) - ((([a0, a1, a2, a3, payload.length] : List Nat).sum +
            payload.sum : Nat) : Int)) % 256).toNat
        · right
          refine ⟨hcs.mpr hm, ?_⟩
          rw [hfinal hf' hs, if_pos hm]
        · left
          exact ⟨_, by rw [hfinal hf' hs, if_neg hm]; rfl⟩
      · left
        exact ⟨w1.flush, by rw [hrun]; simp [hf, hs, pure, Except.pure]⟩
  · intro hgood hok
    obtain ⟨hf, hs⟩ := h3 (by
      refine ⟨fun i hi => ?_, hgood.2⟩
      simpa [World.tick] using hgood.1 i hi)
    rw [hfinal hf hs, if_pos (hcs.mp hok)]


/-- C2: a frame `h ++ payload ++ [cs]` passes the checksum test of `readPacket`; when one
payload byte `x` is replaced by a different byte `b`, `readPacket` returns `RCVD_PKT_FAIL` and
hands back the driver unchanged (`currentSettings`, `wantedSettings`, `currentStatus`,
`functions`, `connected`, `updating`, `lastRecv` and every other member). -/
theorem mutated_payload_rejected (c : Consts) (hc : RecvLayout c) (hp : HeatPump) (wait : Bool)
    (fuel : Nat) (w : World) (h pre post : List Nat) (x b cs : Nat) (rest : List Nat)
    (hh : h.length = 5) (hL : (pre ++ x :: post).length = h.getD 4 0) (hfit : h.getD 4 0 ≤ 21)
    (hpass : recvCheckSum h ((pre ++ x :: post) ++ [cs]) 5 (h.getD 4 0) = .ok cs)
    (hx : x < 256) (hb : b < 256) (hne : b ≠ x) (hfuel : h.getD 4 0 + 6 ≤ fuel)
    (hrx : w.rx = h ++ ((pre ++ b :: post) ++ [cs] ++ rest)) :
    ∃ w1, readPacket c fuel wait hp w = .ok (c.RCVD_PKT_FAIL, hp, w1) := by
  match h, hh with
  | [a0, a1, a2, a3, L], _ =>
    simp only [List.getD_cons_succ, List.getD_cons_zero] at hL hfit hpass hfuel
    have hL' : (pre ++ b :: post).length = L := by
      rw [← hL]; simp
    rcases (readPacket_frame c hc hp wait fuel w a0 a1 a2 a3 L (pre ++ b :: post) cs rest hL'
      hfit hfuel (by simpa using hrx)).1 with hfail | ⟨hok, _⟩
    · exact hfail
    · exfalso
      rw [← hL, recvCheckSum_eq [a0, a1, a2, a3, (pre ++ x :: post).length] _ _ rfl] at hpass
      rw [← hL', recvCheckSum_eq [a0, a1, a2, a3, (pre ++ b :: post).length] _ _ rfl] at hok
      injection hpass with hpass
      injection hok with hok
      rw [← hok] at hpass
      simp only [List.sum_append, List.sum_cons, List.length_append, List.length_cons,
        List.sum_nil] at hpass
      push_cast at hpass
      omega

theorem mutated_payload_rejected_witness :
    ∃ w1, readPacket cn105 8 false (HeatPump.fresh cn105 0)
        (World.still 5000 ([0xfc, 0x61, 0x01, 0x30, 0x02] ++ (([] ++ 0x07 :: [0x00]) ++ [0x66] ++ [])))
      = .ok (cn105.RCVD_PKT_FAIL, HeatPump.fresh cn105 0, w1) :=
  mutated_payload_rejected cn105 (by decide) (HeatPump.fresh cn105 0) false 8
    (World.still 5000 ([0xfc, 0x61, 0x01, 0x30, 0x02] ++ (([] ++ 0x07 :: [0x00]) ++ [0x66] ++ [])))
    [0xfc, 0x61, 0x01, 0x30, 0x02] [] [0x00] 0x06 0x07 0x66 [] (by decide) (by decide)
    (by decide) (by decide) (by decide) (by decide) (by decide) (by decide) rfl


/-! ## Decoding a settings frame -/

theorem readPacket_settings_ok (c : Consts) (ht : TableSizes c) (hp : HeatPump) (w : World)
    (data : List Nat) (hlen : data.length = 22) :
    ∃ hp1 w1 vp vm vf vv vw,
      readPacket_settings c hp w data = .ok (c.RCVD_PKT_SETTINGS, hp1, w1) ∧
      Decodes c.POWER_MAP c.POWER 2 (data.getD 3 0) vp ∧
      Decodes c.MODE_MAP c.MODE 5
        (if data.getD 4 0 > 0x08 then data.getD 4 0 - 0x08 else data.getD 4 0) vm ∧
      Decodes c.FAN_MAP c.FAN 6 (data.getD 6 0) vf ∧
      Decodes c.VANE_MAP c.VANE 7 (data.getD 7 0) vv ∧
      Decodes c.WIDEVANE_MAP c.WIDEVANE 7 (data.getD 10 0 &&& 0x0F) vw ∧
      hp1.currentSettings.power = some vp ∧ hp1.currentSettings.mode = some vm ∧
      hp1.currentSettings.fan = some vf ∧ hp1.currentSettings.vane = some vv ∧
      hp1.currentSettings.wideVane = some vw ∧
      hp1.currentSettings.iSee = decide (data.getD 4 0 > 0x08) ∧
      hp1.wantedSettings = hp1.currentSettings := by
  obtain ⟨t0, t1, t2, t3, t4, t5, t6, t7, t8, t9, t10, t11, _⟩ := ht
  have hrd : ∀ i, i < 22 → rd data i = .ok (data.getD i 0) := fun i hi =>
    rd_getD data i (by omega)
  obtain ⟨vp, hvp, dp⟩ := lookupByteMapValue_decodes c.POWER_MAP c.POWER 2 (data.getD 3 0) t1 t0
    (by omega)
  obtain ⟨vm, hvm, dm⟩ := lookupByteMapValue_decodes c.MODE_MAP c.MODE 5
    (if data.getD 4 0 > 0x08 then data.getD 4 0 - 0x08 else data.getD 4 0) t3 t2 (by omega)
  obtain ⟨vt, hvt, _⟩ := lookupByteMapValue_decodes c.TEMP_MAP c.TEMP 16 (data.getD 5 0) t5 t4
    (by omega)
  obtain ⟨vf, hvf, df⟩ := lookupByteMapValue_decodes c.FAN_MAP c.FAN 6 (data.getD 6 0) t7 t6
    (by omega)
  obtain ⟨vv, hvv, dv⟩ := lookupByteMapValue_decodes c.VANE_MAP c.VANE 7 (data.getD 7 0) t9 t8
    (by omega)
  obtain ⟨vw, hvw, dw⟩ := lookupByteMapValue_decodes c.WIDEVANE_MAP c.WIDEVANE 7
    (data.getD 10 0 &&& 0x0F) t11 t10 (by omega)
  have hm : lookupByteMapValue c.MODE_MAP c.MODE 5
      (if decide (data.getD 4 0 > 0x08) = true then data.getD 4 0 - 0x08 else data.getD 4 0)
      = .ok vm := by
    rw [← hvm]; congr 1; simp
  unfold readPacket_settings
  simp only [hrd 3 (by omega), hrd 4 (by omega), hrd 5 (by omega), hrd 6 (by omega),
    hrd 7 (by omega), hrd 10 (by omega), hrd 11 (by omega), bind, Except.bind, hvp, hm]
  by_cases h11 : (data.getD 11 0 != 0) = true
  · simp only [h11, if_true, pure, Except.pure, hvf, hvv, hvw]
    split <;> exact ⟨_, _, vp, vm, vf, vv, vw, rfl, dp, dm, df, dv, dw, rfl, rfl, rfl, rfl,
      rfl, rfl, rfl⟩
  · simp only [h11, Bool.false_eq_true, if_false, pure, Except.pure, hvt, hvf, hvv, hvw]
    split <;> exact ⟨_, _, vp, vm, vf, vv, vw, rfl, dp, dm, df, dv, dw, rfl, rfl, rfl, rfl,
      rfl, rfl, rfl⟩


theorem copyLoop_ok (src dst : List Nat) (n : Nat) (h1 : n ≤ src.length) (h2 : n ≤ dst.length) :
    ∃ out, copyLoop src dst n = .ok out := by
  induction n with
  | zero => exact ⟨dst, rfl⟩
  | succ k ih =>
    obtain ⟨d, hd⟩ := ih (by omega) (by omega)
    have hl := copyLoop_length _ _ _ _ hd
    rw [copyLoop, hd]
    simp only [bind, Except.bind, rd_of_lt src k (by omega), wr]
    rw [if_pos (by omega)]
    exact ⟨_, rfl⟩

theorem copyDataLoop_ok (data packet : List Nat) (n : Nat) (h1 : n ≤ data.length)
    (h2 : n + 5 ≤ packet.length) :
    ∃ out, copyDataLoop data packet n = .ok out ∧ out.length = packet.length := by
  induction n with
  | zero => exact ⟨packet, rfl, rfl⟩
  | succ k ih =>
    obtain ⟨d, hd, hl⟩ := ih (by omega) (by omega)
    rw [copyDataLoop, hd]
    simp only [bind, Except.bind, rd_of_lt data k (by omega), wr]
    rw [if_pos (by omega)]
    exact ⟨_, rfl, by simp [hl]⟩

theorem getD_append_zeros (xs : List Nat) (n i : Nat) :
    (xs ++ List.replicate n 0).getD i 0 = xs.getD i 0 := by
  induction xs generalizing i with
  | nil =>
    by_cases h : i < n
    · simp [List.getElem?_replicate, h]
    · simp [List.getElem?_replicate, h]
  | cons x xs ih =>
    cases i with
    | zero => rfl
    | succ j => simpa using ih j

theorem readPacket_accept_eq (c : Consts) (hc : RecvLayout c) (hp : HeatPump) (W : World)
    (a0 a1 a2 a3 L : Nat) (data : List Nat) (hlen : data.length = 22) (hL : L ≤ 21) :
    ∃ w1, w1.tx = W.tx ∧ w1.rx = W.rx ∧
      readPacket_accept c hp W [a0, a1, a2, a3, L] data L =
        (do
          let r ← if a1 = 0x62 then
              readPacket_switch c { hp with lastRecv := W.now } w1 data L
            else pure none
          match r with
          | some res => pure res
          | none =>
            if a1 = 0x61 then
              pure (c.RCVD_PKT_UPDATE_SUCCESS,
                { { hp with lastRecv := W.now } with updating := false }, w1)
            else if a1 = 0x7a then
              pure (1, { { hp with lastRecv := W.now } with connected := true }, w1)
            else
              pure (c.RCVD_PKT_FAIL, { hp with lastRecv := W.now }, w1)) := by
  obtain ⟨_, hIH, _⟩ := hc
  have h1 : rd [a0, a1, a2, a3, L] 1 = .ok a1 := rfl
  by_cases hcb : hp.packetCallback = true
  · obtain ⟨p1, hp1⟩ := copyLoop_ok [a0, a1, a2, a3, L] (List.replicate 37 0) 5 (by simp)
      (by simp)
    have hl1 := copyLoop_length _ _ _ _ hp1
    obtain ⟨p2, hp2, _⟩ := copyDataLoop_ok data p1 (L + 1) (by omega) (by rw [hl1]; simp; omega)
    refine ⟨W.tick.emit (.packet p2 c.PACKET_LEN "packetRecv"), rfl, rfl, ?_⟩
    unfold readPacket_accept
    simp only [hcb, if_true, hIH, hp1, hp2, h1, bind, Except.bind, pure, Except.pure]
  · refine ⟨W.tick, rfl, rfl, ?_⟩
    unfold readPacket_accept
    simp only [hcb, Bool.false_eq_true, if_false, h1, bind, Except.bind, pure, Except.pure]

/-- C5: a checksum-valid settings frame (category `0x62`, `payload[0] = 0x02`) that arrives
within the wait window is decoded: `readPacket` returns `RCVD_PKT_SETTINGS`, and each of
`currentSettings.power`, `mode`, `fan`, `vane`, `wideVane` is the table entry paired with the
wire code read from `data[3]`, `data[4]` (minus `0x08` when above `0x08`, which sets `iSee`),
`data[6]`, `data[7]`, `data[10] & 0x0F`, and entry 0 of the table when the code is not in it.
Here `data` is the payload followed by the checksum byte. -/
theorem settings_frame_decodes_to_table_entries (c : Consts) (hc : RecvLayout c)
    (ht : TableSizes c) (hp : HeatPump) (wait : Bool) (fuel : Nat) (w : World)
    (a0 a2 a3 L : Nat) (payload : List Nat) (cs : Nat) (rest : List Nat)
    (hpl : (0x02 :: payload).length = L) (hL : L ≤ 21) (hfuel : L + 6 ≤ fuel)
    (hrx : w.rx = [a0, 0x62, a2, a3, L] ++ ((0x02 :: payload) ++ [cs] ++ rest))
    (hsum : recvCheckSum [a0, 0x62, a2, a3, L] ((0x02 :: payload) ++ [cs]) 5 L = .ok cs)
    (hmagic : rd c.HEADER 0 = .ok a0 ∧ rd c.HEADER 2 = .ok a2 ∧ rd c.HEADER 3 = .ok a3)
    (hclock : ∀ i, i < L + 6 →
      usub (w.clock (w.ticks + 1 + i) % 2 ^ 32) w.now < c.PACKET_RESPONSE_WAIT_TIME) :
    ∃ hp1 w1 vp vm vf vv vw,
      readPacket c fuel wait hp w = .ok (c.RCVD_PKT_SETTINGS, hp1, w1) ∧
      Decodes c.POWER_MAP c.POWER 2 (((0x02 :: payload) ++ [cs]).getD 3 0) vp ∧
      Decodes c.MODE_MAP c.MODE 5
        (if ((0x02 :: payload) ++ [cs]).getD 4 0 > 0x08
          then ((0x02 :: payload) ++ [cs]).getD 4 0 - 0x08
          else ((0x02 :: payload) ++ [cs]).getD 4 0) vm ∧
      Decodes c.FAN_MAP c.FAN 6 (((0x02 :: payload) ++ [cs]).getD 6 0) vf ∧
      Decodes c.VANE_MAP c.VANE 7 (((0x02 :: payload) ++ [cs]).getD 7 0) vv ∧
      Decodes c.WIDEVANE_MAP c.WIDEVANE 7 (((0x02 :: payload) ++ [cs]).getD 10 0 &&& 0x0F) vw ∧
      hp1.currentSettings.power = some vp ∧ hp1.currentSettings.mode = some vm ∧
      hp1.currentSettings.fan = some vf ∧ hp1.currentSettings.vane = some vv ∧
      hp1.currentSettings.wideVane = some vw ∧
      hp1.currentSettings.iSee = decide (((0x02 :: payload) ++ [cs]).getD 4 0 > 0x08) := by
  have hrun := (readPacket_frame c hc hp wait fuel w a0 0x62 a2 a3 L (0x02 :: payload) cs rest
    hpl hL hfuel (by simpa using hrx)).2 ⟨hclock, hmagic⟩ hsum
  have hdl : ((0x02 :: payload) ++ [cs] ++ List.replicate (22 - (L + 1)) 0).length = 22 := by
    simp only [List.length_append, List.length_replicate, hpl, List.length_singleton]
    omega
  have hget : ∀ i, ((0x02 :: payload) ++ [cs] ++ List.replicate (22 - (L + 1)) 0).getD i 0 =
      ((0x02 :: payload) ++ [cs]).getD i 0 := fun i => getD_append_zeros _ _ i
  obtain ⟨w0, _, _, hacc⟩ := readPacket_accept_eq c hc hp
    (World.flush { w with ticks := w.ticks + 1 + (L + 6), rx := rest }) a0 0x62 a2 a3 L
    ((0x02 :: payload) ++ [cs] ++ List.replicate (22 - (L + 1)) 0) hdl hL
  obtain ⟨hp1, w1, vp, vm, vf, vv, vw, hdec, d1, d2, d3, d4, d5, e1, e2, e3, e4, e5, e6, _⟩ :=
    readPacket_settings_ok c ht
      { hp with lastRecv := (World.flush { w with ticks := w.ticks + 1 + (L + 6),
                                                  rx := rest }).now }
      w0 ((0x02 :: payload) ++ [cs] ++ List.replicate (22 - (L + 1)) 0) hdl
  have hsw : readPacket_switch c
      { hp with lastRecv := (World.flush { w with ticks := w.ticks + 1 + (L + 6),
                                                  rx := rest }).now }
      w0 ((0x02 :: payload) ++ [cs] ++ List.replicate (22 - (L + 1)) 0) L =
      .ok (some (c.RCVD_PKT_SETTINGS, hp1, w1)) := by
    unfold readPacket_switch
    have h0 : rd ((0x02 :: payload) ++ [cs] ++ List.replicate (22 - (L + 1)) 0) 0 = .ok 0x02 := by
      simp [rd]
    simp only [h0, bind, Except.bind, if_true, hdec, Functor.map, Except.map]
  simp only [hget] at d1 d2 d3 d4 d5 e6
  refine ⟨hp1, w1, vp, vm, vf, vv, vw, ?_, d1, d2, d3, d4, d5, e1, e2, e3, e4, e5, e6⟩
  rw [hrun, hacc]
  simp only [if_true, hsw, bind, Except.bind, pure, Except.pure]


theorem settings_frame_decodes_to_table_entries_witness :
    ∃ hp1 w1 vp vm vf vv vw,
      readPacket cn105 22 false (HeatPump.fresh cn105 0)
        (World.still 5000 ([0xfc, 0x62, 0x01, 0x30, 16] ++
          ((0x02 :: sampleSettingsPayload) ++ [0x3b] ++ []))) =
        .ok (cn105.RCVD_PKT_SETTINGS, hp1, w1) ∧
      Decodes cn105.POWER_MAP cn105.POWER 2 (((0x02 :: sampleSettingsPayload) ++ [0x3b]).getD 3 0)
        vp ∧
      Decodes cn105.MODE_MAP cn105.MODE 5
        (if ((0x02 :: sampleSettingsPayload) ++ [0x3b]).getD 4 0 > 0x08
          then ((0x02 :: sampleSettingsPayload) ++ [0x3b]).getD 4 0 - 0x08
          else ((0x02 :: sampleSettingsPayload) ++ [0x3b]).getD 4 0) vm ∧
      Decodes cn105.FAN_MAP cn105.FAN 6 (((0x02 :: sampleSettingsPayload) ++ [0x3b]).getD 6 0) vf ∧
      Decodes cn105.VANE_MAP cn105.VANE 7 (((0x02 :: sampleSettingsPayload) ++ [0x3b]).getD 7 0)
        vv ∧
      Decodes cn105.WIDEVANE_MAP cn105.WIDEVANE 7
        (((0x02 :: sampleSettingsPayload) ++ [0x3b]).getD 10 0 &&& 0x0F) vw ∧
      hp1.currentSettings.power = some vp ∧ hp1.currentSettings.mode = some vm ∧
      hp1.currentSettings.fan = some vf ∧ hp1.currentSettings.vane = some vv ∧
      hp1.currentSettings.wideVane = some vw ∧
      hp1.currentSettings.iSee =
        decide (((0x02 :: sampleSettingsPayload) ++ [0x3b]).getD 4 0 > 0x08) :=
  settings_frame_decodes_to_table_entries cn105 (by decide) (by decide) (HeatPump.fresh cn105 0)
    false 22 _ 0xfc 0x01 0x30 16 sampleSettingsPayload 0x3b [] (by decide) (by decide)
    (by decide) rfl (by decide) (by decide) (fun _ _ => by
      show usub (5000 % 2 ^ 32) (5000 % 2 ^ 32) < 1000
      decide)


/-! ## One tick of `sync` -/

theorem readPacket_idle (c : Consts) (fuel : Nat) (hp : HeatPump) (w : World) (h : w.rx = []) :
    readPacket c fuel false hp w = .ok (c.RCVD_PKT_FAIL, hp, w.tick) := by
  unfold readPacket
  simp [World.tick, h, pure, Except.pure]

theorem padLoop_ok (packet : List Nat) (n : Nat) (h : n + 6 ≤ packet.length) :
    ∃ out, padLoop packet n = .ok out ∧ out.length = packet.length := by
  induction n with
  | zero => exact ⟨packet, rfl, rfl⟩
  | succ k ih =>
    obtain ⟨d, hd, hl⟩ := ih (by omega)
    rw [padLoop, hd]
    simp only [bind, Except.bind, wr]
    rw [if_pos (by omega)]
    exact ⟨_, rfl, by simp [hl]⟩

theorem createInfoPacket_ok (c : Consts) (hc : InfoLayout c) (hp : HeatPump) (packet : List Nat)
    (hlen : packet.length = 22) (hmode : 0 ≤ hp.infoMode ∧ hp.infoMode < c.INFOMODE_LEN) :
    ∃ pkt hp1, createInfoPacket c hp packet c.PACKET_TYPE_DEFAULT = .ok (pkt, hp1) ∧
      pkt.length = 22 ∧ hp1.packetCallback = hp.packetCallback := by
  obtain ⟨_, hIH, hIL, hIM⟩ := hc
  obtain ⟨p1, hp1⟩ := copyLoop_ok c.INFOHEADER packet 5 (by omega) (by omega)
  have hl1 : p1.length = 22 := by rw [copyLoop_length _ _ _ _ hp1, hlen]
  obtain ⟨k, hk⟩ : ∃ k : Nat, hp.infoMode = (k : Int) := ⟨hp.infoMode.toNat, by omega⟩
  have hkl : k < c.INFOMODE.length := by omega
  have hrd : rdI c.INFOMODE hp.infoMode = .ok (c.INFOMODE.get ⟨k, hkl⟩) := by
    rw [hk, rdI_natCast, rd_of_lt]
  have hw5 : wr p1 5 (c.INFOMODE.get ⟨k, hkl⟩) = .ok (p1.set 5 (c.INFOMODE.get ⟨k, hkl⟩)) := by
    simp [wr, hl1]
  obtain ⟨p3, hp3, hl3⟩ := padLoop_ok (p1.set 5 (c.INFOMODE.get ⟨k, hkl⟩)) 15 (by simp [hl1])
  have hl3' : p3.length = 22 := by rw [hl3]; simp [hl1]
  have hcs := checkSum_ok p3 21 (by omega)
  unfold createInfoPacket
  simp only [hIH, hp1, bne_self_eq_false, Bool.false_eq_true, if_false, hrd, hw5, bind,
    Except.bind, pure, Except.pure]
  split <;> simp only [hp3, hcs, wr, hl3'] <;> exact ⟨_, _, rfl, by simp [hl3'], rfl⟩


theorem canSend_world (c : Consts) (isInfo : Bool) (hp : HeatPump) (w : World) :
    (canSend c isInfo hp w).2.tx = w.tx ∧ (canSend c isInfo hp w).2.rx = w.rx := by
  unfold canSend
  split_ifs <;> exact ⟨rfl, rfl⟩

theorem usub_self (now : Nat) (h : now < 2 ^ 32) : usub now now = 0 := by
  unfold usub
  rw [Nat.mod_eq_of_lt h]
  omega

theorem ClockAt.lt {w : World} {now : Nat} (h : ClockAt w now) : now < 2 ^ 32 := by
  rw [← h 0]
  exact Nat.mod_lt _ (by decide)

theorem sync_poll_quiet (c : Consts) (packetType : Nat) (hp : HeatPump) (w : World) (now : Nat)
    (hclock : ClockAt w now) (hls : hp.lastSend = now)
    (hlsu : hp.powerSettingUpdate = true → hp.lastSendUpdate = now) :
    ∃ w1, sync_poll c packetType hp w = .ok (hp, w1) ∧ w1.tx = w.tx := by
  have h0 := hclock.now_eq
  have hz := usub_self now hclock.lt
  have hcs : (canSend c true hp w).1 = false := by
    unfold canSend
    by_cases hps : hp.powerSettingUpdate = true
    · simp [hps, h0, hlsu hps, hz]
    · simp [hps, h0, hls, hz]
  refine ⟨(canSend c true hp w).2, ?_, (canSend_world c true hp w).1⟩
  unfold sync_poll
  simp [hcs, pure, Except.pure]

theorem sync_poll_tx (c : Consts) (hc : InfoLayout c) (hp : HeatPump) (w : World)
    (hmode : 0 ≤ hp.infoMode ∧ hp.infoMode < c.INFOMODE_LEN) :
    ∃ hp1 w1, sync_poll c c.PACKET_TYPE_DEFAULT hp w = .ok (hp1, w1) ∧
      (w1.tx = w.tx ∨
        ∃ info hp2, createInfoPacket c hp (List.replicate 22 0) c.PACKET_TYPE_DEFAULT =
          .ok (info, hp2) ∧ w1.tx = w.tx ++ [info]) := by
  obtain ⟨pkt, hp2, hpk, hlen, _⟩ := createInfoPacket_ok c hc hp (List.replicate 22 0) (by simp)
    hmode
  obtain ⟨hPL, _⟩ := hc
  have hwl : writeLoop pkt 22 = .ok pkt := by
    rw [writeLoop_eq pkt 22 (by omega), ← hlen, List.take_length]
  have htx := (canSend_world c true hp w).1
  unfold sync_poll
  by_cases hcs : (canSend c true hp w).1 = true
  · simp only [hcs, if_true, hPL, hpk, bind, Except.bind, writePacket, hwl, pure, Except.pure]
    refine ⟨_, _, rfl, Or.inr ⟨pkt, hp2, rfl, ?_⟩⟩
    by_cases hcb : hp2.packetCallback = true <;> simp [hcb, World.tick, World.emit, htx]
  · simp only [hcs, Bool.false_eq_true, if_false, pure, Except.pure]
    exact ⟨_, _, rfl, Or.inl htx⟩

/-- C10 (as stated): a connected, non-stale driver with an idle channel and
`wantedSettings != currentSettings`, whose last frame went out at the current clock value,
writes nothing at all in one `sync()` tick: no set packet although the settings differ. -/
theorem sync_pending_but_not_due :
    ({ HeatPump.fresh cn105 5000 with
        connected := true, lastRecv := 5000, lastSend := 5000, lastSendUpdate := 5000,
        wantedSettings := wantedOnHeat21 } : HeatPump).connected = true ∧
      ¬ usub (World.still 5000 []).now 5000 > cn105.PACKET_SENT_INTERVAL_MS * 12 ∧
      (World.still 5000 []).rx = [] ∧
      sendPending { HeatPump.fresh cn105 5000 with
        connected := true, lastRecv := 5000, lastSend := 5000, lastSendUpdate := 5000,
        wantedSettings := wantedOnHeat21 } = true ∧
      (Except.map (fun r => r.2.tx)
        (sync cn105 1 cn105.PACKET_TYPE_DEFAULT
          { HeatPump.fresh cn105 5000 with
            connected := true, lastRecv := 5000, lastSend := 5000, lastSendUpdate := 5000,
            wantedSettings := wantedOnHeat21 }
          (World.still 5000 []))) = .ok [] := by
  decide


/-- C10 (amended): for a connected, non-stale driver with no bytes queued, at clock value
`now`, one `sync()` tick sends the set packet exactly when `wantedSettings != currentSettings`
and the pacing condition of `canSend(false)` holds: then the tick writes exactly the frame of
`createPacket(wantedSettings)`; otherwise it writes nothing or one info request. -/
theorem sync_sends_update_iff_pending_and_due (c : Consts) (hp : HeatPump) (w : World)
    (now fuel : Nat) (hc : InfoLayout c)
    (hcodes : c.RCVD_PKT_FAIL ≠ c.RCVD_PKT_UPDATE_SUCCESS) (hclock : ClockAt w now)
    (hconn : hp.connected = true)
    (hfresh : ¬ usub now hp.lastRecv > c.PACKET_SENT_INTERVAL_MS * 12) (hidle : w.rx = [])
    (hmode : 0 ≤ hp.infoMode ∧ hp.infoMode < c.INFOMODE_LEN) (hfuel : 1 ≤ fuel) :
    (sendPending hp = true ∧ UpdateDue c hp now →
      ∀ pkt, createPacket c hp (List.replicate 22 0) hp.wantedSettings = .ok pkt →
        ∃ hp1 w1, sync c fuel c.PACKET_TYPE_DEFAULT hp w = .ok (hp1, w1) ∧
          w1.tx = w.tx ++ [pkt]) ∧
    (¬ (sendPending hp = true ∧ UpdateDue c hp now) →
      ∃ hp1 w1, sync c fuel c.PACKET_TYPE_DEFAULT hp w = .ok (hp1, w1) ∧
        (w1.tx = w.tx ∨
          ∃ info hp2, createInfoPacket c hp (List.replicate 22 0) c.PACKET_TYPE_DEFAULT =
            .ok (info, hp2) ∧ w1.tx = w.tx ++ [info])) := by
  obtain ⟨f, rfl⟩ : ∃ f, fuel = f + 1 := ⟨fuel - 1, by omega⟩
  have hPL : c.PACKET_LEN = 22 := hc.1
  have h0 := hclock.now_eq
  have hfresh' : ¬ usub w.now hp.lastRecv > c.PACKET_SENT_INTERVAL_MS * 12 := by
    rw [h0]; exact hfresh
  have hsync1 : sendPending hp = true →
      sync c (f + 1) c.PACKET_TYPE_DEFAULT hp w = (do
        let r ← update c hp w.tick
        sync_poll c c.PACKET_TYPE_DEFAULT r.2.1 r.2.2) := by
    intro hsp
    rw [sync]
    simp only [hconn, Bool.not_true, Bool.false_eq_true, if_false, hfresh', hsp, if_true]
  have hsync2 : sendPending hp = false → hp.updating = true →
      ∃ w1, sync c (f + 1) c.PACKET_TYPE_DEFAULT hp w = .ok (hp, w1) ∧ w1.tx = w.tx := by
    intro hsp hup
    refine ⟨w.tick.tick, ?_, rfl⟩
    rw [sync]
    simp only [hconn, Bool.not_true, Bool.false_eq_true, if_false, hfresh', hsp, hup, if_true,
      readPacket_idle c f hp w.tick (by simpa [World.tick] using hidle), bind, Except.bind,
      hcodes, pure, Except.pure]
  have hsync3 : sendPending hp = false → hp.updating = false →
      ∃ w0, w0.tx = w.tx ∧
        sync c (f + 1) c.PACKET_TYPE_DEFAULT hp w = sync_poll c c.PACKET_TYPE_DEFAULT hp w0 := by
    intro hsp hup
    have hne : hp.wantedSettings.ne hp.currentSettings = false := hsp
    have hcr : (canRead c hp w.tick).2 = w.tick.tick := rfl
    by_cases hrd : (canRead c hp w.tick).1 = true
    · refine ⟨w.tick.tick.tick, rfl, ?_⟩
      rw [sync]
      simp only [hconn, Bool.not_true, Bool.false_eq_true, if_false, hfresh', hsp, hup, hrd,
        hcr, if_true,
        readPacket_idle c f hp w.tick.tick (by simpa [World.tick] using hidle), bind,
        Except.bind]
    · refine ⟨w.tick.tick, rfl, ?_⟩
      rw [sync]
      simp only [hconn, Bool.not_true, Bool.false_eq_true, if_false, hfresh', hsp, hup, hrd,
        hcr, hne, Bool.and_false, Bool.false_and]
  constructor
  · rintro ⟨hsp, hdue⟩ pkt hpkt
    obtain ⟨hp1, w1, h1, h2, _, _, _, _, h7, h8, h9, _⟩ :=
      update_due c hp w.tick now hPL hclock.tick hdue pkt hpkt
    obtain ⟨w2, h10, h11⟩ := sync_poll_quiet c c.PACKET_TYPE_DEFAULT hp1 w1 now h9 h8
      (fun _ => h7)
    refine ⟨hp1, w2, ?_, by rw [h11, h2]; rfl⟩
    rw [hsync1 hsp, h1]
    exact h10
  · intro hnot
    by_cases hsp : sendPending hp = true
    · have hdue : ¬ UpdateDue c hp now := fun h => hnot ⟨hsp, h⟩
      obtain ⟨w1, h1, h2, _, _, _⟩ := update_not_due c hp w.tick now hclock.tick hdue
      obtain ⟨hp2, w2, h3, h4⟩ := sync_poll_tx c hc hp w1 hmode
      refine ⟨hp2, w2, ?_, ?_⟩
      · rw [hsync1 hsp, h1]; exact h3
      · rw [h2] at h4; exact h4
    · have hsp' : sendPending hp = false := by simpa using hsp
      by_cases hup : hp.updating = true
      · obtain ⟨w1, h1, h2⟩ := hsync2 hsp' hup
        exact ⟨hp, w1, h1, Or.inl h2⟩
      · have hup' : hp.updating = false := by simpa using hup
        obtain ⟨w0, h1, h2⟩ := hsync3 hsp' hup'
        obtain ⟨hp2, w2, h3, h4⟩ := sync_poll_tx c hc hp w0 hmode
        refine ⟨hp2, w2, by rw [h2]; exact h3, ?_⟩
        rw [h1] at h4; exact h4

theorem sync_sends_update_iff_pending_and_due_witness :
    ∃ hp1 w1,
      sync cn105 1 cn105.PACKET_TYPE_DEFAULT
          { HeatPump.fresh cn105 5000 with
            connected := true, lastRecv := 5000, wantedSettings := wantedOnHeat21 }
          (World.still 5000 []) = .ok (hp1, w1) ∧
        w1.tx = (World.still 5000 []).tx ++
          [[0xfc, 0x41, 0x01, 0x30, 0x10, 0x01, 0x07, 0x00, 0x01, 0x01, 0x0a, 0, 0, 0, 0, 0, 0,
            0, 0, 0, 0, 0x6a]] :=
  (sync_sends_update_iff_pending_and_due cn105
    { HeatPump.fresh cn105 5000 with
      connected := true, lastRecv := 5000, wantedSettings := wantedOnHeat21 }
    (World.still 5000 []) 5000 1 (by decide) (by decide) (fun _ => rfl) rfl (by decide) rfl
    (by decide) (by decide)).1 ⟨by decide, by decide⟩ _ (by decide)


/-! ## Polling after an update -/

theorem canSend_info_eq (c : Consts) (hp : HeatPump) (w : World) (now : Nat)
    (h : ClockAt w now) :
    (canSend c true hp w).1 =
      (if hp.powerSettingUpdate = true ∧ usub now hp.lastSendUpdate < c.PACKET_SENT_INTERVAL_MS + 10000
        then false else decide (usub now hp.lastSend > c.PACKET_INFO_INTERVAL_MS)) := by
  have h0 := h.now_eq
  have h1 := h.tick.now_eq
  unfold canSend
  simp only [h0, h1, if_true]
  by_cases hps : hp.powerSettingUpdate = true
  · by_cases hA : usub now hp.lastSendUpdate < c.PACKET_SENT_INTERVAL_MS + 10000
    · simp [hps, hA]
    · simp [hps, hA]
  · simp [hps]

theorem sync_poll_suppressed (c : Consts) (packetType : Nat) (hp : HeatPump) (w : World)
    (h : (canSend c true hp w).1 = false) :
    ∃ w1, sync_poll c packetType hp w = .ok (hp, w1) ∧ w1.tx = w.tx := by
  refine ⟨(canSend c true hp w).2, ?_, (canSend_world c true hp w).1⟩
  unfold sync_poll
  simp [h, pure, Except.pure]

/-- C11: let `update()` send a set frame at clock value `t0`, and look at the driver at a later
clock value `now` while no further frame has been written (`lastSend`, `lastSendUpdate` and the
power flag are as the update left them). If the update changed power, `canSend(true)` is false
while `now - t0 < PACKET_SENT_INTERVAL_MS + 10000`, so the poll of `sync` writes nothing, and,
the poll interval being shorter than that window, `canSend(true)` is true once
`now - t0 >= PACKET_SENT_INTERVAL_MS + 10000`. If the update did not change power,
`canSend(true)` is exactly `now - lastSend > PACKET_INFO_INTERVAL_MS`. -/
theorem canSend_info_after_update (c : Consts) (hp : HeatPump) (w : World) (t0 : Nat)
    (hPL : c.PACKET_LEN = 22) (hclock : ClockAt w t0) (hdue : UpdateDue c hp t0)
    (pkt : List Nat)
    (hpkt : createPacket c hp (List.replicate 22 0) hp.wantedSettings = .ok pkt)
    (hwin : c.PACKET_INFO_INTERVAL_MS < c.PACKET_SENT_INTERVAL_MS + 10000) :
    ∃ hp1 w1, update c hp w = .ok (true, hp1, w1) ∧ w1.tx = w.tx ++ [pkt] ∧
      ∀ (hp2 : HeatPump) (w2 : World) (now : Nat), ClockAt w2 now →
        hp2.lastSend = hp1.lastSend → hp2.lastSendUpdate = hp1.lastSendUpdate →
        hp2.powerSettingUpdate = hp1.powerSettingUpdate →
        (hp.wantedSettings.power ≠ hp.currentSettings.power →
          (usub now t0 < c.PACKET_SENT_INTERVAL_MS + 10000 →
            (canSend c true hp2 w2).1 = false ∧
            ∀ packetType, ∃ w3, sync_poll c packetType hp2 w2 = .ok (hp2, w3) ∧ w3.tx = w2.tx) ∧
          (c.PACKET_SENT_INTERVAL_MS + 10000 ≤ usub now t0 →
            (canSend c true hp2 w2).1 = true)) ∧
        (hp.wantedSettings.power = hp.currentSettings.power →
          (canSend c true hp2 w2).1 =
            decide (usub now hp2.lastSend > c.PACKET_INFO_INTERVAL_MS)) := by
  obtain ⟨hp1, w1, h1, h2, _, _, _, _, hlsu, hls, _, _, hpsu⟩ :=
    update_due c hp w t0 hPL hclock hdue pkt hpkt
  refine ⟨hp1, w1, h1, h2, ?_⟩
  intro hp2 w2 now hck e1 e2 e3
  have hcs := canSend_info_eq c hp2 w2 now hck
  rw [e3, hpsu, e2, hlsu] at hcs
  constructor
  · intro hne
    have hb : (hp.wantedSettings.power != hp.currentSettings.power) = true := by
      simpa using hne
    rw [hb] at hcs
    constructor
    · intro hlt
      have hf : (canSend c true hp2 w2).1 = false := by
        rw [hcs]; simp [hlt]
      exact ⟨hf, fun packetType => sync_poll_suppressed c packetType hp2 w2 hf⟩
    · intro hge
      rw [hcs, e1, hls]
      have : ¬ usub now t0 < c.PACKET_SENT_INTERVAL_MS + 10000 := by omega
      simp only [this, and_false, if_false, decide_eq_true_eq]
      omega
  · intro heq
    have hb : (hp.wantedSettings.power != hp.currentSettings.power) = false := by
      simpa using heq
    rw [hb] at hcs
    rw [hcs]
    simp

theorem canSend_info_after_update_witness :
    ∃ hp1 w1,
      update cn105 { HeatPump.fresh cn105 0 with wantedSettings := wantedOnHeat21 }
          (World.still 5000 []) = .ok (true, hp1, w1) ∧
        w1.tx = (World.still 5000 []).tx ++
          [[0xfc, 0x41, 0x01, 0x30, 0x10, 0x01, 0x07, 0x00, 0x01, 0x01, 0x0a, 0, 0, 0, 0, 0, 0,
            0, 0, 0, 0, 0x6a]] ∧
        ∀ (hp2 : HeatPump) (w2 : World) (now : Nat), ClockAt w2 now →
          hp2.lastSend = hp1.lastSend → hp2.lastSendUpdate = hp1.lastSendUpdate →
          hp2.powerSettingUpdate = hp1.powerSettingUpdate →
          (wantedOnHeat21.power ≠ (HeatPump.fresh cn105 0).currentSettings.power →
            (usub now 5000 < cn105.PACKET_SENT_INTERVAL_MS + 10000 →
              (canSend cn105 true hp2 w2).1 = false ∧
              ∀ packetType, ∃ w3,
                sync_poll cn105 packetType hp2 w2 = .ok (hp2, w3) ∧ w3.tx = w2.tx) ∧
            (cn105.PACKET_SENT_INTERVAL_MS + 10000 ≤ usub now 5000 →
              (canSend cn105 true hp2 w2).1 = true)) ∧
          (wantedOnHeat21.power = (HeatPump.fresh cn105 0).currentSettings.power →
            (canSend cn105 true hp2 w2).1 =
              decide (usub now hp2.lastSend > cn105.PACKET_INFO_INTERVAL_MS)) :=
  canSend_info_after_update cn105 { HeatPump.fresh cn105 0 with wantedSettings := wantedOnHeat21 }
    (World.still 5000 []) 5000 rfl (fun _ => rfl) (by decide) _ (by decide) (by decide)


/-! ## The info request and its cursor -/

theorem set_zero_drop (xs : List Nat) (k v : Nat) (h : k < xs.length) :
    (xs.drop k).set 0 v = v :: xs.drop (k + 1) := by
  rw [List.drop_eq_getElem_cons h]
  rfl

theorem copyLoop_eq (src dst : List Nat) (n : Nat) (h1 : n ≤ src.length) (h2 : n ≤ dst.length) :
    copyLoop src dst n = .ok (src.take n ++ dst.drop n) := by
  induction n with
  | zero => simp [copyLoop, pure, Except.pure]
  | succ k ih =>
    rw [copyLoop, ih (by omega) (by omega)]
    simp only [bind, Except.bind, rd_of_lt src k (by omega), wr]
    rw [if_pos (by simp; omega)]
    congr 1
    have hl : (src.take k).length = k := by simp; omega
    rw [List.set_append_right _ _ (by omega), hl, Nat.sub_self, set_zero_drop _ _ _ (by omega)]
    have ht : src.take (k + 1) = src.take k ++ [src[k]] := by
      rw [List.take_succ, List.getElem?_eq_getElem (by omega : k < src.length)]
      rfl
    rw [ht, List.append_assoc]
    rfl

theorem padLoop_eq (packet : List Nat) (n : Nat) (h : n + 6 ≤ packet.length) :
    padLoop packet n = .ok (packet.take 6 ++ List.replicate n 0 ++ packet.drop (n + 6)) := by
  induction n with
  | zero => simp [padLoop, pure, Except.pure]
  | succ k ih =>
    rw [padLoop, ih (by omega)]
    simp only [bind, Except.bind, wr]
    rw [if_pos (by simp; omega)]
    congr 1
    have hl : (packet.take 6 ++ List.replicate k 0).length = k + 6 := by
      simp; omega
    rw [List.set_append_right _ _ (by omega), hl, Nat.sub_self, set_zero_drop _ _ _ (by omega),
      List.replicate_succ', show k + 1 + 6 = k + 6 + 1 by omega]
    simp

theorem wr_of_lt {α : Type} (xs : List α) (i : Nat) (v : α) (h : i < xs.length) :
    wr xs i v = .ok (xs.set i v) := by
  simp [wr, h]

theorem length_22 (xs : List Nat) (h : xs.length = 22) :
    ∃ x0 x1 x2 x3 x4 x5 x6 x7 x8 x9 x10 x11 x12 x13 x14 x15 x16 x17 x18 x19 x20 x21,
      xs = [x0, x1, x2, x3, x4, x5, x6, x7, x8, x9, x10, x11, x12, x13, x14, x15, x16, x17, x18,
        x19, x20, x21] := by
  match xs, h with
  | [x0, x1, x2, x3, x4, x5, x6, x7, x8, x9, x10, x11, x12, x13, x14, x15, x16, x17, x18,
        x19, x20, x21], _ =>
    exact ⟨x0, x1, x2, x3, x4, x5, x6, x7, x8, x9, x10, x11, x12, x13, x14, x15, x16, x17, x18,
        x19, x20, x21, rfl⟩

theorem take_5 (xs : List Nat) (h : 5 ≤ xs.length) :
    ∃ a b c d e, xs.take 5 = [a, b, c, d, e] := by
  match xs, h with
  | a :: b :: c :: d :: e :: _, _ => exact ⟨a, b, c, d, e, rfl⟩

theorem infoFrame_tail (c : Consts) (hc : InfoLayout c) (packet : List Nat)
    (hlen : packet.length = 22) (sub : Nat) :
    ∃ p2 p3 cs pkt, wr (c.INFOHEADER.take 5 ++ packet.drop 5) 5 sub = .ok p2 ∧
      padLoop p2 15 = .ok p3 ∧ checkSum p3 21 = .ok cs ∧ wr p3 21 cs = .ok pkt ∧
      InfoFrame c pkt sub := by
  obtain ⟨_, _, hIL, _⟩ := hc
  obtain ⟨a, b, c', d, e, hH⟩ := take_5 c.INFOHEADER hIL
  obtain ⟨x0, x1, x2, x3, x4, x5, x6, x7, x8, x9, x10, x11, x12, x13, x14, x15, x16, x17, x18,
    x19, x20, x21, rfl⟩ := length_22 packet hlen
  have h2 : wr (c.INFOHEADER.take 5 ++ List.drop 5 [x0, x1, x2, x3, x4, x5, x6, x7, x8, x9, x10,
      x11, x12, x13, x14, x15, x16, x17, x18, x19, x20, x21]) 5 sub =
      .ok [a, b, c', d, e, sub, x6, x7, x8, x9, x10, x11, x12, x13, x14, x15, x16, x17, x18, x19,
        x20, x21] := by
    simp only [hH, wr, List.drop_succ_cons, List.drop_zero, List.cons_append, List.nil_append,
      List.length_cons, List.length_nil, List.set_cons_succ, List.set_cons_zero]
    rw [if_pos (by omega)]
  have h3 := padLoop_eq [a, b, c', d, e, sub, x6, x7, x8, x9, x10, x11, x12, x13, x14, x15, x16,
    x17, x18, x19, x20, x21] 15 (by simp)
  simp only [List.take_succ_cons, List.take_zero, List.drop_succ_cons, List.drop_zero,
    List.cons_append, List.nil_append, List.replicate] at h3
  have h4 := checkSum_ok [a, b, c', d, e, sub, 0, 0, 0, 0, 0, 0, 0, 0, 0, 0, 0, 0, 0, 0, 0, x21]
    21 (by simp)
  refine ⟨_, _, _, _, h2, h3, h4, wr_of_lt _ 21 _ (by simp), ?_⟩
  · unfold InfoFrame
    rw [checkSum_ok _ 21 (by simp), hH]
    simp only [List.set_cons_succ, List.set_cons_zero, List.take_succ_cons, List.take_zero,
      List.getD_cons_succ, List.getD_cons_zero, List.drop_succ_cons, List.drop_zero,
      List.length_cons, List.length_nil, List.replicate, List.cons_append, List.nil_append,
      and_self]

theorem createInfoPacket_default (c : Consts) (hc : InfoLayout c) (hp : HeatPump)
    (packet : List Nat) (hlen : packet.length = 22) (k : Nat) (hk : k < c.INFOMODE_LEN)
    (hm : hp.infoMode = (k : Int)) :
    ∃ pkt, createInfoPacket c hp packet c.PACKET_TYPE_DEFAULT =
        .ok (pkt, { hp with infoMode := (((k + 1) % c.INFOMODE_LEN : Nat) : Int) }) ∧
      InfoFrame c pkt (c.INFOMODE.getD k 0) := by
  obtain ⟨p2, p3, cs, pkt, h2, h3, h4, h5, hF⟩ :=
    infoFrame_tail c hc packet hlen (c.INFOMODE.getD k 0)
  obtain ⟨_, hIH, hIL, hIM⟩ := hc
  have hrd : rdI c.INFOMODE hp.infoMode = .ok (c.INFOMODE.getD k 0) := by
    rw [hm, rdI_natCast, rd_getD _ _ (by omega)]
  refine ⟨pkt, ?_, hF⟩
  unfold createInfoPacket
  rw [hIH, copyLoop_eq _ _ 5 hIL (by omega)]
  simp only [bne_self_eq_false, Bool.false_eq_true, if_false, hrd, h2, bind, Except.bind, pure,
    Except.pure]
  by_cases hlast : k + 1 = c.INFOMODE_LEN
  · have e1 : (((k : Int)) == (c.INFOMODE_LEN : Int) - 1) = true := by
      simp; omega
    have e2 : (k + 1) % c.INFOMODE_LEN = 0 := by rw [hlast]; simp
    simp only [hm, e1, if_true, h3, h4, h5, e2]
    rfl
  · have e1 : (((k : Int)) == (c.INFOMODE_LEN : Int) - 1) = false := by
      simp; omega
    have e2 : (k + 1) % c.INFOMODE_LEN = k + 1 := Nat.mod_eq_of_lt (by omega)
    simp only [hm, e1, Bool.false_eq_true, if_false, h3, h4, h5, e2, Nat.cast_add, Nat.cast_one]

theorem createInfoPacket_explicit (c : Consts) (hc : InfoLayout c) (hp : HeatPump)
    (packet : List Nat) (hlen : packet.length = 22) (t : Nat) (ht : t < c.INFOMODE_LEN)
    (hne : t ≠ c.PACKET_TYPE_DEFAULT) :
    ∃ pkt, createInfoPacket c hp packet t = .ok (pkt, hp) ∧
      InfoFrame c pkt (c.INFOMODE.getD t 0) := by
  obtain ⟨p2, p3, cs, pkt, h2, h3, h4, h5, hF⟩ :=
    infoFrame_tail c hc packet hlen (c.INFOMODE.getD t 0)
  obtain ⟨_, hIH, hIL, hIM⟩ := hc
  refine ⟨pkt, ?_, hF⟩
  unfold createInfoPacket
  rw [hIH, copyLoop_eq _ _ 5 hIL (by omega)]
  have e1 : (t != c.PACKET_TYPE_DEFAULT) = true := by simpa using hne
  simp only [e1, if_true, rd_getD _ _ (by omega : t < c.INFOMODE.length), h2, h3, h4, h5, bind,
    Except.bind, pure, Except.pure]


theorem defaultInfoCalls_eq (c : Consts) (hc : InfoLayout c) (packet : List Nat)
    (hlen : packet.length = 22) (n : Nat) :
    ∀ (hp : HeatPump) (k : Nat), k < c.INFOMODE_LEN → hp.infoMode = (k : Int) →
      defaultInfoCalls c packet n hp =
        .ok ((List.range n).map (fun j => c.INFOMODE.getD ((k + j) % c.INFOMODE_LEN) 0),
          { hp with infoMode := (((k + n) % c.INFOMODE_LEN : Nat) : Int) }) := by
  induction n with
  | zero =>
    intro hp k hk hm
    have e : (k + 0) % c.INFOMODE_LEN = k := Nat.mod_eq_of_lt hk
    rw [e, ← hm]
    rfl
  | succ n ih =>
    intro hp k hk hm
    obtain ⟨pkt, hcall, hl, _, h5, _⟩ := createInfoPacket_default c hc hp packet hlen k hk hm
    have hpos : 0 < c.INFOMODE_LEN := by omega
    have hrest := ih { hp with infoMode := (((k + 1) % c.INFOMODE_LEN : Nat) : Int) }
      ((k + 1) % c.INFOMODE_LEN) (Nat.mod_lt _ hpos) rfl
    rw [defaultInfoCalls, hcall]
    simp only [bind, Except.bind, rd_getD pkt 5 (by omega), h5, hrest, pure, Except.pure]
    congr 2
    · rw [List.range_succ_eq_map, List.map_cons, List.map_map]
      congr 1
      · rw [Nat.add_zero, Nat.mod_eq_of_lt hk]
      · apply List.map_congr_left
        intro j _
        simp only [Function.comp, Nat.mod_add_mod]
        rw [show k + 1 + j = k + (j + 1) by omega]
    · simp only [Nat.mod_add_mod]
      rw [show k + 1 + n = k + (n + 1) by omega]

theorem cycle_eq_rotate (T : List Nat) (len k : Nat) (hlen : len ≤ T.length) :
    (List.range len).map (fun j => T.getD ((k + j) % len) 0) = (T.take len).rotate k := by
  have hl : (T.take len).length = len := by simp; omega
  apply List.ext_getElem
  · simp [hl]
  · intro i h1 h2
    have hi : i < len := by simpa using h1
    have hm : (k + i) % len < len := Nat.mod_lt _ (by omega)
    rw [List.getElem_rotate]
    simp only [List.getElem_map, List.getElem_range, hl, List.getElem_take]
    rw [List.getD_eq_getElem _ _ (by omega)]
    congr 1
    rw [Nat.add_comm]

/-- C12: with the cursor `infoMode = k` in `[0, INFOMODE_LEN)`, the default-mode call
`createInfoPacket(packet, PACKET_TYPE_DEFAULT)` writes `INFOMODE[k]` at byte 5 and moves the
cursor to `(k + 1) mod INFOMODE_LEN`, which is again in range; `INFOMODE_LEN` consecutive
default-mode calls request the table `INFOMODE` rotated by `k`, a permutation of the table, and
bring the cursor back to `k`. A call with an explicit `packetType = t` (`t < INFOMODE_LEN`)
writes `INFOMODE[t]` and leaves the driver as it was. In both cases the frame has bytes 0..4
equal to `INFOHEADER`, bytes 6..20 zero and the checksum at byte 21. -/
theorem createInfoPacket_round_robin (c : Consts) (hc : InfoLayout c) (hp : HeatPump)
    (packet : List Nat) (hlen : packet.length = 22) (k : Nat) (hk : k < c.INFOMODE_LEN)
    (hm : hp.infoMode = (k : Int)) (t : Nat) (ht : t < c.INFOMODE_LEN)
    (hne : t ≠ c.PACKET_TYPE_DEFAULT) :
    (∃ pkt, createInfoPacket c hp packet c.PACKET_TYPE_DEFAULT =
        .ok (pkt, { hp with infoMode := (((k + 1) % c.INFOMODE_LEN : Nat) : Int) }) ∧
      InfoFrame c pkt (c.INFOMODE.getD k 0)) ∧
    (k + 1) % c.INFOMODE_LEN < c.INFOMODE_LEN ∧
    (∃ subs, defaultInfoCalls c packet c.INFOMODE_LEN hp = .ok (subs, hp) ∧
      subs = (c.INFOMODE.take c.INFOMODE_LEN).rotate k ∧
      subs.Perm (c.INFOMODE.take c.INFOMODE_LEN)) ∧
    (∃ pkt, createInfoPacket c hp packet t = .ok (pkt, hp) ∧
      InfoFrame c pkt (c.INFOMODE.getD t 0)) := by
  refine ⟨createInfoPacket_default c hc hp packet hlen k hk hm, Nat.mod_lt _ (by omega), ?_,
    createInfoPacket_explicit c hc hp packet hlen t ht hne⟩
  refine ⟨_, ?_, rfl, List.rotate_perm _ _⟩
  rw [defaultInfoCalls_eq c hc packet hlen c.INFOMODE_LEN hp k hk hm,
    cycle_eq_rotate _ _ _ hc.2.2.2, Nat.add_mod_right, Nat.mod_eq_of_lt hk, ← hm]

theorem createInfoPacket_round_robin_witness :
    (∃ pkt, createInfoPacket cn105 { HeatPump.fresh cn105 0 with infoMode := 5 }
          (List.replicate 22 0) cn105.PACKET_TYPE_DEFAULT =
        .ok (pkt, { { HeatPump.fresh cn105 0 with infoMode := 5 } with
          infoMode := (((5 + 1) % cn105.INFOMODE_LEN : Nat) : Int) }) ∧
      InfoFrame cn105 pkt (cn105.INFOMODE.getD 5 0)) ∧
    (5 + 1) % cn105.INFOMODE_LEN < cn105.INFOMODE_LEN ∧
    (∃ subs, defaultInfoCalls cn105 (List.replicate 22 0) cn105.INFOMODE_LEN
          { HeatPump.fresh cn105 0 with infoMode := 5 } =
        .ok (subs, { HeatPump.fresh cn105 0 with infoMode := 5 }) ∧
      subs = (cn105.INFOMODE.take cn105.INFOMODE_LEN).rotate 5 ∧
      subs.Perm (cn105.INFOMODE.take cn105.INFOMODE_LEN)) ∧
    (∃ pkt, createInfoPacket cn105 { HeatPump.fresh cn105 0 with infoMode := 5 }
          (List.replicate 22 0) 1 = .ok (pkt, { HeatPump.fresh cn105 0 with infoMode := 5 }) ∧
      InfoFrame cn105 pkt (cn105.INFOMODE.getD 1 0)) :=
  createInfoPacket_round_robin cn105 (by decide) { HeatPump.fresh cn105 0 with infoMode := 5 }
    (List.replicate 22 0) rfl 5 (by decide) rfl 1 (by decide) (by decide)


/-! ## Dispatch of a valid frame -/

theorem readPacket_valid_frame (c : Consts) (hc : RecvLayout c) (hp : HeatPump) (wait : Bool)
    (fuel : Nat) (w : World) (a0 a1 a2 a3 L : Nat) (payload : List Nat) (cs : Nat)
    (rest : List Nat) (hpl : payload.length = L) (hL : L ≤ 21) (hfuel : L + 6 ≤ fuel)
    (hrx : w.rx = a0 :: a1 :: a2 :: a3 :: L :: (payload ++ [cs] ++ rest))
    (hsum : recvCheckSum [a0, a1, a2, a3, L] (payload ++ [cs]) 5 L = .ok cs)
    (hmagic : rd c.HEADER 0 = .ok a0 ∧ rd c.HEADER 2 = .ok a2 ∧ rd c.HEADER 3 = .ok a3)
    (hclock : ∀ i, i < L + 6 →
      usub (w.clock (w.ticks + 1 + i) % 2 ^ 32) w.now < c.PACKET_RESPONSE_WAIT_TIME) :
    ∃ (t : Nat) (w0 : World), w0.tx = w.tx ∧ w0.rx = rest ∧
      (w0.log = w.log ++ [.flush] ∨
        ∃ p, w0.log = w.log ++ [.flush, .packet p c.PACKET_LEN "packetRecv"]) ∧
      (payload ++ [cs] ++ List.replicate (22 - (L + 1)) 0).length = 22 ∧
      readPacket c fuel wait hp w =
        (do
          let r ← if a1 = 0x62 then
              readPacket_switch c { hp with lastRecv := t } w0
                (payload ++ [cs] ++ List.replicate (22 - (L + 1)) 0) L
            else pure none
          match r with
          | some res => pure res
          | none =>
            if a1 = 0x61 then
              pure (c.RCVD_PKT_UPDATE_SUCCESS,
                { { hp with lastRecv := t } with updating := false }, w0)
            else if a1 = 0x7a then
              pure (1, { { hp with lastRecv := t } with connected := true }, w0)
            else
              pure (c.RCVD_PKT_FAIL, { hp with lastRecv := t }, w0)) := by
  have hrun := (readPacket_frame c hc hp wait fuel w a0 a1 a2 a3 L payload cs rest
    hpl hL hfuel hrx).2 ⟨hclock, hmagic⟩ hsum
  have hdl : (payload ++ [cs] ++ List.replicate (22 - (L + 1)) 0).length = 22 := by
    simp only [List.length_append, List.length_replicate, hpl, List.length_singleton]
    omega
  have hc' := hc
  obtain ⟨_, hIH, _⟩ := hc'
  have h1 : rd [a0, a1, a2, a3, L] 1 = .ok a1 := rfl
  by_cases hcb : hp.packetCallback = true
  · obtain ⟨p1, hp1⟩ := copyLoop_ok [a0, a1, a2, a3, L] (List.replicate 37 0) 5 (by simp)
      (by simp)
    have hl1 := copyLoop_length _ _ _ _ hp1
    obtain ⟨p2, hp2, _⟩ := copyDataLoop_ok
      (payload ++ [cs] ++ List.replicate (22 - (L + 1)) 0) p1 (L + 1) (by omega)
      (by rw [hl1]; simp; omega)
    refine ⟨(World.flush { w with ticks := w.ticks + 1 + (L + 6), rx := rest }).now,
      (World.flush { w with ticks := w.ticks + 1 + (L + 6), rx := rest }).tick.emit
      (.packet p2 c.PACKET_LEN "packetRecv"), rfl, rfl, Or.inr ⟨p2, ?_⟩, hdl, ?_⟩
    · simp [World.emit, World.tick, World.flush]
    · rw [hrun]
      unfold readPacket_accept
      simp only [hcb, if_true, hIH, hp1, hp2, h1, bind, Except.bind, pure, Except.pure]
  · refine ⟨(World.flush { w with ticks := w.ticks + 1 + (L + 6), rx := rest }).now,
      (World.flush { w with ticks := w.ticks + 1 + (L + 6), rx := rest }).tick,
      rfl, rfl, Or.inl rfl, hdl, ?_⟩
    rw [hrun]
    unfold readPacket_accept
    simp only [hcb, Bool.false_eq_true, if_false, h1, bind, Except.bind, pure, Except.pure]


/-- C13: a checksum-valid frame of category `0x61` that arrives within the wait window makes
`readPacket` return `RCVD_PKT_UPDATE_SUCCESS` with `updating = false`; one of category `0x7a`
makes it return 1, the value of `RCVD_PKT_CONNECT_SUCCESS`, with `connected = true`. In both
cases `currentSettings`, `wantedSettings`, `currentStatus` and `functions` are as before. -/
theorem ack_frames_acknowledge (c : Consts) (hc : RecvLayout c) (hp : HeatPump) (wait : Bool)
    (fuel : Nat) (w : World) (a0 a1 a2 a3 L : Nat) (payload : List Nat) (cs : Nat)
    (rest : List Nat) (hpl : payload.length = L) (hL : L ≤ 21) (hfuel : L + 6 ≤ fuel)
    (hrx : w.rx = a0 :: a1 :: a2 :: a3 :: L :: (payload ++ [cs] ++ rest))
    (hsum : recvCheckSum [a0, a1, a2, a3, L] (payload ++ [cs]) 5 L = .ok cs)
    (hmagic : rd c.HEADER 0 = .ok a0 ∧ rd c.HEADER 2 = .ok a2 ∧ rd c.HEADER 3 = .ok a3)
    (hclock : ∀ i, i < L + 6 →
      usub (w.clock (w.ticks + 1 + i) % 2 ^ 32) w.now < c.PACKET_RESPONSE_WAIT_TIME)
    (hcat : a1 = 0x61 ∨ a1 = 0x7a) (hone : c.RCVD_PKT_CONNECT_SUCCESS = 1) :
    ∃ hp1 w1,
      readPacket c fuel wait hp w =
        .ok (if a1 = 0x61 then c.RCVD_PKT_UPDATE_SUCCESS else c.RCVD_PKT_CONNECT_SUCCESS,
          hp1, w1) ∧
      (a1 = 0x61 → hp1.updating = false ∧ hp1.connected = hp.connected) ∧
      (a1 = 0x7a → hp1.connected = true ∧ hp1.updating = hp.updating) ∧
      hp1.currentSettings = hp.currentSettings ∧ hp1.wantedSettings = hp.wantedSettings ∧
      hp1.currentStatus = hp.currentStatus ∧ hp1.functions = hp.functions := by
  obtain ⟨t, w0, _, _, _, _, hrun⟩ := readPacket_valid_frame c hc hp wait fuel w a0 a1 a2 a3 L
    payload cs rest hpl hL hfuel hrx hsum hmagic hclock
  rcases hcat with h | h
  · subst h
    refine ⟨{ { hp with lastRecv := t } with updating := false }, w0, ?_, fun _ => ⟨rfl, rfl⟩,
      fun h => absurd h (by decide), rfl, rfl, rfl, rfl⟩
    rw [hrun]
    rfl
  · subst h
    refine ⟨{ { hp with lastRecv := t } with connected := true }, w0, ?_,
      fun h => absurd h (by decide), fun _ => ⟨rfl, rfl⟩, rfl, rfl, rfl, rfl⟩
    rw [hrun, hone]
    rfl

theorem ack_frames_acknowledge_witness :
    (∃ hp1 w1,
      readPacket cn105 8 false { HeatPump.fresh cn105 0 with updating := true }
          (World.still 5000 [0xfc, 0x61, 0x01, 0x30, 0x01, 0x00, 0x6d]) =
        .ok (if 0x61 = 0x61 then cn105.RCVD_PKT_UPDATE_SUCCESS
          else cn105.RCVD_PKT_CONNECT_SUCCESS, hp1, w1) ∧
      (0x61 = 0x61 → hp1.updating = false ∧
        hp1.connected = ({ HeatPump.fresh cn105 0 with updating := true } : HeatPump).connected) ∧
      (0x61 = 0x7a → hp1.connected = true ∧
        hp1.updating = ({ HeatPump.fresh cn105 0 with updating := true } : HeatPump).updating) ∧
      hp1.currentSettings =
        ({ HeatPump.fresh cn105 0 with updating := true } : HeatPump).currentSettings ∧
      hp1.wantedSettings =
        ({ HeatPump.fresh cn105 0 with updating := true } : HeatPump).wantedSettings ∧
      hp1.currentStatus =
        ({ HeatPump.fresh cn105 0 with updating := true } : HeatPump).currentStatus ∧
      hp1.functions = ({ HeatPump.fresh cn105 0 with updating := true } : HeatPump).functions) ∧
    (∃ hp1 w1,
      readPacket cn105 8 true (HeatPump.fresh cn105 0)
          (World.still 5000 [0xfc, 0x7a, 0x01, 0x30, 0x01, 0x00, 0x54]) =
        .ok (if 0x7a = 0x61 then cn105.RCVD_PKT_UPDATE_SUCCESS
          else cn105.RCVD_PKT_CONNECT_SUCCESS, hp1, w1) ∧
      (0x7a = 0x61 → hp1.updating = false ∧
        hp1.connected = (HeatPump.fresh cn105 0).connected) ∧
      (0x7a = 0x7a → hp1.connected = true ∧ hp1.updating = (HeatPump.fresh cn105 0).updating) ∧
      hp1.currentSettings = (HeatPump.fresh cn105 0).currentSettings ∧
      hp1.wantedSettings = (HeatPump.fresh cn105 0).wantedSettings ∧
      hp1.currentStatus = (HeatPump.fresh cn105 0).currentStatus ∧
      hp1.functions = (HeatPump.fresh cn105 0).functions) :=
  ⟨ack_frames_acknowledge cn105 (by decide) { HeatPump.fresh cn105 0 with updating := true }
    false 8 (World.still 5000 [0xfc, 0x61, 0x01, 0x30, 0x01, 0x00, 0x6d]) 0xfc 0x61 0x01 0x30
    0x01 [0x00] 0x6d [] (by decide) (by decide) (by decide) rfl (by decide) (by decide)
    (fun _ _ => by
      show usub (5000 % 2 ^ 32) (5000 % 2 ^ 32) < 1000
      decide)
    (by decide) (by decide),
   ack_frames_acknowledge cn105 (by decide) (HeatPump.fresh cn105 0)
    true 8 (World.still 5000 [0xfc, 0x7a, 0x01, 0x30, 0x01, 0x00, 0x54]) 0xfc 0x7a 0x01 0x30
    0x01 [0x00] 0x54 [] (by decide) (by decide) (by decide) rfl (by decide) (by decide)
    (fun _ _ => by
      show usub (5000 % 2 ^ 32) (5000 % 2 ^ 32) < 1000
      decide)
    (by decide) (by decide)⟩


theorem readPacket_switch_unknown (c : Consts) (hp : HeatPump) (w : World) (data : List Nat)
    (L d0 : Nat) (h0 : rd data 0 = .ok d0)
    (hd0 : d0 ≠ 0x02 ∧ d0 ≠ 0x03 ∧ d0 ≠ 0x05 ∧ d0 ≠ 0x06 ∧ d0 ≠ 0x20 ∧ d0 ≠ 0x22) :
    readPacket_switch c hp w data L = .ok none := by
  obtain ⟨h2, h3, h5, h6, h20, h22⟩ := hd0
  unfold readPacket_switch
  simp only [h0, bind, Except.bind, h2, h3, h5, h6, h20, h22, if_false, or_self, ite_self, pure,
    Except.pure]

/-- C14: a checksum-valid info frame (category `0x62`) that arrives within the wait window and
whose sub-code `payload[0]` is none of `0x02`, `0x03`, `0x05`, `0x06`, `0x20`, `0x22` leaves
`currentSettings`, `wantedSettings`, `currentStatus`, `functions`, `tempMode`, `connected` and
`updating` as they were, invokes no change callback and writes nothing; `readPacket` returns
`RCVD_PKT_FAIL`. -/
theorem unknown_subcode_is_noop (c : Consts) (hc : RecvLayout c) (hp : HeatPump) (wait : Bool)
    (fuel : Nat) (w : World) (a0 a2 a3 L d0 : Nat) (payload : List Nat) (cs : Nat)
    (rest : List Nat) (hpl : (d0 :: payload).length = L) (hL : L ≤ 21) (hfuel : L + 6 ≤ fuel)
    (hrx : w.rx = a0 :: 0x62 :: a2 :: a3 :: L :: ((d0 :: payload) ++ [cs] ++ rest))
    (hsum : recvCheckSum [a0, 0x62, a2, a3, L] ((d0 :: payload) ++ [cs]) 5 L = .ok cs)
    (hmagic : rd c.HEADER 0 = .ok a0 ∧ rd c.HEADER 2 = .ok a2 ∧ rd c.HEADER 3 = .ok a3)
    (hclock : ∀ i, i < L + 6 →
      usub (w.clock (w.ticks + 1 + i) % 2 ^ 32) w.now < c.PACKET_RESPONSE_WAIT_TIME)
    (hd0 : d0 ≠ 0x02 ∧ d0 ≠ 0x03 ∧ d0 ≠ 0x05 ∧ d0 ≠ 0x06 ∧ d0 ≠ 0x20 ∧ d0 ≠ 0x22) :
    ∃ hp1 w1,
      readPacket c fuel wait hp w = .ok (c.RCVD_PKT_FAIL, hp1, w1) ∧
      hp1.currentSettings = hp.currentSettings ∧ hp1.wantedSettings = hp.wantedSettings ∧
      hp1.currentStatus = hp.currentStatus ∧ hp1.functions = hp.functions ∧
      hp1.tempMode = hp.tempMode ∧ hp1.connected = hp.connected ∧
      hp1.updating = hp.updating ∧
      w1.log.filter Event.isChange = w.log.filter Event.isChange ∧ w1.tx = w.tx := by
  obtain ⟨t, w0, htx, _, hlog, _, hrun⟩ := readPacket_valid_frame c hc hp wait fuel w a0 0x62 a2
    a3 L (d0 :: payload) cs rest hpl hL hfuel hrx hsum hmagic hclock
  have h0 : rd ((d0 :: payload) ++ [cs] ++ List.replicate (22 - (L + 1)) 0) 0 = .ok d0 := by
    simp [rd]
  refine ⟨{ hp with lastRecv := t }, w0, ?_, rfl, rfl, rfl, rfl, rfl, rfl, rfl, ?_, htx⟩
  · rw [hrun]
    simp only [if_true, readPacket_switch_unknown c _ w0 _ L d0 h0 hd0, bind, Except.bind]
    have e1 : ¬ ((0x62 : Nat) = 0x61) := by decide
    have e2 : ¬ ((0x62 : Nat) = 0x7a) := by decide
    simp only [e1, e2, if_false]
    rfl
  · rcases hlog with h | ⟨p, h⟩ <;> rw [h] <;> simp [List.filter_append, Event.isChange]

theorem unknown_subcode_is_noop_witness :
    ∃ hp1 w1,
      readPacket cn105 8 false (HeatPump.fresh cn105 0)
          (World.still 5000 [0xfc, 0x62, 0x01, 0x30, 0x01, 0x09, 0x63]) =
        .ok (cn105.RCVD_PKT_FAIL, hp1, w1) ∧
      hp1.currentSettings = (HeatPump.fresh cn105 0).currentSettings ∧
      hp1.wantedSettings = (HeatPump.fresh cn105 0).wantedSettings ∧
      hp1.currentStatus = (HeatPump.fresh cn105 0).currentStatus ∧
      hp1.functions = (HeatPump.fresh cn105 0).functions ∧
      hp1.tempMode = (HeatPump.fresh cn105 0).tempMode ∧
      hp1.connected = (HeatPump.fresh cn105 0).connected ∧
      hp1.updating = (HeatPump.fresh cn105 0).updating ∧
      w1.log.filter Event.isChange =
        (World.still 5000 [0xfc, 0x62, 0x01, 0x30, 0x01, 0x09, 0x63]).log.filter
          Event.isChange ∧
      w1.tx = (World.still 5000 [0xfc, 0x62, 0x01, 0x30, 0x01, 0x09, 0x63]).tx :=
  unknown_subcode_is_noop cn105 (by decide) (HeatPump.fresh cn105 0) false 8
    (World.still 5000 [0xfc, 0x62, 0x01, 0x30, 0x01, 0x09, 0x63]) 0xfc 0x01 0x30 0x01 0x09 []
    0x63 [] (by decide) (by decide) (by decide) rfl (by decide) (by decide)
    (fun _ _ => by
      show usub (5000 % 2 ^ 32) (5000 % 2 ^ 32) < 1000
      decide)
    (by decide)


/-! ## A stream whose magic bytes do not match -/

theorem recvLoop_abort (c : Consts) (st : Nat) (pre : List Nat) :
    ∀ (fuel : Nat) (r : RecvBuf) (w : World) (b v : Nat) (rest : List Nat),
      r.receiveSuccess = false → r.len + pre.length < 4 → r.len + pre.length ≠ 1 →
      4 ≤ r.header.length →
      (∀ i, i < pre.length → r.len + i ≠ 1 → rd c.HEADER (r.len + i) = .ok (pre.getD i 0)) →
      rd c.HEADER (r.len + pre.length) = .ok v → b ≠ v → pre.length + 1 ≤ fuel →
      w.rx = pre ++ b :: rest →
      ∃ failed r1 w1 j, recvLoop c st fuel r w = .ok (failed, r1, w1) ∧
        (failed = true ∨ r1.receiveSuccess = false) ∧ j ≤ pre.length + 1 ∧
        w1.rx = w.rx.drop j ∧ w1.tx = w.tx ∧
        ((∀ i, i ≤ pre.length →
            usub (w.clock (w.ticks + i) % 2 ^ 32) st < c.PACKET_RESPONSE_WAIT_TIME) →
          failed = true ∧ j = pre.length + 1) := by
  induction pre with
  | nil =>
    intro fuel r w b v rest hrs hlen hne1 hH _ hv hb hfuel hrx
    obtain ⟨fuel, rfl⟩ : ∃ f, fuel = f + 1 := ⟨fuel - 1, by simp at hfuel; omega⟩
    simp only [List.length_nil, Nat.add_zero] at hlen hne1 hv
    by_cases hd : usub w.now st < c.PACKET_RESPONSE_WAIT_TIME
    · refine ⟨true, r, World.flush { w.tick with rx := rest }, 1, ?_, Or.inl rfl, by simp,
        by simp [World.flush, World.emit, hrx], rfl, fun _ => ⟨rfl, rfl⟩⟩
      have hrx' : w.tick.rx = b :: rest := by simpa [World.tick] using hrx
      have hbne : (b != v) = true := by simpa using hb
      rw [recvLoop]
      simp [hd, hrx', hlen, hne1, pure, Except.pure, bind, Except.bind, hv, hbne, hb]
    · refine ⟨false, r, w.tick, 0, ?_, Or.inr hrs, by simp, rfl, rfl, fun h => ?_⟩
      · rw [recvLoop, if_neg hd]
        rfl
      · exact absurd (by simpa [World.now] using h 0 (Nat.le_refl _)) hd
  | cons p ps ih =>
    intro fuel r w b v rest hrs hlen hne1 hH hm hv hb hfuel hrx
    obtain ⟨fuel, rfl⟩ : ∃ f, fuel = f + 1 := ⟨fuel - 1, by simp at hfuel; omega⟩
    simp only [List.length_cons] at hlen hne1 hv hfuel
    by_cases hd : usub w.now st < c.PACKET_RESPONSE_WAIT_TIME
    · have hrx' : w.tick.rx = p :: (ps ++ b :: rest) := by simpa [World.tick] using hrx
      have hstep : recvLoop c st (fuel + 1) r w =
          recvLoop c st fuel
            { r with header := r.header.set r.len p, len := r.len + 1 }
            { w.tick with rx := ps ++ b :: rest } := by
        have h4 : ¬ r.len = 4 := by omega
        have hle : r.len ≤ 4 := by omega
        have hlt : r.len < 4 := by omega
        have hwr : wr r.header r.len p = .ok (r.header.set r.len p) := wr_of_lt _ _ _ (by omega)
        have hnd : ¬ r.len = r.dataLength + 5 := by omega
        have hmod : (r.len + 1) % 256 = r.len + 1 := Nat.mod_eq_of_lt (by omega)
        by_cases h1 : r.len = 1
        · have hc : ¬ (r.len < 4 ∧ r.len ≠ 1) := by omega
          rw [recvLoop]
          simp only [hd, if_true, hrx', hc, h4, hle, hnd, if_false, pure, Except.pure, bind,
            Except.bind, Bool.false_eq_true, hwr, hmod]
        · have := hm 0 (by simp) (by simpa using h1)
          simp only [Nat.add_zero, List.getD_cons_zero] at this
          rw [recvLoop]
          simp [hd, hrx', hlt, h1, h4, hle, hnd, pure, Except.pure, bind, Except.bind, hwr, hmod,
            this]
      obtain ⟨failed, r1, w1, j, h1, h2, h3, h4, h5, h6⟩ := ih fuel
        { r with header := r.header.set r.len p, len := r.len + 1 }
        { w.tick with rx := ps ++ b :: rest } b v rest hrs (by simp; omega) (by simp; omega)
        (by simp; omega)
        (fun i hi hne => by
          have := hm (i + 1) (by simp; omega) (by simp at hne ⊢; omega)
          simpa [Nat.add_assoc, Nat.add_comm 1 i] using this)
        (by simpa [Nat.add_assoc, Nat.add_comm 1 ps.length] using hv) hb (by omega) rfl
      refine ⟨failed, r1, w1, j + 1, by rw [hstep, h1], h2,
        by simp only [List.length_cons]; omega, ?_, h5, fun hg => ?_⟩
      · rw [h4, hrx]
        rfl
      · obtain ⟨e1, e2⟩ := h6 (fun i hi => by
          have := hg (i + 1) (by simp; omega)
          simpa [World.tick, Nat.add_assoc, Nat.add_comm 1 i] using this)
        exact ⟨e1, by simp [e2]⟩
    · refine ⟨false, r, w.tick, 0, ?_, Or.inr hrs, by simp, rfl, rfl, fun h => ?_⟩
      · rw [recvLoop, if_neg hd]
        rfl
      · exact absurd (by simpa [World.now] using h 0 (Nat.zero_le _)) hd


theorem magic_byte_one_unchecked :
    cn105.HEADER.getD 1 0 ≠ 0x7a ∧ cn105.RCVD_PKT_FAIL ≠ 1 ∧
      Except.map (fun r => (r.1, r.2.1.connected, r.2.2.rx))
        (readPacket cn105 8 false (HeatPump.fresh cn105 0)
          (World.still 5000 [0xfc, 0x7a, 0x01, 0x30, 0x01, 0x00, 0x54])) = .ok (1, true, []) := by
  decide

theorem readPacket_abort (c : Consts) (hc : RecvLayout c) (hp : HeatPump) (wait : Bool)
    (fuel : Nat) (w : World) (pre : List Nat) (b v : Nat) (rest : List Nat)
    (hk : pre.length = 0 ∨ pre.length = 2 ∨ pre.length = 3)
    (hmatch : ∀ i, i < pre.length → i ≠ 1 → rd c.HEADER i = .ok (pre.getD i 0))
    (hv : rd c.HEADER pre.length = .ok v) (hb : b ≠ v) (hfuel : pre.length + 1 ≤ fuel)
    (hrx : w.rx = pre ++ b :: rest) :
    ∃ w1 j, readPacket c fuel wait hp w = .ok (c.RCVD_PKT_FAIL, hp, w1) ∧
      j ≤ pre.length + 1 ∧ w1.rx = w.rx.drop j ∧ w1.tx = w.tx ∧
      ((∀ i, i ≤ pre.length →
          usub (w.clock (w.ticks + 1 + i) % 2 ^ 32) w.now < c.PACKET_RESPONSE_WAIT_TIME) →
        j = pre.length + 1) := by
  obtain ⟨hPL, hIH, _⟩ := hc
  obtain ⟨failed, r1, w1, j, h1, h2, h3, h4, h5, h6⟩ := recvLoop_abort c w.now pre fuel
    { header := List.replicate c.INFOHEADER_LEN 0, data := List.replicate c.PACKET_LEN 0,
      dataLength := 0, len := 0, receiveSuccess := false }
    w.tick b v rest rfl (by simp; omega) (by simp; omega) (by simp [hIH])
    (fun i hi hne => by simpa using hmatch i hi (by simpa using hne))
    (by simpa using hv) hb hfuel (by simpa [World.tick] using hrx)
  have hav : 0 < w.tick.rx.length ∨ wait = true := Or.inl (by simp [World.tick, hrx])
  have hj : (∀ i, i ≤ pre.length →
      usub (w.clock (w.ticks + 1 + i) % 2 ^ 32) w.now < c.PACKET_RESPONSE_WAIT_TIME) →
      j = pre.length + 1 := fun hg => (h6 (fun i hi => by
        simpa [World.tick] using hg i hi)).2
  have hrx1 : w1.rx = w.rx.drop j := by simpa [World.tick] using h4
  have htx1 : w1.tx = w.tx := by simpa [World.tick] using h5
  by_cases hf : failed = true
  · refine ⟨w1, j, ?_, h3, hrx1, htx1, hj⟩
    unfold readPacket
    simp only [hav, if_true, h1, bind, Except.bind, hf, pure, Except.pure]
  · have hs : r1.receiveSuccess = false := by
      rcases h2 with h | h
      · exact absurd h hf
      · exact h
    refine ⟨w1.flush, j, ?_, h3, hrx1, htx1, hj⟩
    unfold readPacket
    simp only [hav, if_true, h1, bind, Except.bind, hf, Bool.false_eq_true, if_false, hs,
      Bool.not_false, pure, Except.pure]

/-- C15 (amended): let the first byte of the inbound stream that differs from the magic prefix
among the positions 0, 2 and 3 be at position `k` (position 1, the category byte, is not
compared). Then `readPacket` returns `RCVD_PKT_FAIL` and hands back the driver unchanged; it has
taken at most `k + 1` bytes from the stream, and exactly `k + 1`, up to and including the
differing byte, when the wait window does not end before that byte. -/
theorem magic_mismatch_aborts (c : Consts) (hc : RecvLayout c) (hp : HeatPump) (wait : Bool)
    (fuel : Nat) (w : World) (pre : List Nat) (b v : Nat) (rest : List Nat)
    (hk : pre.length = 0 ∨ pre.length = 2 ∨ pre.length = 3)
    (hmatch : ∀ i, i < pre.length → i ≠ 1 → rd c.HEADER i = .ok (pre.getD i 0))
    (hv : rd c.HEADER pre.length = .ok v) (hb : b ≠ v) (hfuel : pre.length + 1 ≤ fuel)
    (hrx : w.rx = pre ++ b :: rest) :
    ∃ w1 j, readPacket c fuel wait hp w = .ok (c.RCVD_PKT_FAIL, hp, w1) ∧
      j ≤ pre.length + 1 ∧ w1.rx = w.rx.drop j ∧ w1.tx = w.tx ∧
      ((∀ i, i ≤ pre.length →
          usub (w.clock (w.ticks + 1 + i) % 2 ^ 32) w.now < c.PACKET_RESPONSE_WAIT_TIME) →
        j = pre.length + 1) :=
  readPacket_abort c hc hp wait fuel w pre b v rest hk hmatch hv hb hfuel hrx

theorem magic_mismatch_aborts_witness :
    ∃ w1 j, readPacket cn105 8 false (HeatPump.fresh cn105 0)
          (World.still 5000 ([0xfc, 0x62] ++ 0x02 :: [0x30, 0x01, 0x00, 0x6b])) =
        .ok (cn105.RCVD_PKT_FAIL, HeatPump.fresh cn105 0, w1) ∧
      j ≤ ([0xfc, 0x62] : List Nat).length + 1 ∧
      w1.rx = (World.still 5000 ([0xfc, 0x62] ++ 0x02 :: [0x30, 0x01, 0x00, 0x6b])).rx.drop j ∧
      w1.tx = (World.still 5000 ([0xfc, 0x62] ++ 0x02 :: [0x30, 0x01, 0x00, 0x6b])).tx ∧
      ((∀ i, i ≤ ([0xfc, 0x62] : List Nat).length →
          usub ((World.still 5000 ([0xfc, 0x62] ++ 0x02 :: [0x30, 0x01, 0x00, 0x6b])).clock
              ((World.still 5000 ([0xfc, 0x62] ++ 0x02 :: [0x30, 0x01, 0x00, 0x6b])).ticks +
                1 + i) % 2 ^ 32)
            (World.still 5000 ([0xfc, 0x62] ++ 0x02 :: [0x30, 0x01, 0x00, 0x6b])).now <
              cn105.PACKET_RESPONSE_WAIT_TIME) →
        j = ([0xfc, 0x62] : List Nat).length + 1) :=
  magic_mismatch_aborts cn105 (by decide) (HeatPump.fresh cn105 0) false 8
    (World.still 5000 ([0xfc, 0x62] ++ 0x02 :: [0x30, 0x01, 0x00, 0x6b])) [0xfc, 0x62] 0x02 0x01
    [0x30, 0x01, 0x00, 0x6b] (by decide) (by decide) (by decide) (by decide) (by decide) rfl


/-! ## The result for a frame that nothing matches -/

theorem readPacket_unmatched (c : Consts) (hc : RecvLayout c) (hp : HeatPump) (wait : Bool)
    (fuel : Nat) (w : World) (a0 a1 a2 a3 L : Nat) (payload : List Nat) (cs : Nat)
    (rest : List Nat) (hpl : payload.length = L) (hL : L ≤ 21) (hfuel : L + 6 ≤ fuel)
    (hrx : w.rx = a0 :: a1 :: a2 :: a3 :: L :: (payload ++ [cs] ++ rest))
    (hsum : recvCheckSum [a0, a1, a2, a3, L] (payload ++ [cs]) 5 L = .ok cs)
    (hmagic : rd c.HEADER 0 = .ok a0 ∧ rd c.HEADER 2 = .ok a2 ∧ rd c.HEADER 3 = .ok a3)
    (hclock : ∀ i, i < L + 6 →
      usub (w.clock (w.ticks + 1 + i) % 2 ^ 32) w.now < c.PACKET_RESPONSE_WAIT_TIME)
    (hcat : a1 ≠ 0x61 ∧ a1 ≠ 0x7a)
    (hsub : a1 = 0x62 →
      (payload ++ [cs]).getD 0 0 ≠ 0x02 ∧ (payload ++ [cs]).getD 0 0 ≠ 0x03 ∧
      (payload ++ [cs]).getD 0 0 ≠ 0x05 ∧ (payload ++ [cs]).getD 0 0 ≠ 0x06 ∧
      (payload ++ [cs]).getD 0 0 ≠ 0x20 ∧ (payload ++ [cs]).getD 0 0 ≠ 0x22) :
    ∃ w1, readPacket c fuel wait hp w =
      .ok (c.RCVD_PKT_FAIL,
        { hp with lastRecv := w.clock (w.ticks + 1 + (L + 6)) % 2 ^ 32 }, w1) := by
  have hrun := (readPacket_frame c hc hp wait fuel w a0 a1 a2 a3 L payload cs rest
    hpl hL hfuel hrx).2 ⟨hclock, hmagic⟩ hsum
  have hdl : (payload ++ [cs] ++ List.replicate (22 - (L + 1)) 0).length = 22 := by
    simp only [List.length_append, List.length_replicate, hpl, List.length_singleton]
    omega
  obtain ⟨w0, _, _, hacc⟩ := readPacket_accept_eq c hc hp
    (World.flush { w with ticks := w.ticks + 1 + (L + 6), rx := rest }) a0 a1 a2 a3 L
    (payload ++ [cs] ++ List.replicate (22 - (L + 1)) 0) hdl hL
  refine ⟨w0, ?_⟩
  rw [hrun, hacc]
  have hnow : (World.flush { w with ticks := w.ticks + 1 + (L + 6), rx := rest }).now =
      w.clock (w.ticks + 1 + (L + 6)) % 2 ^ 32 := rfl
  rw [hnow]
  by_cases h62 : a1 = 0x62
  · have h0 : rd (payload ++ [cs] ++ List.replicate (22 - (L + 1)) 0) 0 =
        .ok ((payload ++ [cs]).getD 0 0) := by
      rw [rd_getD _ _ (by omega), getD_append_zeros]
    simp only [h62, if_true, readPacket_switch_unknown c _ w0 _ L _ h0 (hsub h62), bind,
      Except.bind]
    have e1 : ¬ ((0x62 : Nat) = 0x61) := by decide
    have e2 : ¬ ((0x62 : Nat) = 0x7a) := by decide
    simp only [e1, e2, if_false]
    rfl
  · simp only [h62, hcat.1, hcat.2, if_false, bind, Except.bind, pure, Except.pure]

theorem readPacket_timeout (c : Consts) (hp : HeatPump) (wait : Bool) (fuel : Nat) (w : World)
    (hav : 0 < w.rx.length ∨ wait = true) (hfuel : 0 < fuel)
    (hd : ¬ usub w.tick.now w.now < c.PACKET_RESPONSE_WAIT_TIME) :
    readPacket c fuel wait hp w = .ok (c.RCVD_PKT_FAIL, hp, w.tick.tick.flush) := by
  obtain ⟨fuel, rfl⟩ : ∃ f, fuel = f + 1 := ⟨fuel - 1, by omega⟩
  have hav' : 0 < w.tick.rx.length ∨ wait = true := by simpa [World.tick] using hav
  unfold readPacket
  simp only [hav', if_true]
  rw [recvLoop, if_neg hd]
  rfl

theorem readPacket_bad_checksum (c : Consts) (hc : RecvLayout c) (hp : HeatPump) (wait : Bool)
    (fuel : Nat) (w : World) (a0 a1 a2 a3 L : Nat) (payload : List Nat) (cs bad : Nat)
    (rest : List Nat) (hpl : payload.length = L) (hL : L ≤ 21) (hfuel : L + 6 ≤ fuel)
    (hsum : recvCheckSum [a0, a1, a2, a3, L] (payload ++ [cs]) 5 L = .ok cs) (hbad : bad ≠ cs)
    (hrx : w.rx = a0 :: a1 :: a2 :: a3 :: L :: (payload ++ [bad] ++ rest)) :
    ∃ w1, readPacket c fuel wait hp w = .ok (c.RCVD_PKT_FAIL, hp, w1) := by
  rcases (readPacket_frame c hc hp wait fuel w a0 a1 a2 a3 L payload bad rest hpl hL hfuel
    hrx).1 with hfail | ⟨hok, _⟩
  · exact hfail
  · exfalso
    subst hpl
    rw [recvCheckSum_eq [a0, a1, a2, a3, payload.length] _ _ rfl] at hsum hok
    rw [hsum] at hok
    injection hok with hok
    exact hbad hok.symm

theorem unmatched_frame_result_not_distinct :
    recvCheckSum [0xfc, 0x62, 0x01, 0x30, 0x01] [0x09, 0x63] 5 1 = .ok 0x63 ∧
      Except.map (fun r => r.1)
          (readPacket cn105 8 false (HeatPump.fresh cn105 0)
            (World.still 5000 [0xfc, 0x62, 0x01, 0x30, 0x01, 0x09, 0x63])) =
        .ok cn105.RCVD_PKT_FAIL ∧
      Except.map (fun r => r.1)
          (readPacket cn105 8 false (HeatPump.fresh cn105 0) (World.still 5000 [])) =
        .ok cn105.RCVD_PKT_FAIL ∧
      Except.map (fun r => r.1)
          (readPacket cn105 8 false (HeatPump.fresh cn105 0)
            (World.still 5000 [0xfc, 0x62, 0x01, 0x30, 0x01, 0x09, 0x00])) =
        .ok cn105.RCVD_PKT_FAIL := by
  decide

/-- C16 (amended): for a checksum-valid frame that arrives within the wait window and matches
no known category or sub-code, `readPacket` returns `RCVD_PKT_FAIL`, the same value it returns
for each transport-level failure: nothing queued on the non-blocking path, wait deadline
elapsed, a magic byte that does not match, a checksum byte that does not match. The outcomes
differ in the driver only: the valid frame stores the clock in `lastRecv` (the `millis()`
reading that follows the `5 + L + 1` loop iterations of the frame), a transport failure hands
the driver back unchanged. -/
theorem unmatched_frame_returns_fail (c : Consts) (hc : RecvLayout c) (hp : HeatPump)
    (wait : Bool) (fuel : Nat) (w : World) (a0 a1 a2 a3 L : Nat) (payload : List Nat) (cs : Nat)
    (rest : List Nat) (hpl : payload.length = L) (hL : L ≤ 21) (hfuel : L + 6 ≤ fuel)
    (hrx : w.rx = a0 :: a1 :: a2 :: a3 :: L :: (payload ++ [cs] ++ rest))
    (hsum : recvCheckSum [a0, a1, a2, a3, L] (payload ++ [cs]) 5 L = .ok cs)
    (hmagic : rd c.HEADER 0 = .ok a0 ∧ rd c.HEADER 2 = .ok a2 ∧ rd c.HEADER 3 = .ok a3)
    (hclock : ∀ i, i < L + 6 →
      usub (w.clock (w.ticks + 1 + i) % 2 ^ 32) w.now < c.PACKET_RESPONSE_WAIT_TIME)
    (hcat : a1 ≠ 0x61 ∧ a1 ≠ 0x7a)
    (hsub : a1 = 0x62 →
      (payload ++ [cs]).getD 0 0 ≠ 0x02 ∧ (payload ++ [cs]).getD 0 0 ≠ 0x03 ∧
      (payload ++ [cs]).getD 0 0 ≠ 0x05 ∧ (payload ++ [cs]).getD 0 0 ≠ 0x06 ∧
      (payload ++ [cs]).getD 0 0 ≠ 0x20 ∧ (payload ++ [cs]).getD 0 0 ≠ 0x22)
    (wq : World) (hq : wq.rx = [])
    (wd : World) (hdq : 0 < wd.rx.length ∨ wait = true)
    (hd : ¬ usub wd.tick.now wd.now < c.PACKET_RESPONSE_WAIT_TIME)
    (wh : World) (pre : List Nat) (b v : Nat) (resth : List Nat)
    (hk : pre.length = 0 ∨ pre.length = 2 ∨ pre.length = 3)
    (hmatch : ∀ i, i < pre.length → i ≠ 1 → rd c.HEADER i = .ok (pre.getD i 0))
    (hv : rd c.HEADER pre.length = .ok v) (hb : b ≠ v) (hrxh : wh.rx = pre ++ b :: resth)
    (wc : World) (bad : Nat) (hbad : bad ≠ cs) (restc : List Nat)
    (hrxc : wc.rx = a0 :: a1 :: a2 :: a3 :: L :: (payload ++ [bad] ++ restc)) :
    ∃ w1 w3 w4 w5,
      readPacket c fuel wait hp w =
        .ok (c.RCVD_PKT_FAIL,
          { hp with lastRecv := w.clock (w.ticks + 1 + (L + 6)) % 2 ^ 32 }, w1) ∧
      readPacket c fuel false hp wq = .ok (c.RCVD_PKT_FAIL, hp, wq.tick) ∧
      readPacket c fuel wait hp wd = .ok (c.RCVD_PKT_FAIL, hp, w3) ∧
      readPacket c fuel wait hp wh = .ok (c.RCVD_PKT_FAIL, hp, w4) ∧
      readPacket c fuel wait hp wc = .ok (c.RCVD_PKT_FAIL, hp, w5) := by
  obtain ⟨w1, h1⟩ := readPacket_unmatched c hc hp wait fuel w a0 a1 a2 a3 L payload cs rest
    hpl hL hfuel hrx hsum hmagic hclock hcat hsub
  obtain ⟨w4, _, h4, _⟩ := readPacket_abort c hc hp wait fuel wh pre b v resth hk hmatch hv hb
    (by omega) hrxh
  obtain ⟨w5, h5⟩ := readPacket_bad_checksum c hc hp wait fuel wc a0 a1 a2 a3 L payload cs bad
    restc hpl hL hfuel hsum hbad hrxc
  exact ⟨w1, _, w4, w5, h1, readPacket_idle c fuel hp wq hq,
    readPacket_timeout c hp wait fuel wd hdq (by omega) hd, h4, h5⟩

theorem unmatched_frame_returns_fail_witness :
    (HeatPump.fresh cn105 0).lastRecv ≠ 5000 ∧
    ∃ w1 w3 w4 w5,
      readPacket cn105 8 false (HeatPump.fresh cn105 0)
          (World.still 5000 [0xfc, 0x62, 0x01, 0x30, 0x01, 0x09, 0x63]) =
        .ok (cn105.RCVD_PKT_FAIL, { HeatPump.fresh cn105 0 with lastRecv := 5000 }, w1) ∧
      readPacket cn105 8 false (HeatPump.fresh cn105 0) (World.still 5000 []) =
        .ok (cn105.RCVD_PKT_FAIL, HeatPump.fresh cn105 0, (World.still 5000 []).tick) ∧
      readPacket cn105 8 false (HeatPump.fresh cn105 0)
          { World.still 5000 [0xfc] with clock := fun n => n * 5000 } =
        .ok (cn105.RCVD_PKT_FAIL, HeatPump.fresh cn105 0, w3) ∧
      readPacket cn105 8 false (HeatPump.fresh cn105 0)
          (World.still 5000 ([] ++ 0x00 :: [0x62, 0x01, 0x30, 0x01, 0x09, 0x63])) =
        .ok (cn105.RCVD_PKT_FAIL, HeatPump.fresh cn105 0, w4) ∧
      readPacket cn105 8 false (HeatPump.fresh cn105 0)
          (World.still 5000 [0xfc, 0x62, 0x01, 0x30, 0x01, 0x09, 0x00]) =
        .ok (cn105.RCVD_PKT_FAIL, HeatPump.fresh cn105 0, w5) :=
  ⟨by decide, unmatched_frame_returns_fail cn105 (by decide) (HeatPump.fresh cn105 0) false 8
    (World.still 5000 [0xfc, 0x62, 0x01, 0x30, 0x01, 0x09, 0x63]) 0xfc 0x62 0x01 0x30 0x01
    [0x09] 0x63 [] (by decide) (by decide) (by decide) rfl (by decide) (by decide)
    (fun _ _ => by
      show usub (5000 % 2 ^ 32) (5000 % 2 ^ 32) < 1000
      decide)
    (by decide) (by decide)
    (World.still 5000 []) rfl
    { World.still 5000 [0xfc] with clock := fun n => n * 5000 } (by decide) (by decide)
    (World.still 5000 ([] ++ 0x00 :: [0x62, 0x01, 0x30, 0x01, 0x09, 0x63])) [] 0x00 0xfc
    [0x62, 0x01, 0x30, 0x01, 0x09, 0x63] (by decide) (by decide) (by decide) (by decide) rfl
    (World.still 5000 [0xfc, 0x62, 0x01, 0x30, 0x01, 0x09, 0x00]) 0x00 (by decide) [] rfl⟩


/-! ## Status and room temperature frames -/

theorem statusCalls_append (xs ys : List Event) :
    statusCalls (xs ++ ys) = statusCalls xs ++ statusCalls ys := by
  simp [statusCalls, List.filterMap_append]

theorem statusCalls_frame (c : Consts) (log log0 : List Event)
    (h : log0 = log ++ [.flush] ∨
      ∃ p, log0 = log ++ [.flush, .packet p c.PACKET_LEN "packetRecv"]) :
    statusCalls log0 = statusCalls log := by
  rcases h with h | ⟨p, h⟩ <;> rw [h, statusCalls_append] <;> simp [statusCalls]

theorem readPacket_info_frame (c : Consts) (hc : RecvLayout c) (hp : HeatPump) (wait : Bool)
    (fuel : Nat) (w : World) (a0 a2 a3 L d0 : Nat) (payload : List Nat) (cs : Nat)
    (rest : List Nat) (hpl : (d0 :: payload).length = L) (hL : L ≤ 21) (hfuel : L + 6 ≤ fuel)
    (hrx : w.rx = a0 :: 0x62 :: a2 :: a3 :: L :: ((d0 :: payload) ++ [cs] ++ rest))
    (hsum : recvCheckSum [a0, 0x62, a2, a3, L] ((d0 :: payload) ++ [cs]) 5 L = .ok cs)
    (hmagic : rd c.HEADER 0 = .ok a0 ∧ rd c.HEADER 2 = .ok a2 ∧ rd c.HEADER 3 = .ok a3)
    (hclock : ∀ i, i < L + 6 →
      usub (w.clock (w.ticks + 1 + i) % 2 ^ 32) w.now < c.PACKET_RESPONSE_WAIT_TIME) :
    ∃ (t : Nat) (w0 : World) (data : List Nat), w0.tx = w.tx ∧ w0.rx = rest ∧
      statusCalls w0.log = statusCalls w.log ∧
      (∀ i, rd data i = .ok (((d0 :: payload) ++ [cs]).getD i 0) ∨ 22 ≤ i) ∧
      ∀ res hp1 w1, readPacket_switch c { hp with lastRecv := t } w0 data L =
          .ok (some (res, hp1, w1)) →
        readPacket c fuel wait hp w = .ok (res, hp1, w1) := by
  obtain ⟨t, w0, htx, hrx0, hlog, hdl, hrun⟩ := readPacket_valid_frame c hc hp wait fuel w a0
    0x62 a2 a3 L (d0 :: payload) cs rest hpl hL hfuel hrx hsum hmagic hclock
  refine ⟨t, w0, (d0 :: payload) ++ [cs] ++ List.replicate (22 - (L + 1)) 0, htx, hrx0, statusCalls_frame c _ _ hlog, fun i => ?_, fun res hp1 w1 h => ?_⟩
  · by_cases hi : i < 22
    · left
      rw [rd_getD _ _ (by omega), getD_append_zeros]
    · right; omega
  · rw [hrun]
    simp only [if_true, h, bind, Except.bind, pure, Except.pure]

/-- C17: for a checksum-valid status frame (category `0x62`, `payload[0] = 0x06`) that arrives
within the wait window, `readPacket` returns `RCVD_PKT_STATUS` and stores
`operating = (data[4] != 0)` and `compressorFrequency = data[3]`. It stores
`power = data[5] * 256 + data[6]` only when the status-changed callback is not invoked; when a
status-changed callback is registered and `operating` changes, `currentStatus.power` keeps its
previous value, during the callback and after `readPacket`. -/
theorem status_frame_power_kept_on_callback (c : Consts) (hc : RecvLayout c) (hp : HeatPump)
    (wait : Bool) (fuel : Nat) (w : World) (a0 a2 a3 L : Nat) (payload : List Nat) (cs : Nat)
    (rest : List Nat) (hpl : (0x06 :: payload).length = L) (hL : L ≤ 21) (hfuel : L + 6 ≤ fuel)
    (hrx : w.rx = a0 :: 0x62 :: a2 :: a3 :: L :: ((0x06 :: payload) ++ [cs] ++ rest))
    (hsum : recvCheckSum [a0, 0x62, a2, a3, L] ((0x06 :: payload) ++ [cs]) 5 L = .ok cs)
    (hmagic : rd c.HEADER 0 = .ok a0 ∧ rd c.HEADER 2 = .ok a2 ∧ rd c.HEADER 3 = .ok a3)
    (hclock : ∀ i, i < L + 6 →
      usub (w.clock (w.ticks + 1 + i) % 2 ^ 32) w.now < c.PACKET_RESPONSE_WAIT_TIME) :
    ∃ hp1 w1, readPacket c fuel wait hp w = .ok (c.RCVD_PKT_STATUS, hp1, w1) ∧
      hp1.currentStatus.operating = (((0x06 :: payload) ++ [cs]).getD 4 0 != 0) ∧
      hp1.currentStatus.compressorFrequency = ((((0x06 :: payload) ++ [cs]).getD 3 0 : Nat) : Int) ∧
      hp1.currentStatus.power =
        (if hp.statusChangedCallback = true ∧
            hp.currentStatus.operating ≠ (((0x06 :: payload) ++ [cs]).getD 4 0 != 0) then
          hp.currentStatus.power
        else (((((0x06 :: payload) ++ [cs]).getD 5 0 * 256 +
          ((0x06 :: payload) ++ [cs]).getD 6 0) % 65536 : Nat) : Int)) ∧
      statusCalls w1.log = statusCalls w.log ++
        (if hp.statusChangedCallback = true ∧
            hp.currentStatus.operating ≠ (((0x06 :: payload) ++ [cs]).getD 4 0 != 0) then
          [hp1.currentStatus]
        else []) := by
  obtain ⟨t, w0, data, _, _, hlog, hrd, hrun⟩ := readPacket_info_frame c hc hp wait fuel w a0 a2
    a3 L 0x06 payload cs rest hpl hL hfuel hrx hsum hmagic hclock
  have h0 := (hrd 0).resolve_right (by omega)
  have h3 := (hrd 3).resolve_right (by omega)
  have h4 := (hrd 4).resolve_right (by omega)
  have h5 := (hrd 5).resolve_right (by omega)
  have h6 := (hrd 6).resolve_right (by omega)
  simp only [List.cons_append, List.getD_cons_zero] at h0
  generalize ((0x06 :: payload) ++ [cs]).getD 3 0 = d3 at h3 ⊢
  generalize ((0x06 :: payload) ++ [cs]).getD 4 0 = d4 at h4 ⊢
  generalize ((0x06 :: payload) ++ [cs]).getD 5 0 = d5 at h5 ⊢
  generalize ((0x06 :: payload) ++ [cs]).getD 6 0 = d6 at h6 ⊢
  have hpow : (d5 * 256 % 65536 + d6) % 65536 = (d5 * 256 + d6) % 65536 := Nat.mod_add_mod _ _ _
  by_cases hcond : hp.statusChangedCallback = true ∧ hp.currentStatus.operating ≠ (d4 != 0)
  · have hb : (hp.statusChangedCallback && hp.currentStatus.operating != (d4 != 0)) = true := by
      simp only [Bool.and_eq_true, bne_iff_ne]
      exact hcond
    refine ⟨{ { hp with lastRecv := t } with currentStatus := { hp.currentStatus with
        operating := (d4 != 0), compressorFrequency := (d3 : Int) } },
      w0.emit (.statusChanged { hp.currentStatus with
        operating := (d4 != 0), compressorFrequency := (d3 : Int) }), hrun _ _ _ ?_, ?_⟩
    · unfold readPacket_switch readPacket_status
      simp only [h0, h3, h4, h5, h6, bind, Except.bind, hb, if_true, pure, Except.pure,
        Functor.map, Except.map]
      rfl
    · rw [if_pos hcond, if_pos hcond]
      refine ⟨rfl, rfl, rfl, ?_⟩
      rw [World.emit, statusCalls_append, hlog]
      rfl
  · have hb : (hp.statusChangedCallback && hp.currentStatus.operating != (d4 != 0)) = false := by
      rw [Bool.eq_false_iff]
      simp only [ne_eq, Bool.and_eq_true, bne_iff_ne]
      exact hcond
    refine ⟨{ { hp with lastRecv := t } with currentStatus := { hp.currentStatus with
        operating := (d4 != 0), compressorFrequency := (d3 : Int),
        power := (((d5 * 256 % 65536 + d6) % 65536 : Nat) : Int) } }, w0, hrun _ _ _ ?_, ?_⟩
    · unfold readPacket_switch readPacket_status
      simp only [h0, h3, h4, h5, h6, bind, Except.bind, hb, Bool.false_eq_true, if_false, pure,
        Except.pure, Functor.map, Except.map]
      rfl
    · rw [if_neg hcond, if_neg hcond, List.append_nil]
      exact ⟨rfl, rfl, by simp only [hpow], hlog⟩

theorem status_frame_power_kept_on_callback_witness :
    ∃ hp1 w1,
      readPacket cn105 22 false { HeatPump.fresh cn105 0 with statusChangedCallback := true }
          (World.still 5000 [0xfc, 0x62, 0x01, 0x30, 0x10, 0x06, 0x00, 0x00, 0x28, 0x01, 0x01,
            0x2c, 0, 0, 0, 0, 0, 0, 0, 0, 0, 0x01]) =
        .ok (cn105.RCVD_PKT_STATUS, hp1, w1) ∧
      hp1.currentStatus.operating = true ∧ hp1.currentStatus.compressorFrequency = 0x28 ∧
      hp1.currentStatus.power = 0 ∧ (0x01 * 256 + 0x2c : Int) = 300 ∧
      statusCalls w1.log = [hp1.currentStatus] := by
  obtain ⟨hp1, w1, h1, h2, h3, h4, h5⟩ := status_frame_power_kept_on_callback cn105 (by decide)
    { HeatPump.fresh cn105 0 with statusChangedCallback := true } false 22
    (World.still 5000 [0xfc, 0x62, 0x01, 0x30, 0x10, 0x06, 0x00, 0x00, 0x28, 0x01, 0x01,
      0x2c, 0, 0, 0, 0, 0, 0, 0, 0, 0, 0x01]) 0xfc 0x01 0x30 0x10
    [0x00, 0x00, 0x28, 0x01, 0x01, 0x2c, 0, 0, 0, 0, 0, 0, 0, 0, 0] 0x01 [] (by decide)
    (by decide) (by decide) rfl (by decide) (by decide)
    (fun _ _ => by
      show usub (5000 % 2 ^ 32) (5000 % 2 ^ 32) < 1000
      decide)
  refine ⟨hp1, w1, h1, h2, h3, ?_, by decide, ?_⟩
  · rw [h4]; rfl
  · rw [h5]; rfl


theorem readPacket_roomTemp_eq (c : Consts) (hp : HeatPump) (w : World) (data : List Nat)
    (d3 d6 : Nat) (v : Int) (h3 : rd data 3 = .ok d3) (h6 : rd data 6 = .ok d6)
    (hv : lookupByteMapValue c.ROOM_TEMP_MAP c.ROOM_TEMP 32 d3 = .ok v) (R : ℚ)
    (hR : R = if d6 = 0 then (v : ℚ) else ((((d6 : Int) - 128 : Int) : ℚ) / 2)) :
    ∃ w1, readPacket_roomTemp c hp w data =
        .ok (c.RCVD_PKT_ROOM_TEMP,
          { hp with currentStatus := { hp.currentStatus with roomTemperature := R } }, w1) ∧
      w1.tx = w.tx ∧
      statusCalls w1.log = statusCalls w.log ++
        (if hp.statusChangedCallback = true ∧ hp.currentStatus.roomTemperature ≠ R then
          [{ hp.currentStatus with roomTemperature := R }]
        else []) := by
  subst hR
  unfold readPacket_roomTemp
  by_cases h : d6 = 0
  · simp only [h6, h3, hv, h, bind, Except.bind, bne_self_eq_false, Bool.false_eq_true, if_false,
      if_true, pure, Except.pure]
    generalize (v : ℚ) = R
    cases hs : hp.statusChangedCallback <;> cases hr : hp.roomTempChangedCallback <;>
      by_cases hne : hp.currentStatus.roomTemperature = R <;>
      simp [hne, World.emit, statusCalls_append, statusCalls]
  · have hb : (d6 != 0) = true := by simpa using h
    simp only [h6, h3, hb, h, bind, Except.bind, if_false, if_true, pure, Except.pure]
    generalize ((((d6 : Int) - 128 : Int) : ℚ) / 2) = R
    cases hs : hp.statusChangedCallback <;> cases hr : hp.roomTempChangedCallback <;>
      by_cases hne : hp.currentStatus.roomTemperature = R <;>
      simp [hne, World.emit, statusCalls_append, statusCalls]

/-- C18: for a checksum-valid room-temperature frame (category `0x62`, `payload[0] = 0x03`) that
arrives within the wait window, `readPacket` returns `RCVD_PKT_ROOM_TEMP` and stores in
`currentStatus.roomTemperature` the entry of `ROOM_TEMP_MAP` that `lookupByteMapValue` pairs
with `data[3]` when `data[6] = 0`, and `(data[6] - 128) / 2` when `data[6] != 0`. A registered
status-changed callback is invoked once, with the new room temperature already stored, if the
previous room temperature differs from the decoded one, and not at all if it is equal. -/
theorem room_temperature_frame_decodes (c : Consts) (hc : RecvLayout c) (ht : TableSizes c)
    (hp : HeatPump) (wait : Bool) (fuel : Nat) (w : World) (a0 a2 a3 L : Nat)
    (payload : List Nat) (cs : Nat) (rest : List Nat) (hpl : (0x03 :: payload).length = L)
    (hL : L ≤ 21) (hfuel : L + 6 ≤ fuel)
    (hrx : w.rx = a0 :: 0x62 :: a2 :: a3 :: L :: ((0x03 :: payload) ++ [cs] ++ rest))
    (hsum : recvCheckSum [a0, 0x62, a2, a3, L] ((0x03 :: payload) ++ [cs]) 5 L = .ok cs)
    (hmagic : rd c.HEADER 0 = .ok a0 ∧ rd c.HEADER 2 = .ok a2 ∧ rd c.HEADER 3 = .ok a3)
    (hclock : ∀ i, i < L + 6 →
      usub (w.clock (w.ticks + 1 + i) % 2 ^ 32) w.now < c.PACKET_RESPONSE_WAIT_TIME) :
    ∃ hp1 w1 v, readPacket c fuel wait hp w = .ok (c.RCVD_PKT_ROOM_TEMP, hp1, w1) ∧
      lookupByteMapValue c.ROOM_TEMP_MAP c.ROOM_TEMP 32 (((0x03 :: payload) ++ [cs]).getD 3 0) =
        .ok v ∧
      Decodes c.ROOM_TEMP_MAP c.ROOM_TEMP 32 (((0x03 :: payload) ++ [cs]).getD 3 0) v ∧
      hp1.currentStatus.roomTemperature =
        (if ((0x03 :: payload) ++ [cs]).getD 6 0 = 0 then (v : ℚ)
          else ((((((0x03 :: payload) ++ [cs]).getD 6 0 : Nat) : Int) - 128 : Int) : ℚ) / 2) ∧
      statusCalls w1.log = statusCalls w.log ++
        (if hp.statusChangedCallback = true ∧
            hp.currentStatus.roomTemperature ≠ hp1.currentStatus.roomTemperature then
          [hp1.currentStatus]
        else []) := by
  obtain ⟨t, w0, data, _, _, hlog, hrd, hrun⟩ := readPacket_info_frame c hc hp wait fuel w a0 a2
    a3 L 0x03 payload cs rest hpl hL hfuel hrx hsum hmagic hclock
  have h0 := (hrd 0).resolve_right (by omega)
  have h3 := (hrd 3).resolve_right (by omega)
  have h6 := (hrd 6).resolve_right (by omega)
  simp only [List.cons_append, List.getD_cons_zero] at h0
  obtain ⟨v, hv, hdec⟩ := lookupByteMapValue_decodes c.ROOM_TEMP_MAP c.ROOM_TEMP 32
    (((0x03 :: payload) ++ [cs]).getD 3 0) ht.2.2.2.2.2.2.2.2.2.2.2.2.2.1
    ht.2.2.2.2.2.2.2.2.2.2.2.2.1 (by omega)
  obtain ⟨w1, hcase, _, hcalls⟩ := readPacket_roomTemp_eq c { hp with lastRecv := t } w0 data _ _
    v h3 h6 hv _ rfl
  refine ⟨{ { hp with lastRecv := t } with currentStatus := { hp.currentStatus with
      roomTemperature := (if ((0x03 :: payload) ++ [cs]).getD 6 0 = 0 then (v : ℚ)
        else ((((((0x03 :: payload) ++ [cs]).getD 6 0 : Nat) : Int) - 128 : Int) : ℚ) / 2) } },
    w1, v, hrun _ _ _ ?_, hv, hdec, rfl, ?_⟩
  · unfold readPacket_switch
    have e : ¬ ((0x03 : Nat) = 0x02) := by decide
    simp only [h0, bind, Except.bind, e, if_false, if_true, hcase, Functor.map, Except.map]
  · rw [hcalls, hlog]

theorem room_temperature_frame_decodes_witness :
    ∃ hp1 w1,
      readPacket cn105 22 false { HeatPump.fresh cn105 0 with statusChangedCallback := true }
          (World.still 5000 [0xfc, 0x62, 0x01, 0x30, 0x10, 0x03, 0x00, 0x00, 0x05, 0, 0, 0, 0, 0,
            0, 0, 0, 0, 0, 0, 0, 0x55]) =
        .ok (cn105.RCVD_PKT_ROOM_TEMP, hp1, w1) ∧
      cn105.ROOM_TEMP.getD 5 0 = 0x05 ∧
      hp1.currentStatus.roomTemperature = ((cn105.ROOM_TEMP_MAP.getD 5 0 : Int) : ℚ) ∧
      statusCalls w1.log = [hp1.currentStatus] := by
  obtain ⟨hp1, w1, v, h1, h2, _, h4, h5⟩ := room_temperature_frame_decodes cn105 (by decide)
    (by decide) { HeatPump.fresh cn105 0 with statusChangedCallback := true } false 22
    (World.still 5000 [0xfc, 0x62, 0x01, 0x30, 0x10, 0x03, 0x00, 0x00, 0x05, 0, 0, 0, 0, 0,
      0, 0, 0, 0, 0, 0, 0, 0x55]) 0xfc 0x01 0x30 0x10
    [0x00, 0x00, 0x05, 0, 0, 0, 0, 0, 0, 0, 0, 0, 0, 0, 0] 0x55 [] (by decide)
    (by decide) (by decide) rfl (by decide) (by decide)
    (fun _ _ => by
      show usub (5000 % 2 ^ 32) (5000 % 2 ^ 32) < 1000
      decide)
  have hv : v = 15 := by
    have : lookupByteMapValue cn105.ROOM_TEMP_MAP cn105.ROOM_TEMP 32 5 = .ok 15 := by decide
    have h2' : lookupByteMapValue cn105.ROOM_TEMP_MAP cn105.ROOM_TEMP 32 5 = .ok v := h2
    rw [this] at h2'
    injection h2' with h2'
    exact h2'.symm
  subst hv
  have hT : hp1.currentStatus.roomTemperature = 15 := by
    rw [h4]; norm_num
  refine ⟨hp1, w1, h1, by decide, ?_, ?_⟩
  · rw [hT]; decide
  · rw [h5, hT]
    simp [statusCalls, World.still, HeatPump.fresh]


/-! ## The set frame in fine-temperature mode -/

theorem fine_mode_frame_has_one_temperature_byte :
    createPacket cn105 { HeatPump.fresh cn105 0 with tempMode := true } (List.replicate 22 0)
        { heatpumpSettings.empty with temperature := 43 / 2 } =
      .ok [0xfc, 0x41, 0x01, 0x30, 0x10, 0x01, 0x04, 0, 0, 0, 0, 0, 0, 0, 0, 0, 0, 0, 0, 171, 0,
        0xce] ∧
      ((43 / 2 : ℚ) * 2 + 128 = 171 ∧ 3 + ((43 / 2 : ℚ) - 10) * 2 = 26) ∧
      26 ∉ ([0xfc, 0x41, 0x01, 0x30, 0x10, 0x01, 0x04, 0, 0, 0, 0, 0, 0, 0, 0, 0, 0, 0, 0, 171, 0,
        0xce] : List Nat) := by
  have h1 : prepareSetPacket cn105 (List.replicate 22 0) cn105.PACKET_LEN =
      .ok [0xfc, 0x41, 0x01, 0x30, 0x10, 0x01, 0, 0, 0, 0, 0, 0, 0, 0, 0, 0, 0, 0, 0, 0, 0, 0] := by
    decide
  have ht : truncToInt ((43 / 2 : ℚ) * 2 + 128) = 171 := by
    have : ((43 / 2 : ℚ) * 2 + 128) = ((171 : Int) : ℚ) := by norm_num
    rw [this, truncToInt_intCast]
  have hne : ((43 / 2 : ℚ) != 0) = true := by
    rw [bne_iff_ne]; norm_num
  have h4 : createPacket_temperature cn105 { HeatPump.fresh cn105 0 with tempMode := true }
      { heatpumpSettings.empty with temperature := 43 / 2 }
      [0xfc, 0x41, 0x01, 0x30, 0x10, 0x01, 0, 0, 0, 0, 0, 0, 0, 0, 0, 0, 0, 0, 0, 0, 0, 0] =
      .ok [0xfc, 0x41, 0x01, 0x30, 0x10, 0x01, 0x04, 0, 0, 0, 0, 0, 0, 0, 0, 0, 0, 0, 0, 171, 0,
        0] := by
    unfold createPacket_temperature
    simp only [HeatPump.fresh, heatpumpSettings.empty, Bool.not_true, Bool.false_and,
      Bool.false_eq_true, if_false, Bool.true_and, hne, if_true, ht]
    decide
  refine ⟨?_, by norm_num, by decide⟩
  unfold createPacket
  rw [h1]
  simp only [bind, Except.bind]
  rw [show createPacket_power cn105 { HeatPump.fresh cn105 0 with tempMode := true }
      { heatpumpSettings.empty with temperature := 43 / 2 }
      [0xfc, 0x41, 0x01, 0x30, 0x10, 0x01, 0, 0, 0, 0, 0, 0, 0, 0, 0, 0, 0, 0, 0, 0, 0, 0] =
      .ok [0xfc, 0x41, 0x01, 0x30, 0x10, 0x01, 0, 0, 0, 0, 0, 0, 0, 0, 0, 0, 0, 0, 0, 0, 0, 0]
      from by decide]
  simp only []
  rw [show createPacket_mode cn105 { HeatPump.fresh cn105 0 with tempMode := true }
      { heatpumpSettings.empty with temperature := 43 / 2 }
      [0xfc, 0x41, 0x01, 0x30, 0x10, 0x01, 0, 0, 0, 0, 0, 0, 0, 0, 0, 0, 0, 0, 0, 0, 0, 0] =
      .ok [0xfc, 0x41, 0x01, 0x30, 0x10, 0x01, 0, 0, 0, 0, 0, 0, 0, 0, 0, 0, 0, 0, 0, 0, 0, 0]
      from by decide]
  simp only []
  rw [h4]
  simp only []
  rw [show createPacket_fan cn105 { HeatPump.fresh cn105 0 with tempMode := true }
      { heatpumpSettings.empty with temperature := 43 / 2 }
      [0xfc, 0x41, 0x01, 0x30, 0x10, 0x01, 0x04, 0, 0, 0, 0, 0, 0, 0, 0, 0, 0, 0, 0, 171, 0, 0] =
      .ok [0xfc, 0x41, 0x01, 0x30, 0x10, 0x01, 0x04, 0, 0, 0, 0, 0, 0, 0, 0, 0, 0, 0, 0, 171, 0, 0]
      from by decide]
  simp only []
  rw [show createPacket_vane cn105 { HeatPump.fresh cn105 0 with tempMode := true }
      { heatpumpSettings.empty with temperature := 43 / 2 }
      [0xfc, 0x41, 0x01, 0x30, 0x10, 0x01, 0x04, 0, 0, 0, 0, 0, 0, 0, 0, 0, 0, 0, 0, 171, 0, 0] =
      .ok [0xfc, 0x41, 0x01, 0x30, 0x10, 0x01, 0x04, 0, 0, 0, 0, 0, 0, 0, 0, 0, 0, 0, 0, 171, 0, 0]
      from by decide]
  simp only []
  rw [show createPacket_wideVane cn105 { HeatPump.fresh cn105 0 with tempMode := true }
      { heatpumpSettings.empty with temperature := 43 / 2 }
      [0xfc, 0x41, 0x01, 0x30, 0x10, 0x01, 0x04, 0, 0, 0, 0, 0, 0, 0, 0, 0, 0, 0, 0, 171, 0, 0] =
      .ok [0xfc, 0x41, 0x01, 0x30, 0x10, 0x01, 0x04, 0, 0, 0, 0, 0, 0, 0, 0, 0, 0, 0, 0, 171, 0, 0]
      from by decide]
  decide

theorem createPacket_temperature_fine (c : Consts) (hp : HeatPump) (wanted : heatpumpSettings)
    (p : List Nat) (htm : hp.tempMode = true) (hc : c.CONTROL_PACKET_1.length = 5)
    (h19 : 19 < p.length) (h6 : 6 < p.length)
    (hd : wanted.temperature ≠ hp.currentSettings.temperature) :
    createPacket_temperature c hp wanted p =
      .ok ((p.set 19 ((truncToInt (wanted.temperature * 2 + 128)) % 256).toNat).set 6
        ((p.getD 6 0 + c.CONTROL_PACKET_1.getD 2 0) % 256)) := by
  have hb : (wanted.temperature != hp.currentSettings.temperature) = true := by
    rw [bne_iff_ne]; exact hd
  have hcp : rd c.CONTROL_PACKET_1 2 = .ok (c.CONTROL_PACKET_1.getD 2 0) :=
    rd_getD _ _ (by omega)
  have h6' : rd (p.set 19 ((truncToInt (wanted.temperature * 2 + 128)) % 256).toNat) 6 =
      .ok (p.getD 6 0) := by
    rw [rd_getD _ _ (by simpa using h6)]
    simp [List.getD, List.getElem?_set]
  rw [createPacket_temperature]
  simp only [htm, Bool.not_true, Bool.false_and, Bool.false_eq_true, if_false, Bool.true_and, hb,
    if_true, wr_of_lt p 19 _ h19, hcp, addAt, h6', bind, Except.bind]
  rw [wr_of_lt _ 6 _ (by simpa using h6)]

theorem fine_byte (k : Nat) (hk : k ≤ 62) :
    ((truncToInt ((k : ℚ) / 2 * 2 + 128)) % 256).toNat = k + 128 := by
  have : ((k : ℚ) / 2 * 2 + 128) = (((k + 128 : Nat) : Int) : ℚ) := by
    push_cast; ring
  rw [this, truncToInt_intCast]
  omega

/-- C19 (amended): in fine-temperature mode, when the wanted temperature `t = k / 2` is a
half-degree value in `[10, 31]` that differs from the current one (and every other field that
differs holds a table entry), the set frame of `createPacket` carries the one derived byte
`t * 2 + 128` at `packet[19]`, has the temperature control bit set in `packet[6]`, leaves the
coarse temperature byte `packet[10]` zero and leaves bytes 13..17 and 20 zero: no byte
`3 + (t - 10) * 2` is written. -/
theorem createPacket_fine_temperature_byte (c : Consts) (hp : HeatPump)
    (wanted : heatpumpSettings) (packet : List Nat)
    (hc : SetFrameLayout c) (ht : TableSizes c) (hlen : packet.length = 22)
    (htm : hp.tempMode = true) (k : Nat) (hk : 20 ≤ k ∧ k ≤ 62)
    (htemp : wanted.temperature = (k : ℚ) / 2)
    (hdiff : wanted.temperature ≠ hp.currentSettings.temperature)
    (hpower : wanted.power ≠ hp.currentSettings.power →
      ∃ v, wanted.power = some v ∧ InTable c.POWER_MAP 2 v)
    (hmode : wanted.mode ≠ hp.currentSettings.mode →
      ∃ v, wanted.mode = some v ∧ InTable c.MODE_MAP 5 v)
    (hfan : wanted.fan ≠ hp.currentSettings.fan →
      ∃ v, wanted.fan = some v ∧ InTable c.FAN_MAP 6 v)
    (hvane : wanted.vane ≠ hp.currentSettings.vane →
      ∃ v, wanted.vane = some v ∧ InTable c.VANE_MAP 7 v)
    (hwide : wanted.wideVane ≠ hp.currentSettings.wideVane →
      ∃ v, wanted.wideVane = some v ∧ InTable c.WIDEVANE_MAP 7 v) :
    ∃ p, createPacket c hp packet wanted = .ok p ∧ p.length = 22 ∧
      p.getD 19 0 = k + 128 ∧ p.getD 6 0 &&& 0x04 ≠ 0 ∧ p.getD 10 0 = 0 ∧
      (∀ i, 13 ≤ i → i ≤ 17 → p.getD i 0 = 0) ∧ p.getD 20 0 = 0 ∧
      checkSum p 21 = .ok (p.getD 21 0) := by
  obtain ⟨h0, h1, h2, h3, h4, h5, hH, hprep⟩ := prepareSetPacket_eq c packet hc hlen
  obtain ⟨hPL, _, _, _, _, hcp1, hcp2⟩ := hc
  obtain ⟨t0, t1, t2, t3, t4, t5, t6, t7, t8, t9, t10, t11, _⟩ := ht
  obtain ⟨i0, b0, e0, s0⟩ := strField_encoding c.POWER_MAP c.POWER 2 wanted.power
    hp.currentSettings.power t1 t0 hpower
  obtain ⟨i1, b1, e1, s1⟩ := strField_encoding c.MODE_MAP c.MODE 5 wanted.mode
    hp.currentSettings.mode t3 t2 hmode
  obtain ⟨i3, b3, e3, s3⟩ := strField_encoding c.FAN_MAP c.FAN 6 wanted.fan
    hp.currentSettings.fan t7 t6 hfan
  obtain ⟨i4, b4, e4, s4⟩ := strField_encoding c.VANE_MAP c.VANE 7 wanted.vane
    hp.currentSettings.vane t9 t8 hvane
  obtain ⟨i5, b5, e5, s5⟩ := strField_encoding c.WIDEVANE_MAP c.WIDEVANE 7 wanted.wideVane
    hp.currentSettings.wideVane t11 t10 hwide
  have st0 := fun (p : List Nat) (hp8 : 8 < p.length) (hp6 : 6 < p.length) =>
    stage_eq_sets (wanted.power != hp.currentSettings.power)
      (lookupByteMapIndexStr c.POWER_MAP 2 wanted.power) c.POWER c.CONTROL_PACKET_1 0
      p 8 6 i0 b0 1 (fun x => x) hp8 hp6 (by decide) e0 (by rw [hcp1]; rfl)
  have st1 := fun (p : List Nat) (hp8 : 9 < p.length) (hp6 : 6 < p.length) =>
    stage_eq_sets (wanted.mode != hp.currentSettings.mode)
      (lookupByteMapIndexStr c.MODE_MAP 5 wanted.mode) c.MODE c.CONTROL_PACKET_1 1
      p 9 6 i1 b1 2 (fun x => x) hp8 hp6 (by decide) e1 (by rw [hcp1]; rfl)
  have st2 := fun (p : List Nat) (hp8 : 19 < p.length) (hp6 : 6 < p.length) =>
    createPacket_temperature_fine c hp wanted p htm (by rw [hcp1]; rfl) hp8 hp6 hdiff
  have st3 := fun (p : List Nat) (hp8 : 11 < p.length) (hp6 : 6 < p.length) =>
    stage_eq_sets (wanted.fan != hp.currentSettings.fan)
      (lookupByteMapIndexStr c.FAN_MAP 6 wanted.fan) c.FAN c.CONTROL_PACKET_1 3
      p 11 6 i3 b3 8 (fun x => x) hp8 hp6 (by decide) e3 (by rw [hcp1]; rfl)
  have st4 := fun (p : List Nat) (hp8 : 12 < p.length) (hp6 : 6 < p.length) =>
    stage_eq_sets (wanted.vane != hp.currentSettings.vane)
      (lookupByteMapIndexStr c.VANE_MAP 7 wanted.vane) c.VANE c.CONTROL_PACKET_1 4
      p 12 6 i4 b4 16 (fun x => x) hp8 hp6 (by decide) e4 (by rw [hcp1]; rfl)
  have st5 := fun (p : List Nat) (hp8 : 18 < p.length) (hp6 : 7 < p.length) =>
    stage_eq_sets (wanted.wideVane != hp.currentSettings.wideVane)
      (lookupByteMapIndexStr c.WIDEVANE_MAP 7 wanted.wideVane) c.WIDEVANE c.CONTROL_PACKET_2 0
      p 18 7 i5 b5 1 (fun x => x ||| (if hp.wideVaneAdj then 0x80 else 0x00)) hp8 hp6 (by decide)
      e5 (by rw [hcp2]; rfl)
  rw [createPacket, hPL, hprep]
  simp only [bind, Except.bind]
  rw [createPacket_power, st0 _ (by simp) (by simp)]
  simp only [List.set_cons_succ, List.set_cons_zero, List.getD_cons_succ, List.getD_cons_zero]
  generalize hx0 : (if (wanted.power != hp.currentSettings.power) = true then (0 + 1) % 256
    else 0) = x0
  generalize hv8 : (if (wanted.power != hp.currentSettings.power) = true then b0 else 0) = v8
  rw [createPacket_mode, st1 _ (by simp) (by simp)]
  simp only [List.set_cons_succ, List.set_cons_zero, List.getD_cons_succ, List.getD_cons_zero]
  generalize hx1 : (if (wanted.mode != hp.currentSettings.mode) = true then (x0 + 2) % 256
    else x0) = x1
  generalize hv9 : (if (wanted.mode != hp.currentSettings.mode) = true then b1 else 0) = v9
  rw [st2 _ (by simp) (by simp), htemp, fine_byte k hk.2]
  simp only [List.set_cons_succ, List.set_cons_zero, List.getD_cons_succ, List.getD_cons_zero,
    hcp1]
  generalize hx2 : (x1 + 4) % 256 = x2
  rw [createPacket_fan, st3 _ (by simp) (by simp)]
  simp only [List.set_cons_succ, List.set_cons_zero, List.getD_cons_succ, List.getD_cons_zero]
  generalize hx3 : (if (wanted.fan != hp.currentSettings.fan) = true then (x2 + 8) % 256
    else x2) = x3
  generalize hv11 : (if (wanted.fan != hp.currentSettings.fan) = true then b3 else 0) = v11
  rw [createPacket_vane, st4 _ (by simp) (by simp)]
  simp only [List.set_cons_succ, List.set_cons_zero, List.getD_cons_succ, List.getD_cons_zero]
  generalize hx4 : (if (wanted.vane != hp.currentSettings.vane) = true then (x3 + 16) % 256
    else x3) = x4
  generalize hv12 : (if (wanted.vane != hp.currentSettings.vane) = true then b4 else 0) = v12
  rw [createPacket_wideVane, st5 _ (by simp) (by simp)]
  simp only [List.set_cons_succ, List.set_cons_zero, List.getD_cons_succ, List.getD_cons_zero]
  generalize hy : (if (wanted.wideVane != hp.currentSettings.wideVane) = true then (0 + 1) % 256
    else 0) = y
  generalize hv18 : (if (wanted.wideVane != hp.currentSettings.wideVane) = true then
    b5 ||| (if hp.wideVaneAdj then 0x80 else 0x00) else 0) = v18
  obtain ⟨_, _, q2, _, _⟩ := control_bits _ _ true _ _ x0 x1 x2 x3 x4 hx0.symm hx1.symm
    (by rw [if_pos rfl]; exact hx2.symm) hx3.symm hx4.symm
  rw [checkSum_ok _ 21 (by simp)]
  generalize hcs : Int.toNat _ = cs
  have hwr : wr [h0, h1, h2, h3, h4, h5, x4, y, v8, v9, 0, v11, v12, 0, 0, 0, 0, 0, v18, k + 128,
      0, 0] 21 cs = .ok [h0, h1, h2, h3, h4, h5, x4, y, v8, v9, 0, v11, v12, 0, 0, 0, 0, 0, v18,
        k + 128, 0, cs] := by
    simp [wr]
  simp only [hwr]
  refine ⟨_, rfl, by simp, rfl, q2.mpr rfl, rfl, fun i h13 h17 => ?_, rfl, ?_⟩
  · have : i = 13 ∨ i = 14 ∨ i = 15 ∨ i = 16 ∨ i = 17 := by omega
    rcases this with h | h | h | h | h <;> subst h <;> rfl
  · rw [checkSum_ok _ 21 (by simp), ← hcs]
    simp

theorem createPacket_fine_temperature_byte_witness :
    ∃ p, createPacket cn105 { HeatPump.fresh cn105 0 with tempMode := true }
          (List.replicate 22 0) { heatpumpSettings.empty with temperature := 43 / 2 } = .ok p ∧
      p.length = 22 ∧ p.getD 19 0 = 43 + 128 ∧ p.getD 6 0 &&& 0x04 ≠ 0 ∧ p.getD 10 0 = 0 ∧
      (∀ i, 13 ≤ i → i ≤ 17 → p.getD i 0 = 0) ∧ p.getD 20 0 = 0 ∧
      checkSum p 21 = .ok (p.getD 21 0) :=
  createPacket_fine_temperature_byte cn105 { HeatPump.fresh cn105 0 with tempMode := true }
    { heatpumpSettings.empty with temperature := 43 / 2 } (List.replicate 22 0) (by decide)
    (by decide) rfl rfl 43 (by decide) (by norm_num)
    (by simp [HeatPump.fresh, heatpumpSettings.empty])
    (fun h => absurd rfl h) (fun h => absurd rfl h) (fun h => absurd rfl h)
    (fun h => absurd rfl h) (fun h => absurd rfl h)


/-! ## Writing the function settings -/

theorem waitCanSend_due (c : Consts) (hp : HeatPump) (N : Nat) :
    ∀ (fuel : Nat) (w : World), DueFrom c hp w.clock N → 1 ≤ fuel → N + 1 ≤ w.ticks + fuel →
      ∃ w1, waitCanSend c false hp fuel w = .ok w1 ∧ w1.clock = w.clock ∧
        w1.ticks ≤ max w.ticks (N + 1) + 2 ∧ w1.tx = w.tx ∧ w1.rx = w.rx := by
  intro fuel
  induction fuel with
  | zero => intro w _ h; omega
  | succ fuel ih =>
    intro w hdue _ hfuel
    by_cases hcs : (canSend c false hp w).1 = true
    · refine ⟨(canSend c false hp w).2, ?_, ?_, ?_, (canSend_world c false hp w).1,
        (canSend_world c false hp w).2⟩
      · rw [waitCanSend, if_pos hcs]; rfl
      · unfold canSend; split_ifs <;> rfl
      · unfold canSend; split_ifs <;> simp [World.tick] <;> omega
    · have hlt : w.ticks < N := by
        by_contra hge
        apply hcs
        have h0 := hdue w.ticks (by omega)
        have h1 := hdue (w.ticks + 1) (by omega)
        unfold canSend
        simp only [Bool.false_eq_true, if_false, World.now, World.tick]
        rw [if_pos h0.1]
        simpa using h1.2
      have hck : ((canSend c false hp w).2.emit (.delay 10)).clock = w.clock := by
        unfold canSend; split_ifs <;> rfl
      have htk : w.ticks + 1 ≤ ((canSend c false hp w).2.emit (.delay 10)).ticks ∧
          ((canSend c false hp w).2.emit (.delay 10)).ticks ≤ w.ticks + 2 := by
        unfold canSend; split_ifs <;> simp [World.tick, World.emit]
      obtain ⟨w1, h1, h2, h3, h4, h5⟩ := ih ((canSend c false hp w).2.emit (.delay 10))
        (by rw [hck]; exact hdue) (by omega) (by omega)
      refine ⟨w1, ?_, h2.trans hck, by omega, ?_, ?_⟩
      · rw [waitCanSend, if_neg hcs]; exact h1
      · rw [h4]; exact (canSend_world c false hp w).1
      · rw [h5]; exact (canSend_world c false hp w).2

theorem setFunctions_anyZero_eq (p1 p2 : List Nat) (n : Nat) (h1 : n + 6 ≤ p1.length)
    (h2 : n + 6 ≤ p2.length) :
    setFunctions_anyZero p1 p2 n =
      .ok (decide (∃ i, i < n ∧ (p1.getD (i + 6) 0 = 0 ∨ p2.getD (i + 6) 0 = 0))) := by
  induction n with
  | zero => simp [setFunctions_anyZero, pure, Except.pure]
  | succ n ih =>
    rw [setFunctions_anyZero, ih (by omega) (by omega)]
    simp only [bind, Except.bind, rd_getD p1 (n + 6) (by omega), rd_getD p2 (n + 6) (by omega),
      pure, Except.pure]
    by_cases hprev : ∃ i, i < n ∧ (p1.getD (i + 6) 0 = 0 ∨ p2.getD (i + 6) 0 = 0)
    · have : ∃ i, i < n + 1 ∧ (p1.getD (i + 6) 0 = 0 ∨ p2.getD (i + 6) 0 = 0) := by
        obtain ⟨i, hi, h⟩ := hprev
        exact ⟨i, by omega, h⟩
      simp only [hprev, this, decide_True, if_true]
    · simp only [hprev, decide_False, Bool.false_eq_true, if_false]
      by_cases ha : p1.getD (n + 6) 0 = 0
      · have : ∃ i, i < n + 1 ∧ (p1.getD (i + 6) 0 = 0 ∨ p2.getD (i + 6) 0 = 0) :=
          ⟨n, by omega, Or.inl ha⟩
        simp only [ha, if_true, this, decide_True]
      · simp only [ha, if_false]
        congr 1
        by_cases hb : p2.getD (n + 6) 0 = 0
        · have : ∃ i, i < n + 1 ∧ (p1.getD (i + 6) 0 = 0 ∨ p2.getD (i + 6) 0 = 0) :=
            ⟨n, by omega, Or.inr hb⟩
          rw [hb]
          simp only [this, decide_True]
          rfl
        · have : ¬ ∃ i, i < n + 1 ∧ (p1.getD (i + 6) 0 = 0 ∨ p2.getD (i + 6) 0 = 0) := by
            rintro ⟨i, hi, h⟩
            by_cases hin : i = n
            · subst hin
              rcases h with h | h
              · exact ha h
              · exact hb h
            · exact hprev ⟨i, by omega, h⟩
          simp only [this, decide_False]
          exact beq_eq_false_iff_ne.mpr hb


theorem getD_after_six (a0 a1 a2 a3 a4 a5 : Nat) (half tail : List Nat) (i : Nat)
    (hi : i < half.length) :
    ([a0, a1, a2, a3, a4, a5] ++ half ++ tail).getD (i + 6) 0 = half.getD i 0 := by
  simp only [List.cons_append, List.nil_append, List.getD_cons_succ]
  simp [List.getD, List.getElem?_append_left hi]

theorem functionsFrame_build (c : Consts) (h0 h1 h2 h3 h4 h5 : Nat)
    (hH : c.HEADER = [h0, h1, h2, h3, h4, h5, 0, 0]) (sub : Nat) (src : List Nat)
    (hsrc : 15 ≤ src.length) :
    wr [h0, h1, h2, h3, h4, h5, 0, 0, 0, 0, 0, 0, 0, 0, 0, 0, 0, 0, 0, 0, 0, 0] 5 sub =
        .ok [h0, h1, h2, h3, h4, sub, 0, 0, 0, 0, 0, 0, 0, 0, 0, 0, 0, 0, 0, 0, 0, 0] ∧
      memcpyAt [h0, h1, h2, h3, h4, sub, 0, 0, 0, 0, 0, 0, 0, 0, 0, 0, 0, 0, 0, 0, 0, 0] 6 src 15 =
        .ok ([h0, h1, h2, h3, h4, sub] ++ src.take 15 ++ [0]) ∧
      ([h0, h1, h2, h3, h4, sub] ++ src.take 15 ++ [0]).length = 22 ∧
      ∃ cs, checkSum ([h0, h1, h2, h3, h4, sub] ++ src.take 15 ++ [0]) 21 = .ok cs ∧
        wr ([h0, h1, h2, h3, h4, sub] ++ src.take 15 ++ [0]) 21 cs =
          .ok ([h0, h1, h2, h3, h4, sub] ++ src.take 15 ++ [cs]) ∧
        FunctionsFrame c ([h0, h1, h2, h3, h4, sub] ++ src.take 15 ++ [cs]) sub (src.take 15) := by
  have hl : (src.take 15).length = 15 := by simp; omega
  have hlen : ([h0, h1, h2, h3, h4, sub] ++ src.take 15 ++ [0]).length = 22 := by
    simp [hl]
  have hset : ∀ cs, ([h0, h1, h2, h3, h4, sub] ++ src.take 15 ++ [0]).set 21 cs =
      [h0, h1, h2, h3, h4, sub] ++ src.take 15 ++ [cs] := by
    intro cs
    rw [List.set_append_right _ _ (by simp [hl])]
    simp [hl]
  have htake : ∀ cs, ([h0, h1, h2, h3, h4, sub] ++ src.take 15 ++ [cs]).take 21 =
      [h0, h1, h2, h3, h4, sub] ++ src.take 15 := by
    intro cs
    rw [List.take_append_of_le_length (by simp [hl])]
    exact List.take_of_length_le (by simp [hl])
  refine ⟨rfl, ?_, hlen, _, checkSum_ok _ 21 (by omega), ?_, ?_⟩
  · rw [memcpyAt, if_pos ⟨hsrc, by simp⟩]
    rfl
  · rw [wr_of_lt _ 21 _ (by omega), hset]
  · refine ⟨by simp [hl], by rw [hH]; rfl, rfl, ?_, ?_⟩
    · simp only [List.cons_append, List.nil_append, List.drop_succ_cons, List.drop_zero]
      rw [List.take_append_of_le_length (by omega)]
      exact List.take_of_length_le (by omega)
    · rw [checkSum_ok _ 21 (by simp [hl]), htake, htake]
      congr 1
      rw [List.getD_eq_getElem?_getD, List.getElem?_append_right (by simp [hl])]
      simp [hl]

theorem setFunctions_eq (c : Consts) (hc : SetFrameLayout c) (fuel : Nat)
    (f : heatpumpFunctions) (hp : HeatPump) (w : World) (hraw : f.raw.length = 30) :
    ∃ p1 p2, FunctionsFrame c p1 c.FUNCTIONS_SET_PART1 (f.raw.take 15) ∧
      FunctionsFrame c p2 c.FUNCTIONS_SET_PART2 ((f.raw.drop 15).take 15) ∧
      setFunctions c fuel f hp w =
        (if FunctionsComplete f then (do
            let w ← waitCanSend c false hp fuel w
            let (hp, w) ← writePacket hp w p1 22
            let (_, hp, w) ← readPacket c fuel false hp w
            let w ← waitCanSend c false hp fuel w
            let (hp, w) ← writePacket hp w p2 22
            let (_, hp, w) ← readPacket c fuel false hp w
            pure (true, hp, w))
          else pure (false, hp, w)) := by
  obtain ⟨h0, h1, h2, h3, h4, h5, hH, hprep⟩ :=
    prepareSetPacket_eq c (List.replicate 22 0) hc (by simp)
  have hPL := hc.1
  obtain ⟨a1, a2, a3, cs1, a4, a5, a6⟩ := functionsFrame_build c h0 h1 h2 h3 h4 h5 hH
    c.FUNCTIONS_SET_PART1 f.raw (by omega)
  obtain ⟨b1, b2, b3, cs2, b4, b5, b6⟩ := functionsFrame_build c h0 h1 h2 h3 h4 h5 hH
    c.FUNCTIONS_SET_PART2 (f.raw.drop 15) (by simp; omega)
  refine ⟨_, _, a6, b6, ?_⟩
  have hl1 : (f.raw.take 15).length = 15 := by simp; omega
  have hl2 : ((f.raw.drop 15).take 15).length = 15 := by simp; omega
  have g1 : ∀ i, i < 15 →
      ([h0, h1, h2, h3, h4, c.FUNCTIONS_SET_PART1] ++ f.raw.take 15 ++ [0]).getD (i + 6) 0 =
        f.raw.getD i 0 := by
    intro i hi
    rw [getD_after_six _ _ _ _ _ _ _ _ i (by omega)]
    simp [List.getD, List.getElem?_take, hi]
  have g2 : ∀ i, i < 15 →
      ([h0, h1, h2, h3, h4, c.FUNCTIONS_SET_PART2] ++ (f.raw.drop 15).take 15 ++ [0]).getD
        (i + 6) 0 = f.raw.getD (15 + i) 0 := by
    intro i hi
    rw [getD_after_six _ _ _ _ _ _ _ _ i (by omega)]
    simp [List.getD, List.getElem?_take, hi]
  have r1 := rd_getD _ 20 (by omega :
    20 < ([h0, h1, h2, h3, h4, c.FUNCTIONS_SET_PART1] ++ f.raw.take 15 ++ [0]).length)
  have r2 := rd_getD _ 20 (by omega :
    20 < ([h0, h1, h2, h3, h4, c.FUNCTIONS_SET_PART2] ++ (f.raw.drop 15).take 15 ++ [0]).length)
  rw [g1 14 (by omega)] at r1
  rw [g2 14 (by omega)] at r2
  have hz := setFunctions_anyZero_eq
    ([h0, h1, h2, h3, h4, c.FUNCTIONS_SET_PART1] ++ f.raw.take 15 ++ [0])
    ([h0, h1, h2, h3, h4, c.FUNCTIONS_SET_PART2] ++ (f.raw.drop 15).take 15 ++ [0]) 14
    (by omega) (by omega)
  have hzz : (∃ i, i < 14 ∧
      (([h0, h1, h2, h3, h4, c.FUNCTIONS_SET_PART1] ++ f.raw.take 15 ++ [0]).getD (i + 6) 0 = 0 ∨
        ([h0, h1, h2, h3, h4, c.FUNCTIONS_SET_PART2] ++ (f.raw.drop 15).take 15 ++ [0]).getD
          (i + 6) 0 = 0)) ↔
      ¬ ∀ i, i < 14 → f.raw.getD i 0 ≠ 0 ∧ f.raw.getD (15 + i) 0 ≠ 0 := by
    constructor
    · rintro ⟨i, hi, h⟩ hall
      rw [g1 i (by omega), g2 i (by omega)] at h
      rcases h with h | h
      · exact (hall i hi).1 h
      · exact (hall i hi).2 h
    · intro hn
      by_contra hex
      apply hn
      intro i hi
      constructor
      · intro h
        exact hex ⟨i, hi, Or.inl (by rw [g1 i (by omega)]; exact h)⟩
      · intro h
        exact hex ⟨i, hi, Or.inr (by rw [g2 i (by omega)]; exact h)⟩
  have hz' : setFunctions_anyZero
      ([h0, h1, h2, h3, h4, c.FUNCTIONS_SET_PART1] ++ f.raw.take 15 ++ [0])
      ([h0, h1, h2, h3, h4, c.FUNCTIONS_SET_PART2] ++ (f.raw.drop 15).take 15 ++ [0]) 14 =
      .ok (decide (¬ ∀ i, i < 14 → f.raw.getD i 0 ≠ 0 ∧ f.raw.getD (15 + i) 0 ≠ 0)) := by
    rw [hz]
    congr 1
    exact decide_eq_decide.mpr hzz
  unfold setFunctions
  by_cases hv : f.isValid = true
  · simp only [hv, Bool.not_true, Bool.false_eq_true, if_false, hPL, hprep, a1, a2, b1, b2,
      heatpumpFunctions.getData1, heatpumpFunctions.getData2, r1, r2, hz', bind, Except.bind]
    by_cases h14 : f.raw.getD 14 0 = 0
    · by_cases h29 : f.raw.getD 29 0 = 0
      · by_cases hall : ∀ i, i < 14 → f.raw.getD i 0 ≠ 0 ∧ f.raw.getD (15 + i) 0 ≠ 0
        · have hcomp : FunctionsComplete f := ⟨hv, hall, h14, h29⟩
          have hd : decide (¬ ∀ i, i < 14 → f.raw.getD i 0 ≠ 0 ∧ f.raw.getD (15 + i) 0 ≠ 0) =
              false := by
            rw [decide_eq_false_iff_not]
            exact fun h => h hall
          simp only [h14, h29, ne_eq, not_true_eq_false, if_false, hd, Bool.false_eq_true, a4,
            a5, b4, b5, if_pos hcomp]
        · have hcomp : ¬ FunctionsComplete f := fun h => hall h.2.1
          have hd : decide (¬ ∀ i, i < 14 → f.raw.getD i 0 ≠ 0 ∧ f.raw.getD (15 + i) 0 ≠ 0) =
              true := by
            rw [decide_eq_true_iff]
            exact hall
          simp only [h14, h29, ne_eq, not_true_eq_false, if_false, hd, if_true, if_neg hcomp]
      · have hcomp : ¬ FunctionsComplete f := fun h => h29 h.2.2.2
        simp only [h14, h29, ne_eq, not_true_eq_false, not_false_eq_true, if_false, if_true,
          if_neg hcomp]
    · have hcomp : ¬ FunctionsComplete f := fun h => h14 h.2.2.1
      simp only [h14, ne_eq, not_false_eq_true, if_true, if_neg hcomp]
  · have hcomp : ¬ FunctionsComplete f := fun h => hv h.1
    have hv' : f.isValid = false := by simpa using hv
    simp only [hv', Bool.not_false, if_true, if_neg hcomp]


theorem write_then_read_idle (c : Consts) (fuel : Nat) (hp : HeatPump) (w : World)
    (p : List Nat) (hp22 : p.length = 22) (hrx : w.rx = []) :
    ∃ w2, writePacket hp w p 22 = .ok ({ hp with lastSend := w.now }, w2) ∧
      readPacket c fuel false { hp with lastSend := w.now } w2 =
        .ok (c.RCVD_PKT_FAIL, { hp with lastSend := w.now }, w2.tick) ∧
      w2.tx = w.tx ++ [p] ∧ w2.rx = [] ∧ w2.clock = w.clock ∧ w2.ticks = w.ticks + 1 := by
  have hwl : writeLoop p 22 = .ok p := by
    rw [writeLoop_eq p 22 (by omega), ← hp22, List.take_length]
  by_cases hcb : hp.packetCallback = true
  · refine ⟨(({ w with tx := w.tx ++ [p] } : World).emit (.packet p 22 "packetSent")).tick, ?_,
      readPacket_idle c fuel _ _ hrx, rfl, hrx, rfl, rfl⟩
    simp only [writePacket, hwl, bind, Except.bind, hcb, if_true, pure, Except.pure]
    rfl
  · refine ⟨({ w with tx := w.tx ++ [p] } : World).tick, ?_,
      readPacket_idle c fuel _ _ hrx, rfl, hrx, rfl, rfl⟩
    simp only [writePacket, hwl, bind, Except.bind, hcb, Bool.false_eq_true, if_false, pure,
      Except.pure]
    rfl

theorem send_round_idle (c : Consts) (fuel : Nat) (hp : HeatPump) (w : World) (p : List Nat)
    (N : Nat) (hp22 : p.length = 22) (hrx : w.rx = []) (hdue : DueFrom c hp w.clock N)
    (hfuel : N + 1 ≤ fuel) :
    ∃ j w1 w2, j ≤ max w.ticks (N + 1) + 2 ∧
      waitCanSend c false hp fuel w = .ok w1 ∧
      writePacket hp w1 p 22 = .ok ({ hp with lastSend := w.clock j % 2 ^ 32 }, w2) ∧
      readPacket c fuel false { hp with lastSend := w.clock j % 2 ^ 32 } w2 =
        .ok (c.RCVD_PKT_FAIL, { hp with lastSend := w.clock j % 2 ^ 32 }, w2.tick) ∧
      w2.tick.tx = w.tx ++ [p] ∧ w2.tick.rx = [] ∧ w2.tick.clock = w.clock := by
  obtain ⟨w1, h1, hck, htk, htx, hrx1⟩ := waitCanSend_due c hp N fuel w hdue (by omega)
    (by omega)
  obtain ⟨w2, g1, g2, g3, g4, g5, g6⟩ := write_then_read_idle c fuel hp w1 p hp22
    (hrx1.trans hrx)
  have hnow : w1.now = w.clock w1.ticks % 2 ^ 32 := by simp only [World.now, hck]
  rw [hnow] at g1 g2
  refine ⟨w1.ticks, w1, w2, htk, h1, g1, g2, ?_, ?_, ?_⟩
  · simp only [World.tick, g3, htx]
  · simpa [World.tick] using g4
  · simp only [World.tick, g5, hck]

theorem runOps_snoc (f : heatpumpFunctions) (ops : List FunctionsOp) (op : FunctionsOp) :
    runOps f (ops ++ [op]) = runOps f ops >>= fun g => op.apply g := by
  induction ops generalizing f with
  | nil =>
    simp only [List.nil_append, runOps, bind, Except.bind, pure, Except.pure]
    cases op.apply f <;> rfl
  | cons o os ih =>
    simp only [List.cons_append, runOps, bind, Except.bind]
    cases o.apply f with
    | error e => rfl
    | ok g => exact ih g

theorem calledSinceClear_snoc (p : FunctionsOp → Bool) (ops : List FunctionsOp)
    (op : FunctionsOp) :
    CalledSinceClear p (ops ++ [op]) ↔
      (p op = true ∨ (op ≠ FunctionsOp.clear ∧ CalledSinceClear p ops)) := by
  constructor
  · rintro ⟨pre, x, post, heq, hp, hcl⟩
    rcases List.eq_nil_or_concat post with rfl | ⟨post', y, rfl⟩
    · have := List.append_inj' heq (by simp)
      obtain ⟨_, h2⟩ := this
      left
      cases h2
      exact hp
    · right
      simp only [List.concat_eq_append] at heq hcl
      rw [← List.cons_append, ← List.append_assoc] at heq
      have := List.append_inj' heq (by simp)
      obtain ⟨h1, h2⟩ := this
      cases h2
      refine ⟨fun h => hcl (by simp [h]), pre, x, post', h1, hp, fun h => hcl (by simp [h])⟩
  · rintro (hp | ⟨hne, pre, x, post, heq, hp, hcl⟩)
    · exact ⟨ops, op, [], rfl, hp, by simp⟩
    · refine ⟨pre, x, post ++ [op], by simp [heq], hp, ?_⟩
      simp only [List.mem_append, List.mem_singleton, not_or]
      exact ⟨hcl, fun h => hne h.symm⟩

theorem lastStored_snoc (stores : FunctionsOp → Option (List Nat)) (ops : List FunctionsOp)
    (op : FunctionsOp) (bytes : List Nat) :
    LastStored stores (ops ++ [op]) bytes ↔
      (stores op = some bytes ∨ (stores op = none ∧ LastStored stores ops bytes)) := by
  constructor
  · rintro (⟨pre, x, post, heq, hs, hno⟩ | ⟨hno, hb⟩)
    · rcases List.eq_nil_or_concat post with rfl | ⟨post', y, rfl⟩
      · obtain ⟨_, h2⟩ := List.append_inj' heq (by simp)
        cases h2
        exact Or.inl hs
      · simp only [List.concat_eq_append] at heq hno
        rw [← List.cons_append, ← List.append_assoc] at heq
        obtain ⟨h1, h2⟩ := List.append_inj' heq (by simp)
        cases h2
        exact Or.inr ⟨hno op (by simp), Or.inl ⟨pre, x, post', h1, hs,
          fun o ho => hno o (by simp [ho])⟩⟩
    · exact Or.inr ⟨hno op (by simp), Or.inr ⟨fun o ho => hno o (by simp [ho]), hb⟩⟩
  · rintro (hs | ⟨hn, ⟨pre, x, post, heq, hs, hno⟩ | ⟨hno, hb⟩⟩)
    · exact Or.inl ⟨ops, op, [], rfl, hs, by simp⟩
    · refine Or.inl ⟨pre, x, post ++ [op], by simp [heq], hs, fun o ho => ?_⟩
      rcases List.mem_append.mp ho with h | h
      · exact hno o h
      · rw [List.mem_singleton.mp h]; exact hn
    · refine Or.inr ⟨fun o ho => ?_, hb⟩
      rcases List.mem_append.mp ho with h | h
      · exact hno o h
      · rw [List.mem_singleton.mp h]; exact hn


theorem take_15_append (a b : List Nat) (ha : a.length = 15) : (a ++ b).take 15 = a := by
  rw [List.take_append_of_le_length ha.ge, List.take_of_length_le ha.le]

theorem drop_15_append (a b : List Nat) (ha : a.length = 15) : (a ++ b).drop 15 = b := by
  rw [List.drop_append_of_le_length ha.ge, List.drop_of_length_le ha.le]
  rfl

theorem runOps_invariant (size : Nat) (hsize : 30 ≤ size) (ops : List FunctionsOp)
    (hr : OpsReadable ops) :
    ∃ f, runOps (heatpumpFunctions.new size) ops = .ok f ∧ f.raw.length = size ∧
      (f._isValid1 = true ↔ CalledSinceClear FunctionsOp.isSet1 ops) ∧
      (f._isValid2 = true ↔ CalledSinceClear FunctionsOp.isSet2 ops) ∧
      LastStored FunctionsOp.stores1 ops (f.raw.take 15) ∧
      LastStored FunctionsOp.stores2 ops ((f.raw.drop 15).take 15) := by
  induction ops using List.reverseRecOn with
  | nil =>
    have hno : ∀ p, ¬ CalledSinceClear p [] := by
      rintro p ⟨pre, op, post, h, _⟩
      simp at h
    refine ⟨heatpumpFunctions.new size, rfl, by simp [heatpumpFunctions.new,
      heatpumpFunctions.clear], ?_, ?_, Or.inr ⟨by simp, ?_⟩, Or.inr ⟨by simp, ?_⟩⟩
    · simp [heatpumpFunctions.new, heatpumpFunctions.clear, hno]
    · simp [heatpumpFunctions.new, heatpumpFunctions.clear, hno]
    · simp [heatpumpFunctions.new, heatpumpFunctions.clear, List.take_replicate,
        Nat.min_eq_left (by omega : 15 ≤ size)]
    · simp [heatpumpFunctions.new, heatpumpFunctions.clear, List.take_replicate,
        List.drop_replicate, Nat.min_eq_left (by omega : 15 ≤ size - 15)]
  | append_singleton ops op ih =>
    obtain ⟨f, hf, hlen, hv1, hv2, hs1, hs2⟩ := ih (fun o ho => hr o (by simp [ho]))
    have hop := hr op (by simp)
    rw [runOps_snoc, hf]
    simp only [bind, Except.bind]
    rw [calledSinceClear_snoc, calledSinceClear_snoc]
    simp only [lastStored_snoc]
    cases op with
    | clear =>
      refine ⟨f.clear, rfl, by simp [heatpumpFunctions.clear, hlen], ?_, ?_, Or.inl ?_,
        Or.inl ?_⟩
      · simp [heatpumpFunctions.clear, FunctionsOp.isSet1]
      · simp [heatpumpFunctions.clear, FunctionsOp.isSet2]
      · simp only [FunctionsOp.stores1, heatpumpFunctions.clear, List.take_replicate]
        rw [Nat.min_eq_left (by omega)]
      · simp only [FunctionsOp.stores2, heatpumpFunctions.clear, List.take_replicate,
          List.drop_replicate]
        rw [Nat.min_eq_left (by omega)]
    | setData1 d =>
      have hd : 15 ≤ d.length := by simpa [FunctionsOp.readable] using hop
      have hl : (d.take 15).length = 15 := by simp; omega
      refine ⟨{ f with raw := d.take 15 ++ f.raw.drop 15, _isValid1 := true }, ?_, ?_, ?_, ?_,
        Or.inl ?_, Or.inr ⟨rfl, ?_⟩⟩
      · simp only [FunctionsOp.apply, heatpumpFunctions.setData1]
        rw [if_pos ⟨hd, by omega⟩]
        rfl
      · simp only [List.length_append, hl, List.length_drop]
        omega
      · simp [FunctionsOp.isSet1]
      · simp [FunctionsOp.isSet2, hv2]
      · simp only [FunctionsOp.stores1]
        rw [take_15_append _ _ hl]
      · simp only [drop_15_append _ _ hl]
        exact hs2
    | setData2 d =>
      have hd : 15 ≤ d.length := by simpa [FunctionsOp.readable] using hop
      have hl : (d.take 15).length = 15 := by simp; omega
      have hl' : (f.raw.take 15).length = 15 := by simp; omega
      refine ⟨{ f with raw := f.raw.take 15 ++ d.take 15 ++ f.raw.drop 30, _isValid2 := true },
        ?_, ?_, ?_, ?_, Or.inr ⟨rfl, ?_⟩, Or.inl ?_⟩
      · simp only [FunctionsOp.apply, heatpumpFunctions.setData2]
        rw [if_pos ⟨hd, by omega⟩]
        rfl
      · simp only [List.length_append, hl, hl', List.length_drop]
        omega
      · simp [FunctionsOp.isSet1, hv1]
      · simp [FunctionsOp.isSet2]
      · simp only [List.append_assoc, take_15_append _ _ hl']
        exact hs1
      · simp only [FunctionsOp.stores2]
        rw [List.append_assoc, drop_15_append _ _ hl', take_15_append _ _ hl]

/-- C21: run any sequence of `clear`, `setData1`, `setData2` on a freshly constructed
`heatpumpFunctions`. Then `isValid()` is true exactly when a `setData1` and a `setData2` each
occur with no `clear` after them; `getData1` and `getData2` return the 15 bytes last stored in
their half (by the last `setData` of that half or `clear`, zeros if there is none). A call of
`setData1` leaves `raw[15..]` as it was and a call of `setData2` leaves `raw[0..14]` and
`raw[30..]` as they were. -/
theorem functions_valid_iff_both_halves (size : Nat) (hsize : 30 ≤ size)
    (ops : List FunctionsOp) (hr : OpsReadable ops) :
    ∃ f b1 b2, runOps (heatpumpFunctions.new size) ops = .ok f ∧
      (f.isValid = true ↔
        (CalledSinceClear FunctionsOp.isSet1 ops ∧ CalledSinceClear FunctionsOp.isSet2 ops)) ∧
      f.getData1 (List.replicate 15 0) 0 = .ok b1 ∧ LastStored FunctionsOp.stores1 ops b1 ∧
      f.getData2 (List.replicate 15 0) 0 = .ok b2 ∧ LastStored FunctionsOp.stores2 ops b2 ∧
      (∀ g d g', heatpumpFunctions.setData1 g d = .ok g' →
        g'.raw.take 15 = d.take 15 ∧ g'.raw.drop 15 = g.raw.drop 15) ∧
      (∀ g d g', heatpumpFunctions.setData2 g d = .ok g' →
        g'.raw.take 15 = g.raw.take 15 ∧ (g'.raw.drop 15).take 15 = d.take 15 ∧
          g'.raw.drop 30 = g.raw.drop 30) := by
  obtain ⟨f, hf, hlen, hv1, hv2, hs1, hs2⟩ := runOps_invariant size hsize ops hr
  refine ⟨f, f.raw.take 15, (f.raw.drop 15).take 15, hf, ?_, ?_, hs1, ?_, hs2, ?_, ?_⟩
  · rw [← hv1, ← hv2]
    simp [heatpumpFunctions.isValid]
  · simp only [heatpumpFunctions.getData1, memcpyAt]
    rw [if_pos ⟨by omega, by simp⟩]
    simp [pure, Except.pure]
  · simp only [heatpumpFunctions.getData2, memcpyAt]
    rw [if_pos ⟨by simp; omega, by simp⟩]
    simp [pure, Except.pure]
  · intro g d g' h
    unfold heatpumpFunctions.setData1 at h
    split at h
    · rename_i hc
      cases h
      have hl : (d.take 15).length = 15 := by simp; omega
      exact ⟨take_15_append _ _ hl, drop_15_append _ _ hl⟩
    · cases h
  · intro g d g' h
    unfold heatpumpFunctions.setData2 at h
    split at h
    · rename_i hc
      cases h
      have hl : (d.take 15).length = 15 := by simp; omega
      have hl' : (g.raw.take 15).length = 15 := by simp; omega
      have hl30 : (g.raw.take 15 ++ d.take 15).length = 30 := by simp [hl, hl']
      refine ⟨by simp only [List.append_assoc, take_15_append _ _ hl'], ?_, ?_⟩
      · simp only [List.append_assoc, drop_15_append _ _ hl', take_15_append _ _ hl]
      · rw [List.drop_append_of_le_length hl30.ge, List.drop_of_length_le hl30.le]
        rfl
    · cases h

theorem functions_valid_iff_both_halves_witness :
    ∃ f b1 b2,
      runOps (heatpumpFunctions.new 30)
          [.setData1 (List.replicate 15 7), .clear, .setData2 (List.replicate 15 9),
            .setData1 (List.replicate 15 5)] = .ok f ∧
      (f.isValid = true ↔
        (CalledSinceClear FunctionsOp.isSet1
            [.setData1 (List.replicate 15 7), .clear, .setData2 (List.replicate 15 9),
              .setData1 (List.replicate 15 5)] ∧
          CalledSinceClear FunctionsOp.isSet2
            [.setData1 (List.replicate 15 7), .clear, .setData2 (List.replicate 15 9),
              .setData1 (List.replicate 15 5)])) ∧
      f.getData1 (List.replicate 15 0) 0 = .ok b1 ∧
      LastStored FunctionsOp.stores1
        [.setData1 (List.replicate 15 7), .clear, .setData2 (List.replicate 15 9),
          .setData1 (List.replicate 15 5)] b1 ∧
      f.getData2 (List.replicate 15 0) 0 = .ok b2 ∧
      LastStored FunctionsOp.stores2
        [.setData1 (List.replicate 15 7), .clear, .setData2 (List.replicate 15 9),
          .setData1 (List.replicate 15 5)] b2 ∧
      (∀ g d g', heatpumpFunctions.setData1 g d = .ok g' →
        g'.raw.take 15 = d.take 15 ∧ g'.raw.drop 15 = g.raw.drop 15) ∧
      (∀ g d g', heatpumpFunctions.setData2 g d = .ok g' →
        g'.raw.take 15 = g.raw.take 15 ∧ (g'.raw.drop 15).take 15 = d.take 15 ∧
          g'.raw.drop 30 = g.raw.drop 30) :=
  functions_valid_iff_both_halves 30 (by decide)
    [.setData1 (List.replicate 15 7), .clear, .setData2 (List.replicate 15 9),
      .setData1 (List.replicate 15 5)] (by decide)


/-! ## Function codes and values -/

theorem code_bits : ∀ k, k < 29 → ∀ v, v < 4 →
    ((k <<< 2) ||| v) = k * 4 + v ∧ (((k * 4 + v) >>> 2) &&& 0xff) = k ∧
      ((k * 4 + v) &&& 3) = v := by
  decide

theorem findCode_spec (raw : List Nat) (code : Int) (n : Nat) (hn : n ≤ raw.length) :
    (∃ i, i < n ∧ heatpumpFunctions.getCode (raw.getD i 0) = code ∧
        (∀ j, j < i → heatpumpFunctions.getCode (raw.getD j 0) ≠ code) ∧
        heatpumpFunctions.findCode raw code n 0 = .ok (some i)) ∨
      ((∀ i, i < n → heatpumpFunctions.getCode (raw.getD i 0) ≠ code) ∧
        heatpumpFunctions.findCode raw code n 0 = .ok none) := by
  have htest : ∀ i, 0 ≤ i → i < 0 + n →
      (fun i => (do pure (decide (heatpumpFunctions.getCode (← rd raw i) = code)) : Res Bool)) i
        = .ok (decide (heatpumpFunctions.getCode (raw.getD i 0) = code)) := by
    intro i _ hi
    simp only [rd_getD raw i (by omega), bind, Except.bind, pure, Except.pure]
  rcases firstMatch_spec _ _ n 0 htest with ⟨i, _, h2, h3, h4, h5⟩ | ⟨h1, h2⟩
  · left
    refine ⟨i, by omega, by simpa using h3, fun j hj => ?_, h5⟩
    simpa using h4 j (Nat.zero_le _) hj
  · right
    exact ⟨fun i hi => by simpa using h1 i (Nat.zero_le _) (by omega), h2⟩

/-- C22: for a code in 101..128 and a value in 1..3, the byte `((code - 100) << 2) | value`
has `getCode = code` and `getValue = value`. If some slot below `MAX_FUNCTION_CODE_COUNT` holds
the code, `setValue(code, value)` returns true, replaces the first such slot by that byte,
leaves every other slot as it was, and `getValue(code)` is `value` afterwards; if no slot holds
the code it returns false and leaves `raw` as it was. When the code is outside 101..128 or the
value outside 1..3 it returns false and leaves `raw` as it was. -/
theorem setValue_sets_first_slot (c : Consts) (f : heatpumpFunctions)
    (hN : c.MAX_FUNCTION_CODE_COUNT ≤ f.raw.length) (code value : Int)
    (hcode : 101 ≤ code ∧ code ≤ 128) (hval : 1 ≤ value ∧ value ≤ 3) :
    (heatpumpFunctions.getCode (((code - 100).toNat <<< 2) ||| value.toNat) = code ∧
      heatpumpFunctions.getValue (((code - 100).toNat <<< 2) ||| value.toNat) = value) ∧
    ((∃ i, i < c.MAX_FUNCTION_CODE_COUNT ∧
        heatpumpFunctions.getCode (f.raw.getD i 0) = code) →
      ∃ i, i < c.MAX_FUNCTION_CODE_COUNT ∧ heatpumpFunctions.getCode (f.raw.getD i 0) = code ∧
        (∀ j, j < i → heatpumpFunctions.getCode (f.raw.getD j 0) ≠ code) ∧
        heatpumpFunctions.setValue c f code value =
          .ok (true, { f with
            raw := f.raw.set i (((code - 100).toNat <<< 2) ||| value.toNat) }) ∧
        heatpumpFunctions.getValueOf c
          { f with raw := f.raw.set i (((code - 100).toNat <<< 2) ||| value.toNat) } code =
            .ok value) ∧
    ((¬ ∃ i, i < c.MAX_FUNCTION_CODE_COUNT ∧
        heatpumpFunctions.getCode (f.raw.getD i 0) = code) →
      heatpumpFunctions.setValue c f code value = .ok (false, f)) ∧
    (∀ code' value' : Int, (code' > 128 ∨ code' < 101 ∨ value' < 1 ∨ value' > 3) →
      heatpumpFunctions.setValue c f code' value' = .ok (false, f)) := by
  obtain ⟨k, hk⟩ : ∃ k : Nat, code = (k : Int) + 100 := ⟨(code - 100).toNat, by omega⟩
  obtain ⟨v, hv⟩ : ∃ v : Nat, value = (v : Int) := ⟨value.toNat, by omega⟩
  subst hk hv
  have hk29 : k < 29 := by omega
  have hv4 : v < 4 := by omega
  obtain ⟨hb1, hb2, hb3⟩ := code_bits k hk29 v hv4
  have hkn : ((k : Int) + 100 - 100).toNat = k := by omega
  have hvn : ((v : Int)).toNat = v := by omega
  rw [hkn, hvn, hb1]
  have hcodeb : heatpumpFunctions.getCode (k * 4 + v) = (k : Int) + 100 := by
    simp only [heatpumpFunctions.getCode, hb2]
  have hvalb : heatpumpFunctions.getValue (k * 4 + v) = (v : Int) := by
    simp only [heatpumpFunctions.getValue, hb3]
  have hstore : ((((k : Int) + 100 - 100) * 4 + (v : Int)) % 256).toNat = k * 4 + v := by
    omega
  have hr1 : ¬ ((k : Int) + 100 > 128 ∨ (k : Int) + 100 < 101) := by omega
  have hr2 : ¬ ((v : Int) < 1 ∨ (v : Int) > 3) := by omega
  refine ⟨⟨hcodeb, hvalb⟩, ?_, ?_, ?_⟩
  · intro hex
    rcases findCode_spec f.raw ((k : Int) + 100) c.MAX_FUNCTION_CODE_COUNT hN with
      ⟨i, h1, h2, h3, h4⟩ | ⟨h1, _⟩
    · refine ⟨i, h1, h2, h3, ?_, ?_⟩
      · unfold heatpumpFunctions.setValue
        simp only [hr1, hr2, if_false, h4, hstore, wr_of_lt f.raw i _ (by omega), bind,
          Except.bind, pure, Except.pure]
      · have hlen : c.MAX_FUNCTION_CODE_COUNT ≤ (f.raw.set i (k * 4 + v)).length := by
          simpa using hN
        have hgi : (f.raw.set i (k * 4 + v)).getD i 0 = k * 4 + v := by
          simp [List.getD, List.getElem?_set, (by omega : i < f.raw.length)]
        have hgj : ∀ j, j ≠ i → (f.raw.set i (k * 4 + v)).getD j 0 = f.raw.getD j 0 := by
          intro j hj
          simp [List.getD, List.getElem?_set, Ne.symm hj]
        rcases findCode_spec (f.raw.set i (k * 4 + v)) ((k : Int) + 100)
          c.MAX_FUNCTION_CODE_COUNT hlen with ⟨i', g1, g2, g3, g4⟩ | ⟨g1, _⟩
        · have hii : i' = i := by
            rcases Nat.lt_trichotomy i' i with h | h | h
            · exfalso
              rw [hgj i' (by omega)] at g2
              exact h3 i' h g2
            · exact h
            · exfalso
              exact g3 i h (by rw [hgi]; exact hcodeb)
          subst hii
          unfold heatpumpFunctions.getValueOf
          simp only [hr1, if_false, g4, rd_getD _ i' (by omega : i' < (f.raw.set i' (k * 4 + v)).length),
            hgi, hvalb, bind, Except.bind, pure, Except.pure]
        · exfalso
          exact g1 i h1 (by rw [hgi]; exact hcodeb)
    · obtain ⟨i, hi, hc⟩ := hex
      exact absurd hc (h1 i hi)
  · intro hno
    rcases findCode_spec f.raw ((k : Int) + 100) c.MAX_FUNCTION_CODE_COUNT hN with
      ⟨i, h1, h2, _, _⟩ | ⟨_, h4⟩
    · exact absurd ⟨i, h1, h2⟩ hno
    · unfold heatpumpFunctions.setValue
      simp only [hr1, hr2, if_false, h4, bind, Except.bind, pure, Except.pure]
  · intro code' value' hout
    unfold heatpumpFunctions.setValue
    by_cases h1 : code' > 128 ∨ code' < 101
    · simp only [h1, if_true, pure, Except.pure]
    · have h2 : value' < 1 ∨ value' > 3 := by
        rcases hout with h | h | h | h
        · exact absurd (Or.inl h) h1
        · exact absurd (Or.inr h) h1
        · exact Or.inl h
        · exact Or.inr h
      simp only [h1, h2, if_false, if_true, pure, Except.pure]

theorem setValue_sets_first_slot_witness :
    (heatpumpFunctions.getCode ((((105 : Int) - 100).toNat <<< 2) ||| (3 : Int).toNat) = 105 ∧
      heatpumpFunctions.getValue ((((105 : Int) - 100).toNat <<< 2) ||| (3 : Int).toNat) = 3) ∧
    ∃ i, i < cn105.MAX_FUNCTION_CODE_COUNT ∧
      heatpumpFunctions.getCode (sampleFunctions.raw.getD i 0) = 105 ∧
      (∀ j, j < i → heatpumpFunctions.getCode (sampleFunctions.raw.getD j 0) ≠ 105) ∧
      heatpumpFunctions.setValue cn105 sampleFunctions 105 3 =
        .ok (true, { sampleFunctions with
          raw := sampleFunctions.raw.set i
            ((((105 : Int) - 100).toNat <<< 2) ||| (3 : Int).toNat) }) ∧
      heatpumpFunctions.getValueOf cn105
        { sampleFunctions with
          raw := sampleFunctions.raw.set i
            ((((105 : Int) - 100).toNat <<< 2) ||| (3 : Int).toNat) } 105 = .ok 3 :=
  ⟨(setValue_sets_first_slot cn105 sampleFunctions (by decide) 105 3 (by decide)
      (by decide)).1,
   (setValue_sets_first_slot cn105 sampleFunctions (by decide) 105 3 (by decide)
      (by decide)).2.1 ⟨4, by decide, by decide⟩⟩


/-! ## Raw frames -/

theorem sendCustomPacket_copy_overruns (data packet : List Nat) (n : Nat) :
    (∀ p, sendCustomPacket_copy data packet n = .ok p → p.length = packet.length) ∧
      (∀ e, sendCustomPacket_copy data packet n = .error e → e = .bounds) := by
  induction n with
  | zero =>
    refine ⟨fun p h => ?_, fun e h => ?_⟩
    · cases h; rfl
    · cases h
  | succ k ih =>
    rw [sendCustomPacket_copy]
    cases hk : sendCustomPacket_copy data packet k with
    | error e =>
      refine ⟨fun p h => ?_, fun e' h => ?_⟩
      · cases h
      · cases h; exact ih.2 e hk
    | ok q =>
      have hq := ih.1 q hk
      simp only [bind, Except.bind, rd, wr]
      cases hd : data[k]? with
      | none =>
        refine ⟨fun p h => ?_, fun e' h => ?_⟩
        · cases h
        · cases h; rfl
      | some v =>
        simp only []
        split
        · refine ⟨fun p h => ?_, fun e' h => ?_⟩
          · cases h; simp [hq]
          · cases h
        · refine ⟨fun p h => ?_, fun e' h => ?_⟩
          · cases h
          · cases h; rfl

theorem sendCustomPacket_copy_faults (data packet : List Nat) (n : Nat) (hn : 1 ≤ n)
    (hlen : packet.length = n) : sendCustomPacket_copy data packet n = .error .bounds := by
  obtain ⟨k, rfl⟩ : ∃ k, n = k + 1 := ⟨n - 1, by omega⟩
  cases h : sendCustomPacket_copy data packet (k + 1) with
  | error e => rw [(sendCustomPacket_copy_overruns data packet (k + 1)).2 e h]
  | ok p =>
    exfalso
    rw [sendCustomPacket_copy] at h
    cases hk : sendCustomPacket_copy data packet k with
    | error e => rw [hk] at h; cases h
    | ok q =>
      have hq := (sendCustomPacket_copy_overruns data packet k).1 q hk
      rw [hk] at h
      simp only [bind, Except.bind, rd, wr] at h
      cases hd : data[k]? with
      | none => rw [hd] at h; cases h
      | some v =>
        rw [hd] at h
        simp only [] at h
        rw [if_neg (by omega)] at h
        cases h


/-! ## Raw frames: the copy loop of sendCustomPacket -/


theorem sendCustomPacket_copy_copies (data packet : List Nat) (m : Nat) (h1 : m ≤ data.length)
    (h2 : m + 1 ≤ packet.length) :
    sendCustomPacket_copy data packet m =
      .ok (packet.take 1 ++ data.take m ++ packet.drop (m + 1)) := by
  induction m with
  | zero =>
    rw [sendCustomPacket_copy]
    simp only [List.take_zero, List.append_nil, Nat.zero_add, List.take_append_drop]
    rfl
  | succ k ih =>
    have hl : (packet.take 1 ++ data.take k).length = k + 1 := by
      simp only [List.length_append, List.length_take]
      omega
    have hs : k + 1 - (packet.take 1 ++ data.take k).length = 0 := by omega
    have ht : data.take (k + 1) = data.take k ++ [data.get ⟨k, by omega⟩] := by
      rw [List.take_succ, List.getElem?_eq_getElem (by omega : k < data.length)]
      rfl
    rw [sendCustomPacket_copy, ih (by omega) (by omega)]
    simp only [bind, Except.bind, rd_of_lt data k (by omega)]
    rw [wr_of_lt _ _ _ (by simp only [List.length_append, hl, List.length_drop]; omega)]
    congr 1
    rw [List.set_append_right _ _ (by omega), hs, set_zero_drop _ _ _ (by omega), ht]
    simp only [List.append_assoc, List.singleton_append, List.get_eq_getElem]

/-- C23: `sendCustomPacket(d, n)` with `n >= 0` builds a frame of `len = min(n + 2, PACKET_LEN)`
bytes, but its copy loop runs for `len` iterations, not `len - 2`: after the first
`min(n, len - 1)` iterations, which copy `d[0..]` to `packet[1..]`, the next iteration reads
`d[n]`, past the caller's bytes, or stores to `packet[len]`, past the frame. Once the pacing
wait is over (the clock is past both thresholds from reading `N` on), the call runs into that
out-of-range access, for every payload. -/
theorem sendCustomPacket_overruns (c : Consts) (hp : HeatPump) (w : World) (fuel N : Nat)
    (d : List Nat) (n : Int) (hn : 0 ≤ n) (hd : d.length = n.toNat) (hPL : 2 ≤ c.PACKET_LEN)
    (hH : 1 ≤ c.HEADER.length) (hdue : DueFrom c hp w.clock N) (hfuel : N + 1 ≤ fuel) :
    sendCustomPacket c fuel d n hp w = .error .bounds ∧
      ∀ packet : List Nat, packet.length = min (n.toNat + 2) c.PACKET_LEN →
        sendCustomPacket_copy d packet (min n.toNat (min (n.toNat + 2) c.PACKET_LEN - 1)) =
          .ok (packet.take 1 ++
            d.take (min n.toNat (min (n.toNat + 2) c.PACKET_LEN - 1)) ++
            packet.drop (min n.toNat (min (n.toNat + 2) c.PACKET_LEN - 1) + 1)) ∧
        sendCustomPacket_copy d packet (min (n.toNat + 2) c.PACKET_LEN) = .error .bounds := by
  obtain ⟨w1, h1, _⟩ := waitCanSend_due c hp N fuel w hdue (by omega) (by omega)
  obtain ⟨k, rfl⟩ : ∃ k : Nat, n = (k : Int) := ⟨n.toNat, by omega⟩
  simp only [Int.toNat_ofNat] at hd ⊢
  have hL : ((if ((k : Int) + 2 > (c.PACKET_LEN : Int)) then (c.PACKET_LEN : Int)
      else (k : Int) + 2)).toNat = min (k + 2) c.PACKET_LEN := by
    split <;> omega
  constructor
  · unfold sendCustomPacket
    simp only [h1, bind, Except.bind, hL, rd_getD c.HEADER 0 (by omega),
      wr_of_lt (List.replicate (min (k + 2) c.PACKET_LEN) 0) 0 _
        (by simp only [List.length_replicate]; omega)]
    rw [sendCustomPacket_copy_faults _ _ _ (by omega) (by simp)]
  · intro packet hp'
    exact ⟨sendCustomPacket_copy_copies d packet _ (by omega) (by omega),
      sendCustomPacket_copy_faults d packet _ (by omega) hp'⟩

theorem sendCustomPacket_overruns_witness :
    sendCustomPacket cn105 1 [0x42, 0x01] 2 (HeatPump.fresh cn105 0) World.stepping =
        .error .bounds ∧
      sendCustomPacket_copy [0x42, 0x01] [0xfc, 0, 0, 0] 2 = .ok [0xfc, 0x42, 0x01, 0] ∧
      sendCustomPacket_copy [0x42, 0x01] [0xfc, 0, 0, 0] 4 = .error .bounds :=
  ⟨(sendCustomPacket_overruns cn105 (HeatPump.fresh cn105 0) World.stepping 1 0 [0x42, 0x01] 2
      (by decide) rfl (by decide) (by decide)
      (fun i _ => by
        show usub ((if i < 4 then 10000 else 20000) % 2 ^ 32) 0 > 0 ∧
          usub ((if i < 4 then 10000 else 20000) % 2 ^ 32) 0 > 2000
        split_ifs <;> decide)
      (by decide)).1,
   (sendCustomPacket_overruns cn105 (HeatPump.fresh cn105 0) World.stepping 1 0 [0x42, 0x01] 2
      (by decide) rfl (by decide) (by decide)
      (fun i _ => by
        show usub ((if i < 4 then 10000 else 20000) % 2 ^ 32) 0 > 0 ∧
          usub ((if i < 4 then 10000 else 20000) % 2 ^ 32) 0 > 2000
        split_ifs <;> decide)
      (by decide)).2 [0xfc, 0, 0, 0] rfl⟩


/-! ## A settings frame overwrites the staged settings -/

theorem heatpumpSettings.ne_self (s : heatpumpSettings) : s.ne s = false := by
  simp [heatpumpSettings.ne]

theorem readPacket_settings_overwrites (c : Consts) (ht : TableSizes c) (hp : HeatPump)
    (w : World) (data : List Nat) (hlen : data.length = 22) :
    ∃ hp1 w1 s,
      readPacket_settings c hp w data = .ok (c.RCVD_PKT_SETTINGS, hp1, w1) ∧
      DecodedSettings c data s ∧ hp1.currentSettings = s ∧ hp1.wantedSettings = s := by
  obtain ⟨t0, t1, t2, t3, t4, t5, t6, t7, t8, t9, t10, t11, _⟩ := ht
  have hrd : ∀ i, i < 22 → rd data i = .ok (data.getD i 0) := fun i hi =>
    rd_getD data i (by omega)
  obtain ⟨vp, hvp, dp⟩ := lookupByteMapValue_decodes c.POWER_MAP c.POWER 2 (data.getD 3 0) t1 t0
    (by omega)
  obtain ⟨vm, hvm, dm⟩ := lookupByteMapValue_decodes c.MODE_MAP c.MODE 5
    (if data.getD 4 0 > 0x08 then data.getD 4 0 - 0x08 else data.getD 4 0) t3 t2 (by omega)
  obtain ⟨vt, hvt, dt⟩ := lookupByteMapValue_decodes c.TEMP_MAP c.TEMP 16 (data.getD 5 0) t5 t4
    (by omega)
  obtain ⟨vf, hvf, df⟩ := lookupByteMapValue_decodes c.FAN_MAP c.FAN 6 (data.getD 6 0) t7 t6
    (by omega)
  obtain ⟨vv, hvv, dv⟩ := lookupByteMapValue_decodes c.VANE_MAP c.VANE 7 (data.getD 7 0) t9 t8
    (by omega)
  obtain ⟨vw, hvw, dw⟩ := lookupByteMapValue_decodes c.WIDEVANE_MAP c.WIDEVANE 7
    (data.getD 10 0 &&& 0x0F) t11 t10 (by omega)
  have hm : lookupByteMapValue c.MODE_MAP c.MODE 5
      (if decide (data.getD 4 0 > 0x08) = true then data.getD 4 0 - 0x08 else data.getD 4 0)
      = .ok vm := by
    rw [← hvm]; congr 1; simp
  unfold readPacket_settings
  simp only [hrd 3 (by omega), hrd 4 (by omega), hrd 5 (by omega), hrd 6 (by omega),
    hrd 7 (by omega), hrd 10 (by omega), hrd 11 (by omega), bind, Except.bind, hvp, hm]
  by_cases h11 : (data.getD 11 0 != 0) = true
  · have h11' : data.getD 11 0 ≠ 0 := by simpa using h11
    simp only [h11, if_true, pure, Except.pure, hvf, hvv, hvw]
    split <;> exact ⟨_, _, _, rfl, ⟨vp, vm, vt, vf, vv, vw, dp, dm, dt, df, dv, dw,
      by rw [if_pos h11']⟩, rfl, rfl⟩
  · have h11' : ¬ data.getD 11 0 ≠ 0 := by simpa using h11
    simp only [h11, Bool.false_eq_true, if_false, pure, Except.pure, hvt, hvf, hvv, hvw]
    split <;> exact ⟨_, _, _, rfl, ⟨vp, vm, vt, vf, vv, vw, dp, dm, dt, df, dv, dw,
      by rw [if_neg h11']⟩, rfl, rfl⟩

/-- C26: for every prior driver state and every checksum-valid settings frame (category byte
`0x62`, `payload[0] = 0x02`, at most 21 payload bytes) that arrives within the wait window,
`readPacket` returns `RCVD_PKT_SETTINGS` and leaves `currentSettings` and `wantedSettings` both
equal to the settings decoded from the frame, so that `sendPending()` is false afterwards:
whatever a setter had staged in `wantedSettings` is gone. -/
theorem settings_frame_discards_staged (c : Consts) (hc : RecvLayout c) (ht : TableSizes c)
    (hp : HeatPump) (wait : Bool) (fuel : Nat) (w : World) (a0 a2 a3 L : Nat)
    (payload : List Nat) (cs : Nat) (rest : List Nat) (hpl : (0x02 :: payload).length = L)
    (hL : L ≤ 21) (hfuel : L + 6 ≤ fuel)
    (hrx : w.rx = a0 :: 0x62 :: a2 :: a3 :: L :: ((0x02 :: payload) ++ [cs] ++ rest))
    (hsum : recvCheckSum [a0, 0x62, a2, a3, L] ((0x02 :: payload) ++ [cs]) 5 L = .ok cs)
    (hmagic : rd c.HEADER 0 = .ok a0 ∧ rd c.HEADER 2 = .ok a2 ∧ rd c.HEADER 3 = .ok a3)
    (hclock : ∀ i, i < L + 6 →
      usub (w.clock (w.ticks + 1 + i) % 2 ^ 32) w.now < c.PACKET_RESPONSE_WAIT_TIME) :
    ∃ hp1 w1 s, readPacket c fuel wait hp w = .ok (c.RCVD_PKT_SETTINGS, hp1, w1) ∧
      DecodedSettings c ((0x02 :: payload) ++ [cs]) s ∧
      hp1.currentSettings = s ∧ hp1.wantedSettings = s ∧ sendPending hp1 = false := by
  obtain ⟨t, w0, _, _, _, hdl, hrun⟩ := readPacket_valid_frame c hc hp wait fuel w a0
    0x62 a2 a3 L (0x02 :: payload) cs rest hpl hL hfuel hrx hsum hmagic hclock
  obtain ⟨hp1, w1, s, hdec, hs, h1, h2⟩ := readPacket_settings_overwrites c ht
    { hp with lastRecv := t } w0 ((0x02 :: payload) ++ [cs] ++ List.replicate (22 - (L + 1)) 0)
    hdl
  have hsw : readPacket_switch c { hp with lastRecv := t } w0
      ((0x02 :: payload) ++ [cs] ++ List.replicate (22 - (L + 1)) 0) L =
      .ok (some (c.RCVD_PKT_SETTINGS, hp1, w1)) := by
    unfold readPacket_switch
    have h0 : rd ((0x02 :: payload) ++ [cs] ++ List.replicate (22 - (L + 1)) 0) 0 = .ok 0x02 := by
      simp [rd]
    simp only [h0, bind, Except.bind, if_true, hdec, Functor.map, Except.map]
  refine ⟨hp1, w1, s, ?_, ?_, h1, h2, ?_⟩
  · rw [hrun]
    simp only [if_true, hsw, bind, Except.bind, pure, Except.pure]
  · unfold DecodedSettings at hs ⊢
    simp only [getD_append_zeros] at hs
    exact hs
  · unfold sendPending
    rw [h1, h2]
    exact heatpumpSettings.ne_self s

theorem settings_frame_discards_staged_witness :
    sendPending { HeatPump.fresh cn105 0 with wantedSettings := wantedOnHeat21 } = true ∧
    ∃ hp1 w1 s,
      readPacket cn105 22 false { HeatPump.fresh cn105 0 with wantedSettings := wantedOnHeat21 }
        (World.still 5000 ([0xfc, 0x62, 0x01, 0x30, 16] ++
          ((0x02 :: sampleSettingsPayload) ++ [0x3b] ++ []))) =
        .ok (cn105.RCVD_PKT_SETTINGS, hp1, w1) ∧
      DecodedSettings cn105 ((0x02 :: sampleSettingsPayload) ++ [0x3b]) s ∧
      hp1.currentSettings = s ∧ hp1.wantedSettings = s ∧ sendPending hp1 = false :=
  ⟨by decide,
   settings_frame_discards_staged cn105 (by decide) (by decide)
    { HeatPump.fresh cn105 0 with wantedSettings := wantedOnHeat21 }
    false 22 _ 0xfc 0x01 0x30 16 sampleSettingsPayload 0x3b [] (by decide) (by decide)
    (by decide) rfl (by decide) (by decide) (fun _ _ => by
      show usub (5000 % 2 ^ 32) (5000 % 2 ^ 32) < 1000
      decide)⟩


/-! ## A length byte beyond the data buffer -/

theorem recvLoop_header_store (c : Consts) (st fuel : Nat) (r : RecvBuf) (w : World)
    (ch : Nat) (rx1 : List Nat)
    (hd : usub (w.clock w.ticks % 2 ^ 32) st < c.PACKET_RESPONSE_WAIT_TIME)
    (hrx : w.rx = ch :: rx1) (hlen : r.len ≤ 4) (hH : r.len < r.header.length)
    (hchk : r.len < 4 → r.len ≠ 1 → rd c.HEADER r.len = .ok ch) :
    recvLoop c st (fuel + 1) r w =
      recvLoop c st fuel
        { r with header := r.header.set r.len ch,
                 dataLength := if r.len = 4 then ch else r.dataLength,
                 len := r.len + 1 }
        { w with ticks := w.ticks + 1, rx := rx1 } := by
  have hd' : usub w.now st < c.PACKET_RESPONSE_WAIT_TIME := hd
  have hrx' : w.tick.rx = ch :: rx1 := by simpa [World.tick] using hrx
  have hwr : wr r.header r.len ch = .ok (r.header.set r.len ch) := wr_of_lt _ _ _ hH
  have hmod : (r.len + 1) % 256 = r.len + 1 := Nat.mod_eq_of_lt (by omega)
  have hnd : ¬ r.len = (if r.len = 4 then ch else r.dataLength) + 5 := by omega
  by_cases hc : r.len < 4 ∧ r.len ≠ 1
  · have hv := hchk hc.1 hc.2
    rw [recvLoop]
    simp only [hd', if_true, hrx', hc, and_self, hv, bind, Except.bind, pure, Except.pure,
      bne_self_eq_false, Bool.false_eq_true, if_false, hlen, hwr, hnd, hmod, ne_eq,
      not_false_eq_true]
    rfl
  · rw [recvLoop]
    simp only [hd', if_true, hrx', hc, bind, Except.bind, pure, Except.pure,
      Bool.false_eq_true, if_false, hlen, hwr, hnd, hmod]
    rfl

theorem recvLoop_header_eq (c : Consts) (st a0 a1 a2 a3 L : Nat)
    (rx5 : List Nat) (f : Nat) (w : World) (hrx : w.rx = a0 :: a1 :: a2 :: a3 :: L :: rx5)
    (hclock : ∀ i, i < 5 →
      usub (w.clock (w.ticks + i) % 2 ^ 32) st < c.PACKET_RESPONSE_WAIT_TIME)
    (hmagic : rd c.HEADER 0 = .ok a0 ∧ rd c.HEADER 2 = .ok a2 ∧ rd c.HEADER 3 = .ok a3) :
    recvLoop c st (f + 5) ⟨List.replicate 5 0, List.replicate 22 0, 0, 0, false⟩ w =
      recvLoop c st f ⟨[a0, a1, a2, a3, L], List.replicate 22 0, L, 5, false⟩
        { w with ticks := w.ticks + 5, rx := rx5 } := by
  obtain ⟨m0, m2, m3⟩ := hmagic
  rw [recvLoop_header_store c st (f + 4) _ w a0 _ (hclock 0 (by omega)) hrx (by simp)
    (by simp) (fun _ _ => m0)]
  rw [recvLoop_header_store c st (f + 3) _ _ a1 _ (hclock 1 (by omega)) rfl (by simp)
    (by simp) (fun _ h => absurd rfl h)]
  rw [recvLoop_header_store c st (f + 2) _ _ a2 _ (hclock 2 (by omega)) rfl (by simp)
    (by simp) (fun _ _ => m2)]
  rw [recvLoop_header_store c st (f + 1) _ _ a3 _ (hclock 3 (by omega)) rfl (by simp)
    (by simp) (fun _ _ => m3)]
  rw [recvLoop_header_store c st f _ _ L _ (hclock 4 (by omega)) rfl (by simp)
    (by simp) (fun h _ => absurd h (by simp))]
  rfl

theorem recvLoop_overflow (c : Consts) (st L : Nat) (H : List Nat) (hL : 22 ≤ L) :
    ∀ (todo pre : List Nat) (fuel : Nat) (w : World) (ch : Nat) (rest : List Nat),
      pre.length + todo.length = 22 → todo.length + 1 ≤ fuel → w.rx = todo ++ ch :: rest →
      (∀ i, i ≤ todo.length →
        usub (w.clock (w.ticks + i) % 2 ^ 32) st < c.PACKET_RESPONSE_WAIT_TIME) →
      recvLoop c st fuel ⟨H, pre ++ List.replicate todo.length 0, L, 5 + pre.length, false⟩ w =
        .error .bounds := by
  intro todo
  induction todo with
  | nil =>
    intro pre fuel w ch rest hlen hfuel hrx hclock
    obtain ⟨fuel, rfl⟩ : ∃ k, fuel = k + 1 := ⟨fuel - 1, by simp at hfuel; omega⟩
    simp only [List.length_nil, Nat.add_zero] at hlen
    have hd : usub w.now st < c.PACKET_RESPONSE_WAIT_TIME := hclock 0 (Nat.le_refl _)
    have hrx1 : w.tick.rx = ch :: rest := by simpa [World.tick] using hrx
    have hlen4 : ¬ (5 + pre.length < 4 ∧ 5 + pre.length ≠ 1) := by omega
    have hne4 : ¬ (5 + pre.length = 4) := by omega
    have hle4 : ¬ (5 + pre.length ≤ 4) := by omega
    have hwr : wr (pre ++ List.replicate 0 0) pre.length ch = .error .bounds := by
      simp [wr]
    rw [recvLoop]
    simp only [hd, if_true, hrx1, hlen4, hne4, hle4, if_false, pure, Except.pure, bind,
      Except.bind, Bool.false_eq_true, Nat.add_sub_cancel_left, List.length_nil, hwr]
  | cons t ts ih =>
    intro pre fuel w ch rest hlen hfuel hrx hclock
    obtain ⟨fuel, rfl⟩ : ∃ k, fuel = k + 1 := ⟨fuel - 1, by simp at hfuel; omega⟩
    simp only [List.length_cons] at hlen hfuel hclock ⊢
    have hd : usub w.now st < c.PACKET_RESPONSE_WAIT_TIME := hclock 0 (Nat.zero_le _)
    have hrx1 : w.tick.rx = t :: (ts ++ ch :: rest) := by simpa [World.tick] using hrx
    have hlen4 : ¬ (5 + pre.length < 4 ∧ 5 + pre.length ≠ 1) := by omega
    have hne4 : ¬ (5 + pre.length = 4) := by omega
    have hle4 : ¬ (5 + pre.length ≤ 4) := by omega
    have hwr := wr_append_zero pre (ts.length + 1) t (by omega)
    have hend : ¬ (5 + pre.length = L + 5) := by omega
    have hmod : (5 + pre.length + 1) % 256 = 5 + (pre ++ [t]).length := by
      simp; omega
    rw [recvLoop]
    simp only [hd, if_true, hrx1, hlen4, hne4, hle4, if_false, pure, Except.pure, bind,
      Except.bind, Bool.false_eq_true, Nat.add_sub_cancel_left, hwr, hend, hmod,
      Nat.add_sub_cancel]
    exact ih (pre ++ [t]) fuel { w.tick with rx := ts ++ ch :: rest } ch rest
      (by simp; omega) (by omega) rfl
      (fun i hi => by
        have := hclock (i + 1) (by omega)
        simpa [World.tick, Nat.add_assoc, Nat.add_comm 1 i] using this)

/-- C27: `readPacket` takes the length byte `L` of an inbound frame as it comes. When `L` is
at most 21, every store `data[len - 5]` and every read `data[i]` stays inside the 22-byte
buffer, and a frame that arrives within the wait window is consumed up to and including its
byte `5 + L` before the checksum is evaluated (the remaining stream is `rest`). When `L` is 22
or more and at least 23 further bytes arrive within the wait window, the receive loop stores
the 23rd of them to `data[22]`, one past the end of `byte data[PACKET_LEN]`; the code has no
check of `L` against `PACKET_LEN`. -/
theorem readPacket_length_byte_unchecked (c : Consts) (hc : RecvLayout c) (hp : HeatPump)
    (wait : Bool) (fuel : Nat) (w : World) (a0 a1 a2 a3 L : Nat) (body rest : List Nat)
    (hrx : w.rx = a0 :: a1 :: a2 :: a3 :: L :: (body ++ rest))
    (hmagic : rd c.HEADER 0 = .ok a0 ∧ rd c.HEADER 2 = .ok a2 ∧ rd c.HEADER 3 = .ok a3) :
    (L ≤ 21 → body.length = L + 1 → L + 6 ≤ fuel →
      (∀ i, i < L + 6 →
        usub (w.clock (w.ticks + 1 + i) % 2 ^ 32) w.now < c.PACKET_RESPONSE_WAIT_TIME) →
      readPacket c fuel wait hp w =
        (do
          let checksum ← recvCheckSum [a0, a1, a2, a3, L]
            (body ++ List.replicate (22 - (L + 1)) 0) c.INFOHEADER_LEN L
          if (← rd (body ++ List.replicate (22 - (L + 1)) 0) L) = checksum then
            readPacket_accept c hp
              (World.flush { w with ticks := w.ticks + 1 + (L + 6), rx := rest })
              [a0, a1, a2, a3, L] (body ++ List.replicate (22 - (L + 1)) 0) L
          else
            pure (c.RCVD_PKT_FAIL, hp,
              World.flush { w with ticks := w.ticks + 1 + (L + 6), rx := rest }))) ∧
    (22 ≤ L → body.length = 23 → 28 ≤ fuel →
      (∀ i, i < 28 →
        usub (w.clock (w.ticks + 1 + i) % 2 ^ 32) w.now < c.PACKET_RESPONSE_WAIT_TIME) →
      readPacket c fuel wait hp w = .error .bounds) := by
  have hc' := hc
  obtain ⟨hPL, hIH, _⟩ := hc'
  have hav : 0 < w.tick.rx.length ∨ wait = true := Or.inl (by simp [World.tick, hrx])
  constructor
  · intro hL hbody hfuel hclock
    obtain ⟨failed, r, w1, h1, h2, h3⟩ := recvLoop_frame c hc w.now a0 a1 a2 a3 L body rest
      hbody hL fuel hfuel w.tick (by simpa [World.tick] using hrx)
    obtain ⟨hf, hs⟩ := h3 ⟨fun i hi => by simpa [World.tick] using hclock i hi, hmagic⟩
    obtain ⟨e1, e2⟩ := h2 hf hs
    subst hf e1 e2
    unfold readPacket
    simp only [hav, if_true, hPL, hIH, h1, bind, Except.bind, Bool.false_eq_true, if_false,
      Bool.not_true]
    rfl
  · intro hL hbody hfuel hclock
    obtain ⟨f, rfl⟩ : ∃ f, fuel = f + 5 := ⟨fuel - 5, by omega⟩
    obtain ⟨ch, todo, rfl⟩ : ∃ ch todo, body = todo ++ [ch] := by
      rcases List.eq_nil_or_concat body with h | ⟨todo, ch, h⟩
      · rw [h] at hbody; simp at hbody
      · exact ⟨ch, todo, by simpa using h⟩
    have htodo : todo.length = 22 := by simpa using hbody
    have h5 := recvLoop_header_eq c w.now a0 a1 a2 a3 L (todo ++ [ch] ++ rest) f w.tick
      (by simpa [World.tick] using hrx)
      (fun i hi => by simpa [World.tick] using hclock i (by omega)) hmagic
    have hov := recvLoop_overflow c w.now L [a0, a1, a2, a3, L] hL todo [] f
      { w.tick with ticks := w.tick.ticks + 5, rx := todo ++ [ch] ++ rest } ch rest
      (by simpa using htodo) (by omega) (by simp)
      (fun i hi => by
        have := hclock (5 + i) (by omega)
        have e : w.ticks + 1 + (5 + i) = w.ticks + 1 + 5 + i := by omega
        rw [e] at this
        exact this)
    rw [htodo] at hov
    unfold readPacket
    simp only [hav, if_true, hPL, hIH, bind, Except.bind]
    rw [h5]
    simp only [List.nil_append, List.length_nil, Nat.add_zero] at hov
    rw [hov]

theorem readPacket_length_byte_unchecked_witness :
    readPacket cn105 28 false (HeatPump.fresh cn105 0)
        (World.still 5000 (0xfc :: 0x62 :: 0x01 :: 0x30 :: 22 :: (List.replicate 23 0 ++ []))) =
      .error .bounds ∧
    readPacket cn105 8 false (HeatPump.fresh cn105 0)
        (World.still 5000 (0xfc :: 0x62 :: 0x01 :: 0x30 :: 1 :: ([0x09, 0x63] ++ []))) =
      (do
        let checksum ← recvCheckSum [0xfc, 0x62, 0x01, 0x30, 1]
          ([0x09, 0x63] ++ List.replicate (22 - (1 + 1)) 0) cn105.INFOHEADER_LEN 1
        if (← rd ([0x09, 0x63] ++ List.replicate (22 - (1 + 1)) 0) 1) = checksum then
          readPacket_accept cn105 (HeatPump.fresh cn105 0)
            (World.flush { World.still 5000
                (0xfc :: 0x62 :: 0x01 :: 0x30 :: 1 :: ([0x09, 0x63] ++ [])) with
              ticks := 0 + 1 + (1 + 6), rx := [] })
            [0xfc, 0x62, 0x01, 0x30, 1] ([0x09, 0x63] ++ List.replicate (22 - (1 + 1)) 0) 1
        else
          pure (cn105.RCVD_PKT_FAIL, HeatPump.fresh cn105 0,
            World.flush { World.still 5000
                (0xfc :: 0x62 :: 0x01 :: 0x30 :: 1 :: ([0x09, 0x63] ++ [])) with
              ticks := 0 + 1 + (1 + 6), rx := [] })) :=
  ⟨(readPacket_length_byte_unchecked cn105 (by decide) (HeatPump.fresh cn105 0) false 28
      (World.still 5000 (0xfc :: 0x62 :: 0x01 :: 0x30 :: 22 :: (List.replicate 23 0 ++ [])))
      0xfc 0x62 0x01 0x30 22 (List.replicate 23 0) [] rfl (by decide)).2
      (by decide) (by decide) (by decide)
      (fun _ _ => by
        show usub (5000 % 2 ^ 32) (5000 % 2 ^ 32) < 1000
        decide),
   (readPacket_length_byte_unchecked cn105 (by decide) (HeatPump.fresh cn105 0) false 8
      (World.still 5000 (0xfc :: 0x62 :: 0x01 :: 0x30 :: 1 :: ([0x09, 0x63] ++ [])))
      0xfc 0x62 0x01 0x30 1 [0x09, 0x63] [] rfl (by decide)).1
      (by decide) (by decide) (by decide)
      (fun _ _ => by
        show usub (5000 % 2 ^ 32) (5000 % 2 ^ 32) < 1000
        decide)⟩


/-! ## The handshake is tried at most twice -/

theorem connect_first (c : Consts) (fuel : Nat) (bitrate rx tx : Int) (hp : HeatPump)
    (w : World) :
    connect c (fuel + 1) bitrate rx tx hp w = (do
      let r ← connectAttempt c fuel (if bitrate = 0 then 2400 else bitrate) rx tx hp w
      if r.1 ≠ c.RCVD_PKT_CONNECT_SUCCESS ∧ (if bitrate = 0 then 2400 else bitrate) = 2400 then
        connect c fuel 9600 (-1) (-1) r.2.1 r.2.2
      else
        pure (decide (r.1 = c.RCVD_PKT_CONNECT_SUCCESS), r.2.1, r.2.2)) := by
  rw [connect]
  unfold connectAttempt
  simp only [bind, Except.bind]
  cases copyLoop c.CONNECT (List.replicate c.CONNECT_LEN 0) c.CONNECT_LEN with
  | error e => rfl
  | ok packet =>
    simp only []
    cases writePacket { hp with connected := false } _ packet c.CONNECT_LEN with
    | error e => rfl
    | ok r => rfl

theorem Quiet.refl (w : World) : Quiet w w := ⟨rfl, rfl, Nat.le_refl _, rfl⟩

theorem Quiet.trans {w w1 w2 : World} (h1 : Quiet w w1) (h2 : Quiet w1 w2) : Quiet w w2 :=
  ⟨h2.1.trans h1.1, h2.2.1.trans h1.2.1, Nat.le_trans h1.2.2.1 h2.2.2.1,
    h2.2.2.2.trans h1.2.2.2⟩

theorem Quiet.of_tick (w : World) : Quiet w w.tick := ⟨rfl, rfl, Nat.le_succ _, rfl⟩

theorem Quiet.of_emit (w : World) (e : Event) (h : beginCalls [e] = []) : Quiet w (w.emit e) := by
  refine ⟨rfl, rfl, Nat.le_refl _, ?_⟩
  simp only [World.emit, beginCalls, List.filterMap_append] at h ⊢
  rw [h, List.append_nil]

theorem Quiet.clockAt {w w1 : World} {now : Nat} (h : Quiet w w1) (hc : ClockAt w now) :
    ClockAt w1 now := by
  intro i
  obtain ⟨k, hk⟩ : ∃ k, w1.ticks = w.ticks + k := ⟨w1.ticks - w.ticks, by have := h.2.2.1; omega⟩
  rw [h.2.1, hk, Nat.add_assoc]
  exact hc (k + i)


theorem readPacket_settings_quiet (c : Consts) (hp : HeatPump) (w : World) (data : List Nat)
    (res : Int) (hp1 : HeatPump) (w1 : World)
    (h : readPacket_settings c hp w data = .ok (res, hp1, w1)) :
    Quiet w w1 ∧ hp1.connected = hp.connected ∧ hp1.lastRecv = hp.lastRecv ∧
      res = c.RCVD_PKT_SETTINGS := by
  unfold readPacket_settings at h
  simp only [bind, Except.bind, pure, Except.pure] at h
  repeat' split at h
  all_goals
    cases h <;> first
      | exact ⟨Quiet.refl _, rfl, rfl, rfl⟩
      | exact ⟨Quiet.of_emit _ _ rfl, rfl, rfl, rfl⟩

theorem readPacket_roomTemp_quiet (c : Consts) (hp : HeatPump) (w : World) (data : List Nat)
    (res : Int) (hp1 : HeatPump) (w1 : World)
    (h : readPacket_roomTemp c hp w data = .ok (res, hp1, w1)) :
    Quiet w w1 ∧ hp1.connected = hp.connected ∧ hp1.lastRecv = hp.lastRecv ∧
      res = c.RCVD_PKT_ROOM_TEMP := by
  unfold readPacket_roomTemp at h
  simp only [bind, Except.bind, pure, Except.pure] at h
  repeat' split at h
  all_goals
    cases h <;> refine ⟨?_, rfl, rfl, rfl⟩ <;> first
      | exact Quiet.refl _
      | exact Quiet.of_emit _ (.statusChanged _) rfl
      | exact Quiet.of_emit _ (.roomTempChanged _) rfl
      | exact Quiet.trans (Quiet.of_emit _ (.statusChanged _) rfl)
          (Quiet.of_emit _ (.roomTempChanged _) rfl)

theorem readPacket_timer_quiet (c : Consts) (hp : HeatPump) (w : World) (data : List Nat)
    (res : Int) (hp1 : HeatPump) (w1 : World)
    (h : readPacket_timer c hp w data = .ok (res, hp1, w1)) :
    Quiet w w1 ∧ hp1.connected = hp.connected ∧ hp1.lastRecv = hp.lastRecv ∧
      res = c.RCVD_PKT_TIMER := by
  unfold readPacket_timer at h
  simp only [bind, Except.bind, pure, Except.pure] at h
  repeat' split at h
  all_goals
    cases h <;> first
      | exact ⟨Quiet.refl _, rfl, rfl, rfl⟩
      | exact ⟨Quiet.of_emit _ _ rfl, rfl, rfl, rfl⟩

theorem readPacket_status_quiet (c : Consts) (hp : HeatPump) (w : World) (data : List Nat)
    (res : Int) (hp1 : HeatPump) (w1 : World)
    (h : readPacket_status c hp w data = .ok (res, hp1, w1)) :
    Quiet w w1 ∧ hp1.connected = hp.connected ∧ hp1.lastRecv = hp.lastRecv ∧
      res = c.RCVD_PKT_STATUS := by
  unfold readPacket_status at h
  simp only [bind, Except.bind, pure, Except.pure] at h
  repeat' split at h
  all_goals
    cases h <;> first
      | exact ⟨Quiet.refl _, rfl, rfl, rfl⟩
      | exact ⟨Quiet.of_emit _ _ rfl, rfl, rfl, rfl⟩

theorem readPacket_functions_quiet (c : Consts) (hp : HeatPump) (w : World) (data : List Nat)
    (dataLength : Nat) (res : Int) (hp1 : HeatPump) (w1 : World)
    (h : readPacket_functions c hp w data dataLength = .ok (some (res, hp1, w1))) :
    Quiet w w1 ∧ hp1.connected = hp.connected ∧ hp1.lastRecv = hp.lastRecv ∧
      res = c.RCVD_PKT_FUNCTIONS := by
  unfold readPacket_functions at h
  simp only [bind, Except.bind, pure, Except.pure] at h
  repeat' split at h
  all_goals
    cases h <;> exact ⟨Quiet.refl _, rfl, rfl, rfl⟩

theorem readPacket_switch_quiet (c : Consts) (hp : HeatPump) (w : World) (data : List Nat)
    (dataLength : Nat) (res : Int) (hp1 : HeatPump) (w1 : World)
    (h : readPacket_switch c hp w data dataLength = .ok (some (res, hp1, w1))) :
    Quiet w w1 ∧ hp1.connected = hp.connected ∧ hp1.lastRecv = hp.lastRecv ∧
      NamedCode c res := by
  unfold readPacket_switch at h
  obtain ⟨d0, _, h⟩ := bind_eq_ok _ _ _ h
  have hmap : ∀ (x : Res (Int × HeatPump × World)),
      (some <$> x) = .ok (some (res, hp1, w1)) → x = .ok (res, hp1, w1) := by
    intro x hx
    cases x with
    | error e => cases hx
    | ok v =>
      simp only [Functor.map, Except.map] at hx
      injection hx with hx
      injection hx with hx
      rw [hx]
  split at h
  · obtain ⟨q, e1, e2, e3⟩ := readPacket_settings_quiet c hp w data res hp1 w1 (hmap _ h)
    exact ⟨q, e1, e2, Or.inr (Or.inl e3)⟩
  split at h
  · obtain ⟨q, e1, e2, e3⟩ := readPacket_roomTemp_quiet c hp w data res hp1 w1 (hmap _ h)
    exact ⟨q, e1, e2, Or.inr (Or.inr (Or.inl e3))⟩
  split at h
  · cases h
  split at h
  · obtain ⟨q, e1, e2, e3⟩ := readPacket_timer_quiet c hp w data res hp1 w1 (hmap _ h)
    exact ⟨q, e1, e2, Or.inr (Or.inr (Or.inr (Or.inr (Or.inr (Or.inl e3)))))⟩
  split at h
  · obtain ⟨q, e1, e2, e3⟩ := readPacket_status_quiet c hp w data res hp1 w1 (hmap _ h)
    exact ⟨q, e1, e2, Or.inr (Or.inr (Or.inr (Or.inr (Or.inl e3))))⟩
  split at h
  · cases h
  split at h
  · obtain ⟨q, e1, e2, e3⟩ := readPacket_functions_quiet c hp w data dataLength res hp1 w1 h
    exact ⟨q, e1, e2, Or.inr (Or.inr (Or.inr (Or.inr (Or.inr (Or.inr e3)))))⟩
  · cases h


theorem readPacket_accept_quiet (c : Consts) (hp : HeatPump) (W : World)
    (header data : List Nat) (dataLength : Nat) (res : Int) (hp1 : HeatPump) (w1 : World)
    (h : readPacket_accept c hp W header data dataLength = .ok (res, hp1, w1)) :
    Quiet W w1 ∧ hp1.lastRecv = W.now ∧
      ((res = 1 ∧ hp1.connected = true) ∨
        (NamedCode c res ∧ hp1.connected = hp.connected)) := by
  unfold readPacket_accept at h
  simp only [bind, Except.bind, pure, Except.pure] at h
  repeat' split at h
  all_goals cases h
  all_goals first
    | exact ⟨Quiet.of_tick _, rfl, Or.inl ⟨rfl, rfl⟩⟩
    | exact ⟨Quiet.of_tick _, rfl, Or.inr ⟨Or.inl rfl, rfl⟩⟩
    | exact ⟨Quiet.of_tick _, rfl, Or.inr ⟨Or.inr (Or.inr (Or.inr (Or.inl rfl))), rfl⟩⟩
    | exact ⟨(Quiet.of_tick _).trans (Quiet.of_emit _ (.packet _ _ _) rfl), rfl, Or.inl ⟨rfl, rfl⟩⟩
    | exact ⟨(Quiet.of_tick _).trans (Quiet.of_emit _ (.packet _ _ _) rfl), rfl,
        Or.inr ⟨Or.inl rfl, rfl⟩⟩
    | exact ⟨(Quiet.of_tick _).trans (Quiet.of_emit _ (.packet _ _ _) rfl), rfl,
        Or.inr ⟨Or.inr (Or.inr (Or.inr (Or.inl rfl))), rfl⟩⟩
    | (obtain ⟨q, e1, e2, e3⟩ := readPacket_switch_quiet _ _ _ _ _ _ _ _ (by assumption)
       first
        | exact ⟨(Quiet.of_tick _).trans q, e2, Or.inr ⟨e3, e1⟩⟩
        | exact ⟨((Quiet.of_tick _).trans (Quiet.of_emit _ (.packet _ _ _) rfl)).trans q, e2,
            Or.inr ⟨e3, e1⟩⟩)

theorem Quiet.read (w : World) (rest : List Nat) : Quiet w { w.tick with rx := rest } :=
  ⟨rfl, rfl, Nat.le_succ _, rfl⟩

theorem recvLoop_quiet (c : Consts) (st : Nat) :
    ∀ (fuel : Nat) (r : RecvBuf) (w : World) (failed : Bool) (r1 : RecvBuf) (w1 : World),
      recvLoop c st fuel r w = .ok (failed, r1, w1) → Quiet w w1 := by
  intro fuel
  induction fuel with
  | zero => intro r w failed r1 w1 h; cases h
  | succ f ih =>
    intro r w failed r1 w1 h
    rw [recvLoop] at h
    simp only [bind, Except.bind, pure, Except.pure] at h
    repeat' split at h
    all_goals first
      | exact (Quiet.of_tick w).trans (ih _ _ _ _ _ h)
      | exact (Quiet.read w _).trans (ih _ _ _ _ _ h)
      | (cases h <;> first
          | exact Quiet.of_tick w
          | exact Quiet.read w _
          | exact (Quiet.read w _).trans (Quiet.of_emit _ .flush rfl))

theorem readPacket_quiet (c : Consts) (fuel : Nat) (wait : Bool) (hp : HeatPump) (w : World)
    (res : Int) (hp1 : HeatPump) (w1 : World)
    (h : readPacket c fuel wait hp w = .ok (res, hp1, w1)) :
    Quiet w w1 ∧
      (hp1.lastRecv = hp.lastRecv ∨ ∃ k, hp1.lastRecv = w.clock (w.ticks + k) % 2 ^ 32) ∧
      ((res = 1 ∧ hp1.connected = true) ∨
        (NamedCode c res ∧ hp1.connected = hp.connected)) := by
  unfold readPacket at h
  simp only [bind, Except.bind, pure, Except.pure] at h
  repeat' split at h
  all_goals try (cases h; done)
  · have hq := (Quiet.of_tick w).trans (recvLoop_quiet c _ _ _ _ _ _ _ (by assumption))
    cases h
    exact ⟨hq, Or.inl rfl, Or.inr ⟨Or.inl rfl, rfl⟩⟩
  · have hq := (Quiet.of_tick w).trans (recvLoop_quiet c _ _ _ _ _ _ _ (by assumption))
    cases h
    exact ⟨hq.trans (Quiet.of_emit _ .flush rfl), Or.inl rfl, Or.inr ⟨Or.inl rfl, rfl⟩⟩
  · rename_i v _ _ _ _ _ _ _ _ _ _
    have hq : Quiet w v.2.2 :=
      (Quiet.of_tick w).trans (recvLoop_quiet c _ _ _ _ _ _ _ (by assumption))
    obtain ⟨q, e2, e3⟩ := readPacket_accept_quiet c hp _ _ _ _ res hp1 w1 h
    refine ⟨(hq.trans (Quiet.of_emit _ .flush rfl)).trans q,
      Or.inr ⟨v.2.2.ticks - w.ticks, ?_⟩, e3⟩
    rw [e2]
    have hle := hq.2.2.1
    have hck := hq.2.1
    show v.2.2.clock v.2.2.ticks % 2 ^ 32 = _
    rw [hck]
    congr 2
    omega
  · have hq := (Quiet.of_tick w).trans (recvLoop_quiet c _ _ _ _ _ _ _ (by assumption))
    cases h
    exact ⟨hq.trans (Quiet.of_emit _ .flush rfl), Or.inl rfl, Or.inr ⟨Or.inl rfl, rfl⟩⟩
  · cases h
    exact ⟨Quiet.of_tick w, Or.inl rfl, Or.inr ⟨Or.inl rfl, rfl⟩⟩

theorem readPacket_keeps_connected (c : Consts) (fuel : Nat) (wait : Bool) (hp : HeatPump)
    (w : World) (res : Int) (hp1 : HeatPump) (w1 : World)
    (h : readPacket c fuel wait hp w = .ok (res, hp1, w1)) (hc : hp.connected = true) :
    hp1.connected = true := by
  rcases (readPacket_quiet c fuel wait hp w res hp1 w1 h).2.2 with ⟨_, e⟩ | ⟨_, e⟩
  · exact e
  · rw [e]; exact hc

theorem writePacket_inv (hp : HeatPump) (w : World) (packet : List Nat) (n : Nat)
    (hp1 : HeatPump) (w1 : World) (h : writePacket hp w packet n = .ok (hp1, w1)) :
    (∃ out, w1.tx = w.tx ++ [out]) ∧ w1.clock = w.clock ∧ w1.ticks = w.ticks + 1 ∧
      beginCalls w1.log = beginCalls w.log ∧ hp1 = { hp with lastSend := w.now } := by
  unfold writePacket at h
  obtain ⟨out, _, h⟩ := bind_eq_ok _ _ _ h
  simp only [pure, Except.pure] at h
  split at h
  · cases h
    refine ⟨⟨out, rfl⟩, rfl, rfl, ?_, rfl⟩
    simp [World.tick, World.emit, beginCalls, List.filterMap_append]
  · cases h
    exact ⟨⟨out, rfl⟩, rfl, rfl, rfl, rfl⟩

theorem copyLoop_inv (src dst out : List Nat) (n : Nat) (h : copyLoop src dst n = .ok out) :
    n ≤ src.length ∧ n ≤ dst.length := by
  induction n generalizing out with
  | zero => exact ⟨Nat.zero_le _, Nat.zero_le _⟩
  | succ k ih =>
    obtain ⟨d, hd, h⟩ := bind_eq_ok _ _ _ h
    obtain ⟨v, hv, h⟩ := bind_eq_ok _ _ _ h
    have hl := copyLoop_length _ _ _ _ hd
    unfold rd at hv
    unfold wr at h
    split at h
    · rename_i hlt
      cases hsrc : src[k]? with
      | none => rw [hsrc] at hv; cases hv
      | some x =>
        have : k < src.length := by
          by_contra hc
          rw [List.getElem?_eq_none (by omega)] at hsrc
          cases hsrc
        exact ⟨this, by omega⟩
    · cases h

theorem writeLoop_inv (packet out : List Nat) (n : Nat) (h : writeLoop packet n = .ok out) :
    n ≤ packet.length := by
  induction n generalizing out with
  | zero => exact Nat.zero_le _
  | succ k ih =>
    obtain ⟨o, ho, h⟩ := bind_eq_ok _ _ _ h
    obtain ⟨v, hv, h⟩ := bind_eq_ok _ _ _ h
    unfold rd at hv
    cases hsrc : packet[k]? with
    | none => rw [hsrc] at hv; cases hv
    | some x =>
      by_contra hc
      rw [List.getElem?_eq_none (by omega)] at hsrc
      cases hsrc

theorem writePacket_frame (hp : HeatPump) (w : World) (packet : List Nat) (n : Nat)
    (hp1 : HeatPump) (w1 : World) (h : writePacket hp w packet n = .ok (hp1, w1)) :
    w1.tx = w.tx ++ [packet.take n] ∧ w1.rx = w.rx := by
  unfold writePacket at h
  obtain ⟨out, ho, h⟩ := bind_eq_ok _ _ _ h
  rw [writeLoop_eq packet n (writeLoop_inv packet out n ho)] at ho
  cases ho
  simp only [pure, Except.pure] at h
  split at h <;> cases h <;> exact ⟨rfl, rfl⟩

theorem connectAttempt_inv (c : Consts) (fuel : Nat) (bitrate rx tx : Int) (hp : HeatPump)
    (w : World) (res : Int) (hp1 : HeatPump) (w1 : World)
    (h : connectAttempt c fuel bitrate rx tx hp w = .ok (res, hp1, w1)) :
    beginCalls w1.log = beginCalls w.log ++ [bitrate] ∧
      w1.tx = w.tx ++ [c.CONNECT.take c.CONNECT_LEN] ∧ w1.clock = w.clock := by
  unfold connectAttempt at h
  obtain ⟨packet, hpk, h⟩ := bind_eq_ok _ _ _ h
  obtain ⟨⟨hp0, w0⟩, hw, h⟩ := bind_eq_ok _ _ _ h
  obtain ⟨_, hck, _, hlog, _⟩ := writePacket_inv _ _ _ _ _ _ hw
  obtain ⟨htx, _⟩ := writePacket_frame _ _ _ _ _ _ hw
  obtain ⟨q, _, _⟩ := readPacket_quiet c fuel true hp0 w0 res hp1 w1 h
  obtain ⟨i1, i2⟩ := copyLoop_inv _ _ _ _ hpk
  rw [copyLoop_eq _ _ _ i1 i2] at hpk
  cases hpk
  have hfr : (c.CONNECT.take c.CONNECT_LEN ++
      (List.replicate c.CONNECT_LEN 0).drop c.CONNECT_LEN).take c.CONNECT_LEN =
      c.CONNECT.take c.CONNECT_LEN := by
    simp [List.take_append_eq_append_take, Nat.min_eq_left i1]
  refine ⟨?_, ?_, ?_⟩
  · rw [q.2.2.2, hlog]
    split_ifs <;> simp [World.emit, beginCalls, List.filterMap_append]
  · rw [q.1, htx, hfr]
    split_ifs <;> rfl
  · rw [q.2.1, hck]
    split_ifs <;> rfl


theorem NamedCode.ne_ack (c : Consts) (hk : AckCode c) (res : Int) (h : NamedCode c res) :
    res ≠ c.RCVD_PKT_CONNECT_SUCCESS := by
  obtain ⟨h1, h2, h3, h4, h5, h6, h7, h8⟩ := hk
  rw [h1]
  rcases h with h | h | h | h | h | h | h <;> rw [h] <;> assumption

theorem connectAttempt_ack (c : Consts) (hk : AckCode c) (fuel : Nat) (bitrate rx tx : Int)
    (hp : HeatPump) (w : World) (res : Int) (hp1 : HeatPump) (w1 : World)
    (h : connectAttempt c fuel bitrate rx tx hp w = .ok (res, hp1, w1)) :
    res = c.RCVD_PKT_CONNECT_SUCCESS ↔ hp1.connected = true := by
  unfold connectAttempt at h
  obtain ⟨packet, _, h⟩ := bind_eq_ok _ _ _ h
  obtain ⟨⟨hp0, w0⟩, hw, h⟩ := bind_eq_ok _ _ _ h
  obtain ⟨_, _, _, _, e0⟩ := writePacket_inv _ _ _ _ _ _ hw
  have hc0 : hp0.connected = false := by rw [e0]
  rcases (readPacket_quiet c fuel true hp0 w0 res hp1 w1 h).2.2 with ⟨e1, e2⟩ | ⟨e1, e2⟩
  · exact ⟨fun _ => e2, fun _ => by rw [e1, hk.1]⟩
  · constructor
    · intro hr
      exact absurd hr (NamedCode.ne_ack c hk res e1)
    · intro hcn
      rw [e2, hc0] at hcn
      cases hcn

theorem connect_second (c : Consts) (fuel : Nat) (hp : HeatPump) (w : World) :
    connect c (fuel + 1) 9600 (-1) (-1) hp w = (do
      let r ← connectAttempt c fuel 9600 (-1) (-1) hp w
      pure (decide (r.1 = c.RCVD_PKT_CONNECT_SUCCESS), r.2.1, r.2.2)) := by
  rw [connect_first]
  have h1 : ¬ ((9600 : Int) = 0) := by decide
  have h2 : ¬ ((9600 : Int) = 2400) := by decide
  simp only [h1, if_false, h2, and_false]

theorem connect_unfold (c : Consts) (fuel : Nat) (bitrate rx tx : Int) (hp : HeatPump)
    (w : World) :
    connect c (fuel + 2) bitrate rx tx hp w =
      if bitrate = 0 ∨ bitrate = 2400 then (do
        let r1 ← connectAttempt c (fuel + 1) 2400 rx tx hp w
        if r1.1 = c.RCVD_PKT_CONNECT_SUCCESS then
          pure (true, r1.2.1, r1.2.2)
        else do
          let r2 ← connectAttempt c fuel 9600 (-1) (-1) r1.2.1 r1.2.2
          pure (decide (r2.1 = c.RCVD_PKT_CONNECT_SUCCESS), r2.2.1, r2.2.2))
      else (do
        let r1 ← connectAttempt c (fuel + 1) bitrate rx tx hp w
        pure (decide (r1.1 = c.RCVD_PKT_CONNECT_SUCCESS), r1.2.1, r1.2.2)) := by
  rw [connect_first]
  by_cases h0 : bitrate = 0
  · subst h0
    simp only [if_true, true_or, and_true, bind, Except.bind]
    cases connectAttempt c (fuel + 1) 2400 rx tx hp w with
    | error e => rfl
    | ok r =>
      simp only []
      by_cases hr : r.1 = c.RCVD_PKT_CONNECT_SUCCESS
      · simp [hr, pure, Except.pure]
      · simp only [hr, ne_eq, not_false_eq_true, if_true, if_false, connect_second, bind,
          Except.bind]
  · by_cases h24 : bitrate = 2400
    · subst h24
      have h1 : ¬ ((2400 : Int) = 0) := by decide
      simp only [h1, if_false, or_true, if_true, and_true, bind, Except.bind]
      cases connectAttempt c (fuel + 1) 2400 rx tx hp w with
      | error e => rfl
      | ok r =>
        simp only []
        by_cases hr : r.1 = c.RCVD_PKT_CONNECT_SUCCESS
        · simp [hr, pure, Except.pure]
        · simp only [hr, ne_eq, not_false_eq_true, if_true, if_false, connect_second, bind,
            Except.bind]
    · simp only [h0, h24, if_false, or_self, and_false]

theorem recvLoop_silent (c : Consts) (st : Nat) :
    ∀ (N fuel : Nat) (r : RecvBuf) (w : World), w.rx = [] →
      (∃ k, k < N ∧
        ¬ usub (w.clock (w.ticks + k) % 2 ^ 32) st < c.PACKET_RESPONSE_WAIT_TIME) →
      N ≤ fuel →
      ∃ j, recvLoop c st fuel r w = .ok (false, r, { w with ticks := w.ticks + j }) := by
  intro N
  induction N with
  | zero =>
    intro fuel r w _ hk _
    obtain ⟨k, hk, _⟩ := hk
    exact absurd hk (Nat.not_lt_zero _)
  | succ n ih =>
    intro fuel r w hrx hk hfuel
    obtain ⟨f, rfl⟩ : ∃ f, fuel = f + 1 := ⟨fuel - 1, by omega⟩
    by_cases hd : usub w.now st < c.PACKET_RESPONSE_WAIT_TIME
    · obtain ⟨k, hkn, hkd⟩ := hk
      have hk0 : k ≠ 0 := by
        intro h0
        subst h0
        exact hkd hd
      obtain ⟨k', rfl⟩ : ∃ k', k = k' + 1 := ⟨k - 1, by omega⟩
      obtain ⟨j, hj⟩ := ih f r w.tick hrx
        ⟨k', by omega, by
          have e : w.tick.ticks + k' = w.ticks + (k' + 1) := by
            show w.ticks + 1 + k' = _
            omega
          rw [e]
          exact hkd⟩
        (by omega)
      refine ⟨1 + j, ?_⟩
      have hrx' : w.tick.rx = [] := hrx
      rw [recvLoop, if_pos hd]
      simp only [hrx']
      rw [hj]
      simp only [World.tick, Nat.add_assoc]
    · refine ⟨1, ?_⟩
      rw [recvLoop, if_neg hd]
      rfl

theorem readPacket_silent (c : Consts) (fuel N : Nat) (hp : HeatPump) (w : World)
    (hrx : w.rx = []) (hN : N ≤ fuel)
    (hk : ∃ k, k < N ∧
      ¬ usub (w.clock (w.ticks + 1 + k) % 2 ^ 32) w.now < c.PACKET_RESPONSE_WAIT_TIME) :
    ∃ w1, readPacket c fuel true hp w = .ok (c.RCVD_PKT_FAIL, hp, w1) ∧ w1.rx = [] := by
  obtain ⟨j, hj⟩ := recvLoop_silent c w.now N fuel
    { header := List.replicate c.INFOHEADER_LEN 0, data := List.replicate c.PACKET_LEN 0,
      dataLength := 0, len := 0, receiveSuccess := false } w.tick hrx hk hN
  refine ⟨World.flush { w.tick with ticks := w.tick.ticks + j }, ?_, hrx⟩
  unfold readPacket
  simp only [or_true, if_true, hj, bind, Except.bind, Bool.false_eq_true, if_false,
    Bool.not_false, pure, Except.pure]

theorem connectAttempt_eq (c : Consts) (fuel : Nat) (bitrate rx tx : Int) (hp : HeatPump)
    (w : World) :
    ∃ W : World, W.rx = w.rx ∧ W.clock = w.clock ∧
      connectAttempt c fuel bitrate rx tx hp w = (do
        let packet ← copyLoop c.CONNECT (List.replicate c.CONNECT_LEN 0) c.CONNECT_LEN
        let r ← writePacket { hp with connected := false } W packet c.CONNECT_LEN
        readPacket c fuel true r.1 r.2) :=
  ⟨(if hp.onConnectCallback then
      ((w.emit (.serialBegin bitrate (if rx ≥ 0 ∧ tx ≥ 0 then some (rx, tx) else none))).emit
        (.setTimeout c.PACKET_RESPONSE_WAIT_TIME)).emit .onConnect
    else
      (w.emit (.serialBegin bitrate (if rx ≥ 0 ∧ tx ≥ 0 then some (rx, tx) else none))).emit
        (.setTimeout c.PACKET_RESPONSE_WAIT_TIME)).emit (.delay 2000),
    by split_ifs <;> rfl, by split_ifs <;> rfl, rfl⟩

theorem writePacket_ok (hp : HeatPump) (w : World) (packet : List Nat) (n : Nat)
    (h : n ≤ packet.length) : ∃ hp1 w1, writePacket hp w packet n = .ok (hp1, w1) := by
  unfold writePacket
  rw [writeLoop_eq packet n h]
  exact ⟨_, _, rfl⟩

theorem connectAttempt_silent (c : Consts) (fuel N : Nat) (bitrate rx tx : Int) (hp : HeatPump)
    (w : World) (hrx : w.rx = []) (hlen : c.CONNECT_LEN ≤ c.CONNECT.length)
    (hwait : WaitEnds c w.clock N) (hN : N ≤ fuel) :
    ∃ hp1 w1, connectAttempt c fuel bitrate rx tx hp w = .ok (c.RCVD_PKT_FAIL, hp1, w1) ∧
      hp1.connected = false ∧ w1.rx = [] := by
  obtain ⟨W, hWr, hWc, heq⟩ := connectAttempt_eq c fuel bitrate rx tx hp w
  have hpk := copyLoop_eq c.CONNECT (List.replicate c.CONNECT_LEN 0) c.CONNECT_LEN hlen
    (by simp)
  obtain ⟨hpa, wa, hw⟩ := writePacket_ok { hp with connected := false } W
    (c.CONNECT.take c.CONNECT_LEN ++ (List.replicate c.CONNECT_LEN 0).drop c.CONNECT_LEN)
    c.CONNECT_LEN (by simp [Nat.min_eq_left hlen])
  obtain ⟨_, ca, _, _, ea⟩ := writePacket_inv _ _ _ _ _ _ hw
  obtain ⟨_, ra⟩ := writePacket_frame _ _ _ _ _ _ hw
  obtain ⟨k, hk1, hk2⟩ := hwait wa.ticks
  obtain ⟨w1, h1, h2⟩ := readPacket_silent c fuel N hpa wa (by rw [ra, hWr]; exact hrx) hN
    ⟨k, hk1, by
      show ¬ usub (wa.clock (wa.ticks + 1 + k) % 2 ^ 32) (wa.clock wa.ticks % 2 ^ 32) < _
      rw [ca, hWc]
      exact hk2⟩
  refine ⟨hpa, w1, ?_, by rw [ea], h2⟩
  rw [heq]
  simp only [hpk, bind, Except.bind, hw]
  exact h1

theorem waitEnds_silent : WaitEnds cn105 World.silent.clock 1 := by
  intro t
  refine ⟨0, Nat.lt_succ_self 0, ?_⟩
  show ¬ usub ((t + 1 + 0) * 1000 % 2 ^ 32) (t * 1000 % 2 ^ 32) < 1000
  unfold usub
  omega

theorem canSend_quiet (c : Consts) (isInfo : Bool) (hp : HeatPump) (w : World) :
    Quiet w (canSend c isInfo hp w).2 := by
  unfold canSend
  split_ifs <;> first
    | exact Quiet.of_tick w
    | exact (Quiet.of_tick w).trans (Quiet.of_tick _)

theorem waitCanSend_quiet (c : Consts) (isInfo : Bool) (hp : HeatPump) :
    ∀ (fuel : Nat) (w w1 : World), waitCanSend c isInfo hp fuel w = .ok w1 → Quiet w w1 := by
  intro fuel
  induction fuel with
  | zero => intro w w1 h; cases h
  | succ f ih =>
    intro w w1 h
    rw [waitCanSend] at h
    split at h
    · cases h
      exact canSend_quiet c isInfo hp w
    · exact ((canSend_quiet c isInfo hp w).trans (Quiet.of_emit _ (.delay 10) rfl)).trans
        (ih _ _ h)

theorem sync_poll_inv (c : Consts) (packetType : Nat) (hp : HeatPump) (w : World)
    (hp1 : HeatPump) (w1 : World) (h : sync_poll c packetType hp w = .ok (hp1, w1)) :
    w1.tx = w.tx ∨ ∃ p, w1.tx = w.tx ++ [p] := by
  unfold sync_poll at h
  have htx := (canSend_quiet c true hp w).1
  simp only [] at h
  split at h
  · obtain ⟨⟨packet, hp0⟩, _, h⟩ := bind_eq_ok _ _ _ h
    obtain ⟨⟨p, hpt⟩, _⟩ := writePacket_inv _ _ _ _ _ _ h
    exact Or.inr ⟨p, by rw [hpt, htx]⟩
  · cases h
    exact Or.inl htx

theorem update_inv (c : Consts) (hp : HeatPump) (w : World) (now : Nat) (hclock : ClockAt w now)
    (sent : Bool) (hp1 : HeatPump) (w1 : World) (h : update c hp w = .ok (sent, hp1, w1)) :
    ClockAt w1 now ∧ hp1.connected = hp.connected ∧ hp1.lastRecv = hp.lastRecv ∧
      ((sent = false ∧ w1.tx = w.tx) ∨
        (sent = true ∧ (∃ p, w1.tx = w.tx ++ [p]) ∧ hp1.lastSend = now ∧
          hp1.lastSendUpdate = now)) := by
  unfold update at h
  have hq := canSend_quiet c false hp w
  have hck := hq.clockAt hclock
  simp only [] at h
  split at h
  · cases h
    exact ⟨hck, rfl, rfl, Or.inl ⟨rfl, hq.1⟩⟩
  · obtain ⟨packet, _, h⟩ := bind_eq_ok _ _ _ h
    obtain ⟨⟨hp0, w0⟩, hw, h⟩ := bind_eq_ok _ _ _ h
    obtain ⟨⟨p, hpt⟩, e1, e2, _, e3⟩ := writePacket_inv _ _ _ _ _ _ hw
    have hck0 : ClockAt w0 now := by
      have : ClockAt ((canSend c false hp w).2).tick now := hck.tick
      exact this.of_eq e1 e2
    cases h
    refine ⟨hck0.tick, ?_, ?_, Or.inr ⟨rfl, ⟨p, by show w0.tx = _; rw [hpt, hq.1]⟩, ?_, hck0.now_eq⟩⟩
    · rw [e3]; split_ifs <;> rfl
    · rw [e3]; split_ifs <;> rfl
    · rw [e3]
      exact hck.now_eq

theorem update_then_poll (c : Consts) (packetType : Nat) (hp : HeatPump) (w : World) (now : Nat)
    (hclock : ClockAt w now) (hp1 : HeatPump) (w1 : World)
    (h : (do
      let r ← update c hp w
      sync_poll c packetType r.2.1 r.2.2) = .ok (hp1, w1)) :
    w1.tx = w.tx ∨ ∃ p, w1.tx = w.tx ++ [p] := by
  obtain ⟨⟨sent, hpa, wa⟩, hu, h⟩ := bind_eq_ok _ _ _ h
  obtain ⟨hck, _, _, hcase⟩ := update_inv c hp w now hclock sent hpa wa hu
  rcases hcase with ⟨_, htx⟩ | ⟨_, ⟨p, htx⟩, hls, hlsu⟩
  · rcases sync_poll_inv c packetType hpa wa hp1 w1 h with e | ⟨p, e⟩
    · exact Or.inl (by rw [e, htx])
    · exact Or.inr ⟨p, by rw [e, htx]⟩
  · obtain ⟨w2, h2, e2⟩ := sync_poll_quiet c packetType hpa wa now hck hls (fun _ => hlsu)
    simp only [] at h
    rw [h2] at h
    cases h
    exact Or.inr ⟨p, by rw [e2, htx]⟩

theorem sync_at_most_one (c : Consts) (now : Nat) :
    ∀ (fuel packetType : Nat) (hp : HeatPump) (w : World), hp.connected = true →
      ¬ usub now hp.lastRecv > c.PACKET_SENT_INTERVAL_MS * 12 → ClockAt w now →
      ∀ hp1 w1, sync c fuel packetType hp w = .ok (hp1, w1) →
        w1.tx = w.tx ∨ ∃ p, w1.tx = w.tx ++ [p] := by
  intro fuel
  induction fuel with
  | zero => intro pt hp w _ _ _ hp1 w1 h; cases h
  | succ f ih =>
    intro pt hp w hconn hfresh hclock hp1 w1 h
    have hfresh' : ¬ usub w.now hp.lastRecv > c.PACKET_SENT_INTERVAL_MS * 12 := by
      rw [hclock.now_eq]; exact hfresh
    have hck1 := hclock.tick
    rw [sync] at h
    simp only [hconn, Bool.not_true, Bool.false_eq_true, if_false, hfresh'] at h
    by_cases hsp : sendPending hp = true
    · simp only [hsp, if_true] at h
      exact update_then_poll c pt hp w.tick now hck1 hp1 w1 h
    · simp only [hsp, if_false] at h
      by_cases hup : hp.updating = true
      · simp only [hup, if_true] at h
        obtain ⟨⟨res, hpa, wa⟩, hr, h⟩ := bind_eq_ok _ _ _ h
        obtain ⟨q, hlr, _⟩ := readPacket_quiet c f false hp w.tick res hpa wa hr
        have hca := readPacket_keeps_connected c f false hp w.tick res hpa wa hr hconn
        simp only [] at h
        split at h
        · split at h
          · obtain ⟨wb, hwb, h⟩ := bind_eq_ok _ _ _ h
            have qb := waitCanSend_quiet c true hpa f wa wb hwb
            have hfa : ¬ usub now hpa.lastRecv > c.PACKET_SENT_INTERVAL_MS * 12 := by
              rcases hlr with e | ⟨k, e⟩
              · rw [e]; exact hfresh
              · rw [e, hck1 k, usub_self now hclock.lt]
                exact Nat.not_lt_zero _
            rcases ih _ hpa wb hca hfa (qb.clockAt (q.clockAt hck1)) hp1 w1 h with e | ⟨p, e⟩
            · exact Or.inl (by rw [e, qb.1, q.1]; rfl)
            · exact Or.inr ⟨p, by rw [e, qb.1, q.1]; rfl⟩
          · cases h
            exact Or.inl q.1
        · cases h
          exact Or.inl q.1
      · simp only [hup, Bool.false_eq_true, if_false] at h
        split at h
        · obtain ⟨⟨res, hpa, wa⟩, hr, h⟩ := bind_eq_ok _ _ _ h
          obtain ⟨q, _, _⟩ := readPacket_quiet c f false hp _ res hpa wa hr
          rcases sync_poll_inv c pt hpa wa hp1 w1 h with e | ⟨p, e⟩
          · exact Or.inl (by rw [e, q.1]; rfl)
          · exact Or.inr ⟨p, by rw [e, q.1]; rfl⟩
        · split at h
          · exact update_then_poll c pt hp _ now hck1.tick hp1 w1 h
          · rcases sync_poll_inv c pt hp _ hp1 w1 h with e | ⟨p, e⟩
            · exact Or.inl (by rw [e]; rfl)
            · exact Or.inr ⟨p, by rw [e]; rfl⟩

theorem canSend_info_just_sent (c : Consts) (hp : HeatPump) (w : World) (now : Nat)
    (hclock : ClockAt w now) (hls : hp.lastSend = now)
    (hlsu : hp.powerSettingUpdate = true → hp.lastSendUpdate = now) :
    (canSend c true hp w).1 = false := by
  have h0 := hclock.now_eq
  have hz := usub_self now hclock.lt
  unfold canSend
  by_cases hps : hp.powerSettingUpdate = true
  · simp [hps, h0, hlsu hps, hz]
  · simp [hps, h0, hls, hz]

/-- C25: take a connected driver whose last reception is not stale, and a clock that stands
still during one `sync()` call. Whatever arrives on the serial port, a call that returns has
written nothing or exactly one frame. When a set packet is pending and due, `update()` sends
it and leaves `lastSend` at the clock value, so that `canSend(true)` is false right after and
the trailing info request is not written: the call returns having written the set packet
alone. -/
theorem sync_writes_at_most_one_frame (c : Consts) (hp : HeatPump) (w : World)
    (now fuel packetType : Nat) (hclock : ClockAt w now) (hconn : hp.connected = true)
    (hfresh : ¬ usub now hp.lastRecv > c.PACKET_SENT_INTERVAL_MS * 12) :
    (∀ hp1 w1, sync c fuel packetType hp w = .ok (hp1, w1) →
      w1.tx = w.tx ∨ ∃ p, w1.tx = w.tx ++ [p]) ∧
    (sendPending hp = true → UpdateDue c hp now → c.PACKET_LEN = 22 → 1 ≤ fuel →
      ∀ pkt, createPacket c hp (List.replicate 22 0) hp.wantedSettings = .ok pkt →
        ∃ hpu wu w1, update c hp w.tick = .ok (true, hpu, wu) ∧
          wu.tx = w.tx ++ [pkt] ∧ (canSend c true hpu wu).1 = false ∧
          sync c fuel packetType hp w = .ok (hpu, w1) ∧ w1.tx = w.tx ++ [pkt]) := by
  refine ⟨sync_at_most_one c now fuel packetType hp w hconn hfresh hclock, ?_⟩
  intro hsp hdue hPL hfuel pkt hpkt
  obtain ⟨f, rfl⟩ : ∃ f, fuel = f + 1 := ⟨fuel - 1, by omega⟩
  have hfresh' : ¬ usub w.now hp.lastRecv > c.PACKET_SENT_INTERVAL_MS * 12 := by
    rw [hclock.now_eq]; exact hfresh
  obtain ⟨hpu, wu, h1, h2, _, _, _, _, h7, h8, h9, _⟩ :=
    update_due c hp w.tick now hPL hclock.tick hdue pkt hpkt
  have hcs := canSend_info_just_sent c hpu wu now h9 h8 (fun _ => h7)
  obtain ⟨w2, h10, h11⟩ := sync_poll_suppressed c packetType hpu wu hcs
  refine ⟨hpu, wu, w2, h1, h2, hcs, ?_, by rw [h11, h2]; rfl⟩
  rw [sync]
  simp only [hconn, Bool.not_true, Bool.false_eq_true, if_false, hfresh', hsp, if_true, h1,
    bind, Except.bind]
  exact h10

theorem sync_writes_at_most_one_frame_witness :
    (∃ hpu wu w1,
      update cn105
          { HeatPump.fresh cn105 5000 with
            connected := true, lastRecv := 5000, wantedSettings := wantedOnHeat21 }
          (World.still 5000 [0xfc, 0x61, 0x01, 0x30, 0x10]).tick = .ok (true, hpu, wu) ∧
        wu.tx = (World.still 5000 [0xfc, 0x61, 0x01, 0x30, 0x10]).tx ++
          [[0xfc, 0x41, 0x01, 0x30, 0x10, 0x01, 0x07, 0x00, 0x01, 0x01, 0x0a, 0, 0, 0, 0, 0, 0,
            0, 0, 0, 0, 0x6a]] ∧
        (canSend cn105 true hpu wu).1 = false ∧
        sync cn105 1 cn105.PACKET_TYPE_DEFAULT
          { HeatPump.fresh cn105 5000 with
            connected := true, lastRecv := 5000, wantedSettings := wantedOnHeat21 }
          (World.still 5000 [0xfc, 0x61, 0x01, 0x30, 0x10]) = .ok (hpu, w1) ∧
        w1.tx = (World.still 5000 [0xfc, 0x61, 0x01, 0x30, 0x10]).tx ++
          [[0xfc, 0x41, 0x01, 0x30, 0x10, 0x01, 0x07, 0x00, 0x01, 0x01, 0x0a, 0, 0, 0, 0, 0, 0,
            0, 0, 0, 0, 0x6a]]) ∧
    ∃ hp1 w1,
      sync cn105 9 cn105.PACKET_TYPE_DEFAULT
          { HeatPump.fresh cn105 5000 with connected := true, lastRecv := 5000 }
          (World.still 5000 [0xfc, 0x62, 0x01, 0x30, 0x01, 0x09, 0x63]) = .ok (hp1, w1) ∧
        w1.rx = [] ∧ w1.tx.length = 1 ∧
        (w1.tx = (World.still 5000 [0xfc, 0x62, 0x01, 0x30, 0x01, 0x09, 0x63]).tx ∨
          ∃ p, w1.tx = (World.still 5000 [0xfc, 0x62, 0x01, 0x30, 0x01, 0x09, 0x63]).tx ++
            [p]) := by
  refine ⟨(sync_writes_at_most_one_frame cn105
    { HeatPump.fresh cn105 5000 with
      connected := true, lastRecv := 5000, wantedSettings := wantedOnHeat21 }
    (World.still 5000 [0xfc, 0x61, 0x01, 0x30, 0x10]) 5000 1 cn105.PACKET_TYPE_DEFAULT
    (fun _ => rfl) rfl (by decide)).2 (by decide) (by decide) (by decide) (by decide) _
    (by decide), ?_⟩
  have hd : Except.map (fun r => (r.2.rx, r.2.tx.length))
      (sync cn105 9 cn105.PACKET_TYPE_DEFAULT
        { HeatPump.fresh cn105 5000 with connected := true, lastRecv := 5000 }
        (World.still 5000 [0xfc, 0x62, 0x01, 0x30, 0x01, 0x09, 0x63])) = .ok ([], 1) := by
    decide
  cases hres : sync cn105 9 cn105.PACKET_TYPE_DEFAULT
      { HeatPump.fresh cn105 5000 with connected := true, lastRecv := 5000 }
      (World.still 5000 [0xfc, 0x62, 0x01, 0x30, 0x01, 0x09, 0x63]) with
  | error e =>
    rw [hres] at hd
    cases hd
  | ok v =>
    obtain ⟨hp1, w1⟩ := v
    rw [hres] at hd
    simp only [Except.map, Except.ok.injEq, Prod.mk.injEq] at hd
    exact ⟨hp1, w1, rfl, hd.1, hd.2,
      (sync_writes_at_most_one_frame cn105
        { HeatPump.fresh cn105 5000 with connected := true, lastRecv := 5000 }
        (World.still 5000 [0xfc, 0x62, 0x01, 0x30, 0x01, 0x09, 0x63]) 5000 9
        cn105.PACKET_TYPE_DEFAULT (fun _ => rfl) rfl (by decide)).1 hp1 w1 hres⟩

end CN105
